import Mathlib

/-!
# TrouSerS key cache manager (`src/tcs/tcskcm.c`)

A shallow embedding of the TCS key-registration, enumeration and lookup
entry points of `tcskcm.c`, together with theorems about them.

Conventions of the embedding:

* `TSS_RESULT` is a natural number; `TSS_SUCCESS` is `0`, which is what
  the C idiom `if ((result = f(...)))` relies on.
* The header constants that `tcskcm.c` uses but does not define (error
  codes, `MAX_KEY_CHILDREN`, `CACHE_FLAG_VALID`, `NULL_UUID`,
  `sizeof(TSS_KM_KEYINFO)`) are the fields of `Consts`; every function
  takes them as a parameter.
* The functions that `tcskcm.c` calls but does not define
  (`ctx_verify_context`, `isUUIDRegistered`, `writeRegisteredKeyToFile`,
  `removeRegisteredKey`, `getRegisteredKeyByUUID`, `getSomeMemory`,
  `fill_key_info`) are the fields of `Env`; the persistent-storage state
  they act on is an arbitrary type `σ`.
* The global linked lists `key_disk_cache_head` and `key_mem_cache_head`
  are Lean lists (a `NULL` pointer is `[]`, `p->next` is the tail).
* Every entry point returns, besides its result code, the list of calls it
  made to the outside (`Call`), in order.
-/

namespace Trousers

/-! ## Basic types -/

abbrev TSS_RESULT := Nat
abbrev TCS_CONTEXT_HANDLE := Nat
abbrev BYTE := Nat

/-- The success code; `TCS_SUCCESS` is the same value. -/
def TSS_SUCCESS : TSS_RESULT := 0

/-- The success code under its TCS name (used at `tcskcm.c:96`). -/
def TCS_SUCCESS : TSS_RESULT := TSS_SUCCESS

/-- A `TSS_UUID`. The file only ever copies and compares whole UUIDs
(`memcpy` / `memcmp` over `sizeof(TSS_UUID)`), so a UUID is its block of
bytes. -/
structure TSS_UUID where
  bytes : List BYTE
  deriving DecidableEq, Repr

/-- Header constants used by `tcskcm.c` whose definitions live outside the
file. -/
structure Consts where
  TCS_E_FAIL : TSS_RESULT
  TCS_E_KEY_NOT_REGISTERED : TSS_RESULT
  TCS_E_KEY_ALREADY_REGISTERED : TSS_RESULT
  TSS_E_INTERNAL_ERROR : TSS_RESULT
  TSS_E_BAD_PARAMETER : TSS_RESULT
  TSS_E_OUTOFMEMORY : TSS_RESULT
  MAX_KEY_CHILDREN : Nat
  CACHE_FLAG_VALID : Nat
  NULL_UUID : TSS_UUID
  sizeof_TSS_KM_KEYINFO : Nat

/-- The error codes are error codes: none of them is `TSS_SUCCESS`. -/
def Consts.ErrorsNonzero (k : Consts) : Prop :=
  k.TCS_E_FAIL ≠ TSS_SUCCESS ∧ k.TCS_E_KEY_NOT_REGISTERED ≠ TSS_SUCCESS ∧
  k.TCS_E_KEY_ALREADY_REGISTERED ≠ TSS_SUCCESS ∧ k.TSS_E_INTERNAL_ERROR ≠ TSS_SUCCESS ∧
  k.TSS_E_BAD_PARAMETER ≠ TSS_SUCCESS ∧ k.TSS_E_OUTOFMEMORY ≠ TSS_SUCCESS

instance (k : Consts) : Decidable k.ErrorsNonzero := by
  unfold Consts.ErrorsNonzero; infer_instance

/-- One node of the disk cache (`struct key_disk_cache`), without its
`next` pointer. `rest` stands for the members that `tcskcm.c` never
reads. -/
structure key_disk_cache where
  flags : Nat
  uuid : TSS_UUID
  parent_uuid : TSS_UUID
  rest : List BYTE
  deriving DecidableEq, Repr

/-- One node of the memory cache (`struct key_mem_cache`), without its
`next` pointer. `rest` stands for the members that `tcskcm.c` never
reads. -/
structure key_mem_cache where
  uuid : TSS_UUID
  rest : List BYTE
  deriving DecidableEq, Repr

/-- The `TSS_VERSION` member of `TSS_KM_KEYINFO`. -/
structure TSS_VERSION where
  bMajor : BYTE
  bMinor : BYTE
  bRevMajor : BYTE
  bRevMinor : BYTE
  deriving DecidableEq, Repr

/-- The record `TSS_KM_KEYINFO`, with the members assigned at
`tcskcm.c:291-305`. -/
structure TSS_KM_KEYINFO where
  versionInfo : TSS_VERSION
  keyUUID : TSS_UUID
  parentKeyUUID : TSS_UUID
  bAuthDataUsage : BYTE
  fIsLoaded : Bool
  ulVendorDataLength : Nat
  rgbVendorData : List BYTE
  deriving DecidableEq, Repr

/-- A call made by an entry point to a function outside `tcskcm.c`. -/
inductive Call where
  | ctx_verify_context (hContext : TCS_CONTEXT_HANDLE)
  | isUUIDRegistered (uuid : TSS_UUID)
  | writeRegisteredKeyToFile (KeyUUID WrappingKeyUUID : TSS_UUID) (rgbKey : List BYTE)
      (cKeySize : Nat)
  | removeRegisteredKey (KeyUUID : TSS_UUID)
  | getRegisteredKeyByUUID (KeyUUID : TSS_UUID)
  | getSomeMemory (howMuch : Nat)
  | lock_disk_cache
  | lock_mem_cache
  | unlock_disk_cache
  | unlock_mem_cache
  | fill_key_info (disk : key_disk_cache) (mem : Option key_mem_cache)
  deriving DecidableEq, Repr

/-- The functions that `tcskcm.c` calls and does not define, over a
persistent-storage state `σ`.

* `isUUIDRegistered st uuid` is the returned code and the value stored in
  `*is_reg`.
* `writeRegisteredKeyToFile` and `removeRegisteredKey` return their code
  and the storage state they leave behind.
* `getRegisteredKeyByUUID st uuid size` is called with the capacity of the
  caller's buffer and returns its code, the contents of the buffer and the
  value left in `*keySize`.
* `getSomeMemory howMuch hContext` is `true` when the allocation returns a
  non-`NULL` pointer.
* `fill_key_info disk mem` returns its code and the `TSS_KM_KEYINFO` it
  wrote. -/
structure Env (σ : Type) where
  ctx_verify_context : TCS_CONTEXT_HANDLE → TSS_RESULT
  isUUIDRegistered : σ → TSS_UUID → TSS_RESULT × Bool
  writeRegisteredKeyToFile : σ → TSS_UUID → TSS_UUID → List BYTE → Nat → TSS_RESULT × σ
  removeRegisteredKey : σ → TSS_UUID → TSS_RESULT × σ
  getRegisteredKeyByUUID : σ → TSS_UUID → Nat → TSS_RESULT × List BYTE × Nat
  getSomeMemory : Nat → TCS_CONTEXT_HANDLE → Bool
  fill_key_info : key_disk_cache → Option key_mem_cache → TSS_RESULT × TSS_KM_KEYINFO

/-- What a registry entry point leaves behind: its return value, the
persistent-storage state, and the outside calls it made. -/
structure Outcome (σ : Type) where
  result : TSS_RESULT
  state : σ
  trace : List Call

/-! ## `TCS_RegisterKey_Internal` (`tcskcm.c:27-74`) -/

/-- The body of `TCS_RegisterKey_Internal`. -/
def TCS_RegisterKey_Internal {σ : Type} (k : Consts) (env : Env σ) (st : σ)
    (hContext : TCS_CONTEXT_HANDLE) (WrappingKeyUUID KeyUUID : TSS_UUID)
    (cKeySize : Nat) (rgbKey : List BYTE) (_cVendorData : Nat) (_gbVendorData : List BYTE) :
    Outcome σ :=
  let result := env.ctx_verify_context hContext
  let t0 := [Call.ctx_verify_context hContext]
  if result ≠ 0 then ⟨result, st, t0⟩
  else
    -- Check if parent is registered here
    let parent := env.isUUIDRegistered st WrappingKeyUUID
    let t1 := t0 ++ [Call.isUUIDRegistered WrappingKeyUUID]
    if parent.1 ≠ TSS_SUCCESS then ⟨k.TCS_E_FAIL, st, t1⟩
    else if parent.2 = false then ⟨k.TCS_E_KEY_NOT_REGISTERED, st, t1⟩
    else
      -- Check if key is already registered
      let key := env.isUUIDRegistered st KeyUUID
      let t2 := t1 ++ [Call.isUUIDRegistered KeyUUID]
      if key.1 ≠ TSS_SUCCESS then ⟨k.TSS_E_INTERNAL_ERROR, st, t2⟩
      else if key.2 = true then ⟨k.TCS_E_KEY_ALREADY_REGISTERED, st, t2⟩
      else
        -- Go ahead and store it in system persistent storage
        let w := env.writeRegisteredKeyToFile st KeyUUID WrappingKeyUUID rgbKey cKeySize
        let t3 := t2 ++ [Call.writeRegisteredKeyToFile KeyUUID WrappingKeyUUID rgbKey cKeySize]
        if w.1 ≠ 0 then ⟨k.TCS_E_FAIL, w.2, t3⟩
        else ⟨TSS_SUCCESS, w.2, t3⟩

/-- A call is a `writeRegisteredKeyToFile` call. -/
def Call.isWrite : Call → Bool
  | .writeRegisteredKeyToFile _ _ _ _ => true
  | _ => false

/-! ## `TCSP_UnregisterKey_Internal` (`tcskcm.c:76-87`) -/

/-- The body of `TCSP_UnregisterKey_Internal`. -/
def TCSP_UnregisterKey_Internal {σ : Type} (env : Env σ) (st : σ)
    (hContext : TCS_CONTEXT_HANDLE) (KeyUUID : TSS_UUID) : Outcome σ :=
  let result := env.ctx_verify_context hContext
  let t0 := [Call.ctx_verify_context hContext]
  if result ≠ 0 then ⟨result, st, t0⟩
  else
    let r := env.removeRegisteredKey st KeyUUID
    ⟨r.1, r.2, t0 ++ [Call.removeRegisteredKey KeyUUID]⟩

/-! ## `TCS_GetRegisteredKeyBlob_Internal` (`tcskcm.c:309-337`) -/

/-- What `TCS_GetRegisteredKeyBlob_Internal` leaves behind. An output
parameter that was not written is `none`; `prgbKey = some none` is a `NULL`
pointer stored in `*prgbKey`, `some (some b)` a buffer holding the bytes
`b`. -/
structure BlobOutcome where
  result : TSS_RESULT
  prgbKey : Option (Option (List BYTE))
  pcKeySize : Option Nat
  trace : List Call
  deriving DecidableEq, Repr

/-- The body of `TCS_GetRegisteredKeyBlob_Internal`. The local `buffer`
has 1024 bytes; `memcpy(*prgbKey, buffer, keySize)` copies its first
`keySize` bytes. -/
def TCS_GetRegisteredKeyBlob_Internal {σ : Type} (k : Consts) (env : Env σ) (st : σ)
    (hContext : TCS_CONTEXT_HANDLE) (KeyUUID : TSS_UUID) : BlobOutcome :=
  let result := env.ctx_verify_context hContext
  let t0 := [Call.ctx_verify_context hContext]
  if result ≠ 0 then ⟨result, none, none, t0⟩
  else
    let r := env.getRegisteredKeyByUUID st KeyUUID 1024
    let buffer := r.2.1
    let keySize := r.2.2
    let t1 := t0 ++ [Call.getRegisteredKeyByUUID KeyUUID]
    if r.1 ≠ 0 then ⟨k.TCS_E_KEY_NOT_REGISTERED, none, none, t1⟩
    else
      let t2 := t1 ++ [Call.getSomeMemory keySize]
      if env.getSomeMemory keySize hContext = false then
        ⟨k.TSS_E_OUTOFMEMORY, some none, none, t2⟩
      else
        ⟨TSS_SUCCESS, some (some (buffer.take keySize)), some keySize, t2⟩

/-! ## `TCS_EnumRegisteredKeys_Internal` (`tcskcm.c:89-254`) -/

/-- What `TCS_EnumRegisteredKeys_Internal` leaves behind. An output
parameter that was not written is `none`; `ppKeyHierarchy = some none` is
`ret == NULL` stored in `*ppKeyHierarchy`, `some (some l)` the array `ret`
with the entries `l`. -/
structure EnumOutcome where
  result : TSS_RESULT
  ppKeyHierarchy : Option (Option (List TSS_KM_KEYINFO))
  pcKeyHierarchySize : Option Nat
  trace : List Call
  deriving DecidableEq, Repr

/-- The test `disk_ptr->flags & CACHE_FLAG_VALID`. -/
def key_disk_cache.valid (k : Consts) (d : key_disk_cache) : Bool :=
  d.flags &&& k.CACHE_FLAG_VALID != 0

/-- The first loop of the `pKeyUUID == NULL` branch (`tcskcm.c:132-135`):
the number of disk-cache nodes with `CACHE_FLAG_VALID` set. `count` is a
`UINT32`; the list is taken to have fewer than `2^32` nodes. -/
def countValid (k : Consts) : List key_disk_cache → Nat → Nat
  | [], count => count
  | d :: next, count => if d.valid k then countValid k next (count + 1) else countValid k next count

/-- The scan `for (mem_ptr = key_mem_cache_head; mem_ptr; mem_ptr =
mem_ptr->next)` with its `break` (`tcskcm.c:155-165`, `221-231`): the value
of `mem_ptr` after the loop, `none` for `NULL`. -/
def findMemEntry (uuid : TSS_UUID) : List key_mem_cache → Option key_mem_cache
  | [] => none
  | m :: next => if m.uuid = uuid then some m else findMemEntry uuid next

/-- The second loop of the `pKeyUUID == NULL` branch (`tcskcm.c:152-178`),
from `disk_ptr` on, with the entries `ret[0..i)` written so far. Returns
`result`, `ret` (`none` once it was freed) and the calls made. -/
def fillValid {σ : Type} (k : Consts) (env : Env σ) (mem : List key_mem_cache) :
    List key_disk_cache → List TSS_KM_KEYINFO → List Call →
    TSS_RESULT × Option (List TSS_KM_KEYINFO) × List Call
  | [], ret, t => (TCS_SUCCESS, some ret, t)
  | d :: next, ret, t =>
    if d.valid k then
      let mem_ptr := findMemEntry d.uuid mem
      let r := env.fill_key_info d mem_ptr
      let t1 := t ++ [Call.fill_key_info d mem_ptr]
      if r.1 ≠ 0 then (r.1, none, t1)
      else fillValid k env mem next (ret ++ [r.2]) t1
    else fillValid k env mem next ret t

/-- The loop `for (i = 0; i < count; i++)` of the chain branch
(`tcskcm.c:219-242`) over `tmp_ptrs[i..count)`. -/
def fillChain {σ : Type} (env : Env σ) (mem : List key_mem_cache) :
    List key_disk_cache → List TSS_KM_KEYINFO → List Call →
    TSS_RESULT × Option (List TSS_KM_KEYINFO) × List Call
  | [], ret, t => (TCS_SUCCESS, some ret, t)
  | d :: more, ret, t =>
    let mem_ptr := findMemEntry d.uuid mem
    let r := env.fill_key_info d mem_ptr
    let t1 := t ++ [Call.fill_key_info d mem_ptr]
    if r.1 ≠ 0 then (r.1, none, t1)
    else fillChain env mem more (ret ++ [r.2]) t1

/-- The variables of the chain walk (`tcskcm.c:182-202`). `disk_ptr` is the
list from the current node on (`[]` for `NULL`); `tmp_ptrs` holds the
elements `tmp_ptrs[0..count)` written so far. -/
structure WalkState where
  disk_ptr : List key_disk_cache
  tmp_uuid : TSS_UUID
  count : Nat
  tmp_ptrs : List key_disk_cache
  deriving DecidableEq, Repr

/-- One evaluation of the `while` condition and, when it holds, of the loop
body (`tcskcm.c:184-202`). The flag is `false` when the loop is left (the
condition fails, or `break`). -/
def chainIter (k : Consts) (key_disk_cache_head : List key_disk_cache) (s : WalkState) :
    Bool × WalkState :=
  match s.disk_ptr with
  | [] => (false, s)
  | d :: next =>
    if ¬ (s.count < k.MAX_KEY_CHILDREN) then (false, s)
    else if d.valid k ∧ d.uuid = s.tmp_uuid then
      -- count++; tmp_ptrs[count - 1] = disk_ptr;
      let s1 := { s with count := s.count + 1, tmp_ptrs := s.tmp_ptrs ++ [d] }
      if d.parent_uuid = k.NULL_UUID then (false, s1)
      else (true, { s1 with tmp_uuid := d.parent_uuid, disk_ptr := key_disk_cache_head })
    else (true, { s with disk_ptr := next })

/-- The `while` loop of the chain walk, run for at most `fuel` iterations;
`none` when the loop has not been left by then. -/
def chainLoop (k : Consts) (key_disk_cache_head : List key_disk_cache) :
    Nat → WalkState → Option WalkState
  | 0, _ => none
  | fuel + 1, s =>
    match chainIter k key_disk_cache_head s with
    | (false, s1) => some s1
    | (true, s1) => chainLoop k key_disk_cache_head fuel s1

/-- The state in which the chain walk starts (`tcskcm.c:182-183`, with
`count = 0`). -/
def chainInit (key_disk_cache_head : List key_disk_cache) (pKeyUUID : TSS_UUID) : WalkState :=
  { disk_ptr := key_disk_cache_head, tmp_uuid := pKeyUUID, count := 0, tmp_ptrs := [] }

/-- A number of iterations within which the chain walk always leaves its
loop. -/
def chainFuel (k : Consts) (key_disk_cache_head : List key_disk_cache) : Nat :=
  (k.MAX_KEY_CHILDREN + 1) * (key_disk_cache_head.length + 1)

/-- The chain walk from its initial state. -/
def chainWalk (k : Consts) (key_disk_cache_head : List key_disk_cache) (pKeyUUID : TSS_UUID) :
    Option WalkState :=
  chainLoop k key_disk_cache_head (chainFuel k key_disk_cache_head)
    (chainInit key_disk_cache_head pKeyUUID)

/-- The label `done` (`tcskcm.c:245-253`): both locks are released, the
output parameters are written and `result` is returned. -/
def enumDone (result : TSS_RESULT) (ret : Option (List TSS_KM_KEYINFO)) (count : Nat)
    (t : List Call) : EnumOutcome :=
  ⟨result, some ret, some count, t ++ [Call.unlock_disk_cache, Call.unlock_mem_cache]⟩

/-- The part of both branches from the allocation of `ret` on
(`tcskcm.c:138-178` and `207-242`), given `count` and the loop that fills
`ret`. -/
def enumAllocFill {σ : Type} (k : Consts) (env : Env σ) (hContext : TCS_CONTEXT_HANDLE)
    (count : Nat)
    (fill : List TSS_KM_KEYINFO → List Call → TSS_RESULT × Option (List TSS_KM_KEYINFO) × List Call)
    (t : List Call) : EnumOutcome :=
  if count ≠ 0 then
    let t1 := t ++ [Call.getSomeMemory (count * k.sizeof_TSS_KM_KEYINFO)]
    if env.getSomeMemory (count * k.sizeof_TSS_KM_KEYINFO) hContext = false then
      enumDone k.TSS_E_OUTOFMEMORY none 0 t1
    else
      match fill [] t1 with
      | (result, none, t2) => enumDone result none 0 t2
      | (result, some ret, t2) => enumDone result (some ret) count t2
  else enumDone TCS_SUCCESS none 0 t

/-- The body of `TCS_EnumRegisteredKeys_Internal`. `pKeyUUID = none` is a
`NULL` pointer; `pcKeyHierarchySize` and `ppKeyHierarchy` say whether the
output pointers are non-`NULL`. The result is `none` only if the chain walk
did not leave its loop within `chainFuel` iterations. -/
def TCS_EnumRegisteredKeys_Internal {σ : Type} (k : Consts) (env : Env σ) (st : σ)
    (key_disk_cache_head : List key_disk_cache) (key_mem_cache_head : List key_mem_cache)
    (hContext : TCS_CONTEXT_HANDLE) (pKeyUUID : Option TSS_UUID)
    (pcKeyHierarchySize ppKeyHierarchy : Bool) : Option EnumOutcome :=
  if pcKeyHierarchySize = false ∨ ppKeyHierarchy = false then
    some ⟨k.TSS_E_BAD_PARAMETER, none, none, []⟩
  else
    let result := env.ctx_verify_context hContext
    let t0 := [Call.ctx_verify_context hContext]
    if result ≠ 0 then some ⟨result, none, none, t0⟩
    else
      match pKeyUUID with
      | none =>
        let t1 := t0 ++ [Call.lock_disk_cache, Call.lock_mem_cache]
        let count := countValid k key_disk_cache_head 0
        some (enumAllocFill k env hContext count
          (fillValid k env key_mem_cache_head key_disk_cache_head) t1)
      | some uuid =>
        -- First have to verify the key is registered
        let reg := env.isUUIDRegistered st uuid
        let t1 := t0 ++ [Call.isUUIDRegistered uuid]
        if reg.1 ≠ 0 then some ⟨reg.1, none, none, t1⟩
        else if reg.2 = false then some ⟨k.TCS_E_KEY_NOT_REGISTERED, none, none, t1⟩
        else
          let t2 := t1 ++ [Call.lock_disk_cache, Call.lock_mem_cache]
          match chainWalk k key_disk_cache_head uuid with
          | none => none
          | some s =>
            some (enumAllocFill k env hContext s.count
              (fillChain env key_mem_cache_head s.tmp_ptrs) t2)

/-! ## A registry after the specification, and concrete inputs -/

/-- Modelled from the spec: a `KeyRecord` of the key registry (section 3),
"{ key_id: UUID, parent_id: UUID (nullable = root), wrapped_blob: bytes,
vendor_data: bytes }". The registry itself is a list of records. -/
structure KeyRecord where
  key_id : TSS_UUID
  parent_id : TSS_UUID
  wrapped_blob : List BYTE
  vendor_data : List BYTE
  deriving DecidableEq, Repr

abbrev Registry := List KeyRecord

/-- Modelled from the spec: `isUUIDRegistered`, not defined in `tcskcm.c`.
A key is registered when the registry holds a record with its `key_id`. -/
def specIsUUIDRegistered (reg : Registry) (uuid : TSS_UUID) : TSS_RESULT × Bool :=
  (TSS_SUCCESS, reg.any (fun r => r.key_id = uuid))

/-- Modelled from the spec: `writeRegisteredKeyToFile`, not defined in
`tcskcm.c`; section 6, "write(key_id, parent_id, blob) -> Result": the
record is added to the registry. -/
def specWriteRegisteredKeyToFile (reg : Registry) (KeyUUID WrappingKeyUUID : TSS_UUID)
    (rgbKey : List BYTE) (cKeySize : Nat) : TSS_RESULT × Registry :=
  (TSS_SUCCESS, reg ++ [⟨KeyUUID, WrappingKeyUUID, rgbKey.take cKeySize, []⟩])

/-- Modelled from the spec: `removeRegisteredKey`, not defined in
`tcskcm.c`; section 4.1, "Unregister(key_id) -> Result: removes the record;
succeeds idempotently if the key was already absent", and section 6,
"remove(key_id) -> Result". -/
def specRemoveRegisteredKey (reg : Registry) (KeyUUID : TSS_UUID) : TSS_RESULT × Registry :=
  (TSS_SUCCESS, reg.filter (fun r => r.key_id ≠ KeyUUID))

/-- Modelled from the spec: `getRegisteredKeyByUUID`, not defined in
`tcskcm.c`; section 4.1, "Lookup(key_id) -> blob: fails with NotRegistered
if absent". The blob is copied to the caller's buffer when it fits. -/
def specGetRegisteredKeyByUUID (k : Consts) (reg : Registry) (KeyUUID : TSS_UUID) (size : Nat) :
    TSS_RESULT × List BYTE × Nat :=
  match reg.find? (fun r => r.key_id = KeyUUID) with
  | none => (k.TCS_E_KEY_NOT_REGISTERED, List.replicate size 0, size)
  | some r =>
    if r.wrapped_blob.length ≤ size then
      (TSS_SUCCESS, r.wrapped_blob ++ List.replicate (size - r.wrapped_blob.length) 0,
        r.wrapped_blob.length)
    else (k.TCS_E_FAIL, List.replicate size 0, size)

/-- Modelled from the spec: `fill_key_info`, not defined in `tcskcm.c`;
section 4.2, each entry is "enriched with hardware-residency info from the
Memory Cache". The identifiers come from the disk-cache node; the key is
shown as loaded when a memory-cache node was passed. -/
def specFillKeyInfo (disk : key_disk_cache) (mem : Option key_mem_cache) :
    TSS_RESULT × TSS_KM_KEYINFO :=
  (TSS_SUCCESS, ⟨⟨1, 1, 0, 0⟩, disk.uuid, disk.parent_uuid, 0, mem.isSome, 0, []⟩)

/-- The outside functions after the specification, over a `Registry`:
every context handle other than `0` is valid and every allocation
succeeds. -/
def specEnv (k : Consts) : Env Registry where
  ctx_verify_context := fun h => if h = 0 then k.TCS_E_FAIL else TSS_SUCCESS
  isUUIDRegistered := specIsUUIDRegistered
  writeRegisteredKeyToFile := specWriteRegisteredKeyToFile
  removeRegisteredKey := specRemoveRegisteredKey
  getRegisteredKeyByUUID := specGetRegisteredKeyByUUID k
  getSomeMemory := fun _ _ => true
  fill_key_info := specFillKeyInfo

/-- A UUID whose sixteen bytes all equal `b`. -/
def uuidOf (b : BYTE) : TSS_UUID := ⟨List.replicate 16 b⟩

/-- One choice of the header constants, for evaluating the functions on
concrete inputs: pairwise distinct non-zero error codes, a chain bound of
ten keys, flag bit `0x0001`, the all-zero UUID. -/
def tssConsts : Consts where
  TCS_E_FAIL := 0x2002
  TCS_E_KEY_NOT_REGISTERED := 0x2020
  TCS_E_KEY_ALREADY_REGISTERED := 0x2008
  TSS_E_INTERNAL_ERROR := 0x3004
  TSS_E_BAD_PARAMETER := 0x3003
  TSS_E_OUTOFMEMORY := 0x3005
  MAX_KEY_CHILDREN := 10
  CACHE_FLAG_VALID := 1
  NULL_UUID := uuidOf 0
  sizeof_TSS_KM_KEYINFO := 48

/-- A registry holding a root key `uuidOf 1` and its child `uuidOf 2`. -/
def sampleRegistry : Registry :=
  [⟨uuidOf 1, uuidOf 0, [0xAA, 0xBB], []⟩, ⟨uuidOf 2, uuidOf 1, [0xCC], []⟩]

/-- A disk-cache node with the given flags, UUID byte and parent UUID
byte. -/
def diskNode (flags : Nat) (u p : BYTE) : key_disk_cache := ⟨flags, uuidOf u, uuidOf p, []⟩

/-- A disk cache mirroring `sampleRegistry`, with one invalidated node. -/
def sampleDisk : List key_disk_cache :=
  [diskNode 1 2 1, diskNode 0 3 1, diskNode 1 1 0]

/-- A memory cache that knows the key `uuidOf 1`. -/
def sampleMem : List key_mem_cache := [⟨uuidOf 1, []⟩]

/-- What the full enumeration of `sampleDisk` with `sampleMem` leaves
behind: two entries, the second one for a key known to the memory cache. -/
def sampleEnumAll : EnumOutcome :=
  ⟨TSS_SUCCESS,
    some (some [(specFillKeyInfo (diskNode 1 2 1) none).2,
      (specFillKeyInfo (diskNode 1 1 0) (some ⟨uuidOf 1, []⟩)).2]),
    some 2,
    [Call.ctx_verify_context 1, Call.lock_disk_cache, Call.lock_mem_cache,
      Call.getSomeMemory 96, Call.fill_key_info (diskNode 1 2 1) none,
      Call.fill_key_info (diskNode 1 1 0) (some ⟨uuidOf 1, []⟩),
      Call.unlock_disk_cache, Call.unlock_mem_cache]⟩

/-! ## The chain walk as a function of the disk cache -/

/-- The test of the chain walk on a node (`tcskcm.c:186-187`): the node is
valid and its UUID is `u`. -/
def key_disk_cache.isKey (k : Consts) (u : TSS_UUID) (d : key_disk_cache) : Bool :=
  d.valid k && decide (d.uuid = u)

/-- The nodes the chain walk collects when `n` more may be stored, the
scan stands at `ptr` and looks for `u`: the first valid node from `ptr` on
with UUID `u`, then, unless its parent is `NULL_UUID`, what is collected for
its parent from the head of the cache with `n - 1` more. -/
def chainFrom (k : Consts) (key_disk_cache_head : List key_disk_cache) :
    Nat → List key_disk_cache → TSS_UUID → List key_disk_cache
  | 0, _, _ => []
  | n + 1, ptr, u =>
    match ptr.find? (key_disk_cache.isKey k u) with
    | none => []
    | some d =>
      if d.parent_uuid = k.NULL_UUID then [d]
      else d :: chainFrom k key_disk_cache_head n key_disk_cache_head d.parent_uuid

/-- The entry that both branches store in `ret[i]` for the disk-cache node
`d`: what `fill_key_info` writes when given `d` and the first memory-cache
node with the UUID of `d` (`NULL` when there is none). -/
def keyInfoOf {σ : Type} (env : Env σ) (mem : List key_mem_cache) (d : key_disk_cache) :
    TSS_KM_KEYINFO :=
  (env.fill_key_info d (findMemEntry d.uuid mem)).2

/-- A chain of disk-cache nodes from a key to the root: every node but the
last has a parent, which is the UUID of the next node, and the last node is
the root, with parent `NULL_UUID`. -/
def IsChainToRoot (k : Consts) : List key_disk_cache → Prop
  | [] => False
  | [d] => d.parent_uuid = k.NULL_UUID
  | d :: e :: more =>
    d.parent_uuid = e.uuid ∧ d.parent_uuid ≠ k.NULL_UUID ∧ IsChainToRoot k (e :: more)

/-! ## Key loading and eviction (`tcskcm.c:339-686`)

The loader works on the memory cache, the TPM and the authorization
manager through functions defined outside `tcskcm.c`. They are the fields
of `KmEnv`, over a state `σ` that stands for everything those functions
keep (memory cache, context table, authorization table, TPM). A function
that only inspects the state returns its value; one that may change it
returns the new state as well. Every entry point returns the list of the
outside calls it made, in order, each with the value the call returned. -/

abbrev TCS_KEY_HANDLE := Nat
abbrev TCPA_KEY_HANDLE := Nat
abbrev TCPA_STORE_PUBKEY := List BYTE
abbrev TCPA_KEY_PARMS := List BYTE

/-- The members of `TCS_AUTH` that `tcskcm.c` reads; `rest` stands for the
others. -/
structure TCS_AUTH where
  AuthHandle : Nat
  fContinueAuthSession : Bool
  rest : List BYTE
  deriving DecidableEq, Repr

/-- The members of `TCPA_KEY` that the loader reads; `rest` stands for the
others. -/
structure TCPA_KEY where
  pubKey : TCPA_STORE_PUBKEY
  algorithmParms : TCPA_KEY_PARMS
  rest : List BYTE
  deriving DecidableEq, Repr

/-- A request as assembled in `txBlob` by the `LoadBlob_*` calls: the tag
and ordinal given to `LoadBlob_Header`, the parent slot, the payload, and
the authorization block when there is one. -/
structure TxBlob where
  tag : Nat
  ordinal : Nat
  parentHandle : TCPA_KEY_HANDLE
  payload : List BYTE
  auth : Option TCS_AUTH
  deriving DecidableEq, Repr

/-- Header constants used by the loader whose definitions live outside
`tcskcm.c`, on top of those of `Consts`. -/
structure KmConsts extends Consts where
  TCS_E_KM_LOADFAILED : TSS_RESULT
  NULL_TPM_HANDLE : TCPA_KEY_HANDLE
  NULL_TCS_HANDLE : TCS_KEY_HANDLE
  TPM_ORD_LoadKey : Nat
  TPM_TAG_RQU_COMMAND : Nat
  TPM_TAG_RQU_AUTH1_COMMAND : Nat
  sizeof_TCPA_KEY : Nat

/-- A call made by the loader to a function outside `tcskcm.c`, with the
values the call returned. `recurse` marks the place where
`TCSP_LoadKeyByUUID_Internal` calls itself for the parent. -/
inductive KmCall where
  | ctx_verify_context (hContext : TCS_CONTEXT_HANDLE) (result : TSS_RESULT)
  | auth_mgr_check (hContext : TCS_CONTEXT_HANDLE) (AuthHandle : Nat) (result : TSS_RESULT)
  | auth_mgr_release_auth (AuthHandle : Nat)
  | malloc (size : Nat) (ok : Bool)
  | getSlotByHandle (h : TCS_KEY_HANDLE) (slot : TCPA_KEY_HANDLE)
  | getPubBySlot (h : TCPA_KEY_HANDLE) (pub : Option TCPA_STORE_PUBKEY)
  | LoadKeyShim (hContext : TCS_CONTEXT_HANDLE) (pub : TCPA_STORE_PUBKEY)
      (uuid : Option TSS_UUID) (result : TSS_RESULT) (slot : TCPA_KEY_HANDLE)
  | getTCSKeyHandleByPub (pub : TCPA_STORE_PUBKEY) (h : TCS_KEY_HANDLE)
  | isKeyLoaded (slot : TCPA_KEY_HANDLE) (loaded : Bool)
  | canILoadThisKey (parms : TCPA_KEY_PARMS) (result : TSS_RESULT) (canLoad : Bool)
  | evictFirstKey (h : TCS_KEY_HANDLE) (result : TSS_RESULT)
  | req_mgr_submit_req (tx : TxBlob) (result : TSS_RESULT)
  | getNextTcsKeyHandle (h : TCS_KEY_HANDLE)
  | add_mem_cache_entry (h : TCS_KEY_HANDLE) (slot : TCPA_KEY_HANDLE) (key : TCPA_KEY)
      (result : TSS_RESULT)
  | ctx_mark_key_loaded (hContext : TCS_CONTEXT_HANDLE) (h : TCS_KEY_HANDLE)
      (result : TSS_RESULT)
  | setParentByHandle (h parent : TCS_KEY_HANDLE) (result : TSS_RESULT)
  | setSlotByHandle (h : TCS_KEY_HANDLE) (slot : TCPA_KEY_HANDLE)
  | getRegisteredKeyByUUID (uuid : TSS_UUID) (result : TSS_RESULT)
  | getParentUUIDByUUID (uuid : TSS_UUID) (result : TSS_RESULT) (parent : TSS_UUID)
  | getPubByUuid (uuid : TSS_UUID) (pub : Option TCPA_STORE_PUBKEY)
  | getAnyHandleBySlot (slot : TCPA_KEY_HANDLE) (h : TCS_KEY_HANDLE)
  | internal_EvictByKeySlot (slot : TCPA_KEY_HANDLE) (result : TSS_RESULT)
  | setSlotBySlot (old new : TCPA_KEY_HANDLE) (result : TSS_RESULT)
  | recurse (parentUuid : TSS_UUID)
  deriving DecidableEq, Repr

/-- The functions that the loader calls and `tcskcm.c` does not define,
over a state `σ`.

* `malloc st size` is `true` when the allocation returns a non-`NULL`
  pointer.
* `UnloadBlob_KEY blob` is the returned code, the key it parsed and the
  offset it left; `UnloadBlob_Header`, `UnloadBlob_UINT32 offset` and
  `UnloadBlob_Auth offset` read a response blob.
* `getPubBySlot` and `getPubByUuid` return `none` for a `NULL` pointer.
* `LoadKeyShim st hContext pub uuid` returns its code, the slot it stored
  and the new state; `uuid = none` is a `NULL` pointer.
* `canILoadThisKey st parms` is the returned code and the value stored in
  `*canLoad`.
* `req_mgr_submit_req st tx` returns its code, the response left in
  `txBlob` and the new state. -/
structure KmEnv (σ : Type) where
  ctx_verify_context : σ → TCS_CONTEXT_HANDLE → TSS_RESULT
  auth_mgr_check : σ → TCS_CONTEXT_HANDLE → Nat → TSS_RESULT
  auth_mgr_release_auth : σ → Nat → σ
  malloc : σ → Nat → Bool
  UnloadBlob_KEY : List BYTE → TSS_RESULT × TCPA_KEY × Nat
  UnloadBlob_Header : List BYTE → TSS_RESULT
  UnloadBlob_UINT32 : Nat → List BYTE → Nat
  UnloadBlob_Auth : Nat → List BYTE → TCS_AUTH → TCS_AUTH
  getSlotByHandle : σ → TCS_KEY_HANDLE → TCPA_KEY_HANDLE
  getPubBySlot : σ → TCPA_KEY_HANDLE → Option TCPA_STORE_PUBKEY
  LoadKeyShim : σ → TCS_CONTEXT_HANDLE → TCPA_STORE_PUBKEY → Option TSS_UUID →
    TSS_RESULT × TCPA_KEY_HANDLE × σ
  getTCSKeyHandleByPub : σ → TCPA_STORE_PUBKEY → TCS_KEY_HANDLE
  isKeyLoaded : σ → TCPA_KEY_HANDLE → Bool
  canILoadThisKey : σ → TCPA_KEY_PARMS → TSS_RESULT × Bool
  evictFirstKey : σ → TCS_KEY_HANDLE → TSS_RESULT × σ
  req_mgr_submit_req : σ → TxBlob → TSS_RESULT × List BYTE × σ
  getNextTcsKeyHandle : σ → TCS_KEY_HANDLE × σ
  add_mem_cache_entry : σ → TCS_KEY_HANDLE → TCPA_KEY_HANDLE → TCPA_KEY → TSS_RESULT × σ
  ctx_mark_key_loaded : σ → TCS_CONTEXT_HANDLE → TCS_KEY_HANDLE → TSS_RESULT × σ
  setParentByHandle : σ → TCS_KEY_HANDLE → TCS_KEY_HANDLE → TSS_RESULT × σ
  setSlotByHandle : σ → TCS_KEY_HANDLE → TCPA_KEY_HANDLE → σ
  getRegisteredKeyByUUID : σ → TSS_UUID → Nat → TSS_RESULT × List BYTE × Nat
  getParentUUIDByUUID : σ → TSS_UUID → TSS_RESULT × TSS_UUID
  getPubByUuid : σ → TSS_UUID → Option TCPA_STORE_PUBKEY
  getAnyHandleBySlot : σ → TCPA_KEY_HANDLE → TCS_KEY_HANDLE
  internal_EvictByKeySlot : σ → TCPA_KEY_HANDLE → TSS_RESULT × σ
  setSlotBySlot : σ → TCPA_KEY_HANDLE → TCPA_KEY_HANDLE → TSS_RESULT × σ

/-- What a loader entry point leaves behind: its return value, the state,
the output parameters (`none` when not written), the value left in `*pAuth`
and the outside calls it made. -/
structure LoadOutcome (σ : Type) where
  result : TSS_RESULT
  state : σ
  phKeyTCSI : Option TCS_KEY_HANDLE
  phKeyHMAC : Option TCPA_KEY_HANDLE
  pAuth : Option TCS_AUTH
  trace : List KmCall

/-- The outcome with the calls `t` put in front of its trace. -/
def LoadOutcome.after {σ : Type} (t : List KmCall) (o : LoadOutcome σ) : LoadOutcome σ :=
  { o with trace := t ++ o.trace }

/-! ### `TCSP_LoadKeyByBlob_Internal` (`tcskcm.c:339-572`) -/

/-- An early `return result` inside `TCSP_LoadKeyByBlob_Internal`: nothing
more is called and no output parameter is written. -/
def loadKeyByBlob_return {σ : Type} (st : σ) (pAuth : Option TCS_AUTH) (result : TSS_RESULT) :
    LoadOutcome σ :=
  ⟨result, st, none, none, pAuth, []⟩

/-- The block `if (result) { ... return result; }` after the `do` block
(`tcskcm.c:481-490`), entered with `result` non-zero: the authorization is
released when `pAuth` is not `NULL`. -/
def loadKeyByBlob_failed {σ : Type} (env : KmEnv σ) (st : σ) (pAuth : Option TCS_AUTH)
    (result : TSS_RESULT) : LoadOutcome σ :=
  match pAuth with
  | some a =>
    ⟨result, env.auth_mgr_release_auth st a.AuthHandle, none, none, pAuth,
      [KmCall.auth_mgr_release_auth a.AuthHandle]⟩
  | none => ⟨result, st, none, none, none, []⟩

/-- The memory-cache update and the output parameters
(`tcskcm.c:511-571`), with the slot `myKeySlot` of the key. -/
def loadKeyByBlob_update {σ : Type} (k : KmConsts) (env : KmEnv σ) (st : σ)
    (hContext : TCS_CONTEXT_HANDLE) (hUnwrappingKey : TCS_KEY_HANDLE)
    (rgbWrappedKeyBlob : List BYTE) (pAuth : Option TCS_AUTH) (key : TCPA_KEY)
    (myKeySlot : TCPA_KEY_HANDLE) : LoadOutcome σ :=
  -- See if a TCSKeyHandle already exists.
  let h0 := env.getTCSKeyHandleByPub st key.pubKey
  let t0 := [KmCall.getTCSKeyHandleByPub key.pubKey h0]
  if h0 = k.NULL_TCS_HANDLE then
    -- Get a new TCS Key Handle
    let n := env.getNextTcsKeyHandle st
    let myTcsKeyHandle := n.1
    let t1 := t0 ++ [KmCall.getNextTcsKeyHandle myTcsKeyHandle]
    let again := env.UnloadBlob_KEY rgbWrappedKeyBlob
    if pAuth = none ∧ again.1 ≠ 0 then loadKeyByBlob_return n.2 pAuth again.1 |>.after t1
    else
      let key1 := if pAuth = none then again.2.1 else key
      -- Add this info to the memory cache
      let a := env.add_mem_cache_entry n.2 myTcsKeyHandle myKeySlot key1
      let t2 := t1 ++ [KmCall.add_mem_cache_entry myTcsKeyHandle myKeySlot key1 a.1]
      if a.1 ≠ TSS_SUCCESS then loadKeyByBlob_return a.2 pAuth a.1 |>.after t2
      else
        let m := env.ctx_mark_key_loaded a.2 hContext myTcsKeyHandle
        let t3 := t2 ++ [KmCall.ctx_mark_key_loaded hContext myTcsKeyHandle m.1]
        if m.1 ≠ 0 then loadKeyByBlob_return m.2 pAuth k.TSS_E_INTERNAL_ERROR |>.after t3
        else
          match pAuth with
          | none =>
            let q := env.setParentByHandle m.2 myTcsKeyHandle hUnwrappingKey
            let t4 := t3 ++ [KmCall.setParentByHandle myTcsKeyHandle hUnwrappingKey q.1]
            if q.1 ≠ TSS_SUCCESS then loadKeyByBlob_return q.2 none q.1 |>.after t4
            else ⟨TSS_SUCCESS, q.2, some myTcsKeyHandle, some myKeySlot, none, t4⟩
          | some a1 =>
            ⟨TSS_SUCCESS, m.2, some myTcsKeyHandle, some myKeySlot, some a1, t3⟩
  else
    ⟨TSS_SUCCESS, env.setSlotByHandle st h0 myKeySlot, some h0, some myKeySlot, pAuth,
      t0 ++ [KmCall.setSlotByHandle h0 myKeySlot]⟩

/-- The code after the `do` block (`tcskcm.c:481-571`), reached with the
parsed `key`, `result`, `needToSendPacket`, the slot found by the
load-avoidance test (used when no packet was sent) and the contents of
`txBlob`. -/
def loadKeyByBlob_afterDo {σ : Type} (k : KmConsts) (env : KmEnv σ) (st : σ)
    (hContext : TCS_CONTEXT_HANDLE) (hUnwrappingKey : TCS_KEY_HANDLE)
    (rgbWrappedKeyBlob : List BYTE) (pAuth : Option TCS_AUTH) (key : TCPA_KEY)
    (result : TSS_RESULT) (needToSendPacket : Bool) (myKeySlot : TCPA_KEY_HANDLE)
    (txBlob : List BYTE) : LoadOutcome σ :=
  if result ≠ 0 then loadKeyByBlob_failed env st pAuth result
  else if needToSendPacket = true then
    let hr := env.UnloadBlob_Header txBlob
    if hr ≠ 0 then loadKeyByBlob_return st pAuth hr
    else
      -- Finish unloading the stuff
      let slot := env.UnloadBlob_UINT32 10 txBlob
      match pAuth with
      | some a =>
        let a1 := env.UnloadBlob_Auth 14 txBlob a
        if a1.fContinueAuthSession = false then
          loadKeyByBlob_update k env (env.auth_mgr_release_auth st a1.AuthHandle) hContext
            hUnwrappingKey rgbWrappedKeyBlob (some a1) key slot
            |>.after [KmCall.auth_mgr_release_auth a1.AuthHandle]
        else
          loadKeyByBlob_update k env st hContext hUnwrappingKey rgbWrappedKeyBlob (some a1)
            key slot
      | none =>
        loadKeyByBlob_update k env st hContext hUnwrappingKey rgbWrappedKeyBlob none key slot
  else
    loadKeyByBlob_update k env st hContext hUnwrappingKey rgbWrappedKeyBlob pAuth key myKeySlot

/-- The loop `while (canLoad == FALSE)` (`tcskcm.c:445-458`) from its head,
run for at most `fuel` iterations: the result (zero when the loop is left
with `canLoad` true), the state and the calls made; `none` when the loop has
not been left by then. -/
def evictLoop {σ : Type} (env : KmEnv σ) (hUnwrappingKey : TCS_KEY_HANDLE)
    (parms : TCPA_KEY_PARMS) : Nat → σ → Option (TSS_RESULT × σ × List KmCall)
  | 0, _ => none
  | fuel + 1, st =>
    -- Evict a key that isn't the parent
    let e := env.evictFirstKey st hUnwrappingKey
    let ev := KmCall.evictFirstKey hUnwrappingKey e.1
    if e.1 ≠ 0 then some (e.1, e.2, [ev])
    else
      let c := env.canILoadThisKey e.2 parms
      let cv := KmCall.canILoadThisKey parms c.1 c.2
      if c.1 ≠ 0 then some (c.1, e.2, [ev, cv])
      else if c.2 = false then
        match evictLoop env hUnwrappingKey parms fuel e.2 with
        | none => none
        | some (r, st1, t) => some (r, st1, ev :: cv :: t)
      else some (0, e.2, [ev, cv])

/-- The capacity check (`tcskcm.c:439-458`): the first `canILoadThisKey`
and the eviction loop. A non-zero result is the one the function returns at
once. -/
def capacityPhase {σ : Type} (env : KmEnv σ) (hUnwrappingKey : TCS_KEY_HANDLE)
    (parms : TCPA_KEY_PARMS) (fuel : Nat) (st : σ) : Option (TSS_RESULT × σ × List KmCall) :=
  let c := env.canILoadThisKey st parms
  let cv := KmCall.canILoadThisKey parms c.1 c.2
  if c.1 ≠ 0 then some (c.1, st, [cv])
  else if c.2 = false then
    match evictLoop env hUnwrappingKey parms fuel st with
    | none => none
    | some (r, st1, t) => some (r, st1, cv :: t)
  else some (0, st, [cv])

/-- The request assembled at `tcskcm.c:468-475`. -/
def loadKeyRequest (k : KmConsts) (parentKeySlot : TCPA_KEY_HANDLE)
    (cWrappedKeyBlobSize : Nat) (rgbWrappedKeyBlob : List BYTE) (pAuth : Option TCS_AUTH) :
    TxBlob :=
  match pAuth with
  | some a =>
    ⟨k.TPM_TAG_RQU_AUTH1_COMMAND, k.TPM_ORD_LoadKey, parentKeySlot,
      rgbWrappedKeyBlob.take cWrappedKeyBlobSize, some a⟩
  | none =>
    ⟨k.TPM_TAG_RQU_COMMAND, k.TPM_ORD_LoadKey, parentKeySlot,
      rgbWrappedKeyBlob.take cWrappedKeyBlobSize, none⟩

/-- The capacity check, the submission of the load command
(`tcskcm.c:435-478`) and what follows it. -/
def loadKeyByBlob_send {σ : Type} (k : KmConsts) (env : KmEnv σ) (fuel : Nat) (st : σ)
    (hContext : TCS_CONTEXT_HANDLE) (hUnwrappingKey : TCS_KEY_HANDLE)
    (rgbWrappedKeyBlob : List BYTE) (pAuth : Option TCS_AUTH) (key : TCPA_KEY)
    (cWrappedKeyBlobSize : Nat) (parentKeySlot : TCPA_KEY_HANDLE) :
    Option (LoadOutcome σ) :=
  match capacityPhase env hUnwrappingKey key.algorithmParms fuel st with
  | none => none
  | some (r, st1, t) =>
    if r ≠ 0 then some (loadKeyByBlob_return st1 pAuth r |>.after t)
    else
      let tx := loadKeyRequest k parentKeySlot cWrappedKeyBlobSize rgbWrappedKeyBlob pAuth
      let s := env.req_mgr_submit_req st1 tx
      some (loadKeyByBlob_afterDo k env s.2.2 hContext hUnwrappingKey rgbWrappedKeyBlob pAuth
        key s.1 true 0 s.2.1 |>.after (t ++ [KmCall.req_mgr_submit_req tx s.1]))

/-- The load-avoidance test (`tcskcm.c:415-433`): the slot of the key when
`needToSendPacket` is set to `FALSE`, and the calls made. -/
def loadAvoidance {σ : Type} (k : KmConsts) (env : KmEnv σ) (st : σ)
    (pAuth : Option TCS_AUTH) (key : TCPA_KEY) : Option TCPA_KEY_HANDLE × List KmCall :=
  match pAuth with
  | some _ => (none, [])
  | none =>
    let myTcsKeyHandle := env.getTCSKeyHandleByPub st key.pubKey
    let t0 := [KmCall.getTCSKeyHandleByPub key.pubKey myTcsKeyHandle]
    if myTcsKeyHandle ≠ k.NULL_TCS_HANDLE then
      let myKeySlot := env.getSlotByHandle st myTcsKeyHandle
      let t1 := t0 ++ [KmCall.getSlotByHandle myTcsKeyHandle myKeySlot]
      if myKeySlot ≠ k.NULL_TPM_HANDLE then
        let loaded := env.isKeyLoaded st myKeySlot
        let t2 := t1 ++ [KmCall.isKeyLoaded myKeySlot loaded]
        if loaded = true then (some myKeySlot, t2) else (none, t2)
      else (none, t1)
    else (none, t0)

/-- The part of the `do` block after the parent has been made resident
(`tcskcm.c:415-479`) and what follows it. -/
def loadKeyByBlob_loaded {σ : Type} (k : KmConsts) (env : KmEnv σ) (fuel : Nat) (st : σ)
    (hContext : TCS_CONTEXT_HANDLE) (hUnwrappingKey : TCS_KEY_HANDLE)
    (rgbWrappedKeyBlob : List BYTE) (pAuth : Option TCS_AUTH) (key : TCPA_KEY)
    (cWrappedKeyBlobSize : Nat) (parentKeySlot : TCPA_KEY_HANDLE) :
    Option (LoadOutcome σ) :=
  match loadAvoidance k env st pAuth key with
  | (some myKeySlot, t) =>
    some (loadKeyByBlob_afterDo k env st hContext hUnwrappingKey rgbWrappedKeyBlob pAuth key
      TSS_SUCCESS false myKeySlot [] |>.after t)
  | (none, t) =>
    (loadKeyByBlob_send k env fuel st hContext hUnwrappingKey rgbWrappedKeyBlob pAuth key
      cWrappedKeyBlobSize parentKeySlot).map (LoadOutcome.after t)

/-- The `do` block from the allocation of `key` on (`tcskcm.c:375-479`) and
what follows it. -/
def loadKeyByBlob_body {σ : Type} (k : KmConsts) (env : KmEnv σ) (fuel : Nat) (st : σ)
    (hContext : TCS_CONTEXT_HANDLE) (hUnwrappingKey : TCS_KEY_HANDLE)
    (rgbWrappedKeyBlob : List BYTE) (pAuth : Option TCS_AUTH) : Option (LoadOutcome σ) :=
  let ok := env.malloc st k.sizeof_TCPA_KEY
  let t1 := [KmCall.malloc k.sizeof_TCPA_KEY ok]
  if ok = false then some (loadKeyByBlob_return st pAuth k.TSS_E_OUTOFMEMORY |>.after t1)
  else
    let parsed := env.UnloadBlob_KEY rgbWrappedKeyBlob
    if parsed.1 ≠ 0 then some (loadKeyByBlob_return st pAuth parsed.1 |>.after t1)
    else
      let key := parsed.2.1
      let cWrappedKeyBlobSize := parsed.2.2
      -- The first thing to make sure is that the parent is loaded.
      let parentKeySlot := env.getSlotByHandle st hUnwrappingKey
      let t2 := t1 ++ [KmCall.getSlotByHandle hUnwrappingKey parentKeySlot]
      if parentKeySlot = k.NULL_TPM_HANDLE then
        let parentPubKey := env.getPubBySlot st hUnwrappingKey
        let t3 := t2 ++ [KmCall.getPubBySlot hUnwrappingKey parentPubKey]
        match parentPubKey with
        | none =>
          some (loadKeyByBlob_afterDo k env st hContext hUnwrappingKey rgbWrappedKeyBlob
            pAuth key k.TCS_E_KM_LOADFAILED true 0 [] |>.after t3)
        | some pub =>
          -- Otherwise, try to load it using the shim
          let l := env.LoadKeyShim st hContext pub none
          let t4 := t3 ++ [KmCall.LoadKeyShim hContext pub none l.1 l.2.1]
          if l.1 ≠ 0 then some (loadKeyByBlob_failed env l.2.2 pAuth l.1 |>.after t4)
          else
            (loadKeyByBlob_loaded k env fuel l.2.2 hContext hUnwrappingKey rgbWrappedKeyBlob
              pAuth key cWrappedKeyBlobSize l.2.1).map (LoadOutcome.after t4)
      else
        (loadKeyByBlob_loaded k env fuel st hContext hUnwrappingKey rgbWrappedKeyBlob pAuth
          key cWrappedKeyBlobSize parentKeySlot).map (LoadOutcome.after t2)

/-- The body of `TCSP_LoadKeyByBlob_Internal`. `pAuth = none` is a `NULL`
pointer. The size argument is overwritten at once (`tcskcm.c:361`) and later
set to the offset left by `UnloadBlob_KEY`. The result is `none` only if the
eviction loop has not been left within `fuel` iterations. -/
def TCSP_LoadKeyByBlob_Internal {σ : Type} (k : KmConsts) (env : KmEnv σ) (fuel : Nat) (st : σ)
    (hContext : TCS_CONTEXT_HANDLE) (hUnwrappingKey : TCS_KEY_HANDLE)
    (_cWrappedKeyBlobSize : Nat) (rgbWrappedKeyBlob : List BYTE) (pAuth : Option TCS_AUTH) :
    Option (LoadOutcome σ) :=
  let r0 := env.ctx_verify_context st hContext
  let t0 := [KmCall.ctx_verify_context hContext r0]
  if r0 ≠ 0 then some (loadKeyByBlob_failed env st pAuth r0 |>.after t0)
  else
    match pAuth with
    | some a =>
      let rA := env.auth_mgr_check st hContext a.AuthHandle
      let tA := t0 ++ [KmCall.auth_mgr_check hContext a.AuthHandle rA]
      if rA ≠ 0 then some (loadKeyByBlob_failed env st pAuth rA |>.after tA)
      else
        (loadKeyByBlob_body k env fuel st hContext hUnwrappingKey rgbWrappedKeyBlob pAuth).map
          (LoadOutcome.after tA)
    | none =>
      (loadKeyByBlob_body k env fuel st hContext hUnwrappingKey rgbWrappedKeyBlob pAuth).map
        (LoadOutcome.after t0)

/-! ### `TCSP_LoadKeyByUUID_Internal` (`tcskcm.c:574-663`) -/

/-- The test whether the key is resident now (`tcskcm.c:615-617`): whether
both conditions hold, and the calls made. -/
def loadKeyByUUID_resident {σ : Type} (k : KmConsts) (env : KmEnv σ) (st : σ)
    (h : TCS_KEY_HANDLE) : Bool × List KmCall :=
  if h ≠ k.NULL_TCS_HANDLE then
    let slot := env.getSlotByHandle st h
    (decide (slot ≠ k.NULL_TPM_HANDLE), [KmCall.getSlotByHandle h slot])
  else (false, [])

/-- The body of `TCSP_LoadKeyByUUID_Internal`, which always passes
`pLoadKeyInfo` on untouched and is modelled without it. `phKeyHMAC` and
`pAuth` of the outcome are not used. The recursion for the parent and the
eviction loop of `TCSP_LoadKeyByBlob_Internal` are both bounded by `fuel`;
the result is `none` when that bound is reached. After a successful
recursive call `parentTCSKeyHandle` is what the callee stored through its
last argument. -/
def TCSP_LoadKeyByUUID_Internal {σ : Type} (k : KmConsts) (env : KmEnv σ) :
    Nat → σ → TCS_CONTEXT_HANDLE → TSS_UUID → Option (LoadOutcome σ)
  | 0, _, _, _ => none
  | fuel + 1, st, hContext, KeyUUID =>
    let r0 := env.ctx_verify_context st hContext
    let t0 := [KmCall.ctx_verify_context hContext r0]
    if r0 ≠ 0 then some ⟨r0, st, none, none, none, t0⟩
    else
      let g := env.getRegisteredKeyByUUID st KeyUUID 0x1000
      let keyBlob := g.2.1
      let keySize := g.2.2
      let t1 := t0 ++ [KmCall.getRegisteredKeyByUUID KeyUUID g.1]
      if g.1 ≠ 0 then some ⟨k.TCS_E_KEY_NOT_REGISTERED, st, none, none, none, t1⟩
      else
        -- Now that there is a key, unload it for later use
        let myKey := (env.UnloadBlob_KEY keyBlob).2.1
        -- First, check if it's actually loaded now or was previously loaded
        let h := env.getTCSKeyHandleByPub st myKey.pubKey
        let t2 := t1 ++ [KmCall.getTCSKeyHandleByPub myKey.pubKey h]
        let res := loadKeyByUUID_resident k env st h
        let t3 := t2 ++ res.2
        if res.1 = true then
          let m := env.ctx_mark_key_loaded st hContext h
          let t4 := t3 ++ [KmCall.ctx_mark_key_loaded hContext h m.1]
          if m.1 ≠ 0 then some ⟨k.TSS_E_INTERNAL_ERROR, m.2, some h, none, none, t4⟩
          else some ⟨TSS_SUCCESS, m.2, some h, none, none, t4⟩
        else
          -- Get my parent's UUID.
          let p := env.getParentUUIDByUUID st KeyUUID
          let parentUuid := p.2
          let t4 := t3 ++ [KmCall.getParentUUIDByUUID KeyUUID p.1 parentUuid]
          if p.1 ≠ 0 then some ⟨k.TCS_E_KM_LOADFAILED, st, some h, none, none, t4⟩
          else
            let parentPub := env.getPubByUuid st parentUuid
            let t5 := t4 ++ [KmCall.getPubByUuid parentUuid parentPub]
            match parentPub with
            | none =>
              -- Load the parent by it's UUID
              match TCSP_LoadKeyByUUID_Internal k env fuel st hContext parentUuid with
              | none => none
              | some o =>
                let t6 := t5 ++ [KmCall.recurse parentUuid] ++ o.trace
                if o.result ≠ 0 then some ⟨o.result, o.state, some h, none, none, t6⟩
                else
                  let parentTCSKeyHandle := o.phKeyTCSI.getD 0
                  (TCSP_LoadKeyByBlob_Internal k env fuel o.state hContext parentTCSKeyHandle
                    keySize keyBlob none).map
                    (fun b => ⟨b.result, b.state, b.phKeyTCSI.orElse (fun _ => some h), none,
                      none, t6 ++ b.trace⟩)
            | some pub =>
              -- Parent is already loaded, or was loaded at some time
              let l := env.LoadKeyShim st hContext pub (some parentUuid)
              let t6 := t5 ++ [KmCall.LoadKeyShim hContext pub (some parentUuid) l.1 l.2.1]
              if l.1 ≠ 0 then some ⟨l.1, l.2.2, some h, none, none, t6⟩
              else
                let parentTCSKeyHandle := env.getAnyHandleBySlot l.2.2 l.2.1
                let t7 := t6 ++ [KmCall.getAnyHandleBySlot l.2.1 parentTCSKeyHandle]
                (TCSP_LoadKeyByBlob_Internal k env fuel l.2.2 hContext parentTCSKeyHandle
                  keySize keyBlob none).map
                  (fun b => ⟨b.result, b.state, b.phKeyTCSI.orElse (fun _ => some h), none,
                    none, t7 ++ b.trace⟩)

/-! ### `TCSP_EvictKey_Internal` (`tcskcm.c:665-686`) -/

/-- What `TCSP_EvictKey_Internal` leaves behind. -/
structure EvictOutcome (σ : Type) where
  result : TSS_RESULT
  state : σ
  trace : List KmCall

/-- The body of `TCSP_EvictKey_Internal`. -/
def TCSP_EvictKey_Internal {σ : Type} (k : KmConsts) (env : KmEnv σ) (st : σ)
    (hContext : TCS_CONTEXT_HANDLE) (hKey : TCS_KEY_HANDLE) : EvictOutcome σ :=
  let r0 := env.ctx_verify_context st hContext
  let t0 := [KmCall.ctx_verify_context hContext r0]
  if r0 ≠ 0 then ⟨r0, st, t0⟩
  else
    let tpm_handle := env.getSlotByHandle st hKey
    let t1 := t0 ++ [KmCall.getSlotByHandle hKey tpm_handle]
    -- let's call this success if the key is already evicted
    if tpm_handle = k.NULL_TPM_HANDLE then ⟨TSS_SUCCESS, st, t1⟩
    else
      let e := env.internal_EvictByKeySlot st tpm_handle
      let t2 := t1 ++ [KmCall.internal_EvictByKeySlot tpm_handle e.1]
      if e.1 ≠ 0 then ⟨e.1, e.2, t2⟩
      else
        let r := env.setSlotBySlot e.2 tpm_handle k.NULL_TPM_HANDLE
        ⟨r.1, r.2, t2 ++ [KmCall.setSlotBySlot tpm_handle k.NULL_TPM_HANDLE r.1]⟩

/-! ## A memory cache and TPM after the specification -/

/-- Modelled from the spec: a `MemCacheEntry` of the memory (slot) cache
(section 3), "{ handle: opaque logical key handle, slot: hardware slot
number | not loaded, public_key: bytes, parent_handle }"; "not loaded" is
the slot `NULL_TPM_HANDLE`. -/
structure MemCacheEntry where
  handle : TCS_KEY_HANDLE
  slot : TCPA_KEY_HANDLE
  public_key : TCPA_STORE_PUBKEY
  parent_handle : TCS_KEY_HANDLE
  deriving DecidableEq, Repr

/-- Modelled from the spec: the state behind the functions of `KmEnv`: the
memory cache, the number of entries that can still be allocated for it, the
key registry, the number of hardware key slots, the open authorization
sessions, the next free logical handle and hardware slot, the code the TPM
answers its next command with, and the keys marked as loaded per context. -/
structure KmWorld where
  mem : List MemCacheEntry
  memFree : Nat
  registry : Registry
  capacity : Nat
  auths : List Nat
  nextHandle : TCS_KEY_HANDLE
  nextSlot : TCPA_KEY_HANDLE
  tpmResult : TSS_RESULT
  marked : List (TCS_CONTEXT_HANDLE × TCS_KEY_HANDLE)
  deriving DecidableEq, Repr

/-- Modelled from the spec: `getSlotByHandle`, section 4.3
"GetSlotByHandle(handle) -> slot | NotLoaded". -/
def specGetSlotByHandle (k : KmConsts) (w : KmWorld) (h : TCS_KEY_HANDLE) : TCPA_KEY_HANDLE :=
  match w.mem.find? (fun e => e.handle = h) with
  | some e => e.slot
  | none => k.NULL_TPM_HANDLE

/-- Modelled from the spec: `getTCSKeyHandleByPub`, section 4.3
"GetHandleByPublicKey(pub) -> handle | NotFound". -/
def specGetTCSKeyHandleByPub (k : KmConsts) (w : KmWorld) (pub : TCPA_STORE_PUBKEY) :
    TCS_KEY_HANDLE :=
  match w.mem.find? (fun e => e.public_key = pub) with
  | some e => e.handle
  | none => k.NULL_TCS_HANDLE

/-- Modelled from the spec: `setSlotByHandle`, section 4.3 "SetSlot(handle,
slot)". -/
def specSetSlotByHandle (w : KmWorld) (h : TCS_KEY_HANDLE) (slot : TCPA_KEY_HANDLE) : KmWorld :=
  { w with mem := w.mem.map (fun e => if e.handle = h then { e with slot := slot } else e) }

/-- Modelled from the spec: `setSlotBySlot`, used as the "ClearSlot" of
section 4.3 ("eviction marks slot empty without deleting the logical-handle
knowledge"): the entries holding the slot `old` get the slot `new`; it is an
error when no entry holds `old`. -/
def specSetSlotBySlot (k : KmConsts) (w : KmWorld) (old new : TCPA_KEY_HANDLE) :
    TSS_RESULT × KmWorld :=
  if w.mem.any (fun e => e.slot = old) then
    (TSS_SUCCESS,
      { w with mem := w.mem.map (fun e => if e.slot = old then { e with slot := new } else e) })
  else (k.TCS_E_FAIL, w)

/-- Modelled from the spec: `add_mem_cache_entry`, section 4.3
"AddEntry(handle, slot, key_material) -> Result: fails with OutOfMemory if
allocation fails, otherwise inserts". -/
def specAddMemCacheEntry (k : KmConsts) (w : KmWorld) (h : TCS_KEY_HANDLE)
    (slot : TCPA_KEY_HANDLE) (key : TCPA_KEY) : TSS_RESULT × KmWorld :=
  if w.memFree = 0 then (k.TSS_E_OUTOFMEMORY, w)
  else
    (TSS_SUCCESS,
      { w with
        mem := w.mem ++ [⟨h, slot, key.pubKey, k.NULL_TCS_HANDLE⟩]
        memFree := w.memFree - 1 })

/-- Modelled from the spec: `setParentByHandle`, which records the "parent
linkage" of section 4.4 step 6. -/
def specSetParentByHandle (w : KmWorld) (h parent : TCS_KEY_HANDLE) : TSS_RESULT × KmWorld :=
  (TSS_SUCCESS,
    { w with
      mem := w.mem.map (fun e => if e.handle = h then { e with parent_handle := parent } else e) })

/-- Modelled from the spec: `evictFirstKey`, section 4.4 step 4: "evict the
least-prioritized non-parent resident key"; here the first resident entry
other than the parent. It fails when there is none. -/
def specEvictFirstKey (k : KmConsts) (w : KmWorld) (hUnwrappingKey : TCS_KEY_HANDLE) :
    TSS_RESULT × KmWorld :=
  match w.mem.find? (fun e => e.slot ≠ k.NULL_TPM_HANDLE ∧ e.handle ≠ hUnwrappingKey) with
  | some e => (TSS_SUCCESS, specSetSlotByHandle w e.handle k.NULL_TPM_HANDLE)
  | none => (k.TCS_E_KM_LOADFAILED, w)

/-- Modelled from the spec: `canILoadThisKey`, section 4.4 step 4: "ask
whether the key's algorithm/size can fit in a free slot"; here a slot is
free when fewer than `capacity` entries are resident. -/
def specCanILoadThisKey (k : KmConsts) (w : KmWorld) (_parms : TCPA_KEY_PARMS) :
    TSS_RESULT × Bool :=
  (TSS_SUCCESS, decide ((w.mem.filter (fun e => e.slot ≠ k.NULL_TPM_HANDLE)).length < w.capacity))

/-- Modelled from the spec: `UnloadBlob_KEY`, the "opaque decode" of
section 6. In this world a key blob is its public key; the empty blob does
not parse. -/
def specUnloadBlobKey (k : KmConsts) (blob : List BYTE) : TSS_RESULT × TCPA_KEY × Nat :=
  if blob = [] then (k.TCS_E_FAIL, ⟨[], [], []⟩, 0) else (TSS_SUCCESS, ⟨blob, [], []⟩, blob.length)

/-- Modelled from the spec: `req_mgr_submit_req`, section 6 "submit(
command_bytes) -> response_bytes". The transport always succeeds; the
response holds the code of the TPM, the slot of the loaded key and the
continue flag of the authorization. -/
def specSubmit (w : KmWorld) (tx : TxBlob) : TSS_RESULT × List BYTE × KmWorld :=
  (TSS_SUCCESS,
    [w.tpmResult, w.nextSlot,
      match tx.auth with
      | some a => if a.fContinueAuthSession then 1 else 0
      | none => 0],
    if w.tpmResult = 0 then { w with nextSlot := w.nextSlot + 1 } else w)

/-- Modelled from the spec: `LoadKeyShim`, the "lightweight ensure loaded
call" of section 4.4 step 3: it succeeds with the slot of the key when the
key is resident. -/
def specLoadKeyShim (k : KmConsts) (w : KmWorld) (_hContext : TCS_CONTEXT_HANDLE)
    (pub : TCPA_STORE_PUBKEY) (_uuid : Option TSS_UUID) : TSS_RESULT × TCPA_KEY_HANDLE × KmWorld :=
  match w.mem.find? (fun e => e.public_key = pub ∧ e.slot ≠ k.NULL_TPM_HANDLE) with
  | some e => (TSS_SUCCESS, e.slot, w)
  | none => (k.TCS_E_KM_LOADFAILED, k.NULL_TPM_HANDLE, w)

/-- The outside functions of the loader after the specification, over a
`KmWorld`: every context handle other than `0` is valid, an authorization
check succeeds for an open session, every allocation succeeds. -/
def specKmEnv (k : KmConsts) : KmEnv KmWorld where
  ctx_verify_context := fun _ h => if h = 0 then k.TCS_E_FAIL else TSS_SUCCESS
  auth_mgr_check := fun w _ a => if a ∈ w.auths then TSS_SUCCESS else k.TCS_E_FAIL
  auth_mgr_release_auth := fun w a => { w with auths := w.auths.filter (fun b => b ≠ a) }
  malloc := fun _ _ => true
  UnloadBlob_KEY := specUnloadBlobKey k
  UnloadBlob_Header := fun resp => resp.headD 0
  UnloadBlob_UINT32 := fun _ resp => resp.tail.headD 0
  UnloadBlob_Auth := fun _ resp a =>
    { a with fContinueAuthSession := decide (resp.tail.tail.headD 0 ≠ 0) }
  getSlotByHandle := specGetSlotByHandle k
  getPubBySlot := fun w h => (w.mem.find? (fun e => e.handle = h)).map MemCacheEntry.public_key
  LoadKeyShim := specLoadKeyShim k
  getTCSKeyHandleByPub := specGetTCSKeyHandleByPub k
  isKeyLoaded := fun w slot => w.mem.any (fun e => e.slot = slot)
  canILoadThisKey := specCanILoadThisKey k
  evictFirstKey := specEvictFirstKey k
  req_mgr_submit_req := specSubmit
  getNextTcsKeyHandle := fun w => (w.nextHandle, { w with nextHandle := w.nextHandle + 1 })
  add_mem_cache_entry := specAddMemCacheEntry k
  ctx_mark_key_loaded := fun w c h => (TSS_SUCCESS, { w with marked := w.marked ++ [(c, h)] })
  setParentByHandle := specSetParentByHandle
  setSlotByHandle := specSetSlotByHandle
  getRegisteredKeyByUUID := fun w u size =>
    match w.registry.find? (fun r => r.key_id = u) with
    | some r =>
      if r.wrapped_blob.length ≤ size then (TSS_SUCCESS, r.wrapped_blob, r.wrapped_blob.length)
      else (k.TCS_E_FAIL, [], size)
    | none => (k.TCS_E_KEY_NOT_REGISTERED, [], size)
  getParentUUIDByUUID := fun w u =>
    match w.registry.find? (fun r => r.key_id = u) with
    | some r => (TSS_SUCCESS, r.parent_id)
    | none => (k.TCS_E_FAIL, k.NULL_UUID)
  getPubByUuid := fun w u =>
    match w.registry.find? (fun r => r.key_id = u) with
    | some r =>
      if w.mem.any (fun e => e.public_key = r.wrapped_blob) then some r.wrapped_blob else none
    | none => none
  getAnyHandleBySlot := fun w slot =>
    match w.mem.find? (fun e => e.slot = slot) with
    | some e => e.handle
    | none => k.NULL_TCS_HANDLE
  internal_EvictByKeySlot := fun w _ => (w.tpmResult, w)
  setSlotBySlot := specSetSlotBySlot k

/-- One choice of the loader's header constants, on top of `tssConsts`. -/
def tssKmConsts : KmConsts where
  toConsts := tssConsts
  TCS_E_KM_LOADFAILED := 0x200A
  NULL_TPM_HANDLE := 0xFFFFFFFF
  NULL_TCS_HANDLE := 0
  TPM_ORD_LoadKey := 32
  TPM_TAG_RQU_COMMAND := 0xC1
  TPM_TAG_RQU_AUTH1_COMMAND := 0xC2
  sizeof_TCPA_KEY := 64

/-- A world with the storage root key (handle `1`, public key `[1]`)
resident in slot `0x1000`, the key with public key `[0xCC]` (handle `2`)
known but not resident, room for eight more entries, two hardware slots,
the authorization session `7` open, a TPM that accepts commands, and a
registry with the blobs `[1]` for `uuidOf 1` and `[0xCC]` for `uuidOf 2`. -/
def sampleWorld : KmWorld where
  mem := [⟨1, 0x1000, [1], 0⟩, ⟨2, 0xFFFFFFFF, [0xCC], 1⟩]
  memFree := 8
  registry := [⟨uuidOf 1, uuidOf 0, [1], []⟩, ⟨uuidOf 2, uuidOf 1, [0xCC], []⟩]
  capacity := 2
  auths := [7]
  nextHandle := 3
  nextSlot := 0x1001
  tpmResult := 0
  marked := []

/-- An authorization block for the session `7` that is not continued. -/
def sampleAuth : TCS_AUTH := ⟨7, false, []⟩

/-- The loader's error codes are error codes: none of them is
`TSS_SUCCESS`. -/
def KmConsts.ErrorsNonzero (k : KmConsts) : Prop :=
  k.toConsts.ErrorsNonzero ∧ k.TCS_E_KM_LOADFAILED ≠ TSS_SUCCESS

instance (k : KmConsts) : Decidable k.ErrorsNonzero := by
  unfold KmConsts.ErrorsNonzero; infer_instance

/-- A call is a `req_mgr_submit_req` call. -/
def KmCall.isSubmit : KmCall → Bool
  | .req_mgr_submit_req _ _ => true
  | _ => false

/-- A call is one of those made by `TCSP_LoadKeyByBlob_Internal` before
the capacity check (`tcskcm.c:363-433`): `ctx_verify_context`,
`auth_mgr_check`, `malloc`, `getSlotByHandle`, `getPubBySlot`, `LoadKeyShim`,
`getTCSKeyHandleByPub`, `isKeyLoaded`. -/
def KmCall.isPrelude : KmCall → Bool
  | .ctx_verify_context _ _ => true
  | .auth_mgr_check _ _ _ => true
  | .malloc _ _ => true
  | .getSlotByHandle _ _ => true
  | .getPubBySlot _ _ => true
  | .LoadKeyShim _ _ _ _ _ => true
  | .getTCSKeyHandleByPub _ _ => true
  | .isKeyLoaded _ _ => true
  | _ => false

/-- A call is an `auth_mgr_release_auth` call. -/
def KmCall.isRelease : KmCall → Bool
  | .auth_mgr_release_auth _ => true
  | _ => false

/-- A call is one of the memory-cache mutators `add_mem_cache_entry`,
`setSlotByHandle`, `setParentByHandle`, `setSlotBySlot`. -/
def KmCall.isCacheUpdate : KmCall → Bool
  | .add_mem_cache_entry _ _ _ _ => true
  | .setSlotByHandle _ _ => true
  | .setParentByHandle _ _ _ => true
  | .setSlotBySlot _ _ _ => true
  | _ => false

/-- The ways in which an execution ends, given the calls `pre` made before
the capacity check: the execution
(a) has left the `do` block with an error before the capacity check, or
(b) has returned at once because the allocation or the parsing failed, or
(c) has found the key resident (only without authorization) and gone on to
the cache update, or
(d) has returned at once with the error of the capacity check, or
(e) has submitted the load request after a capacity check that succeeded. -/
def LoadKeyByBlobEnds {σ : Type} (k : KmConsts) (env : KmEnv σ) (fuel : Nat) (st : σ)
    (hContext : TCS_CONTEXT_HANDLE) (hU : TCS_KEY_HANDLE) (blob : List BYTE)
    (pAuth : Option TCS_AUTH) (pre : List KmCall) (out : LoadOutcome σ) : Prop :=
  ((∃ st1 r, r ≠ 0 ∧ out = (loadKeyByBlob_failed env st1 pAuth r).after pre) ∨
        (∃ r, r ≠ 0 ∧ out = (loadKeyByBlob_return st pAuth r).after pre) ∨
        (∃ st1 slot, pAuth = none ∧
          out = (loadKeyByBlob_update k env st1 hContext hU blob none
            (env.UnloadBlob_KEY blob).2.1 slot).after pre) ∨
        (∃ st1 st2 r cap,
          capacityPhase env hU (env.UnloadBlob_KEY blob).2.1.algorithmParms fuel st1
            = some (r, st2, cap) ∧
          r ≠ 0 ∧ out = (loadKeyByBlob_return st2 pAuth r).after (pre ++ cap)) ∨
        (∃ st1 st2 cap pslot,
          capacityPhase env hU (env.UnloadBlob_KEY blob).2.1.algorithmParms fuel st1
            = some (0, st2, cap) ∧
          out =
            (loadKeyByBlob_afterDo k env
              (env.req_mgr_submit_req st2
                (loadKeyRequest k pslot (env.UnloadBlob_KEY blob).2.2 blob pAuth)).2.2
              hContext hU blob pAuth (env.UnloadBlob_KEY blob).2.1
              (env.req_mgr_submit_req st2
                (loadKeyRequest k pslot (env.UnloadBlob_KEY blob).2.2 blob pAuth)).1 true 0
              (env.req_mgr_submit_req st2
                (loadKeyRequest k pslot (env.UnloadBlob_KEY blob).2.2 blob pAuth)).2.1).after
            (pre ++ cap ++
              [KmCall.req_mgr_submit_req
                (loadKeyRequest k pslot (env.UnloadBlob_KEY blob).2.2 blob pAuth)
                (env.req_mgr_submit_req st2
                  (loadKeyRequest k pslot (env.UnloadBlob_KEY blob).2.2 blob pAuth)).1])))

/-- The ways in which the cache update (`tcskcm.c:511-571`) ends when no
handle exists for the key, given the new handle `hnew` and the calls `tail`
made after `getNextTcsKeyHandle`: the second parse fails (only without
authorization), or `add_mem_cache_entry` fails and its code is returned, or
`ctx_mark_key_loaded` fails and `TSS_E_INTERNAL_ERROR` is returned, or
`setParentByHandle` (called only without authorization) fails and its code
is returned, or all succeed and the outputs are the new handle and the
slot. -/
def UpdateNewEnds {σ : Type} (k : KmConsts) (hContext : TCS_CONTEXT_HANDLE)
    (hU : TCS_KEY_HANDLE) (pAuth : Option TCS_AUTH) (slot : TCPA_KEY_HANDLE)
    (hnew : TCS_KEY_HANDLE) (tail : List KmCall) (o : LoadOutcome σ) : Prop :=
  (pAuth = none ∧ tail = [] ∧ o.result ≠ 0 ∧ o.phKeyTCSI = none ∧ o.phKeyHMAC = none) ∨
  (∃ key1 ra, tail = [KmCall.add_mem_cache_entry hnew slot key1 ra] ∧ ra ≠ 0 ∧
    o.result = ra ∧ o.phKeyTCSI = none ∧ o.phKeyHMAC = none) ∨
  (∃ key1 rm, tail = [KmCall.add_mem_cache_entry hnew slot key1 0,
      KmCall.ctx_mark_key_loaded hContext hnew rm] ∧ rm ≠ 0 ∧
    o.result = k.TSS_E_INTERNAL_ERROR ∧ o.phKeyTCSI = none ∧ o.phKeyHMAC = none) ∨
  (∃ key1 rq, pAuth = none ∧ tail = [KmCall.add_mem_cache_entry hnew slot key1 0,
      KmCall.ctx_mark_key_loaded hContext hnew 0, KmCall.setParentByHandle hnew hU rq] ∧
    rq ≠ 0 ∧ o.result = rq ∧ o.phKeyTCSI = none ∧ o.phKeyHMAC = none) ∨
  (∃ key1, tail = [KmCall.add_mem_cache_entry hnew slot key1 0,
      KmCall.ctx_mark_key_loaded hContext hnew 0] ++
      (if pAuth = none then [KmCall.setParentByHandle hnew hU 0] else []) ∧
    o.result = TSS_SUCCESS ∧ o.phKeyTCSI = some hnew ∧ o.phKeyHMAC = some slot)

/-- A call is one of the capacity check (`tcskcm.c:439-458`):
`canILoadThisKey` or `evictFirstKey`. -/
def KmCall.isCapacity : KmCall → Bool
  | .canILoadThisKey _ _ _ => true
  | .evictFirstKey _ _ => true
  | _ => false

/-- Two consecutive calls of the capacity check: a `canILoadThisKey` that
reported `FALSE`, followed by `evictFirstKey(hUnwrappingKey)`; or an
`evictFirstKey(hUnwrappingKey)` that succeeded, followed by the next
`canILoadThisKey`. -/
def CapacityStep (parms : TCPA_KEY_PARMS) (hU : TCS_KEY_HANDLE) (a b : KmCall) : Prop :=
  (a = KmCall.canILoadThisKey parms 0 false ∧ ∃ r, b = KmCall.evictFirstKey hU r) ∨
  (a = KmCall.evictFirstKey hU 0 ∧ ∃ r c, b = KmCall.canILoadThisKey parms r c)

/-- The last call of a capacity check with result `r`: for `r = 0` a
`canILoadThisKey` that reported `TRUE`; otherwise the `evictFirstKey` or
`canILoadThisKey` that failed with `r`. -/
def CapacityLast (parms : TCPA_KEY_PARMS) (hU : TCS_KEY_HANDLE) (r : TSS_RESULT)
    (e : KmCall) : Prop :=
  (r = 0 ∧ e = KmCall.canILoadThisKey parms 0 true) ∨
  (r ≠ 0 ∧ (e = KmCall.evictFirstKey hU r ∨ ∃ c, e = KmCall.canILoadThisKey parms r c))

/-- A world whose TPM is full: the parent `1` and the key `4` occupy the
two slots there are. -/
def fullWorld : KmWorld :=
  { sampleWorld with mem := [⟨1, 0x1000, [1], 0⟩, ⟨4, 0x1002, [0xEE], 1⟩] }

/-! ## Key creation: `TCSP_CreateWrapKey_Internal` (`tcskcm.c:688-776`) -/

/-- Header constants of `TCSP_CreateWrapKey_Internal`, on top of those of
the loader. -/
structure WrapConsts extends KmConsts where
  TPM_ORD_CreateWrapKey : Nat
  TPM_ENCAUTH_SIZE : Nat

/-- A call made by `TCSP_CreateWrapKey_Internal` to a function outside
`tcskcm.c`, with the values the call returned. -/
inductive WrapCall where
  | ctx_verify_context (hContext : TCS_CONTEXT_HANDLE) (result : TSS_RESULT)
  | auth_mgr_check (hContext : TCS_CONTEXT_HANDLE) (AuthHandle : Nat) (result : TSS_RESULT)
  | auth_mgr_release_auth (AuthHandle : Nat)
  | getSlotByHandle_lock (h : TCS_KEY_HANDLE) (slot : TCPA_KEY_HANDLE)
  | req_mgr_submit_req (tx : TxBlob) (result : TSS_RESULT)
  | getSomeMemory (howMuch : Nat) (ok : Bool)
  deriving DecidableEq, Repr

/-- The functions that `TCSP_CreateWrapKey_Internal` calls and `tcskcm.c`
does not define: those of the loader, `getSlotByHandle_lock`, and
`getSomeMemory`, which is `true` when the allocation returns a non-`NULL`
pointer. -/
structure WrapEnv (σ : Type) extends KmEnv σ where
  getSlotByHandle_lock : σ → TCS_KEY_HANDLE → TCPA_KEY_HANDLE
  getSomeMemory : σ → Nat → TCS_CONTEXT_HANDLE → Bool

/-- What `TCSP_CreateWrapKey_Internal` leaves behind: its return value, the
state, the output parameters (`none` when not written; `keyData = some none`
is `NULL` stored in `*keyData`), the value left in `*pAuth` and the outside
calls it made. -/
structure WrapOutcome (σ : Type) where
  result : TSS_RESULT
  state : σ
  keyDataSize : Option Nat
  keyData : Option (Option (List BYTE))
  pAuth : TCS_AUTH
  trace : List WrapCall

/-- The block `if (result) { auth_mgr_release_auth(...); return result; }`
after the `do` block (`tcskcm.c:737-740`), after the calls `t`. -/
def createWrapKey_failed {σ : Type} (env : WrapEnv σ) (st : σ) (pAuth : TCS_AUTH)
    (result : TSS_RESULT) (t : List WrapCall) : WrapOutcome σ :=
  ⟨result, env.auth_mgr_release_auth st pAuth.AuthHandle, none, none, pAuth,
    t ++ [WrapCall.auth_mgr_release_auth pAuth.AuthHandle]⟩

/-- The request assembled at `tcskcm.c:724-732`: the parent slot, the two
encrypted authorizations, the key and the authorization block. -/
def createWrapKeyRequest (k : WrapConsts) (parentSlot : TCPA_KEY_HANDLE)
    (KeyUsageAuth KeyMigrationAuth : List BYTE) (keyInfoSize : Nat) (keyInfo : List BYTE)
    (pAuth : TCS_AUTH) : TxBlob :=
  ⟨k.TPM_TAG_RQU_AUTH1_COMMAND, k.TPM_ORD_CreateWrapKey, parentSlot,
    KeyUsageAuth.take k.TPM_ENCAUTH_SIZE ++ KeyMigrationAuth.take k.TPM_ENCAUTH_SIZE ++
      keyInfo.take keyInfoSize,
    some pAuth⟩

/-- The code after a successful submission (`tcskcm.c:742-775`), with the
response `txBlob` and the calls `t` made so far. `UnloadBlob_KEY` parses the
response from offset `10` on and `offset` (a `UINT16`, taken to stay below
`2^16`) is `10` plus the length it parsed. -/
def createWrapKey_response {σ : Type} (k : WrapConsts) (env : WrapEnv σ) (st : σ)
    (hContext : TCS_CONTEXT_HANDLE) (pAuth : TCS_AUTH) (txBlob : List BYTE)
    (t : List WrapCall) : WrapOutcome σ :=
  let result := env.UnloadBlob_Header txBlob
  let released := pAuth.fContinueAuthSession = false
  let st1 := if released then env.auth_mgr_release_auth st pAuth.AuthHandle else st
  let t1 := if released then t ++ [WrapCall.auth_mgr_release_auth pAuth.AuthHandle] else t
  if result = 0 then
    -- First get the data from the packet
    let parsed := env.UnloadBlob_KEY (txBlob.drop 10)
    -- Here's how big it is
    let keyDataSize := parsed.2.2
    -- malloc the outBuffer
    let ok := env.getSomeMemory st1 keyDataSize hContext
    let t2 := t1 ++ [WrapCall.getSomeMemory keyDataSize ok]
    let pAuth1 := env.UnloadBlob_Auth (10 + keyDataSize) txBlob pAuth
    if ok = false then
      ⟨k.TSS_E_OUTOFMEMORY, env.auth_mgr_release_auth st1 pAuth1.AuthHandle, some keyDataSize,
        some none, pAuth1, t2 ++ [WrapCall.auth_mgr_release_auth pAuth1.AuthHandle]⟩
    else
      ⟨0, st1, some keyDataSize, some (some ((txBlob.drop 10).take keyDataSize)), pAuth1, t2⟩
  else ⟨result, st1, none, none, pAuth, t1⟩

/-- The body of `TCSP_CreateWrapKey_Internal`. `pAuth` is dereferenced
unconditionally and is therefore not a `NULL` pointer. -/
def TCSP_CreateWrapKey_Internal {σ : Type} (k : WrapConsts) (env : WrapEnv σ) (st : σ)
    (hContext : TCS_CONTEXT_HANDLE) (hWrappingKey : TCS_KEY_HANDLE)
    (KeyUsageAuth KeyMigrationAuth : List BYTE) (keyInfoSize : Nat) (keyInfo : List BYTE)
    (pAuth : TCS_AUTH) : WrapOutcome σ :=
  let r0 := env.ctx_verify_context st hContext
  let t0 := [WrapCall.ctx_verify_context hContext r0]
  if r0 ≠ 0 then createWrapKey_failed env st pAuth r0 t0
  else
    let rA := env.auth_mgr_check st hContext pAuth.AuthHandle
    let t1 := t0 ++ [WrapCall.auth_mgr_check hContext pAuth.AuthHandle rA]
    if rA ≠ 0 then createWrapKey_failed env st pAuth rA t1
    else
      -- Since hWrappingKey must already be loaded, we can fail immediately if
      -- getSlotByHandle() fails.
      let parentSlot := env.getSlotByHandle_lock st hWrappingKey
      let t2 := t1 ++ [WrapCall.getSlotByHandle_lock hWrappingKey parentSlot]
      if parentSlot = k.NULL_TPM_HANDLE then createWrapKey_failed env st pAuth k.TCS_E_FAIL t2
      else
        let tx := createWrapKeyRequest k parentSlot KeyUsageAuth KeyMigrationAuth keyInfoSize
          keyInfo pAuth
        let s := env.req_mgr_submit_req st tx
        let t3 := t2 ++ [WrapCall.req_mgr_submit_req tx s.1]
        if s.1 ≠ 0 then createWrapKey_failed env s.2.2 pAuth s.1 t3
        else createWrapKey_response k env s.2.2 hContext pAuth s.2.1 t3

/-- Modelled from the spec: `getSlotByHandle_lock` is the lookup
"GetSlotByHandle(handle) -> slot | NotFound" of section 4.3 made under the
memory-cache lock; every allocation succeeds. -/
def specWrapEnv (k : KmConsts) : WrapEnv KmWorld where
  toKmEnv := specKmEnv k
  getSlotByHandle_lock := specGetSlotByHandle k
  getSomeMemory := fun _ _ _ => true

/-- One choice of the constants of `TCSP_CreateWrapKey_Internal`, on top of
`tssKmConsts`. -/
def tssWrapConsts : WrapConsts where
  toKmConsts := tssKmConsts
  TPM_ORD_CreateWrapKey := 31
  TPM_ENCAUTH_SIZE := 20

/-! ## The parent recursion of `TCSP_LoadKeyByUUID_Internal` -/

/-- A call is the marker of a recursive call of
`TCSP_LoadKeyByUUID_Internal`. -/
def KmCall.isRecurse : KmCall → Bool
  | .recurse _ => true
  | _ => false

/-- The UUID that `getParentUUIDByUUID` stores for `uuid` in the state
`st`. -/
def parentOf {σ : Type} (env : KmEnv σ) (st : σ) (uuid : TSS_UUID) : TSS_UUID :=
  (env.getParentUUIDByUUID st uuid).2

/-- The parent chain from `K` in the registry of the state `st` is acyclic
and of length at most `D`: following the parent UUIDs from `K`, a UUID for
which `getRegisteredKeyByUUID` fails (such as the null parent of a root) is
reached after at most `D` registered keys. -/
def parentChainEnds {σ : Type} (env : KmEnv σ) (st : σ) : Nat → TSS_UUID → Bool
  | 0, K => decide ((env.getRegisteredKeyByUUID st K 0x1000).1 ≠ 0)
  | D + 1, K =>
    decide ((env.getRegisteredKeyByUUID st K 0x1000).1 ≠ 0) ||
      parentChainEnds env st D (parentOf env st K)

/-- Modelled from the spec: the number of keys resident in the TPM, the
entries of the memory cache with a slot (section 3, "slot: HardwareSlot |
Empty"). -/
def residentCount (k : KmConsts) (w : KmWorld) : Nat :=
  (w.mem.filter (fun e => e.slot ≠ k.NULL_TPM_HANDLE)).length

/-- A world with three registered keys in a chain, the storage root key
`uuidOf 1`, its child `uuidOf 2` and the grandchild `uuidOf 3`, of which only
the root has been loaded. -/
def chainWorld : KmWorld :=
  { sampleWorld with
    mem := [⟨1, 0x1000, [1], 0⟩]
    registry := sampleWorld.registry ++ [⟨uuidOf 3, uuidOf 2, [0xEE], []⟩] }

/-- The environment of the specification with a transport to the TPM that
is down: every `req_mgr_submit_req` fails with `TCS_E_FAIL`. -/
def downKmEnv (k : KmConsts) : KmEnv KmWorld :=
  { specKmEnv k with req_mgr_submit_req := fun w _ => (k.TCS_E_FAIL, [], w) }

/-! ## The TSP interface to persistent storage (`src/tspi/tspi_ps.c`) -/

abbrev TSS_HCONTEXT := Nat
abbrev TSS_HKEY := Nat
abbrev TSS_FLAG := Nat

/-- Header constants and the macro `TSPERR` used by `tspi_ps.c`, whose
definitions live outside the file. -/
structure PsConsts where
  TSS_E_BAD_PARAMETER : TSS_RESULT
  TSS_E_INVALID_HANDLE : TSS_RESULT
  TSS_PS_TYPE_SYSTEM : TSS_FLAG
  TSS_PS_TYPE_USER : TSS_FLAG
  TSS_OBJ_FLAG_SYSTEM_PS : TSS_FLAG
  TSPERR : TSS_RESULT → TSS_RESULT

/-- A call made by `Tspi_Context_UnregisterKey` or
`Tspi_Context_GetKeyByUUID` to a function outside `tspi_ps.c`, with the code
it returned. -/
inductive PsCall where
  | obj_context_is_connected (tspContext : TSS_HCONTEXT) (result : TSS_RESULT)
  | TCS_GetRegisteredKeyBlob (tcsContext : TCS_CONTEXT_HANDLE) (uuid : TSS_UUID)
      (result : TSS_RESULT)
  | obj_rsakey_add_by_key (tspContext : TSS_HCONTEXT) (uuid : TSS_UUID) (keyBlob : List BYTE)
      (flags : TSS_FLAG) (result : TSS_RESULT)
  | TCSP_UnregisterKey (tcsContext : TCS_CONTEXT_HANDLE) (uuid : TSS_UUID)
      (result : TSS_RESULT)
  | obj_is_context (tspContext : TSS_HCONTEXT) (answer : Bool)
  | ps_get_key_by_uuid (tspContext : TSS_HCONTEXT) (uuid : TSS_UUID) (result : TSS_RESULT)
  | ps_remove_key (uuid : TSS_UUID) (result : TSS_RESULT)
  deriving DecidableEq, Repr

/-- The functions that the two entry points call and `tspi_ps.c` does not
define, over a state `σ`.

* `obj_context_is_connected` returns its code and the TCS context.
* `TCS_GetRegisteredKeyBlob` returns its code and the key blob.
* `obj_rsakey_add_by_key` and `ps_get_key_by_uuid` return their code, what
  they stored in `*phKey` (`none` when they did not write it) and the new
  state.
* `TCSP_UnregisterKey` and `ps_remove_key` return their code and the new
  state. -/
structure PsEnv (σ : Type) where
  obj_context_is_connected : σ → TSS_HCONTEXT → TSS_RESULT × TCS_CONTEXT_HANDLE
  TCS_GetRegisteredKeyBlob : σ → TCS_CONTEXT_HANDLE → TSS_UUID → TSS_RESULT × List BYTE
  obj_rsakey_add_by_key : σ → TSS_HCONTEXT → TSS_UUID → List BYTE → TSS_FLAG →
    TSS_RESULT × Option TSS_HKEY × σ
  TCSP_UnregisterKey : σ → TCS_CONTEXT_HANDLE → TSS_UUID → TSS_RESULT × σ
  obj_is_context : σ → TSS_HCONTEXT → Bool
  ps_get_key_by_uuid : σ → TSS_HCONTEXT → TSS_UUID → TSS_RESULT × Option TSS_HKEY × σ
  ps_remove_key : σ → TSS_UUID → TSS_RESULT × σ

/-- What an entry point of `tspi_ps.c` leaves behind: its return value, the
state, the value in `*phKey` (`none` when it was not written) and the
outside calls it made. -/
structure PsOutcome (σ : Type) where
  result : TSS_RESULT
  state : σ
  phKey : Option TSS_HKEY
  trace : List PsCall

/-- The body of `Tspi_Context_UnregisterKey` (`tspi_ps.c:200-253`). `phKey`
says whether the output pointer is non-`NULL`. In the branch for the system
storage the value of `obj_rsakey_add_by_key` is tested but not assigned to
`result`, so that `return result` at line 228 returns the value left by
`TCS_GetRegisteredKeyBlob`. -/
def Tspi_Context_UnregisterKey {σ : Type} (k : PsConsts) (env : PsEnv σ) (st : σ)
    (tspContext : TSS_HCONTEXT) (persistentStorageType : TSS_FLAG) (uuidKey : TSS_UUID)
    (phKey : Bool) : PsOutcome σ :=
  if phKey = false then ⟨k.TSPERR k.TSS_E_BAD_PARAMETER, st, none, []⟩
  else if persistentStorageType = k.TSS_PS_TYPE_SYSTEM then
    -- make sure we're connected to a TCS first
    let c := env.obj_context_is_connected st tspContext
    let t0 := [PsCall.obj_context_is_connected tspContext c.1]
    if c.1 ≠ 0 then ⟨c.1, st, none, t0⟩
    else
      -- get the key first, so it doesn't disappear when we unregister it
      let b := env.TCS_GetRegisteredKeyBlob st c.2 uuidKey
      let result := b.1
      let t1 := t0 ++ [PsCall.TCS_GetRegisteredKeyBlob c.2 uuidKey result]
      if result ≠ 0 then ⟨result, st, none, t1⟩
      else
        let a := env.obj_rsakey_add_by_key st tspContext uuidKey b.2 k.TSS_OBJ_FLAG_SYSTEM_PS
        let t2 := t1 ++
          [PsCall.obj_rsakey_add_by_key tspContext uuidKey b.2 k.TSS_OBJ_FLAG_SYSTEM_PS a.1]
        if a.1 ≠ 0 then ⟨result, a.2.2, a.2.1, t2⟩
        else
          -- now unregister it
          let u := env.TCSP_UnregisterKey a.2.2 c.2 uuidKey
          let t3 := t2 ++ [PsCall.TCSP_UnregisterKey c.2 uuidKey u.1]
          if u.1 ≠ 0 then ⟨u.1, u.2, a.2.1, t3⟩
          else ⟨TSS_SUCCESS, u.2, a.2.1, t3⟩
  else if persistentStorageType = k.TSS_PS_TYPE_USER then
    let ok := env.obj_is_context st tspContext
    let t0 := [PsCall.obj_is_context tspContext ok]
    if ok = false then ⟨k.TSPERR k.TSS_E_INVALID_HANDLE, st, none, t0⟩
    else
      -- get the key first, so it doesn't disappear when we unregister it
      let g := env.ps_get_key_by_uuid st tspContext uuidKey
      let t1 := t0 ++ [PsCall.ps_get_key_by_uuid tspContext uuidKey g.1]
      if g.1 ≠ 0 then ⟨g.1, g.2.2, g.2.1, t1⟩
      else
        -- now unregister it
        let r := env.ps_remove_key g.2.2 uuidKey
        let t2 := t1 ++ [PsCall.ps_remove_key uuidKey r.1]
        if r.1 ≠ 0 then ⟨r.1, r.2, g.2.1, t2⟩
        else ⟨TSS_SUCCESS, r.2, g.2.1, t2⟩
  else ⟨k.TSPERR k.TSS_E_BAD_PARAMETER, st, none, []⟩

/-- The body of `Tspi_Context_GetKeyByUUID` (`tspi_ps.c:255-296`), with the
same untested assignment at lines 279-283. -/
def Tspi_Context_GetKeyByUUID {σ : Type} (k : PsConsts) (env : PsEnv σ) (st : σ)
    (tspContext : TSS_HCONTEXT) (persistentStorageType : TSS_FLAG) (uuidData : TSS_UUID)
    (phKey : Bool) : PsOutcome σ :=
  if phKey = false then ⟨k.TSPERR k.TSS_E_BAD_PARAMETER, st, none, []⟩
  else if persistentStorageType = k.TSS_PS_TYPE_SYSTEM then
    -- make sure we're connected to a TCS first
    let c := env.obj_context_is_connected st tspContext
    let t0 := [PsCall.obj_context_is_connected tspContext c.1]
    if c.1 ≠ 0 then ⟨c.1, st, none, t0⟩
    else
      let b := env.TCS_GetRegisteredKeyBlob st c.2 uuidData
      let result := b.1
      let t1 := t0 ++ [PsCall.TCS_GetRegisteredKeyBlob c.2 uuidData result]
      if result ≠ 0 then ⟨result, st, none, t1⟩
      else
        let a := env.obj_rsakey_add_by_key st tspContext uuidData b.2 k.TSS_OBJ_FLAG_SYSTEM_PS
        let t2 := t1 ++
          [PsCall.obj_rsakey_add_by_key tspContext uuidData b.2 k.TSS_OBJ_FLAG_SYSTEM_PS a.1]
        if a.1 ≠ 0 then ⟨result, a.2.2, a.2.1, t2⟩
        else ⟨TSS_SUCCESS, a.2.2, a.2.1, t2⟩
  else if persistentStorageType = k.TSS_PS_TYPE_USER then
    let ok := env.obj_is_context st tspContext
    let t0 := [PsCall.obj_is_context tspContext ok]
    if ok = false then ⟨k.TSPERR k.TSS_E_INVALID_HANDLE, st, none, t0⟩
    else
      let g := env.ps_get_key_by_uuid st tspContext uuidData
      let t1 := t0 ++ [PsCall.ps_get_key_by_uuid tspContext uuidData g.1]
      if g.1 ≠ 0 then ⟨g.1, g.2.2, g.2.1, t1⟩
      else ⟨TSS_SUCCESS, g.2.2, g.2.1, t1⟩
  else ⟨k.TSPERR k.TSS_E_BAD_PARAMETER, st, none, []⟩

/-- One choice of the constants of `tspi_ps.c`; `TSPERR` tags a code with
the TSP layer. -/
def tssPsConsts : PsConsts where
  TSS_E_BAD_PARAMETER := 0x003
  TSS_E_INVALID_HANDLE := 0x126
  TSS_PS_TYPE_SYSTEM := 2
  TSS_PS_TYPE_USER := 1
  TSS_OBJ_FLAG_SYSTEM_PS := 0x10
  TSPERR := fun x => if x = 0 then 0 else 0x3000 + x

/-- A TSP whose object table holds at most `room` more key objects, on top
of the registry `sampleRegistry` of the TCS: the state is the pair of the
registry and `room`. Every context is connected; adding a key object fails
with `TSS_E_OUTOFMEMORY` of the TSP layer, without writing `*phKey`, when no
room is left, and otherwise stores the handle `100 + room`. -/
def samplePsEnv : PsEnv (Registry × Nat) where
  obj_context_is_connected := fun _ c => (0, c)
  TCS_GetRegisteredKeyBlob := fun st _ u =>
    match st.1.find? (fun r => r.key_id = u) with
    | some r => (0, r.wrapped_blob)
    | none => (0x2020, [])
  obj_rsakey_add_by_key := fun st _ _ _ _ =>
    if st.2 = 0 then (0x3005, none, st) else (0, some (100 + st.2), (st.1, st.2 - 1))
  TCSP_UnregisterKey := fun st _ u => (0, (st.1.filter (fun r => r.key_id ≠ u), st.2))
  obj_is_context := fun _ _ => true
  ps_get_key_by_uuid := fun st _ _ => (0x2020, none, st)
  ps_remove_key := fun st _ => (0x2020, st)

/-! ## `Tspi_TPM_GetCapability` (`src/tspi/tspi_caps_tpm.c:25-161`) -/

abbrev TSS_HTPM := Nat
abbrev UINT32 := Nat

/-- Header constants and macros used by `Tspi_TPM_GetCapability`, whose
definitions live outside the file, and the byte order in which the host
stores a `UINT32`. `endian32` is the byte-order macro of `spi_utils.h`. -/
structure CapConsts where
  TSS_E_BAD_PARAMETER : TSS_RESULT
  TSS_E_OUTOFMEMORY : TSS_RESULT
  TSPERR : TSS_RESULT → TSS_RESULT
  endian32 : UINT32 → UINT32
  hostBigEndian : Bool
  TSS_TPMCAP_ORD : TSS_FLAG
  TSS_TPMCAP_FLAG : TSS_FLAG
  TSS_TPMCAP_ALG : TSS_FLAG
  TSS_TPMCAP_PROPERTY : TSS_FLAG
  TSS_TPMCAP_VERSION : TSS_FLAG
  TCPA_CAP_ORD : Nat
  TCPA_CAP_ALG : Nat
  TCPA_CAP_PROPERTY : Nat
  TCPA_CAP_VERSION : Nat
  TSS_ALG_RSA : UINT32
  TSS_ALG_AES : UINT32
  TSS_ALG_3DES : UINT32
  TSS_ALG_DES : UINT32
  TCPA_ALG_RSA : UINT32
  TCPA_ALG_AES : UINT32
  TCPA_ALG_3DES : UINT32
  TCPA_ALG_DES : UINT32
  TSS_TPMCAP_PROP_PCR : UINT32
  TSS_TPMCAP_PROP_DIR : UINT32
  TSS_TPMCAP_PROP_SLOTS : UINT32
  TSS_TPMCAP_PROP_MANUFACTURER : UINT32
  TPM_CAP_PROP_PCR : UINT32
  TPM_CAP_PROP_DIR : UINT32
  TPM_CAP_PROP_SLOTS : UINT32
  TPM_CAP_PROP_MANUFACTURER : UINT32

/-- The case labels of `switch (capArea)` are pairwise distinct, as C
requires of the labels of one `switch`. -/
def CapConsts.LabelsDistinct (k : CapConsts) : Prop :=
  [k.TSS_TPMCAP_ORD, k.TSS_TPMCAP_FLAG, k.TSS_TPMCAP_ALG, k.TSS_TPMCAP_PROPERTY,
    k.TSS_TPMCAP_VERSION].Nodup

instance (k : CapConsts) : Decidable k.LabelsDistinct := by
  unfold CapConsts.LabelsDistinct; infer_instance

/-- The `UINT32` that the host reads from the first four bytes of a buffer
(`*(UINT32 *)p`); the buffer is taken to hold four bytes, each below 256. -/
def loadU32 (bigEndian : Bool) (b : List BYTE) : UINT32 :=
  if bigEndian then
    b.getD 0 0 * 2 ^ 24 + b.getD 1 0 * 2 ^ 16 + b.getD 2 0 * 2 ^ 8 + b.getD 3 0
  else
    b.getD 0 0 + b.getD 1 0 * 2 ^ 8 + b.getD 2 0 * 2 ^ 16 + b.getD 3 0 * 2 ^ 24

/-- The four bytes that the host stores for a `UINT32`; the value is reduced
modulo `2^32`. -/
def storeU32 (bigEndian : Bool) (v : UINT32) : List BYTE :=
  if bigEndian then [v / 2 ^ 24 % 256, v / 2 ^ 16 % 256, v / 2 ^ 8 % 256, v % 256]
  else [v % 256, v / 2 ^ 8 % 256, v / 2 ^ 16 % 256, v / 2 ^ 24 % 256]

/-- A call made by `Tspi_TPM_GetCapability` to a function outside the file,
with the code it returned. `TCSP_GetCapability` is shown with the capability
area, the length and the sub-capability word it was given. -/
inductive CapCall where
  | obj_tpm_is_connected (hTPM : TSS_HTPM) (result : TSS_RESULT)
  | obj_tpm_get_tsp_context (hTPM : TSS_HTPM) (result : TSS_RESULT)
  | get_tpm_flags (tcsContext : TCS_CONTEXT_HANDLE) (hTPM : TSS_HTPM) (result : TSS_RESULT)
  | calloc_tspi (tspContext : TSS_HCONTEXT) (howMuch : Nat) (ok : Bool)
  | TCSP_GetCapability (tcsContext : TCS_CONTEXT_HANDLE) (capArea : Nat) (subCapSize : Nat)
      (subCap : UINT32) (result : TSS_RESULT)
  deriving DecidableEq, Repr

/-- The functions that `Tspi_TPM_GetCapability` calls and the file does not
define, over a state `σ`.

* `obj_tpm_is_connected` and `obj_tpm_get_tsp_context` return their code and
  the context they store.
* `get_tpm_flags` returns its code, `volFlags`, `nonVolFlags` and the new
  state.
* `calloc_tspi` is `true` when the allocation returns a non-`NULL` pointer.
* `Trspi_LoadBlob_UINT32 v` is the four bytes it appends to a blob.
* `TCSP_GetCapability` returns its code, the `respLen` bytes of `respData`
  and the new state. -/
structure CapEnv (σ : Type) where
  obj_tpm_is_connected : σ → TSS_HTPM → TSS_RESULT × TCS_CONTEXT_HANDLE
  obj_tpm_get_tsp_context : σ → TSS_HTPM → TSS_RESULT × TSS_HCONTEXT
  get_tpm_flags : σ → TCS_CONTEXT_HANDLE → TSS_HTPM → TSS_RESULT × UINT32 × UINT32 × σ
  calloc_tspi : σ → TSS_HCONTEXT → Nat → Bool
  Trspi_LoadBlob_UINT32 : UINT32 → List BYTE
  TCSP_GetCapability : σ → TCS_CONTEXT_HANDLE → Nat → Nat → UINT32 →
    TSS_RESULT × List BYTE × σ

/-- What `Tspi_TPM_GetCapability` leaves behind: its return value, the
state, the output parameters (`none` when not written; `prgbRespData = some
none` is `NULL` stored in `*prgbRespData`) and the outside calls it made. -/
structure CapOutcome (σ : Type) where
  result : TSS_RESULT
  state : σ
  pulRespDataLength : Option Nat
  prgbRespData : Option (Option (List BYTE))
  trace : List CapCall

/-- The variables set by `switch (capArea)` (`tspi_caps_tpm.c:54-115`).
`tcsCapArea` is left uninitialised by the case `TSS_TPMCAP_FLAG`, which does
not use it; it is `0` there. -/
structure CapSelection where
  tcsCapArea : Nat
  tcsSubCap : UINT32
  correct_endianess : Bool
  fOwnerAuth : Bool
  deriving DecidableEq, Repr

/-- The inner `switch` of the case `TSS_TPMCAP_ALG`
(`tspi_caps_tpm.c:70-86`). -/
def algSubCap (k : CapConsts) (w : UINT32) : UINT32 :=
  if w = k.TSS_ALG_RSA then k.TCPA_ALG_RSA
  else if w = k.TSS_ALG_AES then k.TCPA_ALG_AES
  else if w = k.TSS_ALG_3DES then k.TCPA_ALG_3DES
  else if w = k.TSS_ALG_DES then k.TCPA_ALG_DES
  else w

/-- The statement `switch (capArea)` (`tspi_caps_tpm.c:54-115`), its cases
tested in the order of the source; `none` is `return
TSPERR(TSS_E_BAD_PARAMETER)`. `rgbSubCap = none` is a `NULL` pointer. -/
def capSwitch (k : CapConsts) (capArea : TSS_FLAG) (ulSubCapLength : Nat)
    (rgbSubCap : Option (List BYTE)) : Option CapSelection :=
  if capArea = k.TSS_TPMCAP_ORD then
    match rgbSubCap with
    | some b =>
      if ulSubCapLength ≠ 4 then none
      else some ⟨k.TCPA_CAP_ORD, loadU32 k.hostBigEndian b, false, false⟩
    | none => none
  else if capArea = k.TSS_TPMCAP_FLAG then some ⟨0, 0, false, true⟩
  else if capArea = k.TSS_TPMCAP_ALG then
    -- Queries whether an algorithm is supported by the TPM.
    match rgbSubCap with
    | some b =>
      if ulSubCapLength ≠ 4 then none
      else some ⟨k.TCPA_CAP_ALG, algSubCap k (loadU32 k.hostBigEndian b), false, false⟩
    | none => none
  else if capArea = k.TSS_TPMCAP_PROPERTY then
    -- Determines a physical property of the TPM.
    match rgbSubCap with
    | some b =>
      if ulSubCapLength ≠ 4 then none
      else
        let tcsSubCapContainer := loadU32 k.hostBigEndian b
        if tcsSubCapContainer = k.TSS_TPMCAP_PROP_PCR then
          some ⟨k.TCPA_CAP_PROPERTY, k.TPM_CAP_PROP_PCR, true, false⟩
        else if tcsSubCapContainer = k.TSS_TPMCAP_PROP_DIR then
          some ⟨k.TCPA_CAP_PROPERTY, k.TPM_CAP_PROP_DIR, true, false⟩
        else if tcsSubCapContainer = k.TSS_TPMCAP_PROP_SLOTS then
          some ⟨k.TCPA_CAP_PROPERTY, k.TPM_CAP_PROP_SLOTS, true, false⟩
        else if tcsSubCapContainer = k.TSS_TPMCAP_PROP_MANUFACTURER then
          some ⟨k.TCPA_CAP_PROPERTY, k.TPM_CAP_PROP_MANUFACTURER, false, false⟩
        else none
    | none => none
  else if capArea = k.TSS_TPMCAP_VERSION then
    -- Queries the current TPM version.
    some ⟨k.TCPA_CAP_VERSION, 0, false, false⟩
  else none

/-- The owner-authorized branch (`tspi_caps_tpm.c:117-137`), after the calls
`t`. -/
def getCapability_flags {σ : Type} (k : CapConsts) (env : CapEnv σ) (st : σ)
    (hTPM : TSS_HTPM) (tcsContext : TCS_CONTEXT_HANDLE) (tspContext : TSS_HCONTEXT)
    (t : List CapCall) : CapOutcome σ :=
  -- do an owner authorized get capability call
  let f := env.get_tpm_flags st tcsContext hTPM
  let volFlags := f.2.1
  let nonVolFlags := f.2.2.1
  let t1 := t ++ [CapCall.get_tpm_flags tcsContext hTPM f.1]
  if f.1 ≠ 0 then ⟨f.1, f.2.2.2, none, none, t1⟩
  else
    let respLen := 2 * 4
    let ok := env.calloc_tspi f.2.2.2 tspContext respLen
    let t2 := t1 ++ [CapCall.calloc_tspi tspContext respLen ok]
    if ok = false then ⟨k.TSPERR k.TSS_E_OUTOFMEMORY, f.2.2.2, none, none, t2⟩
    else
      ⟨TSS_SUCCESS, f.2.2.2, some respLen,
        some (some (env.Trspi_LoadBlob_UINT32 nonVolFlags ++ env.Trspi_LoadBlob_UINT32 volFlags)),
        t2⟩

/-- The branch that asks the TCS (`tspi_caps_tpm.c:139-160`), after the
calls `t`. -/
def getCapability_tcs {σ : Type} (k : CapConsts) (env : CapEnv σ) (st : σ)
    (tcsContext : TCS_CONTEXT_HANDLE) (tspContext : TSS_HCONTEXT) (ulSubCapLength : Nat)
    (sel : CapSelection) (t : List CapCall) : CapOutcome σ :=
  let tcsSubCap := k.endian32 sel.tcsSubCap
  let g := env.TCSP_GetCapability st tcsContext sel.tcsCapArea ulSubCapLength tcsSubCap
  let respData := g.2.1
  let respLen := respData.length
  let t1 := t ++
    [CapCall.TCSP_GetCapability tcsContext sel.tcsCapArea ulSubCapLength tcsSubCap g.1]
  if g.1 ≠ 0 then ⟨g.1, g.2.2, none, none, t1⟩
  else
    let ok := env.calloc_tspi g.2.2 tspContext respLen
    let t2 := t1 ++ [CapCall.calloc_tspi tspContext respLen ok]
    if ok = false then ⟨k.TSPERR k.TSS_E_OUTOFMEMORY, g.2.2, none, some none, t2⟩
    else if respLen = 4 ∧ sel.correct_endianess = true then
      ⟨TSS_SUCCESS, g.2.2, some respLen,
        some (some (storeU32 k.hostBigEndian (k.endian32 (loadU32 k.hostBigEndian respData)) ++
          respData.drop 4)), t2⟩
    else ⟨TSS_SUCCESS, g.2.2, some respLen, some (some respData), t2⟩

/-- The body of `Tspi_TPM_GetCapability`. `pulRespDataLength` and
`prgbRespData` say whether the output pointers are non-`NULL`. -/
def Tspi_TPM_GetCapability {σ : Type} (k : CapConsts) (env : CapEnv σ) (st : σ)
    (hTPM : TSS_HTPM) (capArea : TSS_FLAG) (ulSubCapLength : Nat)
    (rgbSubCap : Option (List BYTE)) (pulRespDataLength prgbRespData : Bool) :
    CapOutcome σ :=
  if pulRespDataLength = false ∨ prgbRespData = false then
    ⟨k.TSPERR k.TSS_E_BAD_PARAMETER, st, none, none, []⟩
  else
    let c := env.obj_tpm_is_connected st hTPM
    let t0 := [CapCall.obj_tpm_is_connected hTPM c.1]
    if c.1 ≠ 0 then ⟨c.1, st, none, none, t0⟩
    else
      let x := env.obj_tpm_get_tsp_context st hTPM
      let t1 := t0 ++ [CapCall.obj_tpm_get_tsp_context hTPM x.1]
      if x.1 ≠ 0 then ⟨x.1, st, none, none, t1⟩
      else
        -- Verify the caps and subcaps
        match capSwitch k capArea ulSubCapLength rgbSubCap with
        | none => ⟨k.TSPERR k.TSS_E_BAD_PARAMETER, st, none, none, t1⟩
        | some sel =>
          if sel.fOwnerAuth = true then getCapability_flags k env st hTPM c.2 x.2 t1
          else getCapability_tcs k env st c.2 x.2 ulSubCapLength sel t1

/-- One choice of the constants of `Tspi_TPM_GetCapability` on a
little-endian host, where `endian32` swaps the four bytes of a word. -/
def tssCapConsts : CapConsts where
  TSS_E_BAD_PARAMETER := 0x003
  TSS_E_OUTOFMEMORY := 0x005
  TSPERR := fun x => if x = 0 then 0 else 0x3000 + x
  endian32 := fun v => loadU32 true (storeU32 false v)
  hostBigEndian := false
  TSS_TPMCAP_ORD := 0x10
  TSS_TPMCAP_FLAG := 0x11
  TSS_TPMCAP_ALG := 0x12
  TSS_TPMCAP_PROPERTY := 0x13
  TSS_TPMCAP_VERSION := 0x14
  TCPA_CAP_ORD := 1
  TCPA_CAP_ALG := 2
  TCPA_CAP_PROPERTY := 5
  TCPA_CAP_VERSION := 6
  TSS_ALG_RSA := 0x20
  TSS_ALG_AES := 0x24
  TSS_ALG_3DES := 0x22
  TSS_ALG_DES := 0x21
  TCPA_ALG_RSA := 1
  TCPA_ALG_AES := 4
  TCPA_ALG_3DES := 3
  TCPA_ALG_DES := 2
  TSS_TPMCAP_PROP_PCR := 0x10
  TSS_TPMCAP_PROP_DIR := 0x11
  TSS_TPMCAP_PROP_SLOTS := 0x13
  TSS_TPMCAP_PROP_MANUFACTURER := 0x12
  TPM_CAP_PROP_PCR := 0x101
  TPM_CAP_PROP_DIR := 0x102
  TPM_CAP_PROP_SLOTS := 0x104
  TPM_CAP_PROP_MANUFACTURER := 0x103

/-- A TSP for the examples: the handle `0` is not a TPM object, every other
TPM object is connected; the state is the number of bytes `calloc_tspi` can
still allocate. The TCS answers a property query with the 32-bit value `16`
in network byte order and every other query with the five bytes `1..5`. -/
def sampleCapEnv : CapEnv Nat where
  obj_tpm_is_connected := fun _ h => if h = 0 then (0x3126, 0) else (0, 7)
  obj_tpm_get_tsp_context := fun _ h => if h = 0 then (0x3126, 0) else (0, 9)
  get_tpm_flags := fun st _ _ => (0, 0xA, 0xB, st)
  calloc_tspi := fun st _ n => decide (n ≤ st)
  Trspi_LoadBlob_UINT32 := storeU32 true
  TCSP_GetCapability := fun st _ area _ _ =>
    if area = 5 then (0, [0, 0, 0, 16], st) else (0, [1, 2, 3, 4, 5], st)

/-! ## Theorems -/

/-- C1. `TCS_RegisterKey_Internal`: with a valid context, whenever
`isUUIDRegistered` reports the wrapping (parent) UUID as not registered the
call returns `TCS_E_KEY_NOT_REGISTERED`, `writeRegisteredKeyToFile` is not
among the calls made, and the storage state is the one the call started
from. This holds for every parent UUID, the non-null ones in particular. -/
theorem registerKey_parent_not_registered {σ : Type} (k : Consts) (env : Env σ) (st : σ)
    (hContext : TCS_CONTEXT_HANDLE) (P K : TSS_UUID) (cKeySize : Nat) (rgbKey : List BYTE)
    (cVendorData : Nat) (gbVendorData : List BYTE)
    (hctx : env.ctx_verify_context hContext = TSS_SUCCESS)
    (hP : env.isUUIDRegistered st P = (TSS_SUCCESS, false)) :
    (TCS_RegisterKey_Internal k env st hContext P K cKeySize rgbKey cVendorData
        gbVendorData).result = k.TCS_E_KEY_NOT_REGISTERED ∧
    (∀ c ∈ (TCS_RegisterKey_Internal k env st hContext P K cKeySize rgbKey cVendorData
        gbVendorData).trace, c.isWrite = false) ∧
    (TCS_RegisterKey_Internal k env st hContext P K cKeySize rgbKey cVendorData
        gbVendorData).state = st := by
  simp only [TSS_SUCCESS] at hctx hP
  simp [TCS_RegisterKey_Internal, hctx, hP, TSS_SUCCESS, Call.isWrite]

/-- Witness for C1: in `sampleRegistry` the parent `uuidOf 7` is not
registered. -/
theorem registerKey_parent_not_registered_witness :
    (specEnv tssConsts).ctx_verify_context 1 = TSS_SUCCESS ∧
    (specEnv tssConsts).isUUIDRegistered sampleRegistry (uuidOf 7) = (TSS_SUCCESS, false) ∧
    (TCS_RegisterKey_Internal tssConsts (specEnv tssConsts) sampleRegistry 1 (uuidOf 7)
        (uuidOf 9) 1 [0xEE] 0 []).result = tssConsts.TCS_E_KEY_NOT_REGISTERED ∧
    (∀ c ∈ (TCS_RegisterKey_Internal tssConsts (specEnv tssConsts) sampleRegistry 1 (uuidOf 7)
        (uuidOf 9) 1 [0xEE] 0 []).trace, c.isWrite = false) ∧
    (TCS_RegisterKey_Internal tssConsts (specEnv tssConsts) sampleRegistry 1 (uuidOf 7)
        (uuidOf 9) 1 [0xEE] 0 []).state = sampleRegistry :=
  ⟨by decide, by decide,
    registerKey_parent_not_registered tssConsts (specEnv tssConsts) sampleRegistry 1 (uuidOf 7)
      (uuidOf 9) 1 [0xEE] 0 [] (by decide) (by decide)⟩

/-- C2, as stated, fails: in `sampleRegistry` the key `uuidOf 2` is already
registered and the context is valid, yet with the unregistered parent
`uuidOf 7` the call returns `TCS_E_KEY_NOT_REGISTERED`, which is not
`TCS_E_KEY_ALREADY_REGISTERED`; the same happens with the null parent. -/
theorem registerKey_already_registered_counterexample :
    (specEnv tssConsts).ctx_verify_context 1 = TSS_SUCCESS ∧
    (specEnv tssConsts).isUUIDRegistered sampleRegistry (uuidOf 2) = (TSS_SUCCESS, true) ∧
    (TCS_RegisterKey_Internal tssConsts (specEnv tssConsts) sampleRegistry 1 (uuidOf 7)
        (uuidOf 2) 1 [0xCC] 0 []).result = tssConsts.TCS_E_KEY_NOT_REGISTERED ∧
    (TCS_RegisterKey_Internal tssConsts (specEnv tssConsts) sampleRegistry 1
        tssConsts.NULL_UUID (uuidOf 2) 1 [0xCC] 0 []).result
      = tssConsts.TCS_E_KEY_NOT_REGISTERED ∧
    tssConsts.TCS_E_KEY_NOT_REGISTERED ≠ tssConsts.TCS_E_KEY_ALREADY_REGISTERED := by
  decide

/-- C2, amended. `TCS_RegisterKey_Internal`: with a valid context and a key
UUID that `isUUIDRegistered` reports as registered, the call returns
`TCS_E_KEY_ALREADY_REGISTERED` when the parent UUID is reported registered;
the parent check comes first, so when the parent (null or not) is reported
not registered the call returns `TCS_E_KEY_NOT_REGISTERED` instead. In both
cases nothing is written and the storage state is unchanged. -/
theorem registerKey_already_registered {σ : Type} (k : Consts) (env : Env σ) (st : σ)
    (hContext : TCS_CONTEXT_HANDLE) (P K : TSS_UUID) (cKeySize : Nat) (rgbKey : List BYTE)
    (cVendorData : Nat) (gbVendorData : List BYTE)
    (hctx : env.ctx_verify_context hContext = TSS_SUCCESS)
    (hK : env.isUUIDRegistered st K = (TSS_SUCCESS, true))
    (hP : (env.isUUIDRegistered st P).1 = TSS_SUCCESS) :
    (TCS_RegisterKey_Internal k env st hContext P K cKeySize rgbKey cVendorData
        gbVendorData).result =
      (if (env.isUUIDRegistered st P).2 = true then k.TCS_E_KEY_ALREADY_REGISTERED
        else k.TCS_E_KEY_NOT_REGISTERED) ∧
    (∀ c ∈ (TCS_RegisterKey_Internal k env st hContext P K cKeySize rgbKey cVendorData
        gbVendorData).trace, c.isWrite = false) ∧
    (TCS_RegisterKey_Internal k env st hContext P K cKeySize rgbKey cVendorData
        gbVendorData).state = st := by
  simp only [TSS_SUCCESS] at hctx hK hP
  cases hb : (env.isUUIDRegistered st P).2 <;>
    simp [TCS_RegisterKey_Internal, hctx, hK, hP, hb, TSS_SUCCESS, Call.isWrite]

/-- Witness for C2 (amended): registering `uuidOf 2` again under its
registered parent `uuidOf 1`. -/
theorem registerKey_already_registered_witness :
    (specEnv tssConsts).ctx_verify_context 1 = TSS_SUCCESS ∧
    (specEnv tssConsts).isUUIDRegistered sampleRegistry (uuidOf 2) = (TSS_SUCCESS, true) ∧
    ((specEnv tssConsts).isUUIDRegistered sampleRegistry (uuidOf 1)).1 = TSS_SUCCESS ∧
    (TCS_RegisterKey_Internal tssConsts (specEnv tssConsts) sampleRegistry 1 (uuidOf 1)
        (uuidOf 2) 1 [0xCC] 0 []).result = tssConsts.TCS_E_KEY_ALREADY_REGISTERED :=
  ⟨by decide, by decide, by decide,
    (registerKey_already_registered tssConsts (specEnv tssConsts) sampleRegistry 1 (uuidOf 1)
      (uuidOf 2) 1 [0xCC] 0 [] (by decide) (by decide) (by decide)).1⟩

/-- C3, as stated, fails: on the empty registry, where `NULL_UUID` is not a
registered key, the context is valid, the key `uuidOf 1` is not registered
and the registry write would succeed, registering `uuidOf 1` with the null
parent returns `TCS_E_KEY_NOT_REGISTERED`, not `TSS_SUCCESS`, and writes
nothing. -/
theorem registerKey_root_counterexample :
    (specEnv tssConsts).ctx_verify_context 1 = TSS_SUCCESS ∧
    (specEnv tssConsts).isUUIDRegistered [] tssConsts.NULL_UUID = (TSS_SUCCESS, false) ∧
    (specEnv tssConsts).isUUIDRegistered [] (uuidOf 1) = (TSS_SUCCESS, false) ∧
    ((specEnv tssConsts).writeRegisteredKeyToFile [] (uuidOf 1) tssConsts.NULL_UUID
        [0xAA, 0xBB] 2).1 = TSS_SUCCESS ∧
    (TCS_RegisterKey_Internal tssConsts (specEnv tssConsts) [] 1 tssConsts.NULL_UUID
        (uuidOf 1) 2 [0xAA, 0xBB] 0 []).result = tssConsts.TCS_E_KEY_NOT_REGISTERED ∧
    (TCS_RegisterKey_Internal tssConsts (specEnv tssConsts) [] 1 tssConsts.NULL_UUID
        (uuidOf 1) 2 [0xAA, 0xBB] 0 []).result ≠ TSS_SUCCESS ∧
    (TCS_RegisterKey_Internal tssConsts (specEnv tssConsts) [] 1 tssConsts.NULL_UUID
        (uuidOf 1) 2 [0xAA, 0xBB] 0 []).state = [] := by
  decide

/-- C3, amended. `TCS_RegisterKey_Internal` applies the parent-registered
check to a null parent as to any other: with a valid context, a key UUID
reported not registered and a registry write that succeeds, registering
with parent `NULL_UUID` returns `TSS_SUCCESS` if and only if
`isUUIDRegistered` reports `NULL_UUID` itself as registered; when it reports
`NULL_UUID` as not registered the call returns `TCS_E_KEY_NOT_REGISTERED`. -/
theorem registerKey_null_parent {σ : Type} (k : Consts) (env : Env σ) (st : σ)
    (hContext : TCS_CONTEXT_HANDLE) (K : TSS_UUID) (cKeySize : Nat) (rgbKey : List BYTE)
    (cVendorData : Nat) (gbVendorData : List BYTE)
    (hk : k.TCS_E_KEY_NOT_REGISTERED ≠ TSS_SUCCESS)
    (hctx : env.ctx_verify_context hContext = TSS_SUCCESS)
    (hN : (env.isUUIDRegistered st k.NULL_UUID).1 = TSS_SUCCESS)
    (hK : env.isUUIDRegistered st K = (TSS_SUCCESS, false))
    (hw : (env.writeRegisteredKeyToFile st K k.NULL_UUID rgbKey cKeySize).1 = TSS_SUCCESS) :
    ((TCS_RegisterKey_Internal k env st hContext k.NULL_UUID K cKeySize rgbKey cVendorData
        gbVendorData).result = TSS_SUCCESS ↔ (env.isUUIDRegistered st k.NULL_UUID).2 = true) ∧
    ((env.isUUIDRegistered st k.NULL_UUID).2 = false →
      (TCS_RegisterKey_Internal k env st hContext k.NULL_UUID K cKeySize rgbKey cVendorData
        gbVendorData).result = k.TCS_E_KEY_NOT_REGISTERED) := by
  simp only [TSS_SUCCESS] at hctx hK hN hw hk
  cases hb : (env.isUUIDRegistered st k.NULL_UUID).2 <;>
    simp [TCS_RegisterKey_Internal, hctx, hK, hN, hw, hb, hk, TSS_SUCCESS]

/-- Witness for C3 (amended): the root registration on the empty
registry. -/
theorem registerKey_null_parent_witness :
    tssConsts.TCS_E_KEY_NOT_REGISTERED ≠ TSS_SUCCESS ∧
    (specEnv tssConsts).ctx_verify_context 1 = TSS_SUCCESS ∧
    ((specEnv tssConsts).isUUIDRegistered [] tssConsts.NULL_UUID).1 = TSS_SUCCESS ∧
    (specEnv tssConsts).isUUIDRegistered [] (uuidOf 1) = (TSS_SUCCESS, false) ∧
    ((specEnv tssConsts).writeRegisteredKeyToFile [] (uuidOf 1) tssConsts.NULL_UUID
        [0xAA, 0xBB] 2).1 = TSS_SUCCESS ∧
    ((TCS_RegisterKey_Internal tssConsts (specEnv tssConsts) [] 1 tssConsts.NULL_UUID
        (uuidOf 1) 2 [0xAA, 0xBB] 0 []).result = TSS_SUCCESS ↔
      ((specEnv tssConsts).isUUIDRegistered [] tssConsts.NULL_UUID).2 = true) :=
  ⟨by decide, by decide, by decide, by decide, by decide,
    (registerKey_null_parent tssConsts (specEnv tssConsts) [] 1 (uuidOf 1) 2 [0xAA, 0xBB] 0 []
      (by decide) (by decide) (by decide) (by decide) (by decide)).1⟩

/-- C4. `TCS_RegisterKey_Internal` and the registry: the calls made contain
exactly one `writeRegisteredKeyToFile(KeyUUID, WrappingKeyUUID, rgbKey,
cKeySize)` when the context is valid, the parent is reported registered and
the key is reported not registered, and none otherwise; the call returns
`TSS_SUCCESS` if and only if those three conditions hold and that write
returns success; and when one of the three conditions fails the storage
state is the one the call started from. -/
theorem registerKey_write_iff {σ : Type} (k : Consts) (env : Env σ) (st : σ)
    (hContext : TCS_CONTEXT_HANDLE) (P K : TSS_UUID) (cKeySize : Nat) (rgbKey : List BYTE)
    (cVendorData : Nat) (gbVendorData : List BYTE) (hk : k.ErrorsNonzero) :
    ((TCS_RegisterKey_Internal k env st hContext P K cKeySize rgbKey cVendorData
        gbVendorData).trace.filter Call.isWrite =
      (if env.ctx_verify_context hContext = TSS_SUCCESS ∧
          env.isUUIDRegistered st P = (TSS_SUCCESS, true) ∧
          env.isUUIDRegistered st K = (TSS_SUCCESS, false)
        then [Call.writeRegisteredKeyToFile K P rgbKey cKeySize] else [])) ∧
    ((TCS_RegisterKey_Internal k env st hContext P K cKeySize rgbKey cVendorData
        gbVendorData).result = TSS_SUCCESS ↔
      (env.ctx_verify_context hContext = TSS_SUCCESS ∧
        env.isUUIDRegistered st P = (TSS_SUCCESS, true) ∧
        env.isUUIDRegistered st K = (TSS_SUCCESS, false)) ∧
      (env.writeRegisteredKeyToFile st K P rgbKey cKeySize).1 = TSS_SUCCESS) ∧
    (¬ (env.ctx_verify_context hContext = TSS_SUCCESS ∧
        env.isUUIDRegistered st P = (TSS_SUCCESS, true) ∧
        env.isUUIDRegistered st K = (TSS_SUCCESS, false)) →
      (TCS_RegisterKey_Internal k env st hContext P K cKeySize rgbKey cVendorData
        gbVendorData).state = st) := by
  obtain ⟨h1, h2, h3, h4, _, _⟩ := hk
  simp only [TSS_SUCCESS] at h1 h2 h3 h4
  simp only [TCS_RegisterKey_Internal, TSS_SUCCESS, Prod.ext_iff]
  by_cases hc : env.ctx_verify_context hContext = 0
  · by_cases hp1 : (env.isUUIDRegistered st P).1 = 0
    · cases hp2 : (env.isUUIDRegistered st P).2
      · simp [hc, hp1, hp2, Call.isWrite, h2]
      · by_cases hk1 : (env.isUUIDRegistered st K).1 = 0
        · cases hk2 : (env.isUUIDRegistered st K).2
          · by_cases hw : (env.writeRegisteredKeyToFile st K P rgbKey cKeySize).1 = 0
            · simp [hc, hp1, hp2, hk1, hk2, hw, Call.isWrite]
            · simp [hc, hp1, hp2, hk1, hk2, hw, Call.isWrite, h1]
          · simp [hc, hp1, hp2, hk1, hk2, Call.isWrite, h3]
        · simp [hc, hp1, hp2, hk1, Call.isWrite, h4]
    · simp [hc, hp1, Call.isWrite, h1]
  · simp [hc, Call.isWrite]

/-- Witness for C4: registering the new key `uuidOf 3` under the registered
parent `uuidOf 2`. -/
theorem registerKey_write_iff_witness :
    tssConsts.ErrorsNonzero ∧
    (TCS_RegisterKey_Internal tssConsts (specEnv tssConsts) sampleRegistry 1 (uuidOf 2)
        (uuidOf 3) 1 [0xDD] 0 []).trace.filter Call.isWrite =
      [Call.writeRegisteredKeyToFile (uuidOf 3) (uuidOf 2) [0xDD] 1] ∧
    (TCS_RegisterKey_Internal tssConsts (specEnv tssConsts) sampleRegistry 1 (uuidOf 2)
        (uuidOf 3) 1 [0xDD] 0 []).result = TSS_SUCCESS :=
  ⟨by decide,
    (registerKey_write_iff tssConsts (specEnv tssConsts) sampleRegistry 1 (uuidOf 2)
      (uuidOf 3) 1 [0xDD] 0 [] (by decide)).1.trans (by decide),
    by decide⟩

/-- C5. `TCSP_UnregisterKey_Internal`: with a valid context the call
returns exactly the result of `removeRegisteredKey(K)` (and leaves the
storage state that `removeRegisteredKey` leaves), for every `K`; with
`removeRegisteredKey` as the specification describes it, unregistering a key
that is not registered returns `TSS_SUCCESS` and leaves the registry as it
was. -/
theorem unregisterKey_result {σ : Type} (env : Env σ) (st : σ)
    (hContext : TCS_CONTEXT_HANDLE) (K : TSS_UUID)
    (hctx : env.ctx_verify_context hContext = TSS_SUCCESS) :
    ((TCSP_UnregisterKey_Internal env st hContext K).result = (env.removeRegisteredKey st K).1 ∧
      (TCSP_UnregisterKey_Internal env st hContext K).state = (env.removeRegisteredKey st K).2 ∧
      (TCSP_UnregisterKey_Internal env st hContext K).trace =
        [Call.ctx_verify_context hContext, Call.removeRegisteredKey K]) ∧
    (∀ (k : Consts) (reg : Registry) (h : TCS_CONTEXT_HANDLE),
      (specEnv k).ctx_verify_context h = TSS_SUCCESS →
      (specEnv k).isUUIDRegistered reg K = (TSS_SUCCESS, false) →
      (TCSP_UnregisterKey_Internal (specEnv k) reg h K).result = TSS_SUCCESS ∧
      (TCSP_UnregisterKey_Internal (specEnv k) reg h K).state = reg) := by
  simp only [TSS_SUCCESS] at hctx
  refine ⟨by simp [TCSP_UnregisterKey_Internal, hctx], ?_⟩
  intro k reg h hc hreg
  simp only [TSS_SUCCESS] at hc
  simp only [specEnv, specIsUUIDRegistered, Prod.mk.injEq, true_and, List.any_eq_false,
    decide_eq_true_eq] at hreg
  have hfil : reg.filter (fun r => r.key_id ≠ K) = reg := by
    rw [List.filter_eq_self]
    intro r hr
    simpa using hreg r hr
  have hrem : (specEnv k).removeRegisteredKey reg K = (TSS_SUCCESS, reg) := by
    show specRemoveRegisteredKey reg K = (TSS_SUCCESS, reg)
    simp only [specRemoveRegisteredKey, hfil]
  simp [TCSP_UnregisterKey_Internal, hc, hrem]

/-- Witness for C5: unregistering the unknown key `uuidOf 7` from
`sampleRegistry`. -/
theorem unregisterKey_result_witness :
    (specEnv tssConsts).ctx_verify_context 1 = TSS_SUCCESS ∧
    (specEnv tssConsts).isUUIDRegistered sampleRegistry (uuidOf 7) = (TSS_SUCCESS, false) ∧
    (TCSP_UnregisterKey_Internal (specEnv tssConsts) sampleRegistry 1 (uuidOf 7)).result
      = ((specEnv tssConsts).removeRegisteredKey sampleRegistry (uuidOf 7)).1 ∧
    (TCSP_UnregisterKey_Internal (specEnv tssConsts) sampleRegistry 1 (uuidOf 7)).result
      = TSS_SUCCESS :=
  ⟨by decide, by decide,
    (unregisterKey_result (specEnv tssConsts) sampleRegistry 1 (uuidOf 7) (by decide)).1.1,
    by decide⟩

/-- C6. `TCS_GetRegisteredKeyBlob_Internal`: with a valid context, if
`getRegisteredKeyByUUID` fails for `K` the call returns
`TCS_E_KEY_NOT_REGISTERED` and writes neither `*prgbKey` nor `*pcKeySize`;
if it succeeds and the allocation succeeds the call returns `TSS_SUCCESS`,
`*pcKeySize` is the size the read reported and `*prgbKey` holds the first
that many bytes the read stored in the buffer. -/
theorem getRegisteredKeyBlob_lookup {σ : Type} (k : Consts) (env : Env σ) (st : σ)
    (hContext : TCS_CONTEXT_HANDLE) (K : TSS_UUID)
    (hctx : env.ctx_verify_context hContext = TSS_SUCCESS) :
    ((env.getRegisteredKeyByUUID st K 1024).1 ≠ TSS_SUCCESS →
      (TCS_GetRegisteredKeyBlob_Internal k env st hContext K).result
        = k.TCS_E_KEY_NOT_REGISTERED ∧
      (TCS_GetRegisteredKeyBlob_Internal k env st hContext K).prgbKey = none ∧
      (TCS_GetRegisteredKeyBlob_Internal k env st hContext K).pcKeySize = none) ∧
    ((env.getRegisteredKeyByUUID st K 1024).1 = TSS_SUCCESS →
      env.getSomeMemory (env.getRegisteredKeyByUUID st K 1024).2.2 hContext = true →
      (TCS_GetRegisteredKeyBlob_Internal k env st hContext K).result = TSS_SUCCESS ∧
      (TCS_GetRegisteredKeyBlob_Internal k env st hContext K).pcKeySize
        = some (env.getRegisteredKeyByUUID st K 1024).2.2 ∧
      (TCS_GetRegisteredKeyBlob_Internal k env st hContext K).prgbKey
        = some (some ((env.getRegisteredKeyByUUID st K 1024).2.1.take
            (env.getRegisteredKeyByUUID st K 1024).2.2))) := by
  simp only [TSS_SUCCESS] at hctx
  constructor
  · intro hr
    simp only [TSS_SUCCESS] at hr
    simp [TCS_GetRegisteredKeyBlob_Internal, hctx, hr]
  · intro hr ha
    simp only [TSS_SUCCESS] at hr
    simp [TCS_GetRegisteredKeyBlob_Internal, hctx, hr, ha, TSS_SUCCESS]

/-- Witness for C6: the blob of the registered key `uuidOf 1` is returned
byte for byte, and the unknown key `uuidOf 7` gives
`TCS_E_KEY_NOT_REGISTERED` with no output written. -/
theorem getRegisteredKeyBlob_lookup_witness :
    (specEnv tssConsts).ctx_verify_context 1 = TSS_SUCCESS ∧
    TCS_GetRegisteredKeyBlob_Internal tssConsts (specEnv tssConsts) sampleRegistry 1 (uuidOf 1)
      = ⟨TSS_SUCCESS, some (some [0xAA, 0xBB]), some 2,
          [Call.ctx_verify_context 1, Call.getRegisteredKeyByUUID (uuidOf 1),
            Call.getSomeMemory 2]⟩ ∧
    ((TCS_GetRegisteredKeyBlob_Internal tssConsts (specEnv tssConsts) sampleRegistry 1
        (uuidOf 7)).result = tssConsts.TCS_E_KEY_NOT_REGISTERED ∧
      (TCS_GetRegisteredKeyBlob_Internal tssConsts (specEnv tssConsts) sampleRegistry 1
        (uuidOf 7)).prgbKey = none ∧
      (TCS_GetRegisteredKeyBlob_Internal tssConsts (specEnv tssConsts) sampleRegistry 1
        (uuidOf 7)).pcKeySize = none) :=
  ⟨by decide, by decide,
    (getRegisteredKeyBlob_lookup tssConsts (specEnv tssConsts) sampleRegistry 1 (uuidOf 7)
      (by decide)).1 (by decide)⟩

/-! ### The chain walk -/

theorem chainIter_nil (k : Consts) (head : List key_disk_cache) (u : TSS_UUID) (c : Nat)
    (acc : List key_disk_cache) :
    chainIter k head ⟨[], u, c, acc⟩ = (false, ⟨[], u, c, acc⟩) := rfl

theorem chainIter_full (k : Consts) (head ptr : List key_disk_cache) (u : TSS_UUID) (c : Nat)
    (acc : List key_disk_cache) (hc : ¬ c < k.MAX_KEY_CHILDREN) :
    chainIter k head ⟨ptr, u, c, acc⟩ = (false, ⟨ptr, u, c, acc⟩) := by
  cases ptr with
  | nil => rfl
  | cons d next => simp [chainIter, hc]

theorem chainIter_skip (k : Consts) (head next : List key_disk_cache) (d : key_disk_cache)
    (u : TSS_UUID) (c : Nat) (acc : List key_disk_cache) (hc : c < k.MAX_KEY_CHILDREN)
    (hd : d.isKey k u = false) :
    chainIter k head ⟨d :: next, u, c, acc⟩ = (true, ⟨next, u, c, acc⟩) := by
  have : ¬ (d.valid k = true ∧ d.uuid = u) := by
    simpa [key_disk_cache.isKey] using hd
  simp [chainIter, hc, this]

theorem chainIter_root (k : Consts) (head next : List key_disk_cache) (d : key_disk_cache)
    (u : TSS_UUID) (c : Nat) (acc : List key_disk_cache) (hc : c < k.MAX_KEY_CHILDREN)
    (hd : d.isKey k u = true) (hp : d.parent_uuid = k.NULL_UUID) :
    chainIter k head ⟨d :: next, u, c, acc⟩ = (false, ⟨d :: next, u, c + 1, acc ++ [d]⟩) := by
  have : d.valid k = true ∧ d.uuid = u := by
    simpa [key_disk_cache.isKey] using hd
  simp [chainIter, hc, this, hp]

theorem chainIter_parent (k : Consts) (head next : List key_disk_cache) (d : key_disk_cache)
    (u : TSS_UUID) (c : Nat) (acc : List key_disk_cache) (hc : c < k.MAX_KEY_CHILDREN)
    (hd : d.isKey k u = true) (hp : d.parent_uuid ≠ k.NULL_UUID) :
    chainIter k head ⟨d :: next, u, c, acc⟩
      = (true, ⟨head, d.parent_uuid, c + 1, acc ++ [d]⟩) := by
  have : d.valid k = true ∧ d.uuid = u := by
    simpa [key_disk_cache.isKey] using hd
  simp [chainIter, hc, this, hp]

/-- With enough iterations the loop of the chain walk is left, and what it
has then stored is `chainFrom`. -/
theorem chainLoop_chainFrom (k : Consts) (head : List key_disk_cache) :
    ∀ (n : Nat) (ptr : List key_disk_cache) (u : TSS_UUID) (c : Nat)
      (acc : List key_disk_cache) (fuel : Nat),
      c + n = k.MAX_KEY_CHILDREN → n * (head.length + 1) + ptr.length + 1 ≤ fuel →
      ∃ s, chainLoop k head fuel ⟨ptr, u, c, acc⟩ = some s ∧
        s.tmp_ptrs = acc ++ chainFrom k head n ptr u ∧
        s.count = c + (chainFrom k head n ptr u).length := by
  intro n
  induction n with
  | zero =>
    intro ptr u c acc fuel hc hf
    obtain ⟨f, rfl⟩ : ∃ f, fuel = f + 1 := ⟨fuel - 1, by omega⟩
    have hfull : ¬ c < k.MAX_KEY_CHILDREN := by omega
    refine ⟨⟨ptr, u, c, acc⟩, ?_, by simp [chainFrom], by simp [chainFrom]⟩
    simp [chainLoop, chainIter_full k head ptr u c acc hfull]
  | succ n ih =>
    intro ptr
    induction ptr with
    | nil =>
      intro u c acc fuel _ hf
      obtain ⟨f, rfl⟩ : ∃ f, fuel = f + 1 := ⟨fuel - 1, by omega⟩
      refine ⟨⟨[], u, c, acc⟩, ?_, by simp [chainFrom], by simp [chainFrom]⟩
      simp [chainLoop, chainIter_nil]
    | cons d next ihp =>
      intro u c acc fuel hc hf
      obtain ⟨f, rfl⟩ : ∃ f, fuel = f + 1 := ⟨fuel - 1, by omega⟩
      have hlt : c < k.MAX_KEY_CHILDREN := by omega
      cases hd : d.isKey k u with
      | false =>
        have hf2 : (n + 1) * (head.length + 1) + next.length + 1 ≤ f := by
          simp only [List.length_cons] at hf; omega
        obtain ⟨s, hs, h1, h2⟩ := ihp u c acc f hc hf2
        refine ⟨s, ?_, ?_, ?_⟩
        · simp [chainLoop, chainIter_skip k head next d u c acc hlt hd, hs]
        · simpa [chainFrom, List.find?, hd] using h1
        · simpa [chainFrom, List.find?, hd] using h2
      | true =>
        by_cases hp : d.parent_uuid = k.NULL_UUID
        · refine ⟨⟨d :: next, u, c + 1, acc ++ [d]⟩, ?_, ?_, ?_⟩
          · simp [chainLoop, chainIter_root k head next d u c acc hlt hd hp]
          · simp [chainFrom, List.find?, hd, hp]
          · simp [chainFrom, List.find?, hd, hp]
        · have hf2 : n * (head.length + 1) + head.length + 1 ≤ f := by
            simp only [List.length_cons] at hf
            have : (n + 1) * (head.length + 1) = n * (head.length + 1) + (head.length + 1) := by
              ring
            omega
          obtain ⟨s, hs, h1, h2⟩ :=
            ih head d.parent_uuid (c + 1) (acc ++ [d]) f (by omega) hf2
          refine ⟨s, ?_, ?_, ?_⟩
          · simp [chainLoop, chainIter_parent k head next d u c acc hlt hd hp, hs]
          · simp [chainFrom, List.find?, hd, hp, h1]
          · simp only [chainFrom, List.find?, hd, hp, h2, if_false, List.length_cons]
            omega

/-- The chain walk always leaves its loop within `chainFuel` iterations,
having stored `chainFrom` from the head of the cache. -/
theorem chainWalk_eq (k : Consts) (head : List key_disk_cache) (u : TSS_UUID) :
    ∃ s, chainWalk k head u = some s ∧
      s.tmp_ptrs = chainFrom k head k.MAX_KEY_CHILDREN head u ∧
      s.count = (chainFrom k head k.MAX_KEY_CHILDREN head u).length := by
  have hfuel : k.MAX_KEY_CHILDREN * (head.length + 1) + head.length + 1
      ≤ chainFuel k head := by
    unfold chainFuel
    have : (k.MAX_KEY_CHILDREN + 1) * (head.length + 1)
        = k.MAX_KEY_CHILDREN * (head.length + 1) + (head.length + 1) := by ring
    omega
  obtain ⟨s, hs, h1, h2⟩ :=
    chainLoop_chainFrom k head k.MAX_KEY_CHILDREN head u 0 [] (chainFuel k head) (by omega) hfuel
  exact ⟨s, hs, by simpa using h1, by simpa using h2⟩

theorem chainFrom_length_le (k : Consts) (head : List key_disk_cache) :
    ∀ (n : Nat) (ptr : List key_disk_cache) (u : TSS_UUID),
      (chainFrom k head n ptr u).length ≤ n := by
  intro n
  induction n with
  | zero => intro ptr u; simp [chainFrom]
  | succ n ih =>
    intro ptr u
    simp only [chainFrom]
    split
    · simp
    · split
      · simp
      · simpa using ih head _

theorem chainLoop_mono (k : Consts) (head : List key_disk_cache) :
    ∀ (f : Nat) (s r : WalkState), chainLoop k head f s = some r →
      ∀ g, f ≤ g → chainLoop k head g s = some r := by
  intro f
  induction f with
  | zero => intro s r h; simp [chainLoop] at h
  | succ f ih =>
    intro s r h g hg
    obtain ⟨g, rfl⟩ : ∃ g1, g = g1 + 1 := ⟨g - 1, by omega⟩
    rcases hit : chainIter k head s with ⟨b, s1⟩
    cases b with
    | false => simpa [chainLoop, hit] using h
    | true =>
      simp only [chainLoop, hit] at h ⊢
      exact ih s1 r h g (by omega)

theorem find_isKey_of_mem (k : Consts) (d : key_disk_cache) :
    ∀ (l : List key_disk_cache), d ∈ l → d.valid k = true →
      (l.filter (key_disk_cache.valid k)).Pairwise (fun a b => a.uuid ≠ b.uuid) →
      l.find? (key_disk_cache.isKey k d.uuid) = some d := by
  intro l
  induction l with
  | nil => intro h; simp at h
  | cons a rest ih =>
    intro hmem hv hpw
    cases ha : a.isKey k d.uuid with
    | true =>
      have hav : a.valid k = true ∧ a.uuid = d.uuid := by
        simpa [key_disk_cache.isKey] using ha
      have had : a = d := by
        by_contra hne
        have hdr : d ∈ rest := by
          rcases List.mem_cons.1 hmem with h | h
          · exact absurd h.symm hne
          · exact h
        have hdf : d ∈ rest.filter (key_disk_cache.valid k) := List.mem_filter.2 ⟨hdr, hv⟩
        rw [List.filter_cons_of_pos hav.1, List.pairwise_cons] at hpw
        exact hpw.1 d hdf hav.2
      subst had
      simp [List.find?, ha]
    | false =>
      have hne : d ≠ a := by
        intro h
        subst h
        simp [key_disk_cache.isKey, hv] at ha
      have hdr : d ∈ rest := by
        rcases List.mem_cons.1 hmem with h | h
        · exact absurd h hne
        · exact h
      have hpw2 : (rest.filter (key_disk_cache.valid k)).Pairwise
          (fun a b => a.uuid ≠ b.uuid) := by
        by_cases hva : a.valid k = true
        · rw [List.filter_cons_of_pos hva, List.pairwise_cons] at hpw
          exact hpw.2
        · rw [List.filter_cons_of_neg hva] at hpw
          exact hpw
      simp [List.find?, ha, ih hdr hv hpw2]

/-- On a cache whose valid nodes have pairwise distinct UUIDs, the walk
from the first key of a chain to a root collects exactly that chain, as
long as the chain fits. -/
theorem chainFrom_of_chain (k : Consts) (head : List key_disk_cache)
    (hpw : (head.filter (key_disk_cache.valid k)).Pairwise (fun a b => a.uuid ≠ b.uuid)) :
    ∀ (chain : List key_disk_cache) (n : Nat) (d0 : key_disk_cache)
      (more : List key_disk_cache), chain = d0 :: more → IsChainToRoot k chain →
      (∀ d ∈ chain, d ∈ head ∧ d.valid k = true) →
      chain.length ≤ n → chainFrom k head n head d0.uuid = chain := by
  intro chain
  induction chain with
  | nil => intro n d0 more h; simp at h
  | cons a tl ih =>
    intro n d0 more heq hch hmem hlen
    obtain ⟨rfl, rfl⟩ := List.cons.inj heq
    obtain ⟨m, rfl⟩ : ∃ m, n = m + 1 := ⟨n - 1, by simp at hlen; omega⟩
    have hfind := find_isKey_of_mem k a head (hmem a (by simp)).1 (hmem a (by simp)).2 hpw
    cases tl with
    | nil =>
      have hp : a.parent_uuid = k.NULL_UUID := hch
      simp [chainFrom, hfind, hp]
    | cons e rest =>
      obtain ⟨hpe, hne, hrest⟩ : a.parent_uuid = e.uuid ∧ a.parent_uuid ≠ k.NULL_UUID ∧
        IsChainToRoot k (e :: rest) := hch
      have htl := ih m e rest rfl hrest (fun d hd => hmem d (List.mem_cons_of_mem _ hd))
        (by simp at hlen ⊢; omega)
      have hne2 : e.uuid ≠ k.NULL_UUID := hpe ▸ hne
      simp [chainFrom, hfind, hpe, hne2, htl]

theorem chainFrom_mem (k : Consts) (head : List key_disk_cache) :
    ∀ (n : Nat) (ptr : List key_disk_cache) (u : TSS_UUID), (∀ x ∈ ptr, x ∈ head) →
      ∀ d ∈ chainFrom k head n ptr u, d ∈ head ∧ d.valid k = true := by
  intro n
  induction n with
  | zero => intro ptr u _ d hd; simp [chainFrom] at hd
  | succ n ih =>
    intro ptr u hsub d hd
    simp only [chainFrom] at hd
    split at hd
    · simp at hd
    · next a ha =>
      have hain : a ∈ head := hsub a (List.mem_of_find?_eq_some ha)
      have hav : a.valid k = true := by
        have := List.find?_some ha
        simp only [key_disk_cache.isKey, Bool.and_eq_true] at this
        exact this.1
      split at hd
      · simp only [List.mem_singleton] at hd
        subst hd
        exact ⟨hain, hav⟩
      · rcases List.mem_cons.1 hd with h | h
        · subst h
          exact ⟨hain, hav⟩
        · exact ih head a.parent_uuid (fun x hx => hx) d h

/-- Where the walk stops: its last node is a root, or the walk has used
all `n` places, or no valid node of the cache has the UUID of the last
node's parent. -/
theorem chainFrom_last (k : Consts) (head : List key_disk_cache) :
    ∀ (n : Nat) (ptr : List key_disk_cache) (u : TSS_UUID) (d : key_disk_cache),
      (chainFrom k head n ptr u).getLast? = some d →
      d.parent_uuid = k.NULL_UUID ∨ (chainFrom k head n ptr u).length = n ∨
        head.find? (key_disk_cache.isKey k d.parent_uuid) = none := by
  intro n
  induction n with
  | zero => intro ptr u d h; simp [chainFrom] at h
  | succ n ih =>
    intro ptr u d h
    cases ha : ptr.find? (key_disk_cache.isKey k u) with
    | none => simp [chainFrom, ha] at h
    | some a =>
      simp only [chainFrom, ha] at h ⊢
      by_cases hp : a.parent_uuid = k.NULL_UUID
      · simp only [hp, if_true, List.getLast?_singleton, Option.some.injEq] at h
        subst h
        exact Or.inl hp
      · simp only [hp, if_false] at h ⊢
        cases htl : chainFrom k head n head a.parent_uuid with
        | nil =>
          simp only [htl, List.getLast?_singleton, Option.some.injEq] at h
          subst h
          cases n with
          | zero => right; left; simp
          | succ m =>
            right; right
            simp only [chainFrom] at htl
            split at htl
            · next hnone => exact hnone
            · split at htl <;> simp at htl
        | cons b tl2 =>
          rw [htl, List.getLast?_cons_cons] at h
          rw [← htl] at h
          rcases ih head a.parent_uuid d h with h1 | h1 | h1
          · exact Or.inl h1
          · right; left
            rw [← htl, List.length_cons, h1]
          · exact Or.inr (Or.inr h1)

theorem chainFrom_head (k : Consts) (head : List key_disk_cache) :
    ∀ (n : Nat) (ptr : List key_disk_cache) (u : TSS_UUID) (d : key_disk_cache),
      (chainFrom k head n ptr u).head? = some d → d.uuid = u := by
  intro n ptr u d h
  cases n with
  | zero => simp [chainFrom] at h
  | succ n =>
    cases ha : ptr.find? (key_disk_cache.isKey k u) with
    | none => simp [chainFrom, ha] at h
    | some a =>
      have hkey := List.find?_some ha
      simp only [key_disk_cache.isKey, Bool.and_eq_true, decide_eq_true_eq] at hkey
      simp only [chainFrom, ha] at h
      split at h
      · simp only [List.head?_cons, Option.some.injEq] at h
        subst h
        exact hkey.2
      · simp only [List.head?_cons, Option.some.injEq] at h
        subst h
        exact hkey.2

/-- The nodes the walk collects are linked: each one has a parent other
than `NULL_UUID`, which is the UUID of the node collected next. -/
theorem chainFrom_linked (k : Consts) (head : List key_disk_cache) :
    ∀ (n : Nat) (ptr : List key_disk_cache) (u : TSS_UUID),
      (chainFrom k head n ptr u).Chain'
        (fun a b => a.parent_uuid = b.uuid ∧ a.parent_uuid ≠ k.NULL_UUID) := by
  intro n
  induction n with
  | zero => intro ptr u; simp [chainFrom]
  | succ n ih =>
    intro ptr u
    cases ha : ptr.find? (key_disk_cache.isKey k u) with
    | none => simp [chainFrom, ha]
    | some a =>
      simp only [chainFrom, ha]
      by_cases hp : a.parent_uuid = k.NULL_UUID
      · simp [hp]
      · simp only [hp, if_false]
        rw [List.chain'_cons']
        refine ⟨?_, ih head a.parent_uuid⟩
        intro b hb
        exact ⟨(chainFrom_head k head n head a.parent_uuid b (Option.mem_def.1 hb)).symm, hp⟩

/-! ### Filling the returned array -/

theorem fillValid_eq_fillChain {σ : Type} (k : Consts) (env : Env σ) (mem : List key_mem_cache) :
    ∀ (l : List key_disk_cache) (ret : List TSS_KM_KEYINFO) (t : List Call),
      fillValid k env mem l ret t = fillChain env mem (l.filter (key_disk_cache.valid k)) ret t := by
  intro l
  induction l with
  | nil => intro ret t; rfl
  | cons d next ih =>
    intro ret t
    by_cases hv : d.valid k = true
    · rw [List.filter_cons_of_pos hv]
      simp only [fillValid, fillChain, hv, if_true]
      split
      · rfl
      · exact ih _ _
    · rw [List.filter_cons_of_neg hv]
      simp only [fillValid, hv]
      exact ih _ _

/-- The loop that fills `ret` either fails at some node, with a non-zero
result and `ret` freed, or succeeds at every node, with result
`TCS_SUCCESS` and one more entry in `ret` for each node, in order. -/
theorem fillChain_cases {σ : Type} (env : Env σ) (mem : List key_mem_cache) :
    ∀ (l : List key_disk_cache) (ret : List TSS_KM_KEYINFO) (t : List Call),
      (∃ r t1, fillChain env mem l ret t = (r, none, t1) ∧ r ≠ 0 ∧
        ∃ d ∈ l, (env.fill_key_info d (findMemEntry d.uuid mem)).1 ≠ 0) ∨
      (∃ t1, fillChain env mem l ret t
          = (TCS_SUCCESS, some (ret ++ l.map (keyInfoOf env mem)), t1) ∧
        ∀ d ∈ l, (env.fill_key_info d (findMemEntry d.uuid mem)).1 = 0) := by
  intro l
  induction l with
  | nil => intro ret t; right; exact ⟨t, by simp [fillChain], by simp⟩
  | cons d more ih =>
    intro ret t
    by_cases hr : (env.fill_key_info d (findMemEntry d.uuid mem)).1 = 0
    · rcases ih (ret ++ [keyInfoOf env mem d])
          (t ++ [Call.fill_key_info d (findMemEntry d.uuid mem)]) with
        ⟨r, t1, h1, h2, e, he, hne⟩ | ⟨t1, h1, h2⟩
      · left
        refine ⟨r, t1, ?_, h2, e, List.mem_cons_of_mem _ he, hne⟩
        simpa [fillChain, hr, keyInfoOf] using h1
      · right
        refine ⟨t1, ?_, ?_⟩
        · simpa [fillChain, hr, keyInfoOf] using h1
        · intro e he
          rcases List.mem_cons.1 he with h | h
          · subst h; exact hr
          · exact h2 e h
    · left
      exact ⟨(env.fill_key_info d (findMemEntry d.uuid mem)).1,
        t ++ [Call.fill_key_info d (findMemEntry d.uuid mem)], by simp [fillChain, hr], hr, d,
        by simp, hr⟩

/-- The outcome of the allocation and filling part of a branch. -/
theorem enumAllocFill_cases {σ : Type} (k : Consts) (env : Env σ) (mem : List key_mem_cache)
    (hContext : TCS_CONTEXT_HANDLE) (count : Nat) (l : List key_disk_cache) (t : List Call) :
    (count = 0 ∧ ∃ t1, enumAllocFill k env hContext count (fillChain env mem l) t
        = ⟨TCS_SUCCESS, some none, some 0, t1⟩) ∨
    (count ≠ 0 ∧ env.getSomeMemory (count * k.sizeof_TSS_KM_KEYINFO) hContext = false ∧
      ∃ t1, enumAllocFill k env hContext count (fillChain env mem l) t
        = ⟨k.TSS_E_OUTOFMEMORY, some none, some 0, t1⟩) ∨
    (count ≠ 0 ∧ env.getSomeMemory (count * k.sizeof_TSS_KM_KEYINFO) hContext = true ∧
      (∃ d ∈ l, (env.fill_key_info d (findMemEntry d.uuid mem)).1 ≠ 0) ∧
      ∃ r t1, r ≠ 0 ∧ enumAllocFill k env hContext count (fillChain env mem l) t
        = ⟨r, some none, some 0, t1⟩) ∨
    (count ≠ 0 ∧ env.getSomeMemory (count * k.sizeof_TSS_KM_KEYINFO) hContext = true ∧
      (∀ d ∈ l, (env.fill_key_info d (findMemEntry d.uuid mem)).1 = 0) ∧
      ∃ t1, enumAllocFill k env hContext count (fillChain env mem l) t
        = ⟨TCS_SUCCESS, some (some (l.map (keyInfoOf env mem))), some count, t1⟩) := by
  by_cases hc : count = 0
  · left
    exact ⟨hc, t ++ [Call.unlock_disk_cache, Call.unlock_mem_cache],
      by simp [enumAllocFill, hc, enumDone]⟩
  · right
    cases ha : env.getSomeMemory (count * k.sizeof_TSS_KM_KEYINFO) hContext with
    | false =>
      left
      exact ⟨hc, rfl, t ++ [Call.getSomeMemory (count * k.sizeof_TSS_KM_KEYINFO)]
        ++ [Call.unlock_disk_cache, Call.unlock_mem_cache],
        by simp [enumAllocFill, hc, ha, enumDone]⟩
    | true =>
      right
      rcases fillChain_cases env mem l []
          (t ++ [Call.getSomeMemory (count * k.sizeof_TSS_KM_KEYINFO)]) with
        ⟨r, t1, h1, h2, hbad⟩ | ⟨t1, h1, h2⟩
      · left
        exact ⟨hc, rfl, hbad, r, t1 ++ [Call.unlock_disk_cache, Call.unlock_mem_cache], h2,
          by simp [enumAllocFill, hc, ha, h1, enumDone]⟩
      · right
        exact ⟨hc, rfl, h2, t1 ++ [Call.unlock_disk_cache, Call.unlock_mem_cache],
          by simp [enumAllocFill, hc, ha, h1, enumDone]⟩

theorem countValid_eq (k : Consts) :
    ∀ (l : List key_disk_cache) (c : Nat),
      countValid k l c = c + (l.filter (key_disk_cache.valid k)).length := by
  intro l
  induction l with
  | nil => intro c; simp [countValid]
  | cons d next ih =>
    intro c
    by_cases hv : d.valid k = true
    · simp [countValid, hv, ih]; omega
    · simp [countValid, hv, ih]

theorem findMemEntry_eq_find (u : TSS_UUID) :
    ∀ (mem : List key_mem_cache), findMemEntry u mem = mem.find? (fun m => decide (m.uuid = u)) := by
  intro mem
  induction mem with
  | nil => rfl
  | cons m next ih =>
    by_cases h : m.uuid = u
    · simp [findMemEntry, List.find?, h]
    · simp [findMemEntry, List.find?, h, ih]

/-! ### Theorems about `TCS_EnumRegisteredKeys_Internal` -/

/-- C7. `TCS_EnumRegisteredKeys_Internal` with a non-null UUID `K`: on a
disk cache whose valid nodes have pairwise distinct UUIDs and contain a
chain of `D` nodes from `K` to the root (the parent of each node before the
last is the UUID of the next node; the last node is the root, with parent
`NULL_UUID`), with `1 ≤ D ≤ MAX_KEY_CHILDREN`, a valid context, `K` reported
registered, and the allocation and every `fill_key_info` succeeding, the
call returns `TSS_SUCCESS` with `*pcKeyHierarchySize = D` and the `i`-th
returned entry filled from the `i`-th node of the chain: `K` first, the root
last. -/
theorem enumRegisteredKeys_chain {σ : Type} (k : Consts) (env : Env σ) (st : σ)
    (head : List key_disk_cache) (mem : List key_mem_cache) (hContext : TCS_CONTEXT_HANDLE)
    (K : TSS_UUID) (first : key_disk_cache) (more : List key_disk_cache)
    (hctx : env.ctx_verify_context hContext = TSS_SUCCESS)
    (hreg : env.isUUIDRegistered st K = (TSS_SUCCESS, true))
    (hpw : (head.filter (key_disk_cache.valid k)).Pairwise (fun a b => a.uuid ≠ b.uuid))
    (hK : first.uuid = K)
    (hch : IsChainToRoot k (first :: more))
    (hmem : ∀ d ∈ first :: more, d ∈ head ∧ d.valid k = true)
    (hlen : (first :: more).length ≤ k.MAX_KEY_CHILDREN)
    (halloc : env.getSomeMemory ((first :: more).length * k.sizeof_TSS_KM_KEYINFO) hContext
      = true)
    (hfill : ∀ d ∈ first :: more,
      (env.fill_key_info d (findMemEntry d.uuid mem)).1 = TSS_SUCCESS) :
    ∃ out, TCS_EnumRegisteredKeys_Internal k env st head mem hContext (some K) true true
        = some out ∧
      out.result = TSS_SUCCESS ∧
      out.pcKeyHierarchySize = some (first :: more).length ∧
      out.ppKeyHierarchy = some (some ((first :: more).map (keyInfoOf env mem))) := by
  simp only [TSS_SUCCESS] at hctx hreg hfill
  obtain ⟨s, hs, hptrs, hcount⟩ := chainWalk_eq k head K
  have hcf : chainFrom k head k.MAX_KEY_CHILDREN head K = first :: more := by
    rw [← hK]
    exact chainFrom_of_chain k head hpw (first :: more) k.MAX_KEY_CHILDREN first more rfl hch
      hmem hlen
  rw [hcf] at hptrs hcount
  have hne : s.count ≠ 0 := by rw [hcount]; simp
  rcases enumAllocFill_cases k env mem hContext s.count s.tmp_ptrs
      ([Call.ctx_verify_context hContext] ++ [Call.isUUIDRegistered K]
        ++ [Call.lock_disk_cache, Call.lock_mem_cache]) with
    ⟨h0, _⟩ | ⟨_, ha, _⟩ | ⟨_, _, ⟨d, hd, hbad⟩, _⟩ | ⟨_, _, _, t1, ht1⟩
  · exact absurd h0 hne
  · rw [hcount, halloc] at ha
    exact absurd ha (by simp)
  · rw [hptrs] at hd
    exact absurd (hfill d hd) hbad
  · refine ⟨⟨TCS_SUCCESS, some (some (s.tmp_ptrs.map (keyInfoOf env mem))), some s.count, t1⟩,
      ?_, rfl, by simp [hcount], by simp [hptrs]⟩
    simp only [TCS_EnumRegisteredKeys_Internal, hctx, hreg, hs]
    simp only [ht1]
    simp

/-- Witness for C7: the chain `uuidOf 2`, `uuidOf 1` of `sampleDisk`. -/
theorem enumRegisteredKeys_chain_witness :
    (TCS_EnumRegisteredKeys_Internal tssConsts (specEnv tssConsts) sampleRegistry
        sampleDisk sampleMem 1 (some (uuidOf 2)) true true).map
      (fun out => (out.result, out.pcKeyHierarchySize, out.ppKeyHierarchy))
    = some (TSS_SUCCESS, some 2, some (some ([diskNode 1 2 1, diskNode 1 1 0].map
        (keyInfoOf (specEnv tssConsts) sampleMem)))) := by
  obtain ⟨out, h, h1, h2, h3⟩ :=
    enumRegisteredKeys_chain tssConsts (specEnv tssConsts) sampleRegistry sampleDisk sampleMem 1
      (uuidOf 2) (diskNode 1 2 1) [diskNode 1 1 0] (by decide) (by decide) (by decide)
      (by decide)
      ⟨by decide, by decide,
        show (diskNode 1 1 0).parent_uuid = tssConsts.NULL_UUID by decide⟩
      (by decide) (by decide) (by decide) (by decide)
  rw [h, Option.map_some', h1, h2, h3]
  rfl

/-- C8 does not hold on the code, and the code breaks its own comments at
`tcskcm.c:180` ("return a chain of a key and its parents up to the SRK") and
`tcskcm.c:203-204` ("we have an array of TSS_UUID's that leads from the
requested key up to the SRK"). On the one-node cache holding the valid key
`uuidOf 2` with parent `uuidOf 5`, which has no disk-cache node, the call
for `uuidOf 2` returns `TSS_SUCCESS` with a list of one entry whose parent
is not `NULL_UUID`; on the two-node cache in which `uuidOf 2` and `uuidOf 1`
are each other's parent the call returns `TSS_SUCCESS` with
`MAX_KEY_CHILDREN = 10` entries. Neither call fails, and neither list leads
up to a root. -/
theorem enumRegisteredKeys_truncates_counterexample :
    (TCS_EnumRegisteredKeys_Internal tssConsts (specEnv tssConsts) sampleRegistry
        [diskNode 1 2 5] sampleMem 1 (some (uuidOf 2)) true true).map
      (fun out => (out.result, out.pcKeyHierarchySize, out.ppKeyHierarchy))
      = some (TSS_SUCCESS, some 1,
          some (some [keyInfoOf (specEnv tssConsts) sampleMem (diskNode 1 2 5)])) ∧
    (chainWalk tssConsts [diskNode 1 2 5] (uuidOf 2)).map WalkState.tmp_ptrs
      = some [diskNode 1 2 5] ∧
    (diskNode 1 2 5).parent_uuid ≠ tssConsts.NULL_UUID ∧
    (keyInfoOf (specEnv tssConsts) sampleMem (diskNode 1 2 5)).parentKeyUUID
      ≠ tssConsts.NULL_UUID ∧
    (TCS_EnumRegisteredKeys_Internal tssConsts (specEnv tssConsts) sampleRegistry
        [diskNode 1 2 1, diskNode 1 1 2] sampleMem 1 (some (uuidOf 2)) true true).map
      (fun out => (out.result, out.pcKeyHierarchySize))
      = some (TSS_SUCCESS, some 10) := by
  decide

/-- Extent of the defect behind C8. The chain walk of
`TCS_EnumRegisteredKeys_Internal` has no check of how it left its loop: with
a valid context, the key reported registered, and allocation and
`fill_key_info` never failing, the call returns `TSS_SUCCESS` on every disk
cache. Whenever it returns a list, the result is `TSS_SUCCESS`, the list is
non-empty, has at most `MAX_KEY_CHILDREN` entries, is filled from valid
disk-cache nodes that start with the node of `K` and are linked by their
parent UUIDs, and the node behind its last entry is a root (parent
`NULL_UUID`), or the list has exactly `MAX_KEY_CHILDREN` entries, or no
valid disk-cache node has the UUID of that node's parent. Only in the first
case does the list lead up to a root, as the comments of the source say it
does; in the other two the caller receives a partial chain with success. -/
theorem enumRegisteredKeys_chain_end {σ : Type} (k : Consts) (env : Env σ) (st : σ)
    (head : List key_disk_cache) (mem : List key_mem_cache) (hContext : TCS_CONTEXT_HANDLE)
    (K : TSS_UUID)
    (hctx : env.ctx_verify_context hContext = TSS_SUCCESS)
    (hreg : env.isUUIDRegistered st K = (TSS_SUCCESS, true)) :
    ((∀ n, env.getSomeMemory n hContext = true) →
      (∀ d m, (env.fill_key_info d m).1 = TSS_SUCCESS) →
      ∃ out, TCS_EnumRegisteredKeys_Internal k env st head mem hContext (some K) true true
          = some out ∧ out.result = TSS_SUCCESS) ∧
    (∀ out ret,
      TCS_EnumRegisteredKeys_Internal k env st head mem hContext (some K) true true
        = some out →
      out.ppKeyHierarchy = some (some ret) →
      ∃ chain : List key_disk_cache,
        ret = chain.map (keyInfoOf env mem) ∧ chain ≠ [] ∧
        out.result = TSS_SUCCESS ∧ out.pcKeyHierarchySize = some chain.length ∧
        chain.length ≤ k.MAX_KEY_CHILDREN ∧
        (∀ d ∈ chain, d ∈ head ∧ d.valid k = true) ∧
        chain.head?.map key_disk_cache.uuid = some K ∧
        chain.Chain' (fun a b => a.parent_uuid = b.uuid ∧ a.parent_uuid ≠ k.NULL_UUID) ∧
        ∀ d, chain.getLast? = some d →
          d.parent_uuid = k.NULL_UUID ∨ chain.length = k.MAX_KEY_CHILDREN ∨
            ∀ e ∈ head, e.valid k = true → e.uuid ≠ d.parent_uuid) := by
  simp only [TSS_SUCCESS] at hctx hreg
  obtain ⟨s, hs, hptrs, hcount⟩ := chainWalk_eq k head K
  have hE : TCS_EnumRegisteredKeys_Internal k env st head mem hContext (some K) true true
      = some (enumAllocFill k env hContext s.count (fillChain env mem s.tmp_ptrs)
          ([Call.ctx_verify_context hContext] ++ [Call.isUUIDRegistered K]
            ++ [Call.lock_disk_cache, Call.lock_mem_cache])) := by
    simp only [TCS_EnumRegisteredKeys_Internal, hctx, hreg, hs]
    simp
  have hcases := enumAllocFill_cases k env mem hContext s.count s.tmp_ptrs
      ([Call.ctx_verify_context hContext] ++ [Call.isUUIDRegistered K]
        ++ [Call.lock_disk_cache, Call.lock_mem_cache])
  constructor
  · intro halloc hfill
    rw [hE]
    rcases hcases with ⟨_, t1, h1⟩ | ⟨_, ha, _⟩ | ⟨_, _, ⟨d, _, hbad⟩, _⟩ | ⟨_, _, _, t1, h1⟩
    · exact ⟨_, rfl, by rw [h1]; rfl⟩
    · rw [halloc] at ha; exact absurd ha (by simp)
    · exact absurd (hfill d _) hbad
    · exact ⟨_, rfl, by rw [h1]; rfl⟩
  · intro out ret hout hret
    rw [hE, Option.some.injEq] at hout
    subst hout
    rcases hcases with ⟨_, t1, h1⟩ | ⟨_, _, t1, h1⟩ | ⟨_, _, _, r, t1, _, h1⟩ | ⟨hne, _, _, t1, h1⟩
    · rw [h1] at hret; simp at hret
    · rw [h1] at hret; simp at hret
    · rw [h1] at hret; simp at hret
    · rw [h1] at hret ⊢
      simp only [Option.some.injEq] at hret
      have hnil : s.tmp_ptrs ≠ [] := by
        intro hnil
        rw [hcount, ← hptrs, hnil] at hne
        exact hne rfl
      refine ⟨s.tmp_ptrs, hret.symm, hnil, rfl, by simp [hptrs, hcount], ?_, ?_, ?_, ?_, ?_⟩
      · rw [hptrs]
        exact chainFrom_length_le k head _ _ _
      · rw [hptrs]
        exact chainFrom_mem k head _ _ _ (fun x hx => hx)
      · rw [hptrs] at hnil ⊢
        cases hcf : chainFrom k head k.MAX_KEY_CHILDREN head K with
        | nil => exact absurd hcf hnil
        | cons a tl =>
          have := chainFrom_head k head k.MAX_KEY_CHILDREN head K a (by rw [hcf]; rfl)
          simp [this]
      · rw [hptrs]
        exact chainFrom_linked k head _ _ _
      · intro d hd
        rw [hptrs] at hd ⊢
        rcases chainFrom_last k head _ _ _ d hd with h | h | h
        · exact Or.inl h
        · exact Or.inr (Or.inl h)
        · right; right
          intro e he hv heq
          have := List.find?_eq_none.1 h e he
          simp [key_disk_cache.isKey, hv, heq] at this

/-- Instance of `enumRegisteredKeys_chain_end`: the one-node cache whose key
has a parent without a disk-cache node. -/
theorem enumRegisteredKeys_chain_end_witness :
    (specEnv tssConsts).ctx_verify_context 1 = TSS_SUCCESS ∧
    (specEnv tssConsts).isUUIDRegistered sampleRegistry (uuidOf 2) = (TSS_SUCCESS, true) ∧
    ∃ out, TCS_EnumRegisteredKeys_Internal tssConsts (specEnv tssConsts) sampleRegistry
        [diskNode 1 2 5] sampleMem 1 (some (uuidOf 2)) true true = some out ∧
      out.result = TSS_SUCCESS :=
  ⟨by decide, by decide,
    (enumRegisteredKeys_chain_end tssConsts (specEnv tssConsts) sampleRegistry [diskNode 1 2 5]
      sampleMem 1 (uuidOf 2) (by decide) (by decide)).1 (fun _ => rfl) (fun _ _ => rfl)⟩

/-- C9. The chain walk of `TCS_EnumRegisteredKeys_Internal` terminates: for
every disk cache and every starting UUID the loop is left within
`chainFuel` iterations (and then with the same state for every larger number
of iterations), with `count ≤ MAX_KEY_CHILDREN` and exactly `count` elements
of `tmp_ptrs` written, so that every index `count - 1` written lies inside
the array; hence `TCS_EnumRegisteredKeys_Internal` returns on every
input. -/
theorem chainWalk_terminates (k : Consts) (head : List key_disk_cache) (u : TSS_UUID) :
    (∃ s, chainWalk k head u = some s ∧
      (∀ fuel, chainFuel k head ≤ fuel →
        chainLoop k head fuel (chainInit head u) = some s) ∧
      s.count ≤ k.MAX_KEY_CHILDREN ∧ s.tmp_ptrs.length = s.count) ∧
    (∀ {σ : Type} (env : Env σ) (st : σ) (mem : List key_mem_cache)
      (hContext : TCS_CONTEXT_HANDLE) (pcKeyHierarchySize ppKeyHierarchy : Bool),
      ∃ out, TCS_EnumRegisteredKeys_Internal k env st head mem hContext (some u)
        pcKeyHierarchySize ppKeyHierarchy = some out) := by
  obtain ⟨s, hs, hptrs, hcount⟩ := chainWalk_eq k head u
  constructor
  · refine ⟨s, hs, ?_, ?_, ?_⟩
    · intro fuel hf
      exact chainLoop_mono k head _ _ _ hs fuel hf
    · rw [hcount]
      exact chainFrom_length_le k head _ _ _
    · rw [hptrs, hcount]
  · intro σ env st mem hContext pc pp
    simp only [TCS_EnumRegisteredKeys_Internal, hs]
    split
    · exact ⟨_, rfl⟩
    · split
      · exact ⟨_, rfl⟩
      · split
        · exact ⟨_, rfl⟩
        · split
          · exact ⟨_, rfl⟩
          · exact ⟨_, rfl⟩

/-- C10. `TCS_EnumRegisteredKeys_Internal` with a null UUID: whenever it
returns `TSS_SUCCESS`, `*pcKeyHierarchySize` is the number of disk-cache
nodes with `CACHE_FLAG_VALID` set, and the returned array (`NULL` when that
number is zero) has one entry for each valid node, in disk-cache order, and
none for the others; the entry of a node is what `fill_key_info` writes for
the node and the first memory-cache node with the same UUID, or for the node
and `NULL` when no memory-cache node has that UUID. -/
theorem enumRegisteredKeys_all {σ : Type} (k : Consts) (env : Env σ) (st : σ)
    (head : List key_disk_cache) (mem : List key_mem_cache) (hContext : TCS_CONTEXT_HANDLE)
    (pcKeyHierarchySize ppKeyHierarchy : Bool) (out : EnumOutcome)
    (hk : k.ErrorsNonzero)
    (hout : TCS_EnumRegisteredKeys_Internal k env st head mem hContext none
      pcKeyHierarchySize ppKeyHierarchy = some out)
    (hres : out.result = TSS_SUCCESS) :
    out.pcKeyHierarchySize = some (head.filter (key_disk_cache.valid k)).length ∧
    out.ppKeyHierarchy = some
      (if head.filter (key_disk_cache.valid k) = [] then none
        else some ((head.filter (key_disk_cache.valid k)).map
          (fun d => (env.fill_key_info d
            (mem.find? (fun m => decide (m.uuid = d.uuid)))).2))) := by
  obtain ⟨_, _, _, _, hbad, hoom⟩ := hk
  simp only [TSS_SUCCESS] at hbad hoom hres
  have hmap : (fun d => (env.fill_key_info d
      (mem.find? (fun m => decide (m.uuid = d.uuid)))).2) = keyInfoOf env mem := by
    funext d
    simp [keyInfoOf, findMemEntry_eq_find]
  rw [hmap]
  simp only [TCS_EnumRegisteredKeys_Internal] at hout
  split at hout
  · simp only [Option.some.injEq] at hout
    subst hout
    exact absurd hres hbad
  · split at hout
    · next hc =>
      simp only [Option.some.injEq] at hout
      subst hout
      exact absurd hres hc
    · have hfv : fillValid k env mem head
          = fillChain env mem (head.filter (key_disk_cache.valid k)) := by
        funext ret t
        exact fillValid_eq_fillChain k env mem head ret t
      simp only [Option.some.injEq, hfv, countValid_eq, Nat.zero_add] at hout
      have hlen : ∀ l : List key_disk_cache, l.length = 0 ↔ l = [] := fun l => List.length_eq_zero
      rcases enumAllocFill_cases k env mem hContext
          (head.filter (key_disk_cache.valid k)).length (head.filter (key_disk_cache.valid k))
          ([Call.ctx_verify_context hContext] ++ [Call.lock_disk_cache, Call.lock_mem_cache]) with
        ⟨h0, t1, h1⟩ | ⟨_, _, t1, h1⟩ | ⟨_, _, _, r, t1, hr, h1⟩ | ⟨hne, _, _, t1, h1⟩
      · rw [h1] at hout
        subst hout
        simp [h0, (hlen _).1 h0]
      · rw [h1] at hout
        subst hout
        exact absurd hres hoom
      · rw [h1] at hout
        subst hout
        exact absurd hres hr
      · rw [h1] at hout
        subst hout
        have : head.filter (key_disk_cache.valid k) ≠ [] := fun h => hne ((hlen _).2 h)
        simp [this]

/-- Witness for C10: the full enumeration of `sampleDisk`, which has two
valid nodes and one invalidated node. -/
theorem enumRegisteredKeys_all_witness :
    tssConsts.ErrorsNonzero ∧
    TCS_EnumRegisteredKeys_Internal tssConsts (specEnv tssConsts) sampleRegistry sampleDisk
      sampleMem 1 none true true = some sampleEnumAll ∧
    sampleEnumAll.result = TSS_SUCCESS ∧
    sampleEnumAll.pcKeyHierarchySize
      = some (sampleDisk.filter (key_disk_cache.valid tssConsts)).length :=
  ⟨by decide, by decide, by decide,
    (enumRegisteredKeys_all tssConsts (specEnv tssConsts) sampleRegistry sampleDisk sampleMem 1
      true true sampleEnumAll (by decide) (by decide) (by decide)).1⟩

/-! ### Theorems about key loading and eviction -/

/-- C11. `TCS_EnumRegisteredKeys_Internal` rejects an unknown identifier at
once: with a valid context, non-null output pointers and a non-null UUID
that `isUUIDRegistered` reports as not registered, the call returns
`TCS_E_KEY_NOT_REGISTERED`, writes neither output parameter, and the only
calls it makes are `ctx_verify_context` and `isUUIDRegistered`: no lock is
taken, nothing is allocated or filled, and the outcome is the same for every
disk cache and memory cache. -/
theorem enumRegisteredKeys_unknown {σ : Type} (k : Consts) (env : Env σ) (st : σ)
    (head : List key_disk_cache) (mem : List key_mem_cache) (hContext : TCS_CONTEXT_HANDLE)
    (K : TSS_UUID)
    (hctx : env.ctx_verify_context hContext = TSS_SUCCESS)
    (hreg : env.isUUIDRegistered st K = (TSS_SUCCESS, false)) :
    TCS_EnumRegisteredKeys_Internal k env st head mem hContext (some K) true true
      = some ⟨k.TCS_E_KEY_NOT_REGISTERED, none, none,
          [Call.ctx_verify_context hContext, Call.isUUIDRegistered K]⟩ ∧
    Call.lock_disk_cache ∉ [Call.ctx_verify_context hContext, Call.isUUIDRegistered K] ∧
    Call.lock_mem_cache ∉ [Call.ctx_verify_context hContext, Call.isUUIDRegistered K] := by
  simp only [TSS_SUCCESS] at hctx hreg
  simp [TCS_EnumRegisteredKeys_Internal, hctx, hreg]

/-- Witness for C11: the key `uuidOf 7` is not in `sampleRegistry`. -/
theorem enumRegisteredKeys_unknown_witness :
    (specEnv tssConsts).ctx_verify_context 1 = TSS_SUCCESS ∧
    (specEnv tssConsts).isUUIDRegistered sampleRegistry (uuidOf 7) = (TSS_SUCCESS, false) ∧
    TCS_EnumRegisteredKeys_Internal tssConsts (specEnv tssConsts) sampleRegistry sampleDisk
        sampleMem 1 (some (uuidOf 7)) true true
      = some ⟨tssConsts.TCS_E_KEY_NOT_REGISTERED, none, none,
          [Call.ctx_verify_context 1, Call.isUUIDRegistered (uuidOf 7)]⟩ :=
  ⟨by decide, by decide,
    (enumRegisteredKeys_unknown tssConsts (specEnv tssConsts) sampleRegistry sampleDisk sampleMem
      1 (uuidOf 7) (by decide) (by decide)).1⟩

/-- C12. Load-avoidance in `TCSP_LoadKeyByUUID_Internal`: with a valid
context and a registered key whose public key maps to a handle `h` other
than `NULL_TCS_HANDLE` with a slot other than `NULL_TPM_HANDLE`, and
`ctx_mark_key_loaded` succeeding, the call returns `TSS_SUCCESS` with
`*phKeyTCSI = h`; the calls it makes are `ctx_verify_context`,
`getRegisteredKeyByUUID`, `getTCSKeyHandleByPub`, `getSlotByHandle` and
`ctx_mark_key_loaded`, so no request is submitted, the parent is not looked
up or loaded, and no memory-cache mutator is called. -/
theorem loadKeyByUUID_resident_key {σ : Type} (k : KmConsts) (env : KmEnv σ) (fuel : Nat)
    (st : σ) (hContext : TCS_CONTEXT_HANDLE) (K : TSS_UUID) (h : TCS_KEY_HANDLE)
    (hctx : env.ctx_verify_context st hContext = TSS_SUCCESS)
    (hreg : (env.getRegisteredKeyByUUID st K 0x1000).1 = TSS_SUCCESS)
    (hh : env.getTCSKeyHandleByPub st
      (env.UnloadBlob_KEY (env.getRegisteredKeyByUUID st K 0x1000).2.1).2.1.pubKey = h)
    (hnn : h ≠ k.NULL_TCS_HANDLE)
    (hslot : env.getSlotByHandle st h ≠ k.NULL_TPM_HANDLE)
    (hmark : (env.ctx_mark_key_loaded st hContext h).1 = TSS_SUCCESS) :
    ∃ out, TCSP_LoadKeyByUUID_Internal k env (fuel + 1) st hContext K = some out ∧
      out.result = TSS_SUCCESS ∧ out.phKeyTCSI = some h ∧
      out.state = (env.ctx_mark_key_loaded st hContext h).2 ∧
      out.trace =
        [KmCall.ctx_verify_context hContext TSS_SUCCESS,
          KmCall.getRegisteredKeyByUUID K TSS_SUCCESS,
          KmCall.getTCSKeyHandleByPub
            (env.UnloadBlob_KEY (env.getRegisteredKeyByUUID st K 0x1000).2.1).2.1.pubKey h,
          KmCall.getSlotByHandle h (env.getSlotByHandle st h),
          KmCall.ctx_mark_key_loaded hContext h TSS_SUCCESS] ∧
      (∀ c ∈ out.trace, c.isSubmit = false ∧ c.isCacheUpdate = false) := by
  simp only [TSS_SUCCESS] at hctx hreg hmark
  refine ⟨⟨TSS_SUCCESS, (env.ctx_mark_key_loaded st hContext h).2, some h, none, none, _⟩,
    ?_, rfl, rfl, rfl, rfl, ?_⟩
  · simp [TCSP_LoadKeyByUUID_Internal, hctx, hreg, hh, loadKeyByUUID_resident, hnn, hslot,
      hmark, TSS_SUCCESS]
  · simp [KmCall.isSubmit, KmCall.isCacheUpdate]

/-- Witness for C12: in `sampleWorld` the key `uuidOf 1` is resident under
the handle `1`. -/
theorem loadKeyByUUID_resident_key_witness :
    (TCSP_LoadKeyByUUID_Internal tssKmConsts (specKmEnv tssKmConsts) 1 sampleWorld 1
        (uuidOf 1)).map (fun out => (out.result, out.phKeyTCSI, out.trace))
      = some (TSS_SUCCESS, some 1,
          [KmCall.ctx_verify_context 1 0, KmCall.getRegisteredKeyByUUID (uuidOf 1) 0,
            KmCall.getTCSKeyHandleByPub [1] 1, KmCall.getSlotByHandle 1 0x1000,
            KmCall.ctx_mark_key_loaded 1 1 0]) := by
  obtain ⟨out, h, h1, h2, _, h4, _⟩ :=
    loadKeyByUUID_resident_key tssKmConsts (specKmEnv tssKmConsts) 0 sampleWorld 1 (uuidOf 1) 1
      (by decide) (by decide) (by decide) (by decide) (by decide) (by decide)
  rw [h, Option.map_some', h1, h2, h4]
  decide

/-- C14. `TCSP_LoadKeyByUUID_Internal` fails fast: with a valid context and
a key for which `getRegisteredKeyByUUID` fails, the call returns
`TCS_E_KEY_NOT_REGISTERED`, leaves the state as it was, writes no output,
and the only calls it makes are `ctx_verify_context` and
`getRegisteredKeyByUUID`: the memory cache is neither read nor changed, the
parent is not looked up, and nothing is submitted to the hardware. -/
theorem loadKeyByUUID_not_registered {σ : Type} (k : KmConsts) (env : KmEnv σ) (fuel : Nat)
    (st : σ) (hContext : TCS_CONTEXT_HANDLE) (K : TSS_UUID)
    (hctx : env.ctx_verify_context st hContext = TSS_SUCCESS)
    (hreg : (env.getRegisteredKeyByUUID st K 0x1000).1 ≠ TSS_SUCCESS) :
    ∃ out, TCSP_LoadKeyByUUID_Internal k env (fuel + 1) st hContext K = some out ∧
      out.result = k.TCS_E_KEY_NOT_REGISTERED ∧ out.state = st ∧ out.phKeyTCSI = none ∧
      out.trace =
        [KmCall.ctx_verify_context hContext TSS_SUCCESS,
          KmCall.getRegisteredKeyByUUID K (env.getRegisteredKeyByUUID st K 0x1000).1] := by
  simp only [TSS_SUCCESS] at hctx hreg
  refine ⟨⟨k.TCS_E_KEY_NOT_REGISTERED, st, none, none, none, _⟩, ?_, rfl, rfl, rfl, rfl⟩
  simp [TCSP_LoadKeyByUUID_Internal, hctx, hreg, TSS_SUCCESS]

/-- Witness for C14: the key `uuidOf 7` is not in the registry of
`sampleWorld`. -/
theorem loadKeyByUUID_not_registered_witness :
    (TCSP_LoadKeyByUUID_Internal tssKmConsts (specKmEnv tssKmConsts) 1 sampleWorld 1
        (uuidOf 7)).map (fun out => (out.result, out.phKeyTCSI, out.trace))
      = some (tssKmConsts.TCS_E_KEY_NOT_REGISTERED, none,
          [KmCall.ctx_verify_context 1 0,
            KmCall.getRegisteredKeyByUUID (uuidOf 7) tssKmConsts.TCS_E_KEY_NOT_REGISTERED]) := by
  obtain ⟨out, h, h1, _, h3, h4⟩ :=
    loadKeyByUUID_not_registered tssKmConsts (specKmEnv tssKmConsts) 0 sampleWorld 1 (uuidOf 7)
      (by decide) (by decide)
  rw [h, Option.map_some', h1, h3, h4]
  decide

/-- C17. `TCSP_EvictKey_Internal` on a handle that is not resident: with a
valid context and `getSlotByHandle(hKey) = NULL_TPM_HANDLE` the call returns
`TSS_SUCCESS`, the only calls it makes are `ctx_verify_context` and
`getSlotByHandle` (neither `internal_EvictByKeySlot` nor `setSlotBySlot`),
and the state, with every cache entry, is the one the call started from. -/
theorem evictKey_not_loaded {σ : Type} (k : KmConsts) (env : KmEnv σ) (st : σ)
    (hContext : TCS_CONTEXT_HANDLE) (hKey : TCS_KEY_HANDLE)
    (hctx : env.ctx_verify_context st hContext = TSS_SUCCESS)
    (hslot : env.getSlotByHandle st hKey = k.NULL_TPM_HANDLE) :
    (TCSP_EvictKey_Internal k env st hContext hKey).result = TSS_SUCCESS ∧
    (TCSP_EvictKey_Internal k env st hContext hKey).state = st ∧
    (TCSP_EvictKey_Internal k env st hContext hKey).trace =
      [KmCall.ctx_verify_context hContext TSS_SUCCESS,
        KmCall.getSlotByHandle hKey k.NULL_TPM_HANDLE] := by
  simp only [TSS_SUCCESS] at hctx
  simp [TCSP_EvictKey_Internal, hctx, hslot, TSS_SUCCESS]

/-- Witness for C17: in `sampleWorld` the handle `2` has no slot. -/
theorem evictKey_not_loaded_witness :
    (specKmEnv tssKmConsts).ctx_verify_context sampleWorld 1 = TSS_SUCCESS ∧
    (specKmEnv tssKmConsts).getSlotByHandle sampleWorld 2 = tssKmConsts.NULL_TPM_HANDLE ∧
    (TCSP_EvictKey_Internal tssKmConsts (specKmEnv tssKmConsts) sampleWorld 1 2).result
      = TSS_SUCCESS ∧
    (TCSP_EvictKey_Internal tssKmConsts (specKmEnv tssKmConsts) sampleWorld 1 2).state
      = sampleWorld :=
  ⟨by decide, by decide,
    (evictKey_not_loaded tssKmConsts (specKmEnv tssKmConsts) sampleWorld 1 2 (by decide)
      (by decide)).1,
    (evictKey_not_loaded tssKmConsts (specKmEnv tssKmConsts) sampleWorld 1 2 (by decide)
      (by decide)).2.1⟩

theorem find_handle_map (h : TCS_KEY_HANDLE) (f : MemCacheEntry → MemCacheEntry)
    (hf : ∀ e, (f e).handle = e.handle) :
    ∀ (l : List MemCacheEntry),
      (l.map f).find? (fun e => decide (e.handle = h))
        = (l.find? (fun e => decide (e.handle = h))).map f := by
  intro l
  induction l with
  | nil => rfl
  | cons a rest ih =>
    by_cases ha : a.handle = h
    · simp [List.find?, hf, ha]
    · simp only [List.map_cons, List.find?, hf, ha, decide_False]
      exact ih

/-- C18. `TCSP_EvictKey_Internal` on a resident handle: with a valid context
and a slot `s` other than `NULL_TPM_HANDLE`, `internal_EvictByKeySlot(s)` is
called first; if it fails, its error is returned and `setSlotBySlot` is not
called; if it succeeds, `setSlotBySlot(s, NULL_TPM_HANDLE)` is called next,
its result is returned, and no other memory-cache mutator is called. With
the memory cache of the specification, in which no other handle holds the
slot `s`: after a failed hardware evict the state is unchanged; after a
successful one the handle has slot `NULL_TPM_HANDLE`, only the slot of
entries of that handle was changed, and every other handle has the slot it
had. -/
theorem evictKey_loaded {σ : Type} (k : KmConsts) (env : KmEnv σ) (st : σ)
    (hContext : TCS_CONTEXT_HANDLE) (hKey : TCS_KEY_HANDLE)
    (hctx : env.ctx_verify_context st hContext = TSS_SUCCESS)
    (hslot : env.getSlotByHandle st hKey ≠ k.NULL_TPM_HANDLE) :
    ((env.internal_EvictByKeySlot st (env.getSlotByHandle st hKey)).1 ≠ TSS_SUCCESS →
      (TCSP_EvictKey_Internal k env st hContext hKey).result
        = (env.internal_EvictByKeySlot st (env.getSlotByHandle st hKey)).1 ∧
      (TCSP_EvictKey_Internal k env st hContext hKey).state
        = (env.internal_EvictByKeySlot st (env.getSlotByHandle st hKey)).2 ∧
      (TCSP_EvictKey_Internal k env st hContext hKey).trace =
        [KmCall.ctx_verify_context hContext TSS_SUCCESS,
          KmCall.getSlotByHandle hKey (env.getSlotByHandle st hKey),
          KmCall.internal_EvictByKeySlot (env.getSlotByHandle st hKey)
            (env.internal_EvictByKeySlot st (env.getSlotByHandle st hKey)).1]) ∧
    ((env.internal_EvictByKeySlot st (env.getSlotByHandle st hKey)).1 = TSS_SUCCESS →
      (TCSP_EvictKey_Internal k env st hContext hKey).result
        = (env.setSlotBySlot (env.internal_EvictByKeySlot st (env.getSlotByHandle st hKey)).2
            (env.getSlotByHandle st hKey) k.NULL_TPM_HANDLE).1 ∧
      (TCSP_EvictKey_Internal k env st hContext hKey).state
        = (env.setSlotBySlot (env.internal_EvictByKeySlot st (env.getSlotByHandle st hKey)).2
            (env.getSlotByHandle st hKey) k.NULL_TPM_HANDLE).2 ∧
      (TCSP_EvictKey_Internal k env st hContext hKey).trace =
        [KmCall.ctx_verify_context hContext TSS_SUCCESS,
          KmCall.getSlotByHandle hKey (env.getSlotByHandle st hKey),
          KmCall.internal_EvictByKeySlot (env.getSlotByHandle st hKey) TSS_SUCCESS,
          KmCall.setSlotBySlot (env.getSlotByHandle st hKey) k.NULL_TPM_HANDLE
            (TCSP_EvictKey_Internal k env st hContext hKey).result]) ∧
    (∀ (w : KmWorld) (c : TCS_CONTEXT_HANDLE) (h : TCS_KEY_HANDLE),
      (specKmEnv k).ctx_verify_context w c = TSS_SUCCESS →
      specGetSlotByHandle k w h ≠ k.NULL_TPM_HANDLE →
      (∀ e ∈ w.mem, e.slot = specGetSlotByHandle k w h → e.handle = h) →
      (w.tpmResult ≠ TSS_SUCCESS →
        (TCSP_EvictKey_Internal k (specKmEnv k) w c h).result = w.tpmResult ∧
        (TCSP_EvictKey_Internal k (specKmEnv k) w c h).state = w) ∧
      (w.tpmResult = TSS_SUCCESS →
        (TCSP_EvictKey_Internal k (specKmEnv k) w c h).result = TSS_SUCCESS ∧
        (TCSP_EvictKey_Internal k (specKmEnv k) w c h).state =
          { w with
            mem := w.mem.map (fun e =>
              if e.handle = h ∧ e.slot = specGetSlotByHandle k w h then
                { e with slot := k.NULL_TPM_HANDLE }
              else e) } ∧
        specGetSlotByHandle k (TCSP_EvictKey_Internal k (specKmEnv k) w c h).state h
          = k.NULL_TPM_HANDLE ∧
        ∀ h1, h1 ≠ h →
          specGetSlotByHandle k (TCSP_EvictKey_Internal k (specKmEnv k) w c h).state h1
            = specGetSlotByHandle k w h1)) := by
  simp only [TSS_SUCCESS] at hctx
  refine ⟨?_, ?_, ?_⟩
  · intro he
    simp only [TSS_SUCCESS] at he
    simp [TCSP_EvictKey_Internal, hctx, hslot, he, TSS_SUCCESS]
  · intro he
    simp only [TSS_SUCCESS] at he
    simp [TCSP_EvictKey_Internal, hctx, hslot, he, TSS_SUCCESS]
  · intro w c h hc hs huniq
    have hc0 : (specKmEnv k).ctx_verify_context w c = 0 := hc
    have hgs : (specKmEnv k).getSlotByHandle w h = specGetSlotByHandle k w h := rfl
    have hev : ∀ s, (specKmEnv k).internal_EvictByKeySlot w s = (w.tpmResult, w) := fun _ => rfl
    have hss : ∀ a b, (specKmEnv k).setSlotBySlot w a b = specSetSlotBySlot k w a b :=
      fun _ _ => rfl
    constructor
    · intro ht
      simp only [TSS_SUCCESS] at ht
      simp [TCSP_EvictKey_Internal, hc0, hgs, hs, hev, ht]
    · intro ht
      simp only [TSS_SUCCESS] at ht
      -- the entry found for the handle
      obtain ⟨e0, hfind⟩ : ∃ e0, w.mem.find? (fun e => decide (e.handle = h)) = some e0 := by
        cases hf : w.mem.find? (fun e => decide (e.handle = h)) with
        | none => exact absurd (by simp [specGetSlotByHandle, hf]) hs
        | some e0 => exact ⟨e0, rfl⟩
      have hs0 : specGetSlotByHandle k w h = e0.slot := by simp [specGetSlotByHandle, hfind]
      have he0 : e0 ∈ w.mem := List.mem_of_find?_eq_some hfind
      have hany : w.mem.any (fun e => decide (e.slot = specGetSlotByHandle k w h)) = true := by
        rw [List.any_eq_true]
        exact ⟨e0, he0, by simp [hs0]⟩
      have hmap : w.mem.map (fun e =>
            if e.slot = specGetSlotByHandle k w h then { e with slot := k.NULL_TPM_HANDLE }
            else e)
          = w.mem.map (fun e =>
            if e.handle = h ∧ e.slot = specGetSlotByHandle k w h then
              { e with slot := k.NULL_TPM_HANDLE }
            else e) := by
        apply List.map_congr_left
        intro e he
        by_cases h1 : e.slot = specGetSlotByHandle k w h
        · simp [h1, huniq e he h1]
        · simp [h1]
      have hstate : (TCSP_EvictKey_Internal k (specKmEnv k) w c h).state =
          { w with
            mem := w.mem.map (fun e =>
              if e.handle = h ∧ e.slot = specGetSlotByHandle k w h then
                { e with slot := k.NULL_TPM_HANDLE }
              else e) } := by
        simp [TCSP_EvictKey_Internal, hc0, hgs, hs, hev, ht, hss, specSetSlotBySlot, hany, hmap]
      have hpres : ∀ e : MemCacheEntry,
          (if e.handle = h ∧ e.slot = specGetSlotByHandle k w h then
            { e with slot := k.NULL_TPM_HANDLE } else e).handle = e.handle := by
        intro e
        split <;> rfl
      refine ⟨?_, hstate, ?_, ?_⟩
      · simp [TCSP_EvictKey_Internal, hc0, hgs, hs, hev, ht, hss, specSetSlotBySlot, hany,
          TSS_SUCCESS]
      · rw [hstate]
        rw [hs0] at hpres ⊢
        simp only [specGetSlotByHandle]
        rw [find_handle_map h _ hpres, hfind]
        have hh0 : e0.handle = h := by simpa using List.find?_some hfind
        simp [hh0]
      · intro h1 hne
        rw [hstate]
        rw [hs0] at hpres ⊢
        simp only [specGetSlotByHandle]
        rw [find_handle_map h1 _ hpres]
        cases hf1 : w.mem.find? (fun e => decide (e.handle = h1)) with
        | none => simp
        | some e1 =>
          have hh1 : e1.handle = h1 := by simpa using List.find?_some hf1
          have : ¬ (e1.handle = h ∧ e1.slot = e0.slot) := fun hcon => hne (hh1 ▸ hcon.1)
          simp [this]

/-- Witness for C18: evicting the resident handle `1` of `sampleWorld`
clears its slot and leaves the handle `2` as it was. -/
theorem evictKey_loaded_witness :
    (specKmEnv tssKmConsts).ctx_verify_context sampleWorld 1 = TSS_SUCCESS ∧
    (specKmEnv tssKmConsts).getSlotByHandle sampleWorld 1 ≠ tssKmConsts.NULL_TPM_HANDLE ∧
    (TCSP_EvictKey_Internal tssKmConsts (specKmEnv tssKmConsts) sampleWorld 1 1).trace =
      [KmCall.ctx_verify_context 1 TSS_SUCCESS, KmCall.getSlotByHandle 1 0x1000,
        KmCall.internal_EvictByKeySlot 0x1000 TSS_SUCCESS,
        KmCall.setSlotBySlot 0x1000 tssKmConsts.NULL_TPM_HANDLE TSS_SUCCESS] ∧
    (TCSP_EvictKey_Internal tssKmConsts (specKmEnv tssKmConsts) sampleWorld 1 1).state.mem =
      [⟨1, 0xFFFFFFFF, [1], 0⟩, ⟨2, 0xFFFFFFFF, [0xCC], 1⟩] :=
  ⟨by decide, by decide,
    ((evictKey_loaded tssKmConsts (specKmEnv tssKmConsts) sampleWorld 1 1 (by decide)
      (by decide)).2.1 (by decide)).2.2.trans (by decide),
    by decide⟩

/-! ### The executions of `TCSP_LoadKeyByBlob_Internal` -/

@[simp] theorem LoadOutcome.after_result {σ : Type} (t : List KmCall) (o : LoadOutcome σ) :
    (o.after t).result = o.result := rfl

@[simp] theorem LoadOutcome.after_state {σ : Type} (t : List KmCall) (o : LoadOutcome σ) :
    (o.after t).state = o.state := rfl

@[simp] theorem LoadOutcome.after_phKeyTCSI {σ : Type} (t : List KmCall) (o : LoadOutcome σ) :
    (o.after t).phKeyTCSI = o.phKeyTCSI := rfl

@[simp] theorem LoadOutcome.after_phKeyHMAC {σ : Type} (t : List KmCall) (o : LoadOutcome σ) :
    (o.after t).phKeyHMAC = o.phKeyHMAC := rfl

@[simp] theorem LoadOutcome.after_trace {σ : Type} (t : List KmCall) (o : LoadOutcome σ) :
    (o.after t).trace = t ++ o.trace := rfl

@[simp] theorem LoadOutcome.after_after {σ : Type} (t u : List KmCall) (o : LoadOutcome σ) :
    (o.after u).after t = o.after (t ++ u) := by
  simp [LoadOutcome.after]

/-- The ways in which the part of the function from the capacity check on
ends: with the error of the capacity check, or with what follows the
submission of the request. -/
theorem loadKeyByBlob_send_shape {σ : Type} (k : KmConsts) (env : KmEnv σ) (fuel : Nat)
    (st : σ) (hContext : TCS_CONTEXT_HANDLE) (hU : TCS_KEY_HANDLE) (blob : List BYTE)
    (pAuth : Option TCS_AUTH) (key : TCPA_KEY) (size : Nat) (pslot : TCPA_KEY_HANDLE)
    (out : LoadOutcome σ)
    (hout : loadKeyByBlob_send k env fuel st hContext hU blob pAuth key size pslot = some out) :
    ∃ r st1 cap, capacityPhase env hU key.algorithmParms fuel st = some (r, st1, cap) ∧
      ((r ≠ 0 ∧ out = (loadKeyByBlob_return st1 pAuth r).after cap) ∨
        (r = 0 ∧ out =
          (loadKeyByBlob_afterDo k env
            (env.req_mgr_submit_req st1 (loadKeyRequest k pslot size blob pAuth)).2.2
            hContext hU blob pAuth key
            (env.req_mgr_submit_req st1 (loadKeyRequest k pslot size blob pAuth)).1 true 0
            (env.req_mgr_submit_req st1 (loadKeyRequest k pslot size blob pAuth)).2.1).after
          (cap ++ [KmCall.req_mgr_submit_req (loadKeyRequest k pslot size blob pAuth)
            (env.req_mgr_submit_req st1 (loadKeyRequest k pslot size blob pAuth)).1]))) := by
  unfold loadKeyByBlob_send at hout
  cases hcap : capacityPhase env hU key.algorithmParms fuel st with
  | none => simp [hcap] at hout
  | some v =>
    obtain ⟨r, st1, cap⟩ := v
    refine ⟨r, st1, cap, rfl, ?_⟩
    simp only [hcap] at hout
    by_cases hr : r = 0
    · right
      simp only [hr, ne_eq, not_true_eq_false, if_false, Option.some.injEq] at hout
      exact ⟨hr, hout.symm⟩
    · left
      simp only [hr, ne_eq, not_false_eq_true, if_true, Option.some.injEq] at hout
      exact ⟨hr, hout.symm⟩

theorem loadAvoidance_prelude {σ : Type} (k : KmConsts) (env : KmEnv σ) (st : σ)
    (pAuth : Option TCS_AUTH) (key : TCPA_KEY) :
    (∀ e ∈ (loadAvoidance k env st pAuth key).2, e.isPrelude = true) ∧
    ((loadAvoidance k env st pAuth key).1.isSome = true → pAuth = none) ∧
    (pAuth ≠ none → (loadAvoidance k env st pAuth key).2 = []) := by
  cases pAuth with
  | some a => simp [loadAvoidance]
  | none =>
    simp only [loadAvoidance]
    split_ifs <;> simp [KmCall.isPrelude]

/-- The ways in which the part of the function after the parent has been
made resident ends. -/
theorem loadKeyByBlob_loaded_shape {σ : Type} (k : KmConsts) (env : KmEnv σ) (fuel : Nat)
    (st : σ) (hContext : TCS_CONTEXT_HANDLE) (hU : TCS_KEY_HANDLE) (blob : List BYTE)
    (pAuth : Option TCS_AUTH) (key : TCPA_KEY) (size : Nat) (pslot : TCPA_KEY_HANDLE)
    (out : LoadOutcome σ)
    (hout : loadKeyByBlob_loaded k env fuel st hContext hU blob pAuth key size pslot = some out) :
    ∃ pre, (∀ e ∈ pre, e.isPrelude = true) ∧ (pAuth ≠ none → pre = []) ∧
      ((∃ slot, pAuth = none ∧
          out = (loadKeyByBlob_update k env st hContext hU blob none key slot).after pre) ∨
        (∃ o, loadKeyByBlob_send k env fuel st hContext hU blob pAuth key size pslot = some o ∧
          out = o.after pre)) := by
  unfold loadKeyByBlob_loaded at hout
  obtain ⟨h1, h2, h3⟩ := loadAvoidance_prelude k env st pAuth key
  rcases hla : loadAvoidance k env st pAuth key with ⟨a, t⟩
  rw [hla] at hout h1 h2 h3
  refine ⟨t, h1, h3, ?_⟩
  cases a with
  | some slot =>
    left
    have hp : pAuth = none := h2 rfl
    subst hp
    simp only [Option.some.injEq] at hout
    refine ⟨slot, rfl, ?_⟩
    rw [← hout]
    simp [loadKeyByBlob_afterDo, TSS_SUCCESS]
  | none =>
    right
    simp only [Option.map_eq_some'] at hout
    obtain ⟨o, ho, rfl⟩ := hout
    exact ⟨o, ho, rfl⟩

theorem LoadKeyByBlobEnds.after {σ : Type} {k : KmConsts} {env : KmEnv σ} {fuel : Nat} {st : σ}
    {hContext : TCS_CONTEXT_HANDLE} {hU : TCS_KEY_HANDLE} {blob : List BYTE}
    {pAuth : Option TCS_AUTH} {pre : List KmCall} {out : LoadOutcome σ} (t : List KmCall)
    (h : LoadKeyByBlobEnds k env fuel st hContext hU blob pAuth pre out) :
    LoadKeyByBlobEnds k env fuel st hContext hU blob pAuth (t ++ pre) (out.after t) := by
  rcases h with ⟨st1, r, hr, rfl⟩ | ⟨r, hr, rfl⟩ | ⟨st1, slot, hp, rfl⟩ |
    ⟨st1, st2, r, cap, hcap, hr, rfl⟩ | ⟨st1, st2, cap, pslot, hcap, rfl⟩
  · exact Or.inl ⟨st1, r, hr, by simp⟩
  · exact Or.inr (Or.inl ⟨r, hr, by simp⟩)
  · exact Or.inr (Or.inr (Or.inl ⟨st1, slot, hp, by simp⟩))
  · exact Or.inr (Or.inr (Or.inr (Or.inl ⟨st1, st2, r, cap, hcap, hr, by simp⟩)))
  · exact Or.inr (Or.inr (Or.inr (Or.inr ⟨st1, st2, cap, pslot, hcap, by simp⟩)))

theorem loadKeyByBlob_body_shape {σ : Type} (k : KmConsts) (env : KmEnv σ) (fuel : Nat)
    (st : σ) (hContext : TCS_CONTEXT_HANDLE) (hU : TCS_KEY_HANDLE) (blob : List BYTE)
    (pAuth : Option TCS_AUTH) (out : LoadOutcome σ) (hk : k.ErrorsNonzero)
    (hout : loadKeyByBlob_body k env fuel st hContext hU blob pAuth = some out) :
    ∃ pre, (∀ e ∈ pre, e.isPrelude = true) ∧
      LoadKeyByBlobEnds k env fuel st hContext hU blob pAuth pre out := by
  obtain ⟨⟨_, _, _, _, _, hoom⟩, hkm⟩ := hk
  simp only [TSS_SUCCESS] at hoom hkm
  -- what `loadKeyByBlob_loaded` contributes, after the calls `t`
  have hloaded : ∀ (t : List KmCall) (st1 : σ) (pslot : TCPA_KEY_HANDLE),
      (∀ e ∈ t, e.isPrelude = true) →
      (loadKeyByBlob_loaded k env fuel st1 hContext hU blob pAuth (env.UnloadBlob_KEY blob).2.1
        (env.UnloadBlob_KEY blob).2.2 pslot).map (LoadOutcome.after t) = some out →
      ∃ pre, (∀ e ∈ pre, e.isPrelude = true) ∧
        LoadKeyByBlobEnds k env fuel st hContext hU blob pAuth pre out := by
    intro t st1 pslot ht hmap
    simp only [Option.map_eq_some'] at hmap
    obtain ⟨o, ho, rfl⟩ := hmap
    obtain ⟨pre, hpre, _, hcase⟩ :=
      loadKeyByBlob_loaded_shape k env fuel st1 hContext hU blob pAuth _ _ pslot o ho
    have hall : ∀ e ∈ t ++ pre, e.isPrelude = true := by
      intro e he
      rcases List.mem_append.1 he with h | h
      · exact ht e h
      · exact hpre e h
    refine ⟨t ++ pre, hall, ?_⟩
    rcases hcase with ⟨slot, hp, rfl⟩ | ⟨o1, ho1, rfl⟩
    · exact Or.inr (Or.inr (Or.inl ⟨st1, slot, hp, by simp⟩))
    · obtain ⟨r, st2, cap, hcap, hr | hr⟩ :=
        loadKeyByBlob_send_shape k env fuel st1 hContext hU blob pAuth _ _ pslot o1 ho1
      · exact Or.inr (Or.inr (Or.inr (Or.inl
          ⟨st1, st2, r, cap, hcap, hr.1, by rw [hr.2]; simp⟩)))
      · obtain ⟨hr0, rfl⟩ := hr
        subst hr0
        exact Or.inr (Or.inr (Or.inr (Or.inr ⟨st1, st2, cap, pslot, hcap, by simp⟩)))
  simp only [loadKeyByBlob_body] at hout
  split_ifs at hout with hm hp hs
  · simp only [Option.some.injEq] at hout
    exact ⟨_, by simp [KmCall.isPrelude], Or.inr (Or.inl ⟨_, hoom, hout.symm⟩)⟩
  · simp only [Option.some.injEq] at hout
    exact ⟨_, by simp [KmCall.isPrelude], Or.inr (Or.inl ⟨_, hp, hout.symm⟩)⟩
  · -- the parent has no slot
    cases hpub : env.getPubBySlot st hU with
    | none =>
      simp only [hpub, Option.some.injEq] at hout
      refine ⟨[KmCall.malloc k.sizeof_TCPA_KEY (env.malloc st k.sizeof_TCPA_KEY)] ++
          [KmCall.getSlotByHandle hU (env.getSlotByHandle st hU)] ++
          [KmCall.getPubBySlot hU none], ?_, Or.inl ⟨st, k.TCS_E_KM_LOADFAILED, hkm, ?_⟩⟩
      · simp [KmCall.isPrelude]
      · rw [← hout]
        simp [loadKeyByBlob_afterDo, hkm]
    | some pub =>
      simp only [hpub] at hout
      split_ifs at hout with hl
      · simp only [Option.some.injEq] at hout
        exact ⟨_, by simp [KmCall.isPrelude], Or.inl ⟨_, _, hl, hout.symm⟩⟩
      · exact hloaded _ _ _ (by simp [KmCall.isPrelude]) hout
  · exact hloaded _ _ _ (by simp [KmCall.isPrelude]) hout

/-- Every execution of `TCSP_LoadKeyByBlob_Internal` ends in one of the
ways of `LoadKeyByBlobEnds`, after calls that are all of the kinds of
`KmCall.isPrelude`. -/
theorem loadKeyByBlob_shape {σ : Type} (k : KmConsts) (env : KmEnv σ) (fuel : Nat) (st : σ)
    (hContext : TCS_CONTEXT_HANDLE) (hU : TCS_KEY_HANDLE) (sz : Nat) (blob : List BYTE)
    (pAuth : Option TCS_AUTH) (out : LoadOutcome σ) (hk : k.ErrorsNonzero)
    (hout : TCSP_LoadKeyByBlob_Internal k env fuel st hContext hU sz blob pAuth = some out) :
    ∃ pre, (∀ e ∈ pre, e.isPrelude = true) ∧
      LoadKeyByBlobEnds k env fuel st hContext hU blob pAuth pre out := by
  have hbody : ∀ (t : List KmCall), (∀ e ∈ t, e.isPrelude = true) →
      (loadKeyByBlob_body k env fuel st hContext hU blob pAuth).map (LoadOutcome.after t)
        = some out →
      ∃ pre, (∀ e ∈ pre, e.isPrelude = true) ∧
        LoadKeyByBlobEnds k env fuel st hContext hU blob pAuth pre out := by
    intro t ht hmap
    simp only [Option.map_eq_some'] at hmap
    obtain ⟨o, ho, rfl⟩ := hmap
    obtain ⟨pre, hpre, hends⟩ := loadKeyByBlob_body_shape k env fuel st hContext hU blob pAuth o hk ho
    refine ⟨t ++ pre, ?_, hends.after t⟩
    intro e he
    rcases List.mem_append.1 he with h | h
    · exact ht e h
    · exact hpre e h
  simp only [TCSP_LoadKeyByBlob_Internal] at hout
  by_cases h0 : env.ctx_verify_context st hContext = 0
  swap
  · simp only [h0, ne_eq, not_false_eq_true, if_true, Option.some.injEq] at hout
    exact ⟨_, by simp [KmCall.isPrelude], Or.inl ⟨st, _, h0, hout.symm⟩⟩
  simp only [h0, ne_eq, not_true_eq_false, if_false] at hout
  cases pAuth with
  | none => exact hbody _ (by simp [KmCall.isPrelude]) hout
  | some a =>
    simp only at hout
    by_cases hA : env.auth_mgr_check st hContext a.AuthHandle = 0
    · simp only [hA, ne_eq, not_true_eq_false, if_false] at hout
      exact hbody _ (by simp [KmCall.isPrelude]) hout
    · simp only [hA, ne_eq, not_false_eq_true, if_true, Option.some.injEq] at hout
      exact ⟨_, by simp [KmCall.isPrelude], Or.inl ⟨st, _, hA, hout.symm⟩⟩

/-- The ways in which the cache update ends. -/
theorem loadKeyByBlob_update_shape {σ : Type} (k : KmConsts) (env : KmEnv σ) (st : σ)
    (hContext : TCS_CONTEXT_HANDLE) (hU : TCS_KEY_HANDLE) (blob : List BYTE)
    (pAuth : Option TCS_AUTH) (key : TCPA_KEY) (slot : TCPA_KEY_HANDLE) :
    (env.getTCSKeyHandleByPub st key.pubKey ≠ k.NULL_TCS_HANDLE →
      (loadKeyByBlob_update k env st hContext hU blob pAuth key slot).trace =
        [KmCall.getTCSKeyHandleByPub key.pubKey (env.getTCSKeyHandleByPub st key.pubKey),
          KmCall.setSlotByHandle (env.getTCSKeyHandleByPub st key.pubKey) slot] ∧
      (loadKeyByBlob_update k env st hContext hU blob pAuth key slot).result = TSS_SUCCESS ∧
      (loadKeyByBlob_update k env st hContext hU blob pAuth key slot).phKeyTCSI
        = some (env.getTCSKeyHandleByPub st key.pubKey) ∧
      (loadKeyByBlob_update k env st hContext hU blob pAuth key slot).phKeyHMAC = some slot) ∧
    (env.getTCSKeyHandleByPub st key.pubKey = k.NULL_TCS_HANDLE →
      ∃ tail, (loadKeyByBlob_update k env st hContext hU blob pAuth key slot).trace =
          [KmCall.getTCSKeyHandleByPub key.pubKey k.NULL_TCS_HANDLE,
            KmCall.getNextTcsKeyHandle (env.getNextTcsKeyHandle st).1] ++ tail ∧
        UpdateNewEnds k hContext hU pAuth slot (env.getNextTcsKeyHandle st).1 tail
          (loadKeyByBlob_update k env st hContext hU blob pAuth key slot)) := by
  constructor
  · intro h
    simp [loadKeyByBlob_update, h]
  · intro h
    simp only [loadKeyByBlob_update, h, if_true]
    generalize env.getNextTcsKeyHandle st = n
    cases pAuth with
    | none =>
      by_cases h1 : (env.UnloadBlob_KEY blob).1 = 0
      swap
      · exact ⟨[], by simp [h1, loadKeyByBlob_return],
          Or.inl ⟨rfl, rfl, by simp [h1, loadKeyByBlob_return]⟩⟩
      generalize ha : env.add_mem_cache_entry n.2 n.1 slot (env.UnloadBlob_KEY blob).2.1 = a
      by_cases h2 : a.1 = 0
      swap
      · exact ⟨[KmCall.add_mem_cache_entry n.1 slot (env.UnloadBlob_KEY blob).2.1 a.1],
          by simp [h1, ha, h2, loadKeyByBlob_return, TSS_SUCCESS],
          Or.inr (Or.inl ⟨_, _, rfl, h2,
            by simp [h1, ha, h2, loadKeyByBlob_return, TSS_SUCCESS]⟩)⟩
      generalize hm : env.ctx_mark_key_loaded a.2 hContext n.1 = m
      by_cases h3 : m.1 = 0
      swap
      · refine ⟨[KmCall.add_mem_cache_entry n.1 slot (env.UnloadBlob_KEY blob).2.1 0,
            KmCall.ctx_mark_key_loaded hContext n.1 m.1],
          by simp [h1, ha, h2, hm, h3, loadKeyByBlob_return, TSS_SUCCESS],
          Or.inr (Or.inr (Or.inl ⟨_, _, rfl, h3, ?_⟩))⟩
        simp [h1, ha, h2, hm, h3, loadKeyByBlob_return, TSS_SUCCESS]
      generalize hq : env.setParentByHandle m.2 n.1 hU = q
      by_cases h4 : q.1 = 0
      swap
      · refine ⟨[KmCall.add_mem_cache_entry n.1 slot (env.UnloadBlob_KEY blob).2.1 0,
            KmCall.ctx_mark_key_loaded hContext n.1 0, KmCall.setParentByHandle n.1 hU q.1],
          by simp [h1, ha, h2, hm, h3, hq, h4, loadKeyByBlob_return, TSS_SUCCESS],
          Or.inr (Or.inr (Or.inr (Or.inl ⟨_, _, rfl, rfl, h4, ?_⟩)))⟩
        simp [h1, ha, h2, hm, h3, hq, h4, loadKeyByBlob_return, TSS_SUCCESS]
      · refine ⟨[KmCall.add_mem_cache_entry n.1 slot (env.UnloadBlob_KEY blob).2.1 0,
            KmCall.ctx_mark_key_loaded hContext n.1 0, KmCall.setParentByHandle n.1 hU 0],
          by simp [h1, ha, h2, hm, h3, hq, h4, TSS_SUCCESS],
          Or.inr (Or.inr (Or.inr (Or.inr ⟨(env.UnloadBlob_KEY blob).2.1, by simp, ?_⟩)))⟩
        simp [h1, ha, h2, hm, h3, hq, h4, TSS_SUCCESS]
    | some a1 =>
      generalize ha : env.add_mem_cache_entry n.2 n.1 slot key = a
      by_cases h2 : a.1 = 0
      swap
      · exact ⟨[KmCall.add_mem_cache_entry n.1 slot key a.1],
          by simp [ha, h2, loadKeyByBlob_return, TSS_SUCCESS],
          Or.inr (Or.inl ⟨_, _, rfl, h2, by simp [ha, h2, loadKeyByBlob_return, TSS_SUCCESS]⟩)⟩
      generalize hm : env.ctx_mark_key_loaded a.2 hContext n.1 = m
      by_cases h3 : m.1 = 0
      swap
      · refine ⟨[KmCall.add_mem_cache_entry n.1 slot key 0,
            KmCall.ctx_mark_key_loaded hContext n.1 m.1],
          by simp [ha, h2, hm, h3, loadKeyByBlob_return, TSS_SUCCESS],
          Or.inr (Or.inr (Or.inl ⟨_, _, rfl, h3, ?_⟩))⟩
        simp [ha, h2, hm, h3, loadKeyByBlob_return, TSS_SUCCESS]
      · refine ⟨[KmCall.add_mem_cache_entry n.1 slot key 0,
            KmCall.ctx_mark_key_loaded hContext n.1 0],
          by simp [ha, h2, hm, h3, TSS_SUCCESS],
          Or.inr (Or.inr (Or.inr (Or.inr ⟨key, by simp, ?_⟩)))⟩
        simp [ha, h2, hm, h3, TSS_SUCCESS]

/-- The ways in which the code after the `do` block ends: with the
failure block, with the error of the response header, or with the cache
update, before which at most the authorization is released. -/
theorem loadKeyByBlob_afterDo_shape {σ : Type} (k : KmConsts) (env : KmEnv σ) (st : σ)
    (hContext : TCS_CONTEXT_HANDLE) (hU : TCS_KEY_HANDLE) (blob : List BYTE)
    (pAuth : Option TCS_AUTH) (key : TCPA_KEY) (result : TSS_RESULT) (send : Bool)
    (slot : TCPA_KEY_HANDLE) (tx : List BYTE) :
    (result ≠ 0 ∧
      loadKeyByBlob_afterDo k env st hContext hU blob pAuth key result send slot tx
        = loadKeyByBlob_failed env st pAuth result) ∨
    (result = 0 ∧ send = true ∧ env.UnloadBlob_Header tx ≠ 0 ∧
      loadKeyByBlob_afterDo k env st hContext hU blob pAuth key result send slot tx
        = loadKeyByBlob_return st pAuth (env.UnloadBlob_Header tx)) ∨
    (result = 0 ∧ (send = true → env.UnloadBlob_Header tx = 0) ∧
      ∃ rel st1 pAuth1 slot1, (∀ e ∈ rel, e.isRelease = true) ∧
        (pAuth1 = none ↔ pAuth = none) ∧
        loadKeyByBlob_afterDo k env st hContext hU blob pAuth key result send slot tx
          = (loadKeyByBlob_update k env st1 hContext hU blob pAuth1 key slot1).after rel) := by
  by_cases hr : result = 0
  swap
  · left
    exact ⟨hr, by simp [loadKeyByBlob_afterDo, hr]⟩
  right
  cases send with
  | false =>
    right
    refine ⟨hr, by simp, [], st, pAuth, slot, by simp, Iff.rfl, ?_⟩
    simp [loadKeyByBlob_afterDo, hr, LoadOutcome.after]
  | true =>
    by_cases hh : env.UnloadBlob_Header tx = 0
    swap
    · left
      exact ⟨hr, rfl, hh, by simp [loadKeyByBlob_afterDo, hr, hh]⟩
    right
    refine ⟨hr, fun _ => hh, ?_⟩
    cases pAuth with
    | none =>
      refine ⟨[], st, none, env.UnloadBlob_UINT32 10 tx, by simp, Iff.rfl, ?_⟩
      simp [loadKeyByBlob_afterDo, hr, hh, LoadOutcome.after]
    | some a =>
      by_cases hc : (env.UnloadBlob_Auth 14 tx a).fContinueAuthSession = false
      · refine ⟨[KmCall.auth_mgr_release_auth (env.UnloadBlob_Auth 14 tx a).AuthHandle],
          env.auth_mgr_release_auth st (env.UnloadBlob_Auth 14 tx a).AuthHandle,
          some (env.UnloadBlob_Auth 14 tx a), env.UnloadBlob_UINT32 10 tx,
          by simp [KmCall.isRelease], by simp, ?_⟩
        simp [loadKeyByBlob_afterDo, hr, hh, hc]
      · refine ⟨[], st, some (env.UnloadBlob_Auth 14 tx a), env.UnloadBlob_UINT32 10 tx,
          by simp, by simp, ?_⟩
        simp [loadKeyByBlob_afterDo, hr, hh, hc, LoadOutcome.after]

theorem loadKeyByBlob_failed_facts {σ : Type} (env : KmEnv σ) (st : σ)
    (pAuth : Option TCS_AUTH) (r : TSS_RESULT) :
    (loadKeyByBlob_failed env st pAuth r).result = r ∧
    (loadKeyByBlob_failed env st pAuth r).phKeyTCSI = none ∧
    (loadKeyByBlob_failed env st pAuth r).phKeyHMAC = none ∧
    (∀ e ∈ (loadKeyByBlob_failed env st pAuth r).trace, e.isRelease = true) := by
  cases pAuth <;> simp [loadKeyByBlob_failed, KmCall.isRelease]

/-- The calls of the cache update are `getTCSKeyHandleByPub`,
`getNextTcsKeyHandle`, `ctx_mark_key_loaded` and memory-cache mutators. -/
theorem loadKeyByBlob_update_calls {σ : Type} (k : KmConsts) (env : KmEnv σ) (st : σ)
    (hContext : TCS_CONTEXT_HANDLE) (hU : TCS_KEY_HANDLE) (blob : List BYTE)
    (pAuth : Option TCS_AUTH) (key : TCPA_KEY) (slot : TCPA_KEY_HANDLE) :
    ∀ e ∈ (loadKeyByBlob_update k env st hContext hU blob pAuth key slot).trace,
      e.isSubmit = false ∧ e.isRelease = false ∧
      (∀ p r b, e ≠ KmCall.canILoadThisKey p r b) ∧ (∀ h r, e ≠ KmCall.evictFirstKey h r) := by
  obtain ⟨h1, h2⟩ := loadKeyByBlob_update_shape k env st hContext hU blob pAuth key slot
  by_cases h : env.getTCSKeyHandleByPub st key.pubKey = k.NULL_TCS_HANDLE
  · obtain ⟨tail, ht, hends⟩ := h2 h
    rw [ht]
    rcases hends with ⟨_, rfl, _⟩ | ⟨_, _, rfl, _⟩ | ⟨_, _, rfl, _⟩ | ⟨_, _, _, rfl, _⟩ |
      ⟨_, rfl, _⟩
    · simp [KmCall.isSubmit, KmCall.isRelease]
    · simp [KmCall.isSubmit, KmCall.isRelease]
    · simp [KmCall.isSubmit, KmCall.isRelease]
    · simp [KmCall.isSubmit, KmCall.isRelease]
    · cases pAuth <;> simp [KmCall.isSubmit, KmCall.isRelease]
  · rw [(h1 h).1]
    simp [KmCall.isSubmit, KmCall.isRelease]

/-! ### The capacity check -/

theorem evictLoop_trace {σ : Type} (env : KmEnv σ) (hU : TCS_KEY_HANDLE)
    (parms : TCPA_KEY_PARMS) :
    ∀ (fuel : Nat) (st : σ) (r : TSS_RESULT) (st1 : σ) (t : List KmCall),
      evictLoop env hU parms fuel st = some (r, st1, t) →
      (∃ re, t.head? = some (KmCall.evictFirstKey hU re)) ∧
      t.Chain' (CapacityStep parms hU) ∧
      (∃ e, t.getLast? = some e ∧ CapacityLast parms hU r e) ∧
      (∀ e ∈ t, e.isCapacity = true) := by
  intro fuel
  induction fuel with
  | zero => intro st r st1 t h; simp [evictLoop] at h
  | succ fuel ih =>
    intro st r st1 t h
    simp only [evictLoop] at h
    generalize he : env.evictFirstKey st hU = e at h
    by_cases h1 : e.1 = 0
    swap
    · simp only [h1, ne_eq, not_false_eq_true, if_true, Option.some.injEq, Prod.mk.injEq] at h
      obtain ⟨rfl, _, rfl⟩ := h
      exact ⟨⟨_, rfl⟩, by simp, ⟨_, rfl, Or.inr ⟨h1, Or.inl rfl⟩⟩, by simp [KmCall.isCapacity]⟩
    simp only [h1, ne_eq, not_true_eq_false, if_false] at h
    generalize hc : env.canILoadThisKey e.2 parms = c at h
    by_cases h2 : c.1 = 0
    swap
    · simp only [h2, ne_eq, not_false_eq_true, if_true, Option.some.injEq, Prod.mk.injEq] at h
      obtain ⟨rfl, _, rfl⟩ := h
      refine ⟨⟨_, rfl⟩, ?_, ⟨_, rfl, Or.inr ⟨h2, Or.inr ⟨_, rfl⟩⟩⟩, by simp [KmCall.isCapacity]⟩
      rw [List.chain'_cons]
      exact ⟨Or.inr ⟨rfl, _, _, rfl⟩, by simp⟩
    simp only [h2, ne_eq, not_true_eq_false, if_false] at h
    cases h3 : c.2 with
    | true =>
      simp only [h3, Bool.true_eq_false, if_false, Option.some.injEq, Prod.mk.injEq] at h
      obtain ⟨rfl, _, rfl⟩ := h
      refine ⟨⟨_, rfl⟩, ?_, ⟨_, rfl, Or.inl ⟨rfl, rfl⟩⟩, by simp [KmCall.isCapacity]⟩
      rw [List.chain'_cons]
      exact ⟨Or.inr ⟨rfl, _, _, rfl⟩, by simp⟩
    | false =>
      simp only [h3, if_true] at h
      cases hrec : evictLoop env hU parms fuel e.2 with
      | none => simp [hrec] at h
      | some v =>
        obtain ⟨r1, st2, t1⟩ := v
        simp only [hrec, Option.some.injEq, Prod.mk.injEq] at h
        obtain ⟨rfl, _, rfl⟩ := h
        obtain ⟨⟨re, hhead⟩, hchain, ⟨el, hlast, hcl⟩, hall⟩ := ih e.2 r1 st2 t1 hrec
        cases t1 with
        | nil => simp at hhead
        | cons a t2 =>
          simp only [List.head?_cons, Option.some.injEq] at hhead
          subst hhead
          refine ⟨⟨_, rfl⟩, ?_, ⟨el, by simpa using hlast, hcl⟩, ?_⟩
          · rw [List.chain'_cons, List.chain'_cons]
            exact ⟨Or.inr ⟨rfl, _, _, rfl⟩, Or.inl ⟨rfl, _, rfl⟩, hchain⟩
          · intro x hx
            simp only [List.mem_cons] at hx
            rcases hx with rfl | rfl | hx
            · rfl
            · rfl
            · exact hall x (List.mem_cons.2 hx)

/-- The calls of the capacity check: it starts with `canILoadThisKey`,
consecutive calls follow `CapacityStep`, the last call is the one of
`CapacityLast`, and there are no other calls than `canILoadThisKey` and
`evictFirstKey`. -/
theorem capacityPhase_trace {σ : Type} (env : KmEnv σ) (hU : TCS_KEY_HANDLE)
    (parms : TCPA_KEY_PARMS) (fuel : Nat) (st : σ) (r : TSS_RESULT) (st1 : σ)
    (cap : List KmCall) (h : capacityPhase env hU parms fuel st = some (r, st1, cap)) :
    (∃ r0 c0, cap.head? = some (KmCall.canILoadThisKey parms r0 c0)) ∧
    cap.Chain' (CapacityStep parms hU) ∧
    (∃ e, cap.getLast? = some e ∧ CapacityLast parms hU r e) ∧
    (∀ e ∈ cap, e.isCapacity = true) := by
  simp only [capacityPhase] at h
  generalize hc : env.canILoadThisKey st parms = c at h
  by_cases h2 : c.1 = 0
  swap
  · simp only [h2, ne_eq, not_false_eq_true, if_true, Option.some.injEq, Prod.mk.injEq] at h
    obtain ⟨rfl, _, rfl⟩ := h
    exact ⟨⟨_, _, rfl⟩, by simp, ⟨_, rfl, Or.inr ⟨h2, Or.inr ⟨_, rfl⟩⟩⟩,
      by simp [KmCall.isCapacity]⟩
  simp only [h2, ne_eq, not_true_eq_false, if_false] at h
  cases h3 : c.2 with
  | true =>
    simp only [h3, Bool.true_eq_false, if_false, Option.some.injEq, Prod.mk.injEq] at h
    obtain ⟨rfl, _, rfl⟩ := h
    exact ⟨⟨_, _, rfl⟩, by simp, ⟨_, rfl, Or.inl ⟨rfl, rfl⟩⟩, by simp [KmCall.isCapacity]⟩
  | false =>
    simp only [h3, if_true] at h
    cases hrec : evictLoop env hU parms fuel st with
    | none => simp [hrec] at h
    | some v =>
      obtain ⟨r1, st2, t1⟩ := v
      simp only [hrec, Option.some.injEq, Prod.mk.injEq] at h
      obtain ⟨rfl, _, rfl⟩ := h
      obtain ⟨⟨re, hhead⟩, hchain, ⟨el, hlast, hcl⟩, hall⟩ :=
        evictLoop_trace env hU parms fuel st r1 st2 t1 hrec
      cases t1 with
      | nil => simp at hhead
      | cons a t2 =>
        simp only [List.head?_cons, Option.some.injEq] at hhead
        subst hhead
        refine ⟨⟨_, _, rfl⟩, ?_, ⟨el, by simpa using hlast, hcl⟩, ?_⟩
        · rw [List.chain'_cons]
          exact ⟨Or.inl ⟨rfl, _, rfl⟩, hchain⟩
        · intro x hx
          simp only [List.mem_cons] at hx
          rcases hx with rfl | hx
          · rfl
          · exact hall x (List.mem_cons.2 hx)

/-! ### Theorems about `TCSP_LoadKeyByBlob_Internal` -/

theorem prelude_calls (e : KmCall) (h : e.isPrelude = true) :
    e.isSubmit = false ∧ e.isRelease = false ∧ e.isCacheUpdate = false ∧
    e.isCapacity = false := by
  cases e <;> simp_all [KmCall.isPrelude, KmCall.isSubmit, KmCall.isRelease,
    KmCall.isCacheUpdate, KmCall.isCapacity]

theorem capacity_calls (e : KmCall) (h : e.isCapacity = true) :
    e.isSubmit = false ∧ e.isRelease = false ∧ e.isCacheUpdate = false ∧
    e.isPrelude = false := by
  cases e <;> simp_all [KmCall.isPrelude, KmCall.isSubmit, KmCall.isRelease,
    KmCall.isCacheUpdate, KmCall.isCapacity]

theorem release_calls (e : KmCall) (h : e.isRelease = true) :
    e.isSubmit = false ∧ e.isCacheUpdate = false ∧ e.isCapacity = false := by
  cases e <;> simp_all [KmCall.isSubmit, KmCall.isRelease, KmCall.isCacheUpdate,
    KmCall.isCapacity]

/-- The calls made after the `do` block are neither submissions nor calls
of the capacity check. -/
theorem loadKeyByBlob_afterDo_calls {σ : Type} (k : KmConsts) (env : KmEnv σ) (st : σ)
    (hContext : TCS_CONTEXT_HANDLE) (hU : TCS_KEY_HANDLE) (blob : List BYTE)
    (pAuth : Option TCS_AUTH) (key : TCPA_KEY) (result : TSS_RESULT) (send : Bool)
    (slot : TCPA_KEY_HANDLE) (tx : List BYTE) :
    ∀ e ∈ (loadKeyByBlob_afterDo k env st hContext hU blob pAuth key result send slot tx).trace,
      e.isSubmit = false ∧ e.isCapacity = false := by
  intro e he
  rcases loadKeyByBlob_afterDo_shape k env st hContext hU blob pAuth key result send slot tx with
    ⟨_, h⟩ | ⟨_, _, _, h⟩ | ⟨_, _, rel, st1, pAuth1, slot1, hrel, _, h⟩
  · rw [h] at he
    have := release_calls e ((loadKeyByBlob_failed_facts env st pAuth result).2.2.2 e he)
    exact ⟨this.1, this.2.2⟩
  · rw [h] at he
    simp [loadKeyByBlob_return] at he
  · rw [h, LoadOutcome.after_trace] at he
    rcases List.mem_append.1 he with h1 | h1
    · have := release_calls e (hrel e h1)
      exact ⟨this.1, this.2.2⟩
    · have := loadKeyByBlob_update_calls k env st1 hContext hU blob pAuth1 key slot1 e h1
      refine ⟨this.1, ?_⟩
      cases e <;> simp_all [KmCall.isCapacity]

theorem loadKeyByBlob_afterDo_result {σ : Type} (k : KmConsts) (env : KmEnv σ) (st : σ)
    (hContext : TCS_CONTEXT_HANDLE) (hU : TCS_KEY_HANDLE) (blob : List BYTE)
    (pAuth : Option TCS_AUTH) (key : TCPA_KEY) (result : TSS_RESULT) (send : Bool)
    (slot : TCPA_KEY_HANDLE) (tx : List BYTE)
    (h : (loadKeyByBlob_afterDo k env st hContext hU blob pAuth key result send slot tx).result
      = 0) : result = 0 := by
  by_contra hr
  simp only [loadKeyByBlob_afterDo, hr, ne_eq, not_false_eq_true, if_true] at h
  exact hr ((loadKeyByBlob_failed_facts env st pAuth result).1.symm.trans h)

/-- C13. `TCSP_LoadKeyByBlob_Internal` with `pAuth != NULL`: the
load-avoidance test is skipped (it is made only when `pAuth == NULL`), and
every execution that returns `TSS_SUCCESS` has called `req_mgr_submit_req`
exactly once, with a `TPM_ORD_LoadKey` request that carries the
authorization, whatever the memory cache says about the key. -/
theorem loadKeyByBlob_auth_submits {σ : Type} (k : KmConsts) (env : KmEnv σ) (fuel : Nat)
    (st : σ) (hContext : TCS_CONTEXT_HANDLE) (hU : TCS_KEY_HANDLE) (sz : Nat)
    (blob : List BYTE) (a : TCS_AUTH) (out : LoadOutcome σ) (hk : k.ErrorsNonzero)
    (hout : TCSP_LoadKeyByBlob_Internal k env fuel st hContext hU sz blob (some a) = some out)
    (hres : out.result = TSS_SUCCESS) :
    (∀ st1 key, loadAvoidance k env st1 (some a) key = (none, [])) ∧
    ∃ tx, out.trace.filter KmCall.isSubmit = [KmCall.req_mgr_submit_req tx TSS_SUCCESS] ∧
      tx.ordinal = k.TPM_ORD_LoadKey ∧ tx.tag = k.TPM_TAG_RQU_AUTH1_COMMAND ∧
      tx.auth = some a ∧ tx.payload = blob.take (env.UnloadBlob_KEY blob).2.2 := by
  refine ⟨fun _ _ => rfl, ?_⟩
  simp only [TSS_SUCCESS] at hres
  obtain ⟨pre, hpre, hends⟩ := loadKeyByBlob_shape k env fuel st hContext hU sz blob (some a) out
    hk hout
  have hpre0 : pre.filter KmCall.isSubmit = [] := by
    rw [List.filter_eq_nil_iff]
    intro e he
    simp [(prelude_calls e (hpre e he)).1]
  rcases hends with ⟨st1, r, hr, rfl⟩ | ⟨r, hr, rfl⟩ | ⟨st1, slot, hp, _⟩ |
    ⟨st1, st2, r, cap, hcap, hr, rfl⟩ | ⟨st1, st2, cap, pslot, hcap, rfl⟩
  · exact absurd ((loadKeyByBlob_failed_facts env st1 (some a) r).1.symm.trans hres) hr
  · exact absurd hres hr
  · exact absurd hp (by simp)
  · exact absurd hres hr
  · simp only [LoadOutcome.after_result] at hres
    have hs0 := loadKeyByBlob_afterDo_result k env _ hContext hU blob (some a) _ _ true 0 _ hres
    have hcap0 : cap.filter KmCall.isSubmit = [] := by
      rw [List.filter_eq_nil_iff]
      intro e he
      simp [(capacity_calls e
        ((capacityPhase_trace env hU _ fuel st1 0 st2 cap hcap).2.2.2 e he)).1]
    have hpost0 : (loadKeyByBlob_afterDo k env
        (env.req_mgr_submit_req st2
          (loadKeyRequest k pslot (env.UnloadBlob_KEY blob).2.2 blob (some a))).2.2
        hContext hU blob (some a) (env.UnloadBlob_KEY blob).2.1
        (env.req_mgr_submit_req st2
          (loadKeyRequest k pslot (env.UnloadBlob_KEY blob).2.2 blob (some a))).1 true 0
        (env.req_mgr_submit_req st2
          (loadKeyRequest k pslot (env.UnloadBlob_KEY blob).2.2 blob (some a))).2.1).trace.filter
        KmCall.isSubmit = [] := by
      rw [List.filter_eq_nil_iff]
      intro e he
      simp [(loadKeyByBlob_afterDo_calls k env _ hContext hU blob (some a) _ _ true 0 _ e he).1]
    refine ⟨loadKeyRequest k pslot (env.UnloadBlob_KEY blob).2.2 blob (some a), ?_, rfl, rfl,
      rfl, rfl⟩
    simp only [LoadOutcome.after_trace, List.filter_append, hpre0, hcap0, hpost0,
      List.nil_append, List.append_nil]
    simp [KmCall.isSubmit, TSS_SUCCESS, hs0]

/-- Witness for C13: an authorized load of the key `[0xDD]` under the
resident parent of `sampleWorld`. -/
theorem loadKeyByBlob_auth_submits_witness :
    tssKmConsts.ErrorsNonzero ∧
    (TCSP_LoadKeyByBlob_Internal tssKmConsts (specKmEnv tssKmConsts) 5 sampleWorld 1 1 0 [0xDD]
        (some sampleAuth)).map (fun out => (out.result, out.trace.filter KmCall.isSubmit))
      = some (TSS_SUCCESS,
          [KmCall.req_mgr_submit_req ⟨0xC2, 32, 0x1000, [0xDD], some sampleAuth⟩ TSS_SUCCESS]) ∧
    ∃ out, TCSP_LoadKeyByBlob_Internal tssKmConsts (specKmEnv tssKmConsts) 5 sampleWorld 1 1 0
        [0xDD] (some sampleAuth) = some out ∧
      ∃ tx, out.trace.filter KmCall.isSubmit = [KmCall.req_mgr_submit_req tx TSS_SUCCESS] :=
  ⟨by decide, by decide,
    (Option.isSome_iff_exists.1 (by decide : (TCSP_LoadKeyByBlob_Internal tssKmConsts
      (specKmEnv tssKmConsts) 5 sampleWorld 1 1 0 [0xDD] (some sampleAuth)).isSome = true)).imp
      (fun out h => ⟨h,
        ((loadKeyByBlob_auth_submits tssKmConsts (specKmEnv tssKmConsts) 5 sampleWorld 1 1 0
          [0xDD] sampleAuth out (by decide) h
          (by
            have h2 : (TCSP_LoadKeyByBlob_Internal tssKmConsts (specKmEnv tssKmConsts) 5
                sampleWorld 1 1 0 [0xDD] (some sampleAuth)).map LoadOutcome.result
                = some TSS_SUCCESS := by decide
            rw [h] at h2
            exact Option.some.inj h2)).2).imp (fun _ ht => ht.1)⟩)⟩

/-- C15 does not hold on the code. With a valid context, an authorization
that `auth_mgr_check` accepts and an allocation that succeeds, a key blob
that `UnloadBlob_KEY` rejects makes the call return the error of the parse
at once (`tcskcm.c:382-385`): the calls made are `ctx_verify_context`,
`auth_mgr_check` and `malloc`, `auth_mgr_release_auth` is not among them,
and the state is the one the call started from. -/
theorem loadKeyByBlob_auth_not_released {σ : Type} (k : KmConsts) (env : KmEnv σ) (fuel : Nat)
    (st : σ) (hContext : TCS_CONTEXT_HANDLE) (hU : TCS_KEY_HANDLE) (sz : Nat)
    (blob : List BYTE) (a : TCS_AUTH)
    (hctx : env.ctx_verify_context st hContext = 0)
    (hauth : env.auth_mgr_check st hContext a.AuthHandle = 0)
    (hmalloc : env.malloc st k.sizeof_TCPA_KEY = true)
    (hparse : (env.UnloadBlob_KEY blob).1 ≠ 0) :
    TCSP_LoadKeyByBlob_Internal k env fuel st hContext hU sz blob (some a)
      = some ⟨(env.UnloadBlob_KEY blob).1, st, none, none, some a,
          [KmCall.ctx_verify_context hContext 0, KmCall.auth_mgr_check hContext a.AuthHandle 0,
            KmCall.malloc k.sizeof_TCPA_KEY true]⟩ := by
  simp [TCSP_LoadKeyByBlob_Internal, loadKeyByBlob_body, hctx, hauth, hmalloc, hparse,
    loadKeyByBlob_return, LoadOutcome.after]

/-- Witness for C15: in `sampleWorld` the session `7` is open and the empty
blob does not parse; the call fails with `TCS_E_FAIL` and the session is
still open. -/
theorem loadKeyByBlob_auth_not_released_witness :
    (specKmEnv tssKmConsts).ctx_verify_context sampleWorld 1 = 0 ∧
    (specKmEnv tssKmConsts).auth_mgr_check sampleWorld 1 sampleAuth.AuthHandle = 0 ∧
    (specKmEnv tssKmConsts).malloc sampleWorld tssKmConsts.sizeof_TCPA_KEY = true ∧
    ((specKmEnv tssKmConsts).UnloadBlob_KEY []).1 ≠ 0 ∧
    TCSP_LoadKeyByBlob_Internal tssKmConsts (specKmEnv tssKmConsts) 5 sampleWorld 1 1 0 []
        (some sampleAuth)
      = some ⟨tssKmConsts.TCS_E_FAIL, sampleWorld, none, none, some sampleAuth,
          [KmCall.ctx_verify_context 1 0, KmCall.auth_mgr_check 1 7 0, KmCall.malloc 64 true]⟩ ∧
    sampleWorld.auths = [7] :=
  ⟨by decide, by decide, by decide, by decide,
    loadKeyByBlob_auth_not_released tssKmConsts (specKmEnv tssKmConsts) 5 sampleWorld 1 1 0 []
      sampleAuth (by decide) (by decide) (by decide) (by decide),
    by decide⟩

/-- The release of the authorization session on three failing paths, in
`sampleWorld`, where the session `7` is open. When the TPM answers the load
with a non-zero code in the response header, the call returns that code
without any `auth_mgr_release_auth`, and the session is still open
afterwards; the same happens when the blob does not parse. When instead the
parent is unknown (handle `9`), the call leaves the `do` block with `break`
and does release the session. -/
theorem loadKeyByBlob_release_paths :
    (TCSP_LoadKeyByBlob_Internal tssKmConsts (specKmEnv tssKmConsts) 5
        { sampleWorld with tpmResult := 1 } 1 1 0 [0xDD] (some sampleAuth)).map
      (fun out => (out.result, out.trace, out.state.auths))
      = some (1,
          [KmCall.ctx_verify_context 1 0, KmCall.auth_mgr_check 1 7 0, KmCall.malloc 64 true,
            KmCall.getSlotByHandle 1 0x1000, KmCall.canILoadThisKey [] 0 true,
            KmCall.req_mgr_submit_req ⟨0xC2, 32, 0x1000, [0xDD], some sampleAuth⟩ 0],
          [7]) ∧
    (TCSP_LoadKeyByBlob_Internal tssKmConsts (specKmEnv tssKmConsts) 5 sampleWorld 1 1 0 []
        (some sampleAuth)).map (fun out => (out.result, out.trace, out.state.auths))
      = some (tssKmConsts.TCS_E_FAIL,
          [KmCall.ctx_verify_context 1 0, KmCall.auth_mgr_check 1 7 0, KmCall.malloc 64 true],
          [7]) ∧
    (TCSP_LoadKeyByBlob_Internal tssKmConsts (specKmEnv tssKmConsts) 5 sampleWorld 1 9 0 [0xDD]
        (some sampleAuth)).map (fun out => (out.result, out.trace, out.state.auths))
      = some (tssKmConsts.TCS_E_KM_LOADFAILED,
          [KmCall.ctx_verify_context 1 0, KmCall.auth_mgr_check 1 7 0, KmCall.malloc 64 true,
            KmCall.getSlotByHandle 9 0xFFFFFFFF, KmCall.getPubBySlot 9 none,
            KmCall.auth_mgr_release_auth 7],
          []) := by
  decide

/-- C16, as stated, fails: the authorized load of the new key `[0xDD]` in
`sampleWorld` succeeds with a new handle, and the only memory-cache mutator
called is `add_mem_cache_entry`; `setParentByHandle` is not called. -/
theorem loadKeyByBlob_update_counterexample :
    (TCSP_LoadKeyByBlob_Internal tssKmConsts (specKmEnv tssKmConsts) 5 sampleWorld 1 1 0 [0xDD]
        (some sampleAuth)).map
      (fun out => (out.result, out.phKeyTCSI, out.phKeyHMAC,
        out.trace.filter KmCall.isCacheUpdate))
      = some (TSS_SUCCESS, some 3, some 0x1001,
          [KmCall.add_mem_cache_entry 3 0x1001 ⟨[0xDD], [], []⟩ 0]) := by
  decide

/-- C16, amended. `TCSP_LoadKeyByBlob_Internal`, cache update on success:
every execution that returns `TSS_SUCCESS` ends with
`getTCSKeyHandleByPub` for the key's public key followed by the cache
update, before which no memory-cache mutator is called. If that call
returns a handle other than `NULL_TCS_HANDLE`, the update is
`setSlotByHandle(handle, slot)` alone. If it returns `NULL_TCS_HANDLE`, a
new handle is taken from `getNextTcsKeyHandle`, added with
`add_mem_cache_entry(handle, slot, key)` and marked with
`ctx_mark_key_loaded`, and its parent is recorded with
`setParentByHandle(handle, hUnwrappingKey)` only when `pAuth == NULL`. In
both cases `*phKeyTCSI` is that handle and `*phKeyHMAC` the slot. -/
theorem loadKeyByBlob_update_on_success {σ : Type} (k : KmConsts) (env : KmEnv σ) (fuel : Nat)
    (st : σ) (hContext : TCS_CONTEXT_HANDLE) (hU : TCS_KEY_HANDLE) (sz : Nat)
    (blob : List BYTE) (pAuth : Option TCS_AUTH) (out : LoadOutcome σ) (hk : k.ErrorsNonzero)
    (hout : TCSP_LoadKeyByBlob_Internal k env fuel st hContext hU sz blob pAuth = some out)
    (hres : out.result = TSS_SUCCESS) :
    ∃ pre h0 slot, (∀ e ∈ pre, e.isCacheUpdate = false) ∧ out.phKeyHMAC = some slot ∧
      ((h0 ≠ k.NULL_TCS_HANDLE ∧ out.phKeyTCSI = some h0 ∧
          out.trace = pre ++
            [KmCall.getTCSKeyHandleByPub (env.UnloadBlob_KEY blob).2.1.pubKey h0,
              KmCall.setSlotByHandle h0 slot]) ∨
        (h0 = k.NULL_TCS_HANDLE ∧ ∃ hnew key1, out.phKeyTCSI = some hnew ∧
          out.trace = pre ++
            [KmCall.getTCSKeyHandleByPub (env.UnloadBlob_KEY blob).2.1.pubKey k.NULL_TCS_HANDLE,
              KmCall.getNextTcsKeyHandle hnew, KmCall.add_mem_cache_entry hnew slot key1 0,
              KmCall.ctx_mark_key_loaded hContext hnew 0] ++
            (if pAuth = none then [KmCall.setParentByHandle hnew hU 0] else []))) := by
  have hie : k.TSS_E_INTERNAL_ERROR ≠ 0 := hk.1.2.2.2.1
  simp only [TSS_SUCCESS] at hres
  -- the cache update itself
  have hupd : ∀ (t : List KmCall) (st1 : σ) (pAuth1 : Option TCS_AUTH) (slot : TCPA_KEY_HANDLE),
      (∀ e ∈ t, e.isCacheUpdate = false) → (pAuth1 = none ↔ pAuth = none) →
      out = (loadKeyByBlob_update k env st1 hContext hU blob pAuth1
        (env.UnloadBlob_KEY blob).2.1 slot).after t →
      ∃ pre h0 slot, (∀ e ∈ pre, e.isCacheUpdate = false) ∧ out.phKeyHMAC = some slot ∧
        ((h0 ≠ k.NULL_TCS_HANDLE ∧ out.phKeyTCSI = some h0 ∧
            out.trace = pre ++
              [KmCall.getTCSKeyHandleByPub (env.UnloadBlob_KEY blob).2.1.pubKey h0,
                KmCall.setSlotByHandle h0 slot]) ∨
          (h0 = k.NULL_TCS_HANDLE ∧ ∃ hnew key1, out.phKeyTCSI = some hnew ∧
            out.trace = pre ++
              [KmCall.getTCSKeyHandleByPub (env.UnloadBlob_KEY blob).2.1.pubKey
                  k.NULL_TCS_HANDLE,
                KmCall.getNextTcsKeyHandle hnew, KmCall.add_mem_cache_entry hnew slot key1 0,
                KmCall.ctx_mark_key_loaded hContext hnew 0] ++
              (if pAuth = none then [KmCall.setParentByHandle hnew hU 0] else []))) := by
    intro t st1 pAuth1 slot ht hp ho
    obtain ⟨h1, h2⟩ := loadKeyByBlob_update_shape k env st1 hContext hU blob pAuth1
      (env.UnloadBlob_KEY blob).2.1 slot
    have hres1 : (loadKeyByBlob_update k env st1 hContext hU blob pAuth1
        (env.UnloadBlob_KEY blob).2.1 slot).result = 0 := by
      rw [ho] at hres; simpa using hres
    by_cases h : env.getTCSKeyHandleByPub st1 (env.UnloadBlob_KEY blob).2.1.pubKey
        = k.NULL_TCS_HANDLE
    · obtain ⟨tail, htr, hends⟩ := h2 h
      rcases hends with ⟨_, _, hne, _⟩ | ⟨_, ra, _, hne, hr, _⟩ | ⟨_, _, _, _, hr, _⟩ |
        ⟨_, rq, _, _, hne, hr, _⟩ | ⟨key1, rfl, _, h5, h6⟩
      · exact absurd hres1 hne
      · exact absurd (hr.symm.trans hres1) hne
      · exact absurd (hr.symm.trans hres1) hie
      · exact absurd (hr.symm.trans hres1) hne
      · refine ⟨t, k.NULL_TCS_HANDLE, slot, ht, by rw [ho]; simpa using h6,
          Or.inr ⟨rfl, _, key1, by rw [ho]; simpa using h5, ?_⟩⟩
        rw [ho, LoadOutcome.after_trace, htr]
        have hif : (if pAuth1 = none then [KmCall.setParentByHandle
              (env.getNextTcsKeyHandle st1).1 hU 0] else [])
            = (if pAuth = none then [KmCall.setParentByHandle
              (env.getNextTcsKeyHandle st1).1 hU 0] else []) := by
          by_cases hpn : pAuth = none
          · simp [hpn, hp.2 hpn]
          · have hpn1 : ¬ pAuth1 = none := fun h => hpn (hp.1 h)
            simp [hpn, hpn1]
        rw [hif]
        simp
    · obtain ⟨htr, _, h5, h6⟩ := h1 h
      exact ⟨t, _, slot, ht, by rw [ho]; simpa using h6,
        Or.inl ⟨h, by rw [ho]; simpa using h5, by rw [ho, LoadOutcome.after_trace, htr]⟩⟩
  obtain ⟨pre, hpre, hends⟩ := loadKeyByBlob_shape k env fuel st hContext hU sz blob pAuth out
    hk hout
  have hpre0 : ∀ e ∈ pre, e.isCacheUpdate = false := fun e he => (prelude_calls e (hpre e he)).2.2.1
  rcases hends with ⟨st1, r, hr, rfl⟩ | ⟨r, hr, rfl⟩ | ⟨st1, slot, hp, ho⟩ |
    ⟨st1, st2, r, cap, hcap, hr, rfl⟩ | ⟨st1, st2, cap, pslot, hcap, ho⟩
  · exact absurd ((loadKeyByBlob_failed_facts env st1 pAuth r).1.symm.trans hres) hr
  · exact absurd hres hr
  · exact hupd pre st1 none slot hpre0 (by simp [hp]) ho
  · exact absurd hres hr
  · have hcap0 : ∀ e ∈ cap, e.isCacheUpdate = false := fun e he =>
      (capacity_calls e ((capacityPhase_trace env hU _ fuel st1 0 st2 cap hcap).2.2.2 e he)).2.2.1
    rcases loadKeyByBlob_afterDo_shape k env
        (env.req_mgr_submit_req st2
          (loadKeyRequest k pslot (env.UnloadBlob_KEY blob).2.2 blob pAuth)).2.2
        hContext hU blob pAuth (env.UnloadBlob_KEY blob).2.1
        (env.req_mgr_submit_req st2
          (loadKeyRequest k pslot (env.UnloadBlob_KEY blob).2.2 blob pAuth)).1 true 0
        (env.req_mgr_submit_req st2
          (loadKeyRequest k pslot (env.UnloadBlob_KEY blob).2.2 blob pAuth)).2.1 with
      ⟨hr, h⟩ | ⟨_, _, hr, h⟩ | ⟨_, _, rel, st3, pAuth1, slot1, hrel, hp, h⟩
    · rw [ho, LoadOutcome.after_result, h] at hres
      exact absurd ((loadKeyByBlob_failed_facts env _ pAuth _).1.symm.trans hres) hr
    · rw [ho, LoadOutcome.after_result, h] at hres
      exact absurd hres hr
    · rw [h, LoadOutcome.after_after] at ho
      refine hupd _ st3 pAuth1 slot1 ?_ hp ho
      intro e he
      simp only [List.append_assoc, List.mem_append, List.mem_singleton, List.mem_cons,
        List.not_mem_nil, or_false] at he
      rcases he with h1 | h1 | h1 | h1
      · exact hpre0 e h1
      · exact hcap0 e h1
      · subst h1; rfl
      · exact (release_calls e (hrel e h1)).2.1

/-- Witness for C16 (amended): the unauthorized load of the new key
`[0xDD]` in `sampleWorld` adds the handle `3` and records its parent. -/
theorem loadKeyByBlob_update_on_success_witness :
    tssKmConsts.ErrorsNonzero ∧
    (TCSP_LoadKeyByBlob_Internal tssKmConsts (specKmEnv tssKmConsts) 5 sampleWorld 1 1 0 [0xDD]
        none).map
      (fun out => (out.result, out.phKeyTCSI, out.phKeyHMAC,
        out.trace.filter KmCall.isCacheUpdate))
      = some (TSS_SUCCESS, some 3, some 0x1001,
          [KmCall.add_mem_cache_entry 3 0x1001 ⟨[0xDD], [], []⟩ 0,
            KmCall.setParentByHandle 3 1 0]) ∧
    ∃ out, TCSP_LoadKeyByBlob_Internal tssKmConsts (specKmEnv tssKmConsts) 5 sampleWorld 1 1 0
        [0xDD] none = some out ∧ ∃ slot, out.phKeyHMAC = some slot :=
  ⟨by decide, by decide,
    (Option.isSome_iff_exists.1 (by decide : (TCSP_LoadKeyByBlob_Internal tssKmConsts
      (specKmEnv tssKmConsts) 5 sampleWorld 1 1 0 [0xDD] none).isSome = true)).imp
      (fun out h => ⟨h,
        by
          have h2 : (TCSP_LoadKeyByBlob_Internal tssKmConsts (specKmEnv tssKmConsts) 5
              sampleWorld 1 1 0 [0xDD] none).map LoadOutcome.result = some TSS_SUCCESS := by
            decide
          rw [h] at h2
          obtain ⟨_, _, slot, _, hs, _⟩ :=
            loadKeyByBlob_update_on_success tssKmConsts (specKmEnv tssKmConsts) 5 sampleWorld 1
              1 0 [0xDD] none out (by decide) h (Option.some.inj h2)
          exact ⟨slot, hs⟩⟩)⟩

/-- C20, as stated, fails: with no room left in the memory cache the load
of the new key `[0xDD]` is submitted and accepted by the TPM, then
`add_mem_cache_entry` fails with `TSS_E_OUTOFMEMORY`, and the call returns
that code, which is not `TSS_E_INTERNAL_ERROR`. -/
theorem loadKeyByBlob_cache_failure_counterexample :
    (TCSP_LoadKeyByBlob_Internal tssKmConsts (specKmEnv tssKmConsts) 5
        { sampleWorld with memFree := 0 } 1 1 0 [0xDD] none).map
      (fun out => (out.result, out.trace))
      = some (tssKmConsts.TSS_E_OUTOFMEMORY,
          [KmCall.ctx_verify_context 1 0, KmCall.malloc 64 true,
            KmCall.getSlotByHandle 1 0x1000, KmCall.getTCSKeyHandleByPub [0xDD] 0,
            KmCall.canILoadThisKey [] 0 true,
            KmCall.req_mgr_submit_req ⟨0xC1, 32, 0x1000, [0xDD], none⟩ 0,
            KmCall.getTCSKeyHandleByPub [0xDD] 0, KmCall.getNextTcsKeyHandle 3,
            KmCall.add_mem_cache_entry 3 0x1001 ⟨[0xDD], [], []⟩
              tssKmConsts.TSS_E_OUTOFMEMORY]) ∧
    tssKmConsts.TSS_E_OUTOFMEMORY ≠ tssKmConsts.TSS_E_INTERNAL_ERROR := by
  decide

/-- C20, amended. `TCSP_LoadKeyByBlob_Internal`, failure of the cache
update: in every execution, when `ctx_mark_key_loaded` returns an error the
call returns `TSS_E_INTERNAL_ERROR`; when `add_mem_cache_entry` or
`setParentByHandle` returns an error the call returns that error code
itself. In each of these cases no output parameter is written. -/
theorem loadKeyByBlob_cache_failure {σ : Type} (k : KmConsts) (env : KmEnv σ) (fuel : Nat)
    (st : σ) (hContext : TCS_CONTEXT_HANDLE) (hU : TCS_KEY_HANDLE) (sz : Nat)
    (blob : List BYTE) (pAuth : Option TCS_AUTH) (out : LoadOutcome σ) (hk : k.ErrorsNonzero)
    (hout : TCSP_LoadKeyByBlob_Internal k env fuel st hContext hU sz blob pAuth = some out) :
    (∀ c h r, KmCall.ctx_mark_key_loaded c h r ∈ out.trace → r ≠ 0 →
      out.result = k.TSS_E_INTERNAL_ERROR ∧ out.phKeyTCSI = none ∧ out.phKeyHMAC = none) ∧
    (∀ h s key r, KmCall.add_mem_cache_entry h s key r ∈ out.trace → r ≠ 0 →
      out.result = r ∧ out.phKeyTCSI = none ∧ out.phKeyHMAC = none) ∧
    (∀ h q r, KmCall.setParentByHandle h q r ∈ out.trace → r ≠ 0 →
      out.result = r ∧ out.phKeyTCSI = none ∧ out.phKeyHMAC = none) := by
  -- the three statements for an outcome that is a cache update after other calls
  have hupd : ∀ (t : List KmCall) (st1 : σ) (pAuth1 : Option TCS_AUTH) (slot : TCPA_KEY_HANDLE),
      (∀ e ∈ t, e.isPrelude = true ∨ e.isCapacity = true ∨ e.isSubmit = true ∨
        e.isRelease = true) →
      out = (loadKeyByBlob_update k env st1 hContext hU blob pAuth1
        (env.UnloadBlob_KEY blob).2.1 slot).after t →
      (∀ c h r, KmCall.ctx_mark_key_loaded c h r ∈ out.trace → r ≠ 0 →
        out.result = k.TSS_E_INTERNAL_ERROR ∧ out.phKeyTCSI = none ∧ out.phKeyHMAC = none) ∧
      (∀ h s key r, KmCall.add_mem_cache_entry h s key r ∈ out.trace → r ≠ 0 →
        out.result = r ∧ out.phKeyTCSI = none ∧ out.phKeyHMAC = none) ∧
      (∀ h q r, KmCall.setParentByHandle h q r ∈ out.trace → r ≠ 0 →
        out.result = r ∧ out.phKeyTCSI = none ∧ out.phKeyHMAC = none) := by
    intro t st1 pAuth1 slot ht ho
    have hnot : ∀ e ∈ t, (∀ c h r, e ≠ KmCall.ctx_mark_key_loaded c h r) ∧
        (∀ h s key r, e ≠ KmCall.add_mem_cache_entry h s key r) ∧
        (∀ h q r, e ≠ KmCall.setParentByHandle h q r) := by
      intro e he
      have := ht e he
      cases e <;> simp_all [KmCall.isPrelude, KmCall.isCapacity, KmCall.isSubmit,
        KmCall.isRelease]
    obtain ⟨h1, h2⟩ := loadKeyByBlob_update_shape k env st1 hContext hU blob pAuth1
      (env.UnloadBlob_KEY blob).2.1 slot
    subst ho
    have hmem : ∀ e, e ∈ ((loadKeyByBlob_update k env st1 hContext hU blob pAuth1
          (env.UnloadBlob_KEY blob).2.1 slot).after t).trace → e ∈ t ∨
        e ∈ (loadKeyByBlob_update k env st1 hContext hU blob pAuth1
          (env.UnloadBlob_KEY blob).2.1 slot).trace := by
      intro e he
      rw [LoadOutcome.after_trace] at he
      exact List.mem_append.1 he
    by_cases h : env.getTCSKeyHandleByPub st1 (env.UnloadBlob_KEY blob).2.1.pubKey
        = k.NULL_TCS_HANDLE
    · obtain ⟨tail, htr, hends⟩ := h2 h
      rw [htr] at hmem
      simp only [LoadOutcome.after_result, LoadOutcome.after_phKeyTCSI,
        LoadOutcome.after_phKeyHMAC]
      rcases hends with ⟨_, rfl, _, _, _⟩ | ⟨_, ra, rfl, _, hr, h5, h6⟩ |
        ⟨_, rm, rfl, _, hr, h5, h6⟩ | ⟨_, rq, _, rfl, _, hr, h5, h6⟩ | ⟨key1, rfl, _, _, _⟩
      · refine ⟨?_, ?_, ?_⟩
        · intro c h0 r hin _
          rcases hmem _ hin with h3 | h3
          · exact absurd rfl ((hnot _ h3).1 c h0 r)
          · simp at h3
        · intro h0 s key r hin _
          rcases hmem _ hin with h3 | h3
          · exact absurd rfl ((hnot _ h3).2.1 h0 s key r)
          · simp at h3
        · intro h0 q r hin _
          rcases hmem _ hin with h3 | h3
          · exact absurd rfl ((hnot _ h3).2.2 h0 q r)
          · simp at h3
      · refine ⟨?_, ?_, ?_⟩
        · intro c h0 r hin _
          rcases hmem _ hin with h3 | h3
          · exact absurd rfl ((hnot _ h3).1 c h0 r)
          · simp at h3
        · intro h0 s key r hin _
          rcases hmem _ hin with h3 | h3
          · exact absurd rfl ((hnot _ h3).2.1 h0 s key r)
          · simp at h3
            rw [h3.2.2.2]
            exact ⟨hr, h5, h6⟩
        · intro h0 q r hin _
          rcases hmem _ hin with h3 | h3
          · exact absurd rfl ((hnot _ h3).2.2 h0 q r)
          · simp at h3
      · refine ⟨?_, ?_, ?_⟩
        · intro c h0 r hin _
          rcases hmem _ hin with h3 | h3
          · exact absurd rfl ((hnot _ h3).1 c h0 r)
          · exact ⟨hr, h5, h6⟩
        · intro h0 s key r hin hne
          rcases hmem _ hin with h3 | h3
          · exact absurd rfl ((hnot _ h3).2.1 h0 s key r)
          · simp at h3
            exact absurd h3.2.2.2 hne
        · intro h0 q r hin _
          rcases hmem _ hin with h3 | h3
          · exact absurd rfl ((hnot _ h3).2.2 h0 q r)
          · simp at h3
      · refine ⟨?_, ?_, ?_⟩
        · intro c h0 r hin hne
          rcases hmem _ hin with h3 | h3
          · exact absurd rfl ((hnot _ h3).1 c h0 r)
          · simp at h3
            exact absurd h3.2.2 hne
        · intro h0 s key r hin hne
          rcases hmem _ hin with h3 | h3
          · exact absurd rfl ((hnot _ h3).2.1 h0 s key r)
          · simp at h3
            exact absurd h3.2.2.2 hne
        · intro h0 q r hin _
          rcases hmem _ hin with h3 | h3
          · exact absurd rfl ((hnot _ h3).2.2 h0 q r)
          · simp at h3
            rw [h3.2.2]
            exact ⟨hr, h5, h6⟩
      · refine ⟨?_, ?_, ?_⟩
        · intro c h0 r hin hne
          rcases hmem _ hin with h3 | h3
          · exact absurd rfl ((hnot _ h3).1 c h0 r)
          · by_cases hp1 : pAuth1 = none <;> simp [hp1] at h3 <;> exact absurd h3.2.2 hne
        · intro h0 s key r hin hne
          rcases hmem _ hin with h3 | h3
          · exact absurd rfl ((hnot _ h3).2.1 h0 s key r)
          · by_cases hp1 : pAuth1 = none <;> simp [hp1] at h3 <;> exact absurd h3.2.2.2 hne
        · intro h0 q r hin hne
          rcases hmem _ hin with h3 | h3
          · exact absurd rfl ((hnot _ h3).2.2 h0 q r)
          · by_cases hp1 : pAuth1 = none <;> simp [hp1] at h3
            exact absurd h3.2.2 hne
    · obtain ⟨htr, _⟩ := h1 h
      rw [htr] at hmem
      refine ⟨?_, ?_, ?_⟩
      · intro c h0 r hin _
        rcases hmem _ hin with h3 | h3
        · exact absurd rfl ((hnot _ h3).1 c h0 r)
        · simp at h3
      · intro h0 s key r hin _
        rcases hmem _ hin with h3 | h3
        · exact absurd rfl ((hnot _ h3).2.1 h0 s key r)
        · simp at h3
      · intro h0 q r hin _
        rcases hmem _ hin with h3 | h3
        · exact absurd rfl ((hnot _ h3).2.2 h0 q r)
        · simp at h3
  -- the three statements for an outcome without any call of the cache update
  have hnone : (∀ e ∈ out.trace, e.isPrelude = true ∨ e.isCapacity = true ∨ e.isSubmit = true ∨
        e.isRelease = true) →
      (∀ c h r, KmCall.ctx_mark_key_loaded c h r ∈ out.trace → r ≠ 0 →
        out.result = k.TSS_E_INTERNAL_ERROR ∧ out.phKeyTCSI = none ∧ out.phKeyHMAC = none) ∧
      (∀ h s key r, KmCall.add_mem_cache_entry h s key r ∈ out.trace → r ≠ 0 →
        out.result = r ∧ out.phKeyTCSI = none ∧ out.phKeyHMAC = none) ∧
      (∀ h q r, KmCall.setParentByHandle h q r ∈ out.trace → r ≠ 0 →
        out.result = r ∧ out.phKeyTCSI = none ∧ out.phKeyHMAC = none) := by
    intro hall
    refine ⟨?_, ?_, ?_⟩
    · intro c h r hin _
      have := hall _ hin
      simp [KmCall.isPrelude, KmCall.isCapacity, KmCall.isSubmit, KmCall.isRelease] at this
    · intro h s key r hin _
      have := hall _ hin
      simp [KmCall.isPrelude, KmCall.isCapacity, KmCall.isSubmit, KmCall.isRelease] at this
    · intro h q r hin _
      have := hall _ hin
      simp [KmCall.isPrelude, KmCall.isCapacity, KmCall.isSubmit, KmCall.isRelease] at this
  obtain ⟨pre, hpre, hends⟩ := loadKeyByBlob_shape k env fuel st hContext hU sz blob pAuth out
    hk hout
  rcases hends with ⟨st1, r, hr, ho⟩ | ⟨r, hr, ho⟩ | ⟨st1, slot, hp, ho⟩ |
    ⟨st1, st2, r, cap, hcap, hr, ho⟩ | ⟨st1, st2, cap, pslot, hcap, ho⟩
  · apply hnone
    intro e he
    rw [ho, LoadOutcome.after_trace] at he
    rcases List.mem_append.1 he with h | h
    · exact Or.inl (hpre e h)
    · exact Or.inr (Or.inr (Or.inr ((loadKeyByBlob_failed_facts env st1 pAuth r).2.2.2 e h)))
  · apply hnone
    intro e he
    rw [ho, LoadOutcome.after_trace] at he
    rcases List.mem_append.1 he with h | h
    · exact Or.inl (hpre e h)
    · simp [loadKeyByBlob_return] at h
  · exact hupd pre st1 none slot (fun e he => Or.inl (hpre e he)) ho
  · have hcapc := (capacityPhase_trace env hU _ fuel st1 r st2 cap hcap).2.2.2
    apply hnone
    intro e he
    rw [ho, LoadOutcome.after_trace] at he
    rcases List.mem_append.1 he with h | h
    · rcases List.mem_append.1 h with h | h
      · exact Or.inl (hpre e h)
      · exact Or.inr (Or.inl (hcapc e h))
    · simp [loadKeyByBlob_return] at h
  · have hcapc := (capacityPhase_trace env hU _ fuel st1 0 st2 cap hcap).2.2.2
    have hfront : ∀ e ∈ pre ++ cap ++
        [KmCall.req_mgr_submit_req
          (loadKeyRequest k pslot (env.UnloadBlob_KEY blob).2.2 blob pAuth)
          (env.req_mgr_submit_req st2
            (loadKeyRequest k pslot (env.UnloadBlob_KEY blob).2.2 blob pAuth)).1],
        e.isPrelude = true ∨ e.isCapacity = true ∨ e.isSubmit = true ∨ e.isRelease = true := by
      intro e he
      simp only [List.append_assoc, List.mem_append, List.mem_singleton] at he
      rcases he with h | h | h
      · exact Or.inl (hpre e h)
      · exact Or.inr (Or.inl (hcapc e h))
      · subst h; exact Or.inr (Or.inr (Or.inl rfl))
    rcases loadKeyByBlob_afterDo_shape k env
        (env.req_mgr_submit_req st2
          (loadKeyRequest k pslot (env.UnloadBlob_KEY blob).2.2 blob pAuth)).2.2
        hContext hU blob pAuth (env.UnloadBlob_KEY blob).2.1
        (env.req_mgr_submit_req st2
          (loadKeyRequest k pslot (env.UnloadBlob_KEY blob).2.2 blob pAuth)).1 true 0
        (env.req_mgr_submit_req st2
          (loadKeyRequest k pslot (env.UnloadBlob_KEY blob).2.2 blob pAuth)).2.1 with
      ⟨hr, h⟩ | ⟨_, _, hr, h⟩ | ⟨_, _, rel, st3, pAuth1, slot1, hrel, hp, h⟩
    · apply hnone
      intro e he
      rw [ho, h, LoadOutcome.after_trace] at he
      rcases List.mem_append.1 he with h1 | h1
      · exact hfront e h1
      · exact Or.inr (Or.inr (Or.inr ((loadKeyByBlob_failed_facts env _ pAuth _).2.2.2 e h1)))
    · apply hnone
      intro e he
      rw [ho, h, LoadOutcome.after_trace] at he
      rcases List.mem_append.1 he with h1 | h1
      · exact hfront e h1
      · simp [loadKeyByBlob_return] at h1
    · rw [h, LoadOutcome.after_after] at ho
      refine hupd _ st3 pAuth1 slot1 ?_ ho
      intro e he
      rcases List.mem_append.1 he with h1 | h1
      · exact hfront e h1
      · exact Or.inr (Or.inr (Or.inr (hrel e h1)))

/-- Witness for C20 (amended): the failing `add_mem_cache_entry` of the
world without room in the memory cache. -/
theorem loadKeyByBlob_cache_failure_witness :
    tssKmConsts.ErrorsNonzero ∧
    ∃ out, TCSP_LoadKeyByBlob_Internal tssKmConsts (specKmEnv tssKmConsts) 5
        { sampleWorld with memFree := 0 } 1 1 0 [0xDD] none = some out ∧
      KmCall.add_mem_cache_entry 3 0x1001 ⟨[0xDD], [], []⟩ tssKmConsts.TSS_E_OUTOFMEMORY
        ∈ out.trace ∧
      out.result = tssKmConsts.TSS_E_OUTOFMEMORY :=
  ⟨by decide,
    (Option.isSome_iff_exists.1 (by decide : (TCSP_LoadKeyByBlob_Internal tssKmConsts
      (specKmEnv tssKmConsts) 5 { sampleWorld with memFree := 0 } 1 1 0 [0xDD]
        none).isSome = true)).imp
      (fun out h =>
        have hin : KmCall.add_mem_cache_entry 3 0x1001 ⟨[0xDD], [], []⟩
            tssKmConsts.TSS_E_OUTOFMEMORY ∈ out.trace := by
          have h2 : (TCSP_LoadKeyByBlob_Internal tssKmConsts (specKmEnv tssKmConsts) 5
              { sampleWorld with memFree := 0 } 1 1 0 [0xDD] none).map
              (fun o => decide (KmCall.add_mem_cache_entry 3 0x1001 ⟨[0xDD], [], []⟩
                tssKmConsts.TSS_E_OUTOFMEMORY ∈ o.trace)) = some true := by decide
          rw [h] at h2
          exact of_decide_eq_true (Option.some.inj h2)
        ⟨h, hin,
          ((loadKeyByBlob_cache_failure tssKmConsts (specKmEnv tssKmConsts) 5
            { sampleWorld with memFree := 0 } 1 1 0 [0xDD] none out (by decide) h).2.1 _ _ _ _
            hin (by decide)).1⟩)⟩

/-! ### The capacity loop -/

/-- Every call of the capacity check is `evictFirstKey` with the parent
handle or `canILoadThisKey` with the parameters of the key. -/
theorem capacity_chain_calls (parms : TCPA_KEY_PARMS) (hU : TCS_KEY_HANDLE)
    (cap : List KmCall)
    (hhead : ∃ r0 c0, cap.head? = some (KmCall.canILoadThisKey parms r0 c0))
    (hchain : cap.Chain' (CapacityStep parms hU))
    (c1 : List KmCall) (x : KmCall) (c2 : List KmCall) (hcap : cap = c1 ++ x :: c2) :
    (c1 = [] ∧ ∃ r0 c0, x = KmCall.canILoadThisKey parms r0 c0) ∨
    (∃ c0 y, c1 = c0 ++ [y] ∧ CapacityStep parms hU y x) := by
  subst hcap
  rcases List.eq_nil_or_concat c1 with rfl | ⟨c0, y, h⟩
  · obtain ⟨r0, c0, h⟩ := hhead
    simp only [List.nil_append, List.head?_cons, Option.some.injEq] at h
    exact Or.inl ⟨rfl, r0, c0, h⟩
  · rw [List.concat_eq_append] at h
    subst h
    refine Or.inr ⟨c0, y, rfl, ?_⟩
    rw [List.append_assoc, List.singleton_append, List.chain'_split] at hchain
    have := hchain.2
    rw [List.chain'_cons] at this
    exact this.1

/-- The call that follows a call of the capacity check, or the end of the
check. -/
theorem capacity_chain_next (parms : TCPA_KEY_PARMS) (hU : TCS_KEY_HANDLE) (r : TSS_RESULT)
    (cap : List KmCall)
    (hchain : cap.Chain' (CapacityStep parms hU))
    (hlast : ∃ e, cap.getLast? = some e ∧ CapacityLast parms hU r e)
    (c1 : List KmCall) (x : KmCall) (c2 : List KmCall) (hcap : cap = c1 ++ x :: c2) :
    (c2 = [] ∧ CapacityLast parms hU r x) ∨
    (∃ z c3, c2 = z :: c3 ∧ CapacityStep parms hU x z) := by
  subst hcap
  cases c2 with
  | nil =>
    obtain ⟨e, he, hl⟩ := hlast
    simp only [List.getLast?_append_cons, List.getLast?_singleton, Option.some.injEq] at he
    subst he
    exact Or.inl ⟨rfl, hl⟩
  | cons z c3 =>
    refine Or.inr ⟨z, c3, rfl, ?_⟩
    rw [List.chain'_split] at hchain
    have := hchain.2
    rw [List.chain'_cons] at this
    exact this.1

/-- A call that occurs in neither the first nor the last of three
consecutive parts of a list of calls occurs in the middle part, and the
calls before and after it are split accordingly. -/
theorem split_mid (A B C l1 l2 : List KmCall) (x : KmCall)
    (h : A ++ B ++ C = l1 ++ x :: l2) (hA : x ∉ A) (hC : x ∉ C) :
    ∃ c1 c2, B = c1 ++ x :: c2 ∧ l1 = A ++ c1 ∧ l2 = c2 ++ C := by
  rw [List.append_assoc, List.append_eq_append_iff] at h
  rcases h with ⟨a1, h1, h2⟩ | ⟨c1, h1, h2⟩
  · rw [List.append_eq_append_iff] at h2
    rcases h2 with ⟨b1, _, h4⟩ | ⟨c1, h3, h4⟩
    · exact absurd (h4 ▸ List.mem_append_right b1 (List.mem_cons_self x l2)) hC
    · cases c1 with
      | nil =>
        simp only [List.nil_append] at h4
        exact absurd (h4 ▸ List.mem_cons_self x l2) hC
      | cons y c2 =>
        simp only [List.cons_append, List.cons.injEq] at h4
        obtain ⟨rfl, h4⟩ := h4
        exact ⟨a1, c2, h3, h1, h4⟩
  · cases c1 with
    | nil =>
      simp only [List.nil_append, List.append_nil] at h1 h2
      cases B with
      | nil =>
        simp only [List.nil_append] at h2
        exact absurd (h2 ▸ List.mem_cons_self x l2) hC
      | cons y B1 =>
        simp only [List.cons_append, List.cons.injEq] at h2
        obtain ⟨rfl, h2⟩ := h2
        exact ⟨[], B1, rfl, by simp [h1], h2⟩
    | cons y c2 =>
      simp only [List.cons_append, List.cons.injEq] at h2
      obtain ⟨rfl, _⟩ := h2
      exact absurd (h1 ▸ List.mem_append_right l1 (List.mem_cons_self x c2)) hA

/-- The capacity check around one of its calls `x`: what precedes and what
follows an `evictFirstKey` and a `canILoadThisKey`, by their results. -/
theorem capacity_decompose (parms : TCPA_KEY_PARMS) (hU : TCS_KEY_HANDLE) (r : TSS_RESULT)
    (cap : List KmCall)
    (hhead : ∃ r0 c0, cap.head? = some (KmCall.canILoadThisKey parms r0 c0))
    (hchain : cap.Chain' (CapacityStep parms hU))
    (hlast : ∃ e, cap.getLast? = some e ∧ CapacityLast parms hU r e)
    (c1 : List KmCall) (x : KmCall) (c2 : List KmCall) (hcap : cap = c1 ++ x :: c2) :
    (∀ h re, x = KmCall.evictFirstKey h re →
      h = hU ∧ (∃ c0, c1 = c0 ++ [KmCall.canILoadThisKey parms 0 false]) ∧
      (re = 0 → ∃ rc c c3, c2 = KmCall.canILoadThisKey parms rc c :: c3) ∧
      (re ≠ 0 → c2 = [] ∧ r = re)) ∧
    (∀ p rc c, x = KmCall.canILoadThisKey p rc c →
      p = parms ∧ (rc ≠ 0 → c2 = [] ∧ r = rc) ∧
      (rc = 0 → c = false → ∃ re c3, c2 = KmCall.evictFirstKey hU re :: c3) ∧
      (rc = 0 → c = true → c2 = [] ∧ r = 0)) := by
  have hprev := capacity_chain_calls parms hU cap hhead hchain c1 x c2 hcap
  have hnext := capacity_chain_next parms hU r cap hchain hlast c1 x c2 hcap
  constructor
  · intro h re hx
    subst hx
    have h1 : h = hU ∧ ∃ c0, c1 = c0 ++ [KmCall.canILoadThisKey parms 0 false] := by
      rcases hprev with ⟨_, r0, c0, h0⟩ | ⟨c0, y, h0, hs⟩
      · cases h0
      · rcases hs with ⟨rfl, rr, hb⟩ | ⟨_, rr, cc, hb⟩
        · cases hb
          exact ⟨rfl, c0, h0⟩
        · cases hb
    refine ⟨h1.1, h1.2, ?_, ?_⟩
    · intro hre
      subst hre
      rcases hnext with ⟨_, hl⟩ | ⟨z, c3, hz, hs⟩
      · rcases hl with ⟨_, hb⟩ | ⟨hr, hb | ⟨cc, hb⟩⟩
        · cases hb
        · cases hb
          exact absurd rfl hr
        · cases hb
      · rcases hs with ⟨hb, _⟩ | ⟨_, rr, cc, rfl⟩
        · cases hb
        · exact ⟨rr, cc, c3, hz⟩
    · intro hre
      rcases hnext with ⟨hc2, hl⟩ | ⟨z, c3, hz, hs⟩
      · rcases hl with ⟨_, hb⟩ | ⟨hr, hb | ⟨cc, hb⟩⟩
        · cases hb
        · cases hb
          exact ⟨hc2, rfl⟩
        · cases hb
      · rcases hs with ⟨hb, _⟩ | ⟨hb, _⟩
        · cases hb
        · cases hb
          exact absurd rfl hre
  · intro p rc c hx
    subst hx
    have h1 : p = parms := by
      rcases hprev with ⟨_, r0, c0, h0⟩ | ⟨c0, y, h0, hs⟩
      · cases h0
        rfl
      · rcases hs with ⟨_, rr, hb⟩ | ⟨_, rr, cc, hb⟩
        · cases hb
        · cases hb
          rfl
    subst h1
    refine ⟨rfl, ?_, ?_, ?_⟩
    · intro hrc
      rcases hnext with ⟨hc2, hl⟩ | ⟨z, c3, hz, hs⟩
      · rcases hl with ⟨_, hb⟩ | ⟨hr, hb | ⟨cc, hb⟩⟩
        · cases hb
          exact absurd rfl hrc
        · cases hb
        · cases hb
          exact ⟨hc2, rfl⟩
      · rcases hs with ⟨hb, _⟩ | ⟨hb, _⟩
        · cases hb
          exact absurd rfl hrc
        · cases hb
    · intro hrc hc
      subst hrc hc
      rcases hnext with ⟨hc2, hl⟩ | ⟨z, c3, hz, hs⟩
      · rcases hl with ⟨_, hb⟩ | ⟨hr, hb | ⟨cc, hb⟩⟩
        · cases hb
        · cases hb
        · cases hb
          exact absurd rfl hr
      · rcases hs with ⟨_, rr, rfl⟩ | ⟨hb, _⟩
        · exact ⟨rr, c3, hz⟩
        · cases hb
    · intro hrc hc
      subst hrc hc
      rcases hnext with ⟨hc2, hl⟩ | ⟨z, c3, hz, hs⟩
      · rcases hl with ⟨hr, _⟩ | ⟨hr, hb | ⟨cc, hb⟩⟩
        · exact ⟨hc2, hr⟩
        · cases hb
        · cases hb
          exact absurd rfl hr
      · rcases hs with ⟨hb, _⟩ | ⟨hb, _⟩
        · cases hb
        · cases hb

/-- C19. The capacity loop of `TCSP_LoadKeyByBlob_Internal`, read off the
calls of any execution, around each call `x` (after the calls `l1`, before
the calls `l2`):
a load submission comes directly after a `canILoadThisKey` that succeeded
with `canLoad = TRUE`;
an `evictFirstKey` is called with the parent handle `hUnwrappingKey`,
directly after a `canILoadThisKey` that succeeded with `canLoad = FALSE`,
and when it succeeds the next call is the re-check `canILoadThisKey`, while
when it fails it is the last call, its error is the result and nothing is
submitted;
a `canILoadThisKey` is called with the parameters of the parsed key, when it
fails it is the last call, its error is the result and nothing is
submitted, when it reports `FALSE` the next call is
`evictFirstKey(hUnwrappingKey)`, and when it reports `TRUE` the next call is
the load submission. -/
theorem loadKeyByBlob_capacity_loop {σ : Type} (k : KmConsts) (env : KmEnv σ) (fuel : Nat)
    (st : σ) (hContext : TCS_CONTEXT_HANDLE) (hU : TCS_KEY_HANDLE) (sz : Nat)
    (blob : List BYTE) (pAuth : Option TCS_AUTH) (out : LoadOutcome σ) (hk : k.ErrorsNonzero)
    (hout : TCSP_LoadKeyByBlob_Internal k env fuel st hContext hU sz blob pAuth = some out)
    (l1 : List KmCall) (x : KmCall) (l2 : List KmCall) (hsplit : out.trace = l1 ++ x :: l2) :
    (∀ tx r, x = KmCall.req_mgr_submit_req tx r →
      l1.getLast? = some (KmCall.canILoadThisKey
        (env.UnloadBlob_KEY blob).2.1.algorithmParms 0 true)) ∧
    (∀ h re, x = KmCall.evictFirstKey h re →
      h = hU ∧
      l1.getLast? = some (KmCall.canILoadThisKey
        (env.UnloadBlob_KEY blob).2.1.algorithmParms 0 false) ∧
      (re = 0 → ∃ rc c, l2.head? = some (KmCall.canILoadThisKey
        (env.UnloadBlob_KEY blob).2.1.algorithmParms rc c)) ∧
      (re ≠ 0 → l2 = [] ∧ out.result = re ∧ ∀ e ∈ out.trace, e.isSubmit = false)) ∧
    (∀ p rc c, x = KmCall.canILoadThisKey p rc c →
      p = (env.UnloadBlob_KEY blob).2.1.algorithmParms ∧
      (rc ≠ 0 → l2 = [] ∧ out.result = rc ∧ ∀ e ∈ out.trace, e.isSubmit = false) ∧
      (rc = 0 → c = false → ∃ re, l2.head? = some (KmCall.evictFirstKey hU re)) ∧
      (rc = 0 → c = true → ∃ tx r, l2.head? = some (KmCall.req_mgr_submit_req tx r))) := by
  -- the calls of an execution: before, in and after the capacity check
  have hdec : ∃ pre cap post r,
      out.trace = pre ++ cap ++ post ∧
      (∀ e ∈ pre, e.isCapacity = false ∧ e.isSubmit = false) ∧
      (∀ e ∈ cap, e.isCapacity = true) ∧
      ((cap = [] ∧ ∀ e ∈ post, e.isCapacity = false ∧ e.isSubmit = false) ∨
        ((∃ r0 c0, cap.head? = some (KmCall.canILoadThisKey
            (env.UnloadBlob_KEY blob).2.1.algorithmParms r0 c0)) ∧
          cap.Chain' (CapacityStep (env.UnloadBlob_KEY blob).2.1.algorithmParms hU) ∧
          (∃ e, cap.getLast? = some e ∧
            CapacityLast (env.UnloadBlob_KEY blob).2.1.algorithmParms hU r e) ∧
          ((r ≠ 0 ∧ post = [] ∧ out.result = r) ∨
            (r = 0 ∧ ∃ tx rs post1, post = KmCall.req_mgr_submit_req tx rs :: post1 ∧
              ∀ e ∈ post1, e.isCapacity = false ∧ e.isSubmit = false)))) := by
    obtain ⟨pre, hpre, hends⟩ := loadKeyByBlob_shape k env fuel st hContext hU sz blob pAuth out
      hk hout
    have hpre1 : ∀ e ∈ pre, e.isCapacity = false ∧ e.isSubmit = false := fun e he =>
      ⟨(prelude_calls e (hpre e he)).2.2.2, (prelude_calls e (hpre e he)).1⟩
    rcases hends with ⟨st1, r, hr, ho⟩ | ⟨r, hr, ho⟩ | ⟨st1, slot, hp, ho⟩ |
      ⟨st1, st2, r, cap, hcap, hr, ho⟩ | ⟨st1, st2, cap, pslot, hcap, ho⟩
    · refine ⟨pre, [], (loadKeyByBlob_failed env st1 pAuth r).trace, 0, ?_, hpre1, by simp,
        Or.inl ⟨rfl, ?_⟩⟩
      · rw [ho]; simp
      · intro e he
        have := release_calls e ((loadKeyByBlob_failed_facts env st1 pAuth r).2.2.2 e he)
        exact ⟨this.2.2, this.1⟩
    · refine ⟨pre, [], [], 0, ?_, hpre1, by simp, Or.inl ⟨rfl, by simp⟩⟩
      rw [ho]; simp [loadKeyByBlob_return]
    · refine ⟨pre, [], (loadKeyByBlob_update k env st1 hContext hU blob none
        (env.UnloadBlob_KEY blob).2.1 slot).trace, 0, ?_, hpre1, by simp, Or.inl ⟨rfl, ?_⟩⟩
      · rw [ho]; simp
      · intro e he
        have := loadKeyByBlob_update_calls k env st1 hContext hU blob none
          (env.UnloadBlob_KEY blob).2.1 slot e he
        refine ⟨?_, this.1⟩
        cases e <;> simp_all [KmCall.isCapacity]
    · obtain ⟨h1, h2, h3, h4⟩ := capacityPhase_trace env hU _ fuel st1 r st2 cap hcap
      refine ⟨pre, cap, [], r, ?_, hpre1, h4, Or.inr ⟨h1, h2, h3, Or.inl ⟨hr, rfl, ?_⟩⟩⟩
      · rw [ho]; simp [loadKeyByBlob_return]
      · rw [ho]; simp [loadKeyByBlob_return]
    · obtain ⟨h1, h2, h3, h4⟩ := capacityPhase_trace env hU _ fuel st1 0 st2 cap hcap
      generalize env.req_mgr_submit_req st2
        (loadKeyRequest k pslot (env.UnloadBlob_KEY blob).2.2 blob pAuth) = s at ho
      refine ⟨pre, cap,
        KmCall.req_mgr_submit_req
          (loadKeyRequest k pslot (env.UnloadBlob_KEY blob).2.2 blob pAuth) s.1 ::
          (loadKeyByBlob_afterDo k env s.2.2 hContext hU blob pAuth
            (env.UnloadBlob_KEY blob).2.1 s.1 true 0 s.2.1).trace, 0, ?_, hpre1, h4,
        Or.inr ⟨h1, h2, h3, Or.inr ⟨rfl,
          loadKeyRequest k pslot (env.UnloadBlob_KEY blob).2.2 blob pAuth, s.1,
          (loadKeyByBlob_afterDo k env s.2.2 hContext hU blob pAuth
            (env.UnloadBlob_KEY blob).2.1 s.1 true 0 s.2.1).trace, rfl, ?_⟩⟩⟩
      · rw [ho, LoadOutcome.after_trace]; simp
      · intro e he
        have := loadKeyByBlob_afterDo_calls k env s.2.2 hContext hU blob pAuth
          (env.UnloadBlob_KEY blob).2.1 s.1 true 0 s.2.1 e he
        exact ⟨this.2, this.1⟩
  obtain ⟨pre, cap, post, r, htr, hpre, hcapc, hcases⟩ := hdec
  have hx : x ∈ out.trace := by rw [hsplit]; simp
  have hxm : x ∈ pre ∨ x ∈ cap ∨ x ∈ post := by
    rw [htr] at hx
    simpa [or_assoc] using hx
  have hsub : ∀ e ∈ cap, e.isSubmit = false := fun e he => (capacity_calls e (hcapc e he)).1
  rcases hcases with ⟨hcap0, hpost⟩ | ⟨hhead, hchain, hlast, hpostc⟩
  · -- no capacity check was made: no such call exists
    subst hcap0
    have hno : x.isCapacity = false ∧ x.isSubmit = false := by
      rcases hxm with h | h | h
      · exact hpre x h
      · simp at h
      · exact hpost x h
    refine ⟨?_, ?_, ?_⟩
    · intro tx rs hxe
      subst hxe
      simp [KmCall.isSubmit] at hno
    · intro h re hxe
      subst hxe
      simp [KmCall.isCapacity] at hno
    · intro p rc c hxe
      subst hxe
      simp [KmCall.isCapacity] at hno
  · have hnosub : r ≠ 0 → ∀ e ∈ out.trace, e.isSubmit = false := by
      intro hr e he
      rcases hpostc with ⟨_, hp0, _⟩ | ⟨h0, _⟩
      · rw [htr, hp0] at he
        simp only [List.append_nil, List.mem_append] at he
        rcases he with h | h
        · exact (hpre e h).2
        · exact hsub e h
      · exact absurd h0 hr
    have hres : r ≠ 0 → post = [] ∧ out.result = r := by
      intro hr
      rcases hpostc with ⟨_, hp0, hres⟩ | ⟨h0, _⟩
      · exact ⟨hp0, hres⟩
      · exact absurd h0 hr
    have hpostx : x.isCapacity = true → x ∉ post := by
      intro hxc hin
      rcases hpostc with ⟨_, hp0, _⟩ | ⟨_, tx, rs, post1, hp1, hp2⟩
      · rw [hp0] at hin
        simp at hin
      · rw [hp1] at hin
        rcases List.mem_cons.1 hin with h | h
        · rw [h] at hxc
          simp [KmCall.isCapacity] at hxc
        · rw [(hp2 x h).1] at hxc
          cases hxc
    have hprex : x.isCapacity = true → x ∉ pre := by
      intro hxc hin
      rw [(hpre x hin).1] at hxc
      cases hxc
    have hmid : x.isCapacity = true →
        ∃ c1 c2, cap = c1 ++ x :: c2 ∧ l1 = pre ++ c1 ∧ l2 = c2 ++ post := fun hxc =>
      split_mid pre cap post l1 l2 x (htr.symm.trans hsplit) (hprex hxc) (hpostx hxc)
    refine ⟨?_, ?_, ?_⟩
    · intro tx rs hxe
      rcases hpostc with ⟨_, hp0, _⟩ | ⟨h0, tx1, rs1, post1, hp1, hp2⟩
      · rw [hp0] at hxm
        rcases hxm with h | h | h
        · have := (hpre x h).2
          rw [hxe] at this
          simp [KmCall.isSubmit] at this
        · have := hsub x h
          rw [hxe] at this
          simp [KmCall.isSubmit] at this
        · simp at h
      · subst h0
        have hA : x ∉ pre ++ cap := by
          intro hin
          rcases List.mem_append.1 hin with h | h
          · have := (hpre x h).2
            rw [hxe] at this
            simp [KmCall.isSubmit] at this
          · have := hsub x h
            rw [hxe] at this
            simp [KmCall.isSubmit] at this
        have hC : x ∉ post1 := by
          intro hin
          have := (hp2 x hin).2
          rw [hxe] at this
          simp [KmCall.isSubmit] at this
        have h3 : pre ++ cap ++ [KmCall.req_mgr_submit_req tx1 rs1] ++ post1
            = l1 ++ x :: l2 := by
          rw [← hsplit, htr, hp1]
          simp
        obtain ⟨c1, c2, hB, hl1, _⟩ := split_mid (pre ++ cap)
          [KmCall.req_mgr_submit_req tx1 rs1] post1 l1 l2 x h3 hA hC
        have hc1 : c1 = [] := by
          cases c1 with
          | nil => rfl
          | cons y c3 =>
            have := congrArg List.length hB
            simp at this
        subst hc1
        obtain ⟨e, he, hl⟩ := hlast
        rcases hl with ⟨_, hle⟩ | ⟨hr, _⟩
        · subst hle
          rw [hl1, List.append_nil]
          cases cap with
          | nil => simp at he
          | cons a cap1 =>
            rw [List.getLast?_append_of_ne_nil _ (List.cons_ne_nil a cap1)]
            exact he
        · exact absurd rfl hr
    · intro h re hxe
      obtain ⟨c1, c2, hcap, hl1, hl2⟩ := hmid (by rw [hxe]; rfl)
      obtain ⟨hU1, ⟨c0, hc0⟩, hz, hnz⟩ :=
        (capacity_decompose _ hU r cap hhead hchain hlast c1 x c2 hcap).1 h re hxe
      refine ⟨hU1, ?_, ?_, ?_⟩
      · rw [hl1, hc0, ← List.append_assoc, List.getLast?_concat]
      · intro hre
        obtain ⟨rc, c, c3, hc3⟩ := hz hre
        exact ⟨rc, c, by rw [hl2, hc3]; rfl⟩
      · intro hre
        obtain ⟨hc2, hrr⟩ := hnz hre
        have hr : r ≠ 0 := hrr ▸ hre
        refine ⟨?_, hrr ▸ (hres hr).2, hnosub hr⟩
        rw [hl2, hc2, (hres hr).1]
        rfl
    · intro p rc c hxe
      obtain ⟨c1, c2, hcap, hl1, hl2⟩ := hmid (by rw [hxe]; rfl)
      obtain ⟨hp, hnz, hf, ht⟩ :=
        (capacity_decompose _ hU r cap hhead hchain hlast c1 x c2 hcap).2 p rc c hxe
      refine ⟨hp, ?_, ?_, ?_⟩
      · intro hrc
        obtain ⟨hc2, hrr⟩ := hnz hrc
        have hr : r ≠ 0 := hrr ▸ hrc
        refine ⟨?_, hrr ▸ (hres hr).2, hnosub hr⟩
        rw [hl2, hc2, (hres hr).1]
        rfl
      · intro hrc hc
        obtain ⟨re, c3, hc3⟩ := hf hrc hc
        exact ⟨re, by rw [hl2, hc3]; rfl⟩
      · intro hrc hc
        obtain ⟨hc2, hr0⟩ := ht hrc hc
        rcases hpostc with ⟨hr, _⟩ | ⟨_, tx1, rs1, post1, hp1, _⟩
        · exact absurd hr0 hr
        · exact ⟨tx1, rs1, by rw [hl2, hc2, hp1]; rfl⟩

/-- Witness for C19: in `fullWorld` the load of `[0xDD]` under the parent
`1` finds no free slot, evicts once with the parent handle, re-checks and
submits. -/
theorem loadKeyByBlob_capacity_loop_witness :
    tssKmConsts.ErrorsNonzero ∧
    ∃ out, TCSP_LoadKeyByBlob_Internal tssKmConsts (specKmEnv tssKmConsts) 5 fullWorld 1 1 0
        [0xDD] none = some out ∧
      out.trace =
        [KmCall.ctx_verify_context 1 0, KmCall.malloc 64 true, KmCall.getSlotByHandle 1 0x1000,
          KmCall.getTCSKeyHandleByPub [0xDD] 0, KmCall.canILoadThisKey [] 0 false] ++
        KmCall.evictFirstKey 1 0 ::
        [KmCall.canILoadThisKey [] 0 true,
          KmCall.req_mgr_submit_req ⟨0xC1, 32, 0x1000, [0xDD], none⟩ 0,
          KmCall.getTCSKeyHandleByPub [0xDD] 0, KmCall.getNextTcsKeyHandle 3,
          KmCall.add_mem_cache_entry 3 0x1001 ⟨[0xDD], [], []⟩ 0,
          KmCall.ctx_mark_key_loaded 1 3 0, KmCall.setParentByHandle 3 1 0] ∧
      [KmCall.ctx_verify_context 1 0, KmCall.malloc 64 true, KmCall.getSlotByHandle 1 0x1000,
          KmCall.getTCSKeyHandleByPub [0xDD] 0, KmCall.canILoadThisKey [] 0 false].getLast?
        = some (KmCall.canILoadThisKey [] 0 false) ∧
      ∃ rc c, [KmCall.canILoadThisKey [] 0 true,
          KmCall.req_mgr_submit_req ⟨0xC1, 32, 0x1000, [0xDD], none⟩ 0,
          KmCall.getTCSKeyHandleByPub [0xDD] 0, KmCall.getNextTcsKeyHandle 3,
          KmCall.add_mem_cache_entry 3 0x1001 ⟨[0xDD], [], []⟩ 0,
          KmCall.ctx_mark_key_loaded 1 3 0, KmCall.setParentByHandle 3 1 0].head?
        = some (KmCall.canILoadThisKey [] rc c) :=
  ⟨by decide,
    (Option.isSome_iff_exists.1 (by decide : (TCSP_LoadKeyByBlob_Internal tssKmConsts
      (specKmEnv tssKmConsts) 5 fullWorld 1 1 0 [0xDD] none).isSome = true)).imp
      (fun out h =>
        have htr : out.trace =
            [KmCall.ctx_verify_context 1 0, KmCall.malloc 64 true,
              KmCall.getSlotByHandle 1 0x1000, KmCall.getTCSKeyHandleByPub [0xDD] 0,
              KmCall.canILoadThisKey [] 0 false] ++
            KmCall.evictFirstKey 1 0 ::
            [KmCall.canILoadThisKey [] 0 true,
              KmCall.req_mgr_submit_req ⟨0xC1, 32, 0x1000, [0xDD], none⟩ 0,
              KmCall.getTCSKeyHandleByPub [0xDD] 0, KmCall.getNextTcsKeyHandle 3,
              KmCall.add_mem_cache_entry 3 0x1001 ⟨[0xDD], [], []⟩ 0,
              KmCall.ctx_mark_key_loaded 1 3 0, KmCall.setParentByHandle 3 1 0] := by
          have h2 : (TCSP_LoadKeyByBlob_Internal tssKmConsts (specKmEnv tssKmConsts) 5
              fullWorld 1 1 0 [0xDD] none).map LoadOutcome.trace = some (
            [KmCall.ctx_verify_context 1 0, KmCall.malloc 64 true,
              KmCall.getSlotByHandle 1 0x1000, KmCall.getTCSKeyHandleByPub [0xDD] 0,
              KmCall.canILoadThisKey [] 0 false] ++
            KmCall.evictFirstKey 1 0 ::
            [KmCall.canILoadThisKey [] 0 true,
              KmCall.req_mgr_submit_req ⟨0xC1, 32, 0x1000, [0xDD], none⟩ 0,
              KmCall.getTCSKeyHandleByPub [0xDD] 0, KmCall.getNextTcsKeyHandle 3,
              KmCall.add_mem_cache_entry 3 0x1001 ⟨[0xDD], [], []⟩ 0,
              KmCall.ctx_mark_key_loaded 1 3 0, KmCall.setParentByHandle 3 1 0]) := by decide
          rw [h] at h2
          exact Option.some.inj h2
        ⟨h, htr,
          ((loadKeyByBlob_capacity_loop tssKmConsts (specKmEnv tssKmConsts) 5 fullWorld 1 1 0
            [0xDD] none out (by decide) h _ _ _ htr).2.1 1 0 rfl).2.1,
          ((loadKeyByBlob_capacity_loop tssKmConsts (specKmEnv tssKmConsts) 5 fullWorld 1 1 0
            [0xDD] none out (by decide) h _ _ _ htr).2.1 1 0 rfl).2.2.1 rfl⟩)⟩

/-! ### Theorems about `TCSP_CreateWrapKey_Internal` -/

/-- C21, as stated, fails: in `sampleWorld` the wrapping key handle `2` is
known but has no resident slot; the call fails with `TCS_E_FAIL` after
`getSlotByHandle_lock`, releases the session, submits nothing, and the
memory cache is the one it started from, so the parent was not loaded. -/
theorem createWrapKey_parent_counterexample :
    (TCSP_CreateWrapKey_Internal tssWrapConsts (specWrapEnv tssKmConsts) sampleWorld 1 2 [] []
        1 [0xDD] sampleAuth).result = tssWrapConsts.TCS_E_FAIL ∧
    (TCSP_CreateWrapKey_Internal tssWrapConsts (specWrapEnv tssKmConsts) sampleWorld 1 2 [] []
        1 [0xDD] sampleAuth).trace
      = [WrapCall.ctx_verify_context 1 0, WrapCall.auth_mgr_check 1 7 0,
          WrapCall.getSlotByHandle_lock 2 0xFFFFFFFF, WrapCall.auth_mgr_release_auth 7] ∧
    (TCSP_CreateWrapKey_Internal tssWrapConsts (specWrapEnv tssKmConsts) sampleWorld 1 2 [] []
        1 [0xDD] sampleAuth).state.mem = sampleWorld.mem := by
  decide

/-- C21, amended. `TCSP_CreateWrapKey_Internal` requires the parent to be
resident and does not load it. Every request it submits is a
`TPM_ORD_CreateWrapKey` request whose parent slot is the one
`getSlotByHandle_lock(hWrappingKey)` returned, and that slot is not
`NULL_TPM_HANDLE`. When, with a valid context and an accepted
authorization, the wrapping key handle has no resident slot, the call fails
with `TCS_E_FAIL`: the calls made are `ctx_verify_context`, `auth_mgr_check`,
`getSlotByHandle_lock` and `auth_mgr_release_auth`, nothing is submitted, the
state is changed by the release of the authorization only, and no output
parameter is written. -/
theorem createWrapKey_parent_slot {σ : Type} (k : WrapConsts) (env : WrapEnv σ) (st : σ)
    (hContext : TCS_CONTEXT_HANDLE) (hWrappingKey : TCS_KEY_HANDLE)
    (KeyUsageAuth KeyMigrationAuth : List BYTE) (keyInfoSize : Nat) (keyInfo : List BYTE)
    (pAuth : TCS_AUTH) :
    (∀ tx r, WrapCall.req_mgr_submit_req tx r ∈
        (TCSP_CreateWrapKey_Internal k env st hContext hWrappingKey KeyUsageAuth
          KeyMigrationAuth keyInfoSize keyInfo pAuth).trace →
      tx.parentHandle = env.getSlotByHandle_lock st hWrappingKey ∧
      tx.parentHandle ≠ k.NULL_TPM_HANDLE ∧ tx.ordinal = k.TPM_ORD_CreateWrapKey) ∧
    (env.ctx_verify_context st hContext = 0 →
      env.auth_mgr_check st hContext pAuth.AuthHandle = 0 →
      env.getSlotByHandle_lock st hWrappingKey = k.NULL_TPM_HANDLE →
      (TCSP_CreateWrapKey_Internal k env st hContext hWrappingKey KeyUsageAuth
          KeyMigrationAuth keyInfoSize keyInfo pAuth).result = k.TCS_E_FAIL ∧
      (TCSP_CreateWrapKey_Internal k env st hContext hWrappingKey KeyUsageAuth
          KeyMigrationAuth keyInfoSize keyInfo pAuth).state
        = env.auth_mgr_release_auth st pAuth.AuthHandle ∧
      (TCSP_CreateWrapKey_Internal k env st hContext hWrappingKey KeyUsageAuth
          KeyMigrationAuth keyInfoSize keyInfo pAuth).trace
        = [WrapCall.ctx_verify_context hContext 0,
            WrapCall.auth_mgr_check hContext pAuth.AuthHandle 0,
            WrapCall.getSlotByHandle_lock hWrappingKey k.NULL_TPM_HANDLE,
            WrapCall.auth_mgr_release_auth pAuth.AuthHandle] ∧
      (TCSP_CreateWrapKey_Internal k env st hContext hWrappingKey KeyUsageAuth
          KeyMigrationAuth keyInfoSize keyInfo pAuth).keyDataSize = none ∧
      (TCSP_CreateWrapKey_Internal k env st hContext hWrappingKey KeyUsageAuth
          KeyMigrationAuth keyInfoSize keyInfo pAuth).keyData = none) := by
  constructor
  · intro tx r hin
    simp only [TCSP_CreateWrapKey_Internal] at hin
    by_cases h0 : env.ctx_verify_context st hContext = 0
    swap
    · simp [h0, createWrapKey_failed] at hin
    by_cases hA : env.auth_mgr_check st hContext pAuth.AuthHandle = 0
    swap
    · simp [h0, hA, createWrapKey_failed] at hin
    by_cases hs : env.getSlotByHandle_lock st hWrappingKey = k.NULL_TPM_HANDLE
    · simp [h0, hA, hs, createWrapKey_failed] at hin
    have htx : WrapCall.req_mgr_submit_req tx r ∈
        (createWrapKey_response k env
          (env.req_mgr_submit_req st
            (createWrapKeyRequest k (env.getSlotByHandle_lock st hWrappingKey) KeyUsageAuth
              KeyMigrationAuth keyInfoSize keyInfo pAuth)).2.2 hContext pAuth
          (env.req_mgr_submit_req st
            (createWrapKeyRequest k (env.getSlotByHandle_lock st hWrappingKey) KeyUsageAuth
              KeyMigrationAuth keyInfoSize keyInfo pAuth)).2.1
          [WrapCall.ctx_verify_context hContext 0,
            WrapCall.auth_mgr_check hContext pAuth.AuthHandle 0,
            WrapCall.getSlotByHandle_lock hWrappingKey (env.getSlotByHandle_lock st hWrappingKey),
            WrapCall.req_mgr_submit_req
              (createWrapKeyRequest k (env.getSlotByHandle_lock st hWrappingKey) KeyUsageAuth
                KeyMigrationAuth keyInfoSize keyInfo pAuth)
              (env.req_mgr_submit_req st
                (createWrapKeyRequest k (env.getSlotByHandle_lock st hWrappingKey) KeyUsageAuth
                  KeyMigrationAuth keyInfoSize keyInfo pAuth)).1]).trace →
        tx = createWrapKeyRequest k (env.getSlotByHandle_lock st hWrappingKey) KeyUsageAuth
          KeyMigrationAuth keyInfoSize keyInfo pAuth := by
      intro h
      simp only [createWrapKey_response] at h
      split_ifs at h <;> simp at h <;> exact h.1
    have hreq : tx = createWrapKeyRequest k (env.getSlotByHandle_lock st hWrappingKey)
        KeyUsageAuth KeyMigrationAuth keyInfoSize keyInfo pAuth := by
      by_cases hsub : (env.req_mgr_submit_req st
          (createWrapKeyRequest k (env.getSlotByHandle_lock st hWrappingKey) KeyUsageAuth
            KeyMigrationAuth keyInfoSize keyInfo pAuth)).1 = 0
      · simp only [h0, hA, hs, hsub, ne_eq, not_true_eq_false, if_false, List.singleton_append,
          List.cons_append, List.nil_append] at hin
        exact htx (by simpa [hsub] using hin)
      · simp [h0, hA, hs, hsub, createWrapKey_failed] at hin
        exact hin.1
    subst hreq
    exact ⟨rfl, hs, rfl⟩
  · intro h0 hA hs
    simp [TCSP_CreateWrapKey_Internal, h0, hA, hs, createWrapKey_failed]

/-- Witness for C21 (amended): the handle `2` of `sampleWorld` has no
resident slot. -/
theorem createWrapKey_parent_slot_witness :
    (specWrapEnv tssKmConsts).ctx_verify_context sampleWorld 1 = 0 ∧
    (specWrapEnv tssKmConsts).auth_mgr_check sampleWorld 1 sampleAuth.AuthHandle = 0 ∧
    (specWrapEnv tssKmConsts).getSlotByHandle_lock sampleWorld 2
      = tssWrapConsts.NULL_TPM_HANDLE ∧
    (TCSP_CreateWrapKey_Internal tssWrapConsts (specWrapEnv tssKmConsts) sampleWorld 1 2 [] []
        1 [0xDD] sampleAuth).result = tssWrapConsts.TCS_E_FAIL :=
  ⟨by decide, by decide, by decide,
    ((createWrapKey_parent_slot tssWrapConsts (specWrapEnv tssKmConsts) sampleWorld 1 2 [] [] 1
      [0xDD] sampleAuth).2 (by decide) (by decide) (by decide)).1⟩

/-! ### Termination of the loader -/

theorem prelude_not_recurse (e : KmCall) (h : e.isPrelude = true) : e.isRecurse = false := by
  cases e <;> simp_all [KmCall.isPrelude, KmCall.isRecurse]

theorem capacity_not_recurse (e : KmCall) (h : e.isCapacity = true) : e.isRecurse = false := by
  cases e <;> simp_all [KmCall.isCapacity, KmCall.isRecurse]

theorem release_not_recurse (e : KmCall) (h : e.isRelease = true) : e.isRecurse = false := by
  cases e <;> simp_all [KmCall.isRelease, KmCall.isRecurse]

/-- The cache update makes no recursive call. -/
theorem loadKeyByBlob_update_no_recurse {σ : Type} (k : KmConsts) (env : KmEnv σ) (st : σ)
    (hContext : TCS_CONTEXT_HANDLE) (hU : TCS_KEY_HANDLE) (blob : List BYTE)
    (pAuth : Option TCS_AUTH) (key : TCPA_KEY) (slot : TCPA_KEY_HANDLE) :
    ∀ e ∈ (loadKeyByBlob_update k env st hContext hU blob pAuth key slot).trace,
      e.isRecurse = false := by
  obtain ⟨h1, h2⟩ := loadKeyByBlob_update_shape k env st hContext hU blob pAuth key slot
  by_cases h : env.getTCSKeyHandleByPub st key.pubKey = k.NULL_TCS_HANDLE
  · obtain ⟨tail, ht, hends⟩ := h2 h
    rw [ht]
    rcases hends with ⟨_, rfl, _⟩ | ⟨_, _, rfl, _⟩ | ⟨_, _, rfl, _⟩ | ⟨_, _, _, rfl, _⟩ |
      ⟨_, rfl, _⟩
    · simp [KmCall.isRecurse]
    · simp [KmCall.isRecurse]
    · simp [KmCall.isRecurse]
    · simp [KmCall.isRecurse]
    · cases pAuth <;> simp [KmCall.isRecurse]
  · rw [(h1 h).1]
    simp [KmCall.isRecurse]

/-- The code after the `do` block makes no recursive call. -/
theorem loadKeyByBlob_afterDo_no_recurse {σ : Type} (k : KmConsts) (env : KmEnv σ) (st : σ)
    (hContext : TCS_CONTEXT_HANDLE) (hU : TCS_KEY_HANDLE) (blob : List BYTE)
    (pAuth : Option TCS_AUTH) (key : TCPA_KEY) (result : TSS_RESULT) (send : Bool)
    (slot : TCPA_KEY_HANDLE) (tx : List BYTE) :
    ∀ e ∈ (loadKeyByBlob_afterDo k env st hContext hU blob pAuth key result send slot tx).trace,
      e.isRecurse = false := by
  intro e he
  rcases loadKeyByBlob_afterDo_shape k env st hContext hU blob pAuth key result send slot tx with
    ⟨_, h⟩ | ⟨_, _, _, h⟩ | ⟨_, _, rel, st1, pAuth1, slot1, hrel, _, h⟩
  · rw [h] at he
    exact release_not_recurse e ((loadKeyByBlob_failed_facts env st pAuth result).2.2.2 e he)
  · rw [h] at he
    simp [loadKeyByBlob_return] at he
  · rw [h, LoadOutcome.after_trace] at he
    rcases List.mem_append.1 he with h1 | h1
    · exact release_not_recurse e (hrel e h1)
    · exact loadKeyByBlob_update_no_recurse k env st1 hContext hU blob pAuth1 key slot1 e h1

/-- `TCSP_LoadKeyByBlob_Internal` makes no recursive call of
`TCSP_LoadKeyByUUID_Internal`. -/
theorem loadKeyByBlob_no_recurse {σ : Type} (k : KmConsts) (env : KmEnv σ) (fuel : Nat)
    (st : σ) (hContext : TCS_CONTEXT_HANDLE) (hU : TCS_KEY_HANDLE) (sz : Nat)
    (blob : List BYTE) (pAuth : Option TCS_AUTH) (out : LoadOutcome σ) (hk : k.ErrorsNonzero)
    (hout : TCSP_LoadKeyByBlob_Internal k env fuel st hContext hU sz blob pAuth = some out) :
    ∀ e ∈ out.trace, e.isRecurse = false := by
  obtain ⟨pre, hpre, hends⟩ := loadKeyByBlob_shape k env fuel st hContext hU sz blob pAuth out
    hk hout
  have hpre1 : ∀ e ∈ pre, e.isRecurse = false := fun e he => prelude_not_recurse e (hpre e he)
  intro e he
  rcases hends with ⟨st1, r, hr, ho⟩ | ⟨r, hr, ho⟩ | ⟨st1, slot, hp, ho⟩ |
    ⟨st1, st2, r, cap, hcap, hr, ho⟩ | ⟨st1, st2, cap, pslot, hcap, ho⟩
  · rw [ho, LoadOutcome.after_trace] at he
    rcases List.mem_append.1 he with h | h
    · exact hpre1 e h
    · exact release_not_recurse e ((loadKeyByBlob_failed_facts env st1 pAuth r).2.2.2 e h)
  · rw [ho, LoadOutcome.after_trace] at he
    rcases List.mem_append.1 he with h | h
    · exact hpre1 e h
    · simp [loadKeyByBlob_return] at h
  · rw [ho, LoadOutcome.after_trace] at he
    rcases List.mem_append.1 he with h | h
    · exact hpre1 e h
    · exact loadKeyByBlob_update_no_recurse k env st1 hContext hU blob none _ slot e h
  · have hcapc := (capacityPhase_trace env hU _ fuel st1 r st2 cap hcap).2.2.2
    rw [ho, LoadOutcome.after_trace] at he
    rcases List.mem_append.1 he with h | h
    · rcases List.mem_append.1 h with h | h
      · exact hpre1 e h
      · exact capacity_not_recurse e (hcapc e h)
    · simp [loadKeyByBlob_return] at h
  · have hcapc := (capacityPhase_trace env hU _ fuel st1 0 st2 cap hcap).2.2.2
    rw [ho, LoadOutcome.after_trace] at he
    rcases List.mem_append.1 he with h | h
    · simp only [List.append_assoc, List.mem_append, List.mem_singleton] at h
      rcases h with h | h | h
      · exact hpre1 e h
      · exact capacity_not_recurse e (hcapc e h)
      · subst h; rfl
    · exact loadKeyByBlob_afterDo_no_recurse k env _ hContext hU blob pAuth _ _ true 0 _ e h

/-- When every successful `evictFirstKey` decreases the measure `m`, the
eviction loop is left, and with the same outcome for every bound above
`m st`. -/
theorem evictLoop_stable {σ : Type} (env : KmEnv σ) (hU : TCS_KEY_HANDLE)
    (parms : TCPA_KEY_PARMS) (m : σ → Nat)
    (hm : ∀ st h, (env.evictFirstKey st h).1 = 0 → m (env.evictFirstKey st h).2 < m st) :
    ∀ (n : Nat) (st : σ), m st ≤ n →
      ∃ x, ∀ g, n < g → evictLoop env hU parms g st = some x := by
  intro n
  induction n with
  | zero =>
    intro st hst
    have hfail : (env.evictFirstKey st hU).1 ≠ 0 := by
      intro h0
      have := hm st hU h0
      omega
    refine ⟨((env.evictFirstKey st hU).1, (env.evictFirstKey st hU).2,
      [KmCall.evictFirstKey hU (env.evictFirstKey st hU).1]), ?_⟩
    intro g hg
    obtain ⟨g1, rfl⟩ : ∃ g1, g = g1 + 1 := ⟨g - 1, by omega⟩
    simp [evictLoop, hfail]
  | succ n ih =>
    intro st hst
    by_cases h1 : (env.evictFirstKey st hU).1 = 0
    swap
    · refine ⟨((env.evictFirstKey st hU).1, (env.evictFirstKey st hU).2,
        [KmCall.evictFirstKey hU (env.evictFirstKey st hU).1]), ?_⟩
      intro g hg
      obtain ⟨g1, rfl⟩ : ∃ g1, g = g1 + 1 := ⟨g - 1, by omega⟩
      simp [evictLoop, h1]
    have hlt := hm st hU h1
    by_cases h2 : (env.canILoadThisKey (env.evictFirstKey st hU).2 parms).1 = 0
    swap
    · refine ⟨((env.canILoadThisKey (env.evictFirstKey st hU).2 parms).1,
        (env.evictFirstKey st hU).2,
        [KmCall.evictFirstKey hU (env.evictFirstKey st hU).1,
          KmCall.canILoadThisKey parms (env.canILoadThisKey (env.evictFirstKey st hU).2 parms).1
            (env.canILoadThisKey (env.evictFirstKey st hU).2 parms).2]), ?_⟩
      intro g hg
      obtain ⟨g1, rfl⟩ : ∃ g1, g = g1 + 1 := ⟨g - 1, by omega⟩
      simp [evictLoop, h1, h2]
    cases h3 : (env.canILoadThisKey (env.evictFirstKey st hU).2 parms).2 with
    | true =>
      refine ⟨(0, (env.evictFirstKey st hU).2,
        [KmCall.evictFirstKey hU (env.evictFirstKey st hU).1,
          KmCall.canILoadThisKey parms (env.canILoadThisKey (env.evictFirstKey st hU).2 parms).1
            (env.canILoadThisKey (env.evictFirstKey st hU).2 parms).2]), ?_⟩
      intro g hg
      obtain ⟨g1, rfl⟩ : ∃ g1, g = g1 + 1 := ⟨g - 1, by omega⟩
      simp [evictLoop, h1, h2, h3]
    | false =>
      obtain ⟨x, hx⟩ := ih (env.evictFirstKey st hU).2 (by omega)
      refine ⟨(x.1, x.2.1,
        KmCall.evictFirstKey hU (env.evictFirstKey st hU).1 ::
          KmCall.canILoadThisKey parms (env.canILoadThisKey (env.evictFirstKey st hU).2 parms).1
            (env.canILoadThisKey (env.evictFirstKey st hU).2 parms).2 :: x.2.2), ?_⟩
      intro g hg
      obtain ⟨g1, rfl⟩ : ∃ g1, g = g1 + 1 := ⟨g - 1, by omega⟩
      simp [evictLoop, h1, h2, h3, hx g1 (by omega)]

/-- Under the same condition the capacity check ends, with the same outcome
for every bound above `m st`. -/
theorem capacityPhase_stable {σ : Type} (env : KmEnv σ) (hU : TCS_KEY_HANDLE)
    (parms : TCPA_KEY_PARMS) (m : σ → Nat)
    (hm : ∀ st h, (env.evictFirstKey st h).1 = 0 → m (env.evictFirstKey st h).2 < m st)
    (st : σ) :
    ∃ x, ∀ g, m st < g → capacityPhase env hU parms g st = some x := by
  obtain ⟨x, hx⟩ := evictLoop_stable env hU parms m hm (m st) st (Nat.le_refl _)
  by_cases h2 : (env.canILoadThisKey st parms).1 = 0
  swap
  · exact ⟨((env.canILoadThisKey st parms).1, st,
      [KmCall.canILoadThisKey parms (env.canILoadThisKey st parms).1
        (env.canILoadThisKey st parms).2]), fun g _ => by simp [capacityPhase, h2]⟩
  cases h3 : (env.canILoadThisKey st parms).2 with
  | true =>
    exact ⟨(0, st, [KmCall.canILoadThisKey parms 0 true]),
      fun g _ => by simp [capacityPhase, h2, h3]⟩
  | false =>
    exact ⟨(x.1, x.2.1, KmCall.canILoadThisKey parms (env.canILoadThisKey st parms).1
      (env.canILoadThisKey st parms).2 :: x.2.2),
      fun g hg => by simp [capacityPhase, h2, h3, hx g hg]⟩

theorem loadKeyByBlob_send_stable {σ : Type} (k : KmConsts) (env : KmEnv σ) (m : σ → Nat)
    (hm : ∀ st h, (env.evictFirstKey st h).1 = 0 → m (env.evictFirstKey st h).2 < m st)
    (st : σ) (hContext : TCS_CONTEXT_HANDLE) (hU : TCS_KEY_HANDLE) (blob : List BYTE)
    (pAuth : Option TCS_AUTH) (key : TCPA_KEY) (size : Nat) (pslot : TCPA_KEY_HANDLE) :
    ∃ F o, ∀ g, F ≤ g →
      loadKeyByBlob_send k env g st hContext hU blob pAuth key size pslot = some o := by
  obtain ⟨x, hx⟩ := capacityPhase_stable env hU key.algorithmParms m hm st
  obtain ⟨r, st1, t⟩ := x
  by_cases hr : r = 0
  · exact ⟨m st + 1,
      (loadKeyByBlob_afterDo k env
        (env.req_mgr_submit_req st1 (loadKeyRequest k pslot size blob pAuth)).2.2 hContext hU blob
        pAuth key (env.req_mgr_submit_req st1 (loadKeyRequest k pslot size blob pAuth)).1 true 0
        (env.req_mgr_submit_req st1 (loadKeyRequest k pslot size blob pAuth)).2.1).after
        (t ++ [KmCall.req_mgr_submit_req (loadKeyRequest k pslot size blob pAuth)
          (env.req_mgr_submit_req st1 (loadKeyRequest k pslot size blob pAuth)).1]),
      fun g hg => by simp [loadKeyByBlob_send, hx g (by omega), hr]⟩
  · exact ⟨m st + 1, (loadKeyByBlob_return st1 pAuth r).after t,
      fun g hg => by simp [loadKeyByBlob_send, hx g (by omega), hr]⟩

theorem loadKeyByBlob_loaded_stable {σ : Type} (k : KmConsts) (env : KmEnv σ) (m : σ → Nat)
    (hm : ∀ st h, (env.evictFirstKey st h).1 = 0 → m (env.evictFirstKey st h).2 < m st)
    (st : σ) (hContext : TCS_CONTEXT_HANDLE) (hU : TCS_KEY_HANDLE) (blob : List BYTE)
    (pAuth : Option TCS_AUTH) (key : TCPA_KEY) (size : Nat) (pslot : TCPA_KEY_HANDLE) :
    ∃ F o, ∀ g, F ≤ g →
      loadKeyByBlob_loaded k env g st hContext hU blob pAuth key size pslot = some o := by
  rcases hla : loadAvoidance k env st pAuth key with ⟨_ | slot, t⟩
  · obtain ⟨F, o, h⟩ := loadKeyByBlob_send_stable k env m hm st hContext hU blob pAuth key size
      pslot
    exact ⟨F, o.after t, fun g hg => by simp [loadKeyByBlob_loaded, hla, h g hg]⟩
  · exact ⟨0, (loadKeyByBlob_afterDo k env st hContext hU blob pAuth key TSS_SUCCESS false slot
      []).after t, fun g _ => by simp [loadKeyByBlob_loaded, hla]⟩

theorem loadKeyByBlob_body_stable {σ : Type} (k : KmConsts) (env : KmEnv σ) (m : σ → Nat)
    (hm : ∀ st h, (env.evictFirstKey st h).1 = 0 → m (env.evictFirstKey st h).2 < m st)
    (st : σ) (hContext : TCS_CONTEXT_HANDLE) (hU : TCS_KEY_HANDLE) (blob : List BYTE)
    (pAuth : Option TCS_AUTH) :
    ∃ F o, ∀ g, F ≤ g → loadKeyByBlob_body k env g st hContext hU blob pAuth = some o := by
  by_cases h1 : env.malloc st k.sizeof_TCPA_KEY = false
  · exact ⟨0, (loadKeyByBlob_return st pAuth k.TSS_E_OUTOFMEMORY).after
      [KmCall.malloc k.sizeof_TCPA_KEY (env.malloc st k.sizeof_TCPA_KEY)],
      fun g _ => by simp [loadKeyByBlob_body, h1]⟩
  by_cases h2 : (env.UnloadBlob_KEY blob).1 = 0
  swap
  · exact ⟨0, (loadKeyByBlob_return st pAuth (env.UnloadBlob_KEY blob).1).after
      [KmCall.malloc k.sizeof_TCPA_KEY (env.malloc st k.sizeof_TCPA_KEY)],
      fun g _ => by simp [loadKeyByBlob_body, h1, h2]⟩
  by_cases h3 : env.getSlotByHandle st hU = k.NULL_TPM_HANDLE
  swap
  · obtain ⟨F, o, h⟩ := loadKeyByBlob_loaded_stable k env m hm st hContext hU blob pAuth
      (env.UnloadBlob_KEY blob).2.1 (env.UnloadBlob_KEY blob).2.2 (env.getSlotByHandle st hU)
    exact ⟨F, o.after ([KmCall.malloc k.sizeof_TCPA_KEY (env.malloc st k.sizeof_TCPA_KEY)] ++
        [KmCall.getSlotByHandle hU (env.getSlotByHandle st hU)]),
      fun g hg => by simp [loadKeyByBlob_body, h1, h2, h3, h g hg]⟩
  cases h4 : env.getPubBySlot st hU with
  | none =>
    exact ⟨0, (loadKeyByBlob_afterDo k env st hContext hU blob pAuth
        (env.UnloadBlob_KEY blob).2.1 k.TCS_E_KM_LOADFAILED true 0 []).after
        ([KmCall.malloc k.sizeof_TCPA_KEY (env.malloc st k.sizeof_TCPA_KEY)] ++
          [KmCall.getSlotByHandle hU (env.getSlotByHandle st hU)] ++
          [KmCall.getPubBySlot hU none]),
      fun g _ => by simp [loadKeyByBlob_body, h1, h2, h3, h4]⟩
  | some pub =>
    by_cases h5 : (env.LoadKeyShim st hContext pub none).1 = 0
    swap
    · exact ⟨0, (loadKeyByBlob_failed env (env.LoadKeyShim st hContext pub none).2.2 pAuth
          (env.LoadKeyShim st hContext pub none).1).after
          ([KmCall.malloc k.sizeof_TCPA_KEY (env.malloc st k.sizeof_TCPA_KEY)] ++
            [KmCall.getSlotByHandle hU (env.getSlotByHandle st hU)] ++
            [KmCall.getPubBySlot hU (some pub)] ++
            [KmCall.LoadKeyShim hContext pub none (env.LoadKeyShim st hContext pub none).1
              (env.LoadKeyShim st hContext pub none).2.1]),
        fun g _ => by simp [loadKeyByBlob_body, h1, h2, h3, h4, h5]⟩
    · obtain ⟨F, o, h⟩ := loadKeyByBlob_loaded_stable k env m hm
        (env.LoadKeyShim st hContext pub none).2.2 hContext hU blob pAuth
        (env.UnloadBlob_KEY blob).2.1 (env.UnloadBlob_KEY blob).2.2
        (env.LoadKeyShim st hContext pub none).2.1
      exact ⟨F, o.after
          ([KmCall.malloc k.sizeof_TCPA_KEY (env.malloc st k.sizeof_TCPA_KEY)] ++
            [KmCall.getSlotByHandle hU (env.getSlotByHandle st hU)] ++
            [KmCall.getPubBySlot hU (some pub)] ++
            [KmCall.LoadKeyShim hContext pub none (env.LoadKeyShim st hContext pub none).1
              (env.LoadKeyShim st hContext pub none).2.1]),
        fun g hg => by simp [loadKeyByBlob_body, h1, h2, h3, h4, h5, h g hg]⟩

/-- When every successful `evictFirstKey` decreases the measure `m`,
`TCSP_LoadKeyByBlob_Internal` returns: there is a bound from which on the
eviction loop is always left, with the same outcome. -/
theorem loadKeyByBlob_stable {σ : Type} (k : KmConsts) (env : KmEnv σ) (m : σ → Nat)
    (hm : ∀ st h, (env.evictFirstKey st h).1 = 0 → m (env.evictFirstKey st h).2 < m st)
    (st : σ) (hContext : TCS_CONTEXT_HANDLE) (hU : TCS_KEY_HANDLE) (sz : Nat)
    (blob : List BYTE) (pAuth : Option TCS_AUTH) :
    ∃ F o, ∀ g, F ≤ g →
      TCSP_LoadKeyByBlob_Internal k env g st hContext hU sz blob pAuth = some o := by
  by_cases h0 : env.ctx_verify_context st hContext = 0
  swap
  · exact ⟨0, (loadKeyByBlob_failed env st pAuth (env.ctx_verify_context st hContext)).after
      [KmCall.ctx_verify_context hContext (env.ctx_verify_context st hContext)],
      fun g _ => by simp [TCSP_LoadKeyByBlob_Internal, h0]⟩
  obtain ⟨F, o, h⟩ := loadKeyByBlob_body_stable k env m hm st hContext hU blob pAuth
  cases pAuth with
  | none =>
    exact ⟨F, o.after [KmCall.ctx_verify_context hContext (env.ctx_verify_context st hContext)],
      fun g hg => by simp [TCSP_LoadKeyByBlob_Internal, h0, h g hg]⟩
  | some a =>
    by_cases hA : env.auth_mgr_check st hContext a.AuthHandle = 0
    · exact ⟨F, o.after
          ([KmCall.ctx_verify_context hContext (env.ctx_verify_context st hContext)] ++
            [KmCall.auth_mgr_check hContext a.AuthHandle
              (env.auth_mgr_check st hContext a.AuthHandle)]),
        fun g hg => by simp [TCSP_LoadKeyByBlob_Internal, h0, hA, h g hg]⟩
    · exact ⟨0, (loadKeyByBlob_failed env st (some a)
          (env.auth_mgr_check st hContext a.AuthHandle)).after
          ([KmCall.ctx_verify_context hContext (env.ctx_verify_context st hContext)] ++
            [KmCall.auth_mgr_check hContext a.AuthHandle
              (env.auth_mgr_check st hContext a.AuthHandle)]),
        fun g _ => by simp [TCSP_LoadKeyByBlob_Internal, h0, hA]⟩

theorem loadKeyByUUID_resident_no_recurse {σ : Type} (k : KmConsts) (env : KmEnv σ) (st : σ)
    (h : TCS_KEY_HANDLE) :
    (loadKeyByUUID_resident k env st h).2.filter KmCall.isRecurse = [] := by
  simp only [loadKeyByUUID_resident]
  split_ifs <;> simp [KmCall.isRecurse]

theorem recurse_chain (f : TSS_UUID → TSS_UUID) (K : TSS_UUID) (n : Nat) :
    KmCall.recurse (f K) :: (List.range n).map (fun i => KmCall.recurse (f^[i + 1] (f K)))
      = (List.range (n + 1)).map (fun i => KmCall.recurse (f^[i + 1] K)) := by
  rw [List.range_succ_eq_map]
  simp [List.map_map, Function.comp_def, Function.iterate_succ_apply]

/-- The descent of `TCSP_LoadKeyByUUID_Internal` along the parent chain:
when the chain from `K` ends after at most `D` registered keys and every
successful eviction decreases the measure `m`, there is a bound from which
on the call returns the same outcome, and the recursive calls it made are
those for the first `n ≤ D` parents of `K`, in this order. -/
theorem loadKeyByUUID_descent {σ : Type} (k : KmConsts) (env : KmEnv σ) (m : σ → Nat)
    (hk : k.ErrorsNonzero)
    (hm : ∀ st h, (env.evictFirstKey st h).1 = 0 → m (env.evictFirstKey st h).2 < m st)
    (st : σ) (hContext : TCS_CONTEXT_HANDLE) :
    ∀ (D : Nat) (K : TSS_UUID), parentChainEnds env st D K = true →
      ∃ F out n, n ≤ D ∧
        (∀ g, F ≤ g → TCSP_LoadKeyByUUID_Internal k env g st hContext K = some out) ∧
        out.trace.filter KmCall.isRecurse
          = (List.range n).map (fun i => KmCall.recurse ((parentOf env st)^[i + 1] K)) := by
  -- the executions that end before the parent is looked at
  have hearly : ∀ (D : Nat) (K : TSS_UUID),
      (env.ctx_verify_context st hContext ≠ 0 ∨
        (env.getRegisteredKeyByUUID st K 0x1000).1 ≠ 0) →
      ∃ F out n, n ≤ D ∧
        (∀ g, F ≤ g → TCSP_LoadKeyByUUID_Internal k env g st hContext K = some out) ∧
        out.trace.filter KmCall.isRecurse
          = (List.range n).map (fun i => KmCall.recurse ((parentOf env st)^[i + 1] K)) := by
    intro D K h
    by_cases h0 : env.ctx_verify_context st hContext = 0
    swap
    · refine ⟨1, ⟨env.ctx_verify_context st hContext, st, none, none, none,
        [KmCall.ctx_verify_context hContext (env.ctx_verify_context st hContext)]⟩, 0,
        Nat.zero_le _, ?_, by simp [KmCall.isRecurse]⟩
      intro g hg
      obtain ⟨g1, rfl⟩ : ∃ g1, g = g1 + 1 := ⟨g - 1, by omega⟩
      simp [TCSP_LoadKeyByUUID_Internal, h0]
    · have hgR : (env.getRegisteredKeyByUUID st K 0x1000).1 ≠ 0 := by
        rcases h with h | h
        · exact absurd h0 h
        · exact h
      refine ⟨1, ⟨k.TCS_E_KEY_NOT_REGISTERED, st, none, none, none,
        [KmCall.ctx_verify_context hContext (env.ctx_verify_context st hContext),
          KmCall.getRegisteredKeyByUUID K (env.getRegisteredKeyByUUID st K 0x1000).1]⟩, 0,
        Nat.zero_le _, ?_, by simp [KmCall.isRecurse]⟩
      intro g hg
      obtain ⟨g1, rfl⟩ : ∃ g1, g = g1 + 1 := ⟨g - 1, by omega⟩
      simp [TCSP_LoadKeyByUUID_Internal, h0, hgR]
  intro D
  induction D with
  | zero =>
    intro K hchain
    simp only [parentChainEnds, decide_eq_true_eq] at hchain
    exact hearly 0 K (Or.inr hchain)
  | succ D ih =>
    intro K hchain
    by_cases h0 : env.ctx_verify_context st hContext = 0
    swap
    · exact hearly _ K (Or.inl h0)
    by_cases hgR : (env.getRegisteredKeyByUUID st K 0x1000).1 = 0
    swap
    · exact hearly _ K (Or.inr hgR)
    have hP : parentChainEnds env st D (env.getParentUUIDByUUID st K).2 = true := by
      simpa [parentChainEnds, hgR, parentOf] using hchain
    have hres0 := loadKeyByUUID_resident_no_recurse k env st
      (env.getTCSKeyHandleByPub st
        (env.UnloadBlob_KEY (env.getRegisteredKeyByUUID st K 0x1000).2.1).2.1.pubKey)
    by_cases hres : (loadKeyByUUID_resident k env st
        (env.getTCSKeyHandleByPub st
          (env.UnloadBlob_KEY (env.getRegisteredKeyByUUID st K 0x1000).2.1).2.1.pubKey)).1 = true
    · -- the key is resident
      by_cases hmk : (env.ctx_mark_key_loaded st hContext
          (env.getTCSKeyHandleByPub st
            (env.UnloadBlob_KEY (env.getRegisteredKeyByUUID st K 0x1000).2.1).2.1.pubKey)).1 = 0
      · exact ⟨1, _, 0, Nat.zero_le _,
          fun g hg => by
            obtain ⟨g1, rfl⟩ : ∃ g1, g = g1 + 1 := ⟨g - 1, by omega⟩
            simp only [TCSP_LoadKeyByUUID_Internal]
            simp only [h0, hgR, hres, hmk, ne_eq, not_true_eq_false, if_false, if_true,
              not_false_eq_true, Option.map_some']
            exact rfl,
          by simp [List.filter_append, hres0, KmCall.isRecurse]⟩
      · exact ⟨1, _, 0, Nat.zero_le _,
          fun g hg => by
            obtain ⟨g1, rfl⟩ : ∃ g1, g = g1 + 1 := ⟨g - 1, by omega⟩
            simp only [TCSP_LoadKeyByUUID_Internal]
            simp only [h0, hgR, hres, hmk, ne_eq, not_true_eq_false, if_false, if_true,
              not_false_eq_true, Option.map_some']
            exact rfl,
          by simp [List.filter_append, hres0, KmCall.isRecurse]⟩
    by_cases hp : (env.getParentUUIDByUUID st K).1 = 0
    swap
    · exact ⟨1, _, 0, Nat.zero_le _,
        fun g hg => by
          obtain ⟨g1, rfl⟩ : ∃ g1, g = g1 + 1 := ⟨g - 1, by omega⟩
          simp only [TCSP_LoadKeyByUUID_Internal]
          simp only [h0, hgR, hres, hp, ne_eq, not_true_eq_false, if_false, if_true,
            not_false_eq_true, Option.map_some']
          exact rfl,
        by simp [List.filter_append, hres0, KmCall.isRecurse]⟩
    cases hpub : env.getPubByUuid st (env.getParentUUIDByUUID st K).2 with
    | none =>
      -- the parent is loaded by the recursive call
      obtain ⟨F1, o, n1, hn1, ho, htr⟩ := ih (env.getParentUUIDByUUID st K).2 hP
      by_cases hor : o.result = 0
      swap
      · exact ⟨F1 + 1, _, n1 + 1, by omega,
          fun g hg => by
            obtain ⟨g1, rfl⟩ : ∃ g1, g = g1 + 1 := ⟨g - 1, by omega⟩
            simp only [TCSP_LoadKeyByUUID_Internal]
            simp only [h0, hgR, hres, hp, hpub, ho g1 (by omega), hor, ne_eq, not_true_eq_false, if_false, if_true,
              not_false_eq_true, Option.map_some']
            exact rfl,
          by rw [← recurse_chain]; simp [List.filter_append, hres0, KmCall.isRecurse, htr, parentOf]⟩
      · obtain ⟨F2, b, hb⟩ := loadKeyByBlob_stable k env m hm o.state hContext
          (o.phKeyTCSI.getD 0) (env.getRegisteredKeyByUUID st K 0x1000).2.2
          (env.getRegisteredKeyByUUID st K 0x1000).2.1 none
        have hb0 : b.trace.filter KmCall.isRecurse = [] := by
          rw [List.filter_eq_nil_iff]
          intro e he
          simp [loadKeyByBlob_no_recurse k env F2 o.state hContext _ _ _ none b hk
            (hb F2 (Nat.le_refl _)) e he]
        exact ⟨max F1 F2 + 1, _, n1 + 1, by omega,
          fun g hg => by
            obtain ⟨g1, rfl⟩ : ∃ g1, g = g1 + 1 := ⟨g - 1, by omega⟩
            simp only [TCSP_LoadKeyByUUID_Internal]
            simp only [h0, hgR, hres, hp, hpub, ho g1 (by omega), hor, hb g1 (by omega), ne_eq, not_true_eq_false, if_false, if_true,
              not_false_eq_true, Option.map_some']
            exact rfl,
          by rw [← recurse_chain]; simp [List.filter_append, hres0, KmCall.isRecurse, htr, hb0, parentOf]⟩
    | some pub =>
      -- the parent is known to the memory cache: no recursive call
      by_cases hl : (env.LoadKeyShim st hContext pub
          (some (env.getParentUUIDByUUID st K).2)).1 = 0
      swap
      · exact ⟨1, _, 0, Nat.zero_le _,
          fun g hg => by
            obtain ⟨g1, rfl⟩ : ∃ g1, g = g1 + 1 := ⟨g - 1, by omega⟩
            simp only [TCSP_LoadKeyByUUID_Internal]
            simp only [h0, hgR, hres, hp, hpub, hl, ne_eq, not_true_eq_false, if_false, if_true,
              not_false_eq_true, Option.map_some']
            exact rfl,
          by simp [List.filter_append, hres0, KmCall.isRecurse]⟩
      · obtain ⟨F2, b, hb⟩ := loadKeyByBlob_stable k env m hm
          (env.LoadKeyShim st hContext pub (some (env.getParentUUIDByUUID st K).2)).2.2 hContext
          (env.getAnyHandleBySlot
            (env.LoadKeyShim st hContext pub (some (env.getParentUUIDByUUID st K).2)).2.2
            (env.LoadKeyShim st hContext pub (some (env.getParentUUIDByUUID st K).2)).2.1)
          (env.getRegisteredKeyByUUID st K 0x1000).2.2
          (env.getRegisteredKeyByUUID st K 0x1000).2.1 none
        have hb0 : b.trace.filter KmCall.isRecurse = [] := by
          rw [List.filter_eq_nil_iff]
          intro e he
          simp [loadKeyByBlob_no_recurse k env F2 _ hContext _ _ _ none b hk
            (hb F2 (Nat.le_refl _)) e he]
        exact ⟨F2 + 1, _, 0, Nat.zero_le _,
          fun g hg => by
            obtain ⟨g1, rfl⟩ : ∃ g1, g = g1 + 1 := ⟨g - 1, by omega⟩
            simp only [TCSP_LoadKeyByUUID_Internal]
            simp only [h0, hgR, hres, hp, hpub, hl, hb g1 (by omega), ne_eq, not_true_eq_false, if_false, if_true,
              not_false_eq_true, Option.map_some']
            exact rfl,
          by simp [List.filter_append, hres0, KmCall.isRecurse, hb0]⟩

/-- A map that clears the mark `p` of one marked element of a list, and
sets it on none, leaves fewer marked elements. -/
theorem filter_map_length_lt {α : Type} (p : α → Bool) (f : α → α)
    (hf : ∀ x, p (f x) = true → p x = true) :
    ∀ (l : List α) (e : α), e ∈ l → p e = true → p (f e) = false →
      ((l.map f).filter p).length < (l.filter p).length := by
  have hle : ∀ l : List α, ((l.map f).filter p).length ≤ (l.filter p).length := by
    intro l
    induction l with
    | nil => simp
    | cons a l ih =>
      by_cases h1 : p (f a) = true
      · simp [List.filter_cons, h1, hf a h1, ih]
      · by_cases h2 : p a = true
        · simp [List.filter_cons, h1, h2]
          omega
        · simp [List.filter_cons, h1, h2, ih]
  intro l
  induction l with
  | nil => intro e he; simp at he
  | cons a l ih =>
    intro e he hpe hpf
    rcases List.mem_cons.1 he with rfl | he
    · have := hle l
      simp [List.filter_cons, hpe, hpf]
      omega
    · have := ih e he hpe hpf
      by_cases h1 : p (f a) = true
      · simp [List.filter_cons, h1, hf a h1, this]
      · by_cases h2 : p a = true
        · simp [List.filter_cons, h1, h2]
          omega
        · simp [List.filter_cons, h1, h2, this]

/-- In the memory cache of the specification a successful `evictFirstKey`
leaves fewer resident keys. -/
theorem specEvictFirstKey_decreases (k : KmConsts) (hk : k.TCS_E_KM_LOADFAILED ≠ 0)
    (w : KmWorld) (h : TCS_KEY_HANDLE) (h0 : (specEvictFirstKey k w h).1 = 0) :
    residentCount k (specEvictFirstKey k w h).2 < residentCount k w := by
  unfold specEvictFirstKey at h0 ⊢
  cases hfind : w.mem.find? (fun e => e.slot ≠ k.NULL_TPM_HANDLE ∧ e.handle ≠ h) with
  | none =>
    rw [hfind] at h0
    exact absurd h0 hk
  | some e =>
    have hmem := List.mem_of_find?_eq_some hfind
    have hp := List.find?_some hfind
    simp only [ne_eq, decide_eq_true_eq] at hp
    simp only [hfind, residentCount, specSetSlotByHandle]
    refine filter_map_length_lt (fun e => decide (e.slot ≠ k.NULL_TPM_HANDLE))
      (fun x => if x.handle = e.handle then { x with slot := k.NULL_TPM_HANDLE } else x) ?_
      w.mem e hmem (by simpa using hp.1) (by simp)
    intro x hx
    by_cases hxe : x.handle = e.handle
    · simp [hxe] at hx
    · simpa [hxe] using hx

/-- Whatever the eviction loop does, an execution of
`TCSP_LoadKeyByUUID_Internal` that returns has made at most `D` recursive
calls when the parent chain from `K` ends after at most `D` registered keys,
and these calls are for the first parents of `K`, in this order. -/
theorem loadKeyByUUID_recursion_bound {σ : Type} (k : KmConsts) (env : KmEnv σ)
    (hk : k.ErrorsNonzero) (st : σ) (hContext : TCS_CONTEXT_HANDLE) :
    ∀ (g D : Nat) (K : TSS_UUID) (out : LoadOutcome σ),
      parentChainEnds env st D K = true →
      TCSP_LoadKeyByUUID_Internal k env g st hContext K = some out →
      ∃ n, n ≤ D ∧ out.trace.filter KmCall.isRecurse
        = (List.range n).map (fun i => KmCall.recurse ((parentOf env st)^[i + 1] K)) := by
  intro g
  induction g with
  | zero =>
    intro D K out _ hout
    simp [TCSP_LoadKeyByUUID_Internal] at hout
  | succ g ih =>
    intro D K out hchain hout
    simp only [TCSP_LoadKeyByUUID_Internal] at hout
    by_cases h0 : env.ctx_verify_context st hContext = 0
    swap
    · simp only [h0, ne_eq, not_true_eq_false, not_false_eq_true, if_true, if_false, Option.some.injEq,
      Bool.false_eq_true,
        Option.map_some'] at hout
      subst hout
      exact ⟨0, Nat.zero_le _, by simp [KmCall.isRecurse]⟩
    by_cases hgR : (env.getRegisteredKeyByUUID st K 0x1000).1 = 0
    swap
    · simp only [h0, hgR, ne_eq, not_true_eq_false, not_false_eq_true, if_true, if_false, Option.some.injEq,
      Bool.false_eq_true,
        Option.map_some'] at hout
      subst hout
      exact ⟨0, Nat.zero_le _, by simp [KmCall.isRecurse]⟩
    have hres0 := loadKeyByUUID_resident_no_recurse k env st
      (env.getTCSKeyHandleByPub st
        (env.UnloadBlob_KEY (env.getRegisteredKeyByUUID st K 0x1000).2.1).2.1.pubKey)
    by_cases hres : (loadKeyByUUID_resident k env st
        (env.getTCSKeyHandleByPub st
          (env.UnloadBlob_KEY (env.getRegisteredKeyByUUID st K 0x1000).2.1).2.1.pubKey)).1 = true
    · by_cases hmk : (env.ctx_mark_key_loaded st hContext
          (env.getTCSKeyHandleByPub st
            (env.UnloadBlob_KEY (env.getRegisteredKeyByUUID st K 0x1000).2.1).2.1.pubKey)).1 = 0
      · simp only [h0, hgR, hres, hmk, ne_eq, not_true_eq_false, not_false_eq_true, if_true, if_false, Option.some.injEq,
      Bool.false_eq_true,
          Option.map_some'] at hout
        subst hout
        exact ⟨0, Nat.zero_le _, by simp [List.filter_append, hres0, KmCall.isRecurse]⟩
      · simp only [h0, hgR, hres, hmk, ne_eq, not_true_eq_false, not_false_eq_true, if_true, if_false, Option.some.injEq,
      Bool.false_eq_true,
          Option.map_some'] at hout
        subst hout
        exact ⟨0, Nat.zero_le _, by simp [List.filter_append, hres0, KmCall.isRecurse]⟩
    by_cases hp : (env.getParentUUIDByUUID st K).1 = 0
    swap
    · simp only [h0, hgR, hres, hp, ne_eq, not_true_eq_false, not_false_eq_true, if_true, if_false, Option.some.injEq,
      Bool.false_eq_true,
        Option.map_some'] at hout
      subst hout
      exact ⟨0, Nat.zero_le _, by simp [List.filter_append, hres0, KmCall.isRecurse]⟩
    cases hpub : env.getPubByUuid st (env.getParentUUIDByUUID st K).2 with
    | none =>
      cases D with
      | zero => simp [parentChainEnds, hgR] at hchain
      | succ D =>
        have hP : parentChainEnds env st D (env.getParentUUIDByUUID st K).2 = true := by
          simpa [parentChainEnds, hgR, parentOf] using hchain
        cases hrec : TCSP_LoadKeyByUUID_Internal k env g st hContext
            (env.getParentUUIDByUUID st K).2 with
        | none =>
          simp only [h0, hgR, hres, hp, hpub, hrec, ne_eq, not_true_eq_false,
            not_false_eq_true, if_true, if_false, Bool.false_eq_true] at hout
          cases hout
        | some o =>
          obtain ⟨n1, hn1, htr⟩ := ih D (env.getParentUUIDByUUID st K).2 o hP hrec
          by_cases hor : o.result = 0
          swap
          · simp only [h0, hgR, hres, hp, hpub, hrec, hor, ne_eq, not_true_eq_false, not_false_eq_true, if_true, if_false, Option.some.injEq,
      Bool.false_eq_true,
              Option.map_some'] at hout
            subst hout
            refine ⟨n1 + 1, by omega, ?_⟩
            rw [← recurse_chain]
            simp [List.filter_append, hres0, KmCall.isRecurse, htr, parentOf]
          · cases hb : TCSP_LoadKeyByBlob_Internal k env g o.state hContext
                (o.phKeyTCSI.getD 0) (env.getRegisteredKeyByUUID st K 0x1000).2.2
                (env.getRegisteredKeyByUUID st K 0x1000).2.1 none with
            | none =>
              simp only [h0, hgR, hres, hp, hpub, hrec, hor, hb, ne_eq, not_true_eq_false,
                not_false_eq_true, if_true, if_false, Option.map_none', Bool.false_eq_true] at hout
              cases hout
            | some b =>
              have hb0 : b.trace.filter KmCall.isRecurse = [] := by
                rw [List.filter_eq_nil_iff]
                intro e he
                simp [loadKeyByBlob_no_recurse k env g o.state hContext _ _ _ none b hk hb e he]
              simp only [h0, hgR, hres, hp, hpub, hrec, hor, hb, ne_eq, not_true_eq_false, not_false_eq_true, if_true, if_false, Option.some.injEq,
      Bool.false_eq_true,
                Option.map_some'] at hout
              subst hout
              refine ⟨n1 + 1, by omega, ?_⟩
              rw [← recurse_chain]
              simp [List.filter_append, hres0, KmCall.isRecurse, htr, hb0, parentOf]
    | some pub =>
      by_cases hl : (env.LoadKeyShim st hContext pub
          (some (env.getParentUUIDByUUID st K).2)).1 = 0
      swap
      · simp only [h0, hgR, hres, hp, hpub, hl, ne_eq, not_true_eq_false, not_false_eq_true, if_true, if_false, Option.some.injEq,
      Bool.false_eq_true,
          Option.map_some'] at hout
        subst hout
        exact ⟨0, Nat.zero_le _, by simp [List.filter_append, hres0, KmCall.isRecurse]⟩
      · cases hb : TCSP_LoadKeyByBlob_Internal k env g
            (env.LoadKeyShim st hContext pub (some (env.getParentUUIDByUUID st K).2)).2.2
            hContext
            (env.getAnyHandleBySlot
              (env.LoadKeyShim st hContext pub (some (env.getParentUUIDByUUID st K).2)).2.2
              (env.LoadKeyShim st hContext pub (some (env.getParentUUIDByUUID st K).2)).2.1)
            (env.getRegisteredKeyByUUID st K 0x1000).2.2
            (env.getRegisteredKeyByUUID st K 0x1000).2.1 none with
        | none =>
          simp only [h0, hgR, hres, hp, hpub, hl, hb, ne_eq, not_true_eq_false,
            not_false_eq_true, if_true, if_false, Option.map_none', Bool.false_eq_true] at hout
          cases hout
        | some b =>
          have hb0 : b.trace.filter KmCall.isRecurse = [] := by
            rw [List.filter_eq_nil_iff]
            intro e he
            simp [loadKeyByBlob_no_recurse k env g _ hContext _ _ _ none b hk hb e he]
          simp only [h0, hgR, hres, hp, hpub, hl, hb, ne_eq, not_true_eq_false, not_false_eq_true, if_true, if_false, Option.some.injEq,
      Bool.false_eq_true,
            Option.map_some'] at hout
          subst hout
          exact ⟨0, Nat.zero_le _,
            by simp [List.filter_append, hres0, KmCall.isRecurse, hb0]⟩

/-- C22. The parent recursion of `TCSP_LoadKeyByUUID_Internal` terminates.
Let the parent chain from `K` in the registry of the state `st` end after at
most `D` registered keys (the chain is acyclic and of bounded length), for
any memory cache in `st`. Then every execution that returns has made at most
`D` recursive calls, and their arguments are, in order, the parent of `K`,
the parent of that parent, and so on: each recursive call is for the UUID
that `getParentUUIDByUUID` stored for the key of the call before. The
recursion therefore never keeps the call from returning; and when every
successful `evictFirstKey` reduces a measure of the state, such as the
number of resident keys, so that the eviction loop of
`TCSP_LoadKeyByBlob_Internal` is left as well, the call does return: from
some bound on, the model yields the same outcome. -/
theorem loadKeyByUUID_recursion_terminates {σ : Type} (k : KmConsts) (env : KmEnv σ)
    (hk : k.ErrorsNonzero) (st : σ) (hContext : TCS_CONTEXT_HANDLE) (D : Nat) (K : TSS_UUID)
    (hchain : parentChainEnds env st D K = true) :
    (∀ g out, TCSP_LoadKeyByUUID_Internal k env g st hContext K = some out →
      (out.trace.filter KmCall.isRecurse).length ≤ D ∧
      ∃ n, n ≤ D ∧ out.trace.filter KmCall.isRecurse
        = (List.range n).map (fun i => KmCall.recurse ((parentOf env st)^[i + 1] K))) ∧
    (∀ m : σ → Nat,
      (∀ st1 h, (env.evictFirstKey st1 h).1 = 0 → m (env.evictFirstKey st1 h).2 < m st1) →
      ∃ F out, ∀ g, F ≤ g → TCSP_LoadKeyByUUID_Internal k env g st hContext K = some out) := by
  constructor
  · intro g out hout
    obtain ⟨n, hn, htr⟩ := loadKeyByUUID_recursion_bound k env hk st hContext g D K out hchain
      hout
    exact ⟨by rw [htr]; simpa using hn, n, hn, htr⟩
  · intro m hm
    obtain ⟨F, out, _, _, hF, _⟩ := loadKeyByUUID_descent k env m hk hm st hContext D K hchain
    exact ⟨F, out, hF⟩

/-- Witness for C22: in `chainWorld` the chain from `uuidOf 3` ends after
three registered keys; the load of `uuidOf 3` makes one recursive call, for
its parent `uuidOf 2`, whose own parent is known to the memory cache, and
succeeds. -/
theorem loadKeyByUUID_recursion_terminates_witness :
    tssKmConsts.ErrorsNonzero ∧
    parentChainEnds (specKmEnv tssKmConsts) chainWorld 3 (uuidOf 3) = true ∧
    (TCSP_LoadKeyByUUID_Internal tssKmConsts (specKmEnv tssKmConsts) 3 chainWorld 1
        (uuidOf 3)).map
      (fun o => (o.result, o.phKeyTCSI, o.trace.filter KmCall.isRecurse))
      = some (TSS_SUCCESS, some 4, [KmCall.recurse (uuidOf 2)]) ∧
    (∀ w h, ((specKmEnv tssKmConsts).evictFirstKey w h).1 = 0 →
      residentCount tssKmConsts ((specKmEnv tssKmConsts).evictFirstKey w h).2
        < residentCount tssKmConsts w) ∧
    ∃ F out, ∀ g, F ≤ g → TCSP_LoadKeyByUUID_Internal tssKmConsts (specKmEnv tssKmConsts) g
      chainWorld 1 (uuidOf 3) = some out :=
  ⟨by decide, by decide, by decide,
    fun w h => specEvictFirstKey_decreases tssKmConsts (by decide) w h,
    (loadKeyByUUID_recursion_terminates tssKmConsts (specKmEnv tssKmConsts) (by decide)
      chainWorld 1 3 (uuidOf 3) (by decide)).2 (residentCount tssKmConsts)
      (fun w h => specEvictFirstKey_decreases tssKmConsts (by decide) w h)⟩

/-! ### No retry -/

/-- C23. `TCSP_LoadKeyByBlob_Internal` performs no retry: every execution
calls `req_mgr_submit_req` at most once. If that submission fails, it is
followed by nothing but the release of the authorization (when `pAuth` is
not `NULL`): the call returns the error of the submission, none of the
memory-cache mutators (`add_mem_cache_entry`, `setSlotByHandle`,
`setParentByHandle`, `setSlotBySlot`) is called during the whole execution,
and neither `*phKeyTCSI` nor `*phKeyHMAC` is written. -/
theorem loadKeyByBlob_no_retry {σ : Type} (k : KmConsts) (env : KmEnv σ) (fuel : Nat)
    (st : σ) (hContext : TCS_CONTEXT_HANDLE) (hU : TCS_KEY_HANDLE) (sz : Nat)
    (blob : List BYTE) (pAuth : Option TCS_AUTH) (out : LoadOutcome σ) (hk : k.ErrorsNonzero)
    (hout : TCSP_LoadKeyByBlob_Internal k env fuel st hContext hU sz blob pAuth = some out) :
    (out.trace.filter KmCall.isSubmit).length ≤ 1 ∧
    ∀ tx r, KmCall.req_mgr_submit_req tx r ∈ out.trace → r ≠ 0 →
      out.result = r ∧
      (∃ l, out.trace = l ++ [KmCall.req_mgr_submit_req tx r] ++
        pAuth.toList.map (fun a => KmCall.auth_mgr_release_auth a.AuthHandle)) ∧
      (∀ e ∈ out.trace, e.isCacheUpdate = false) ∧
      out.phKeyTCSI = none ∧ out.phKeyHMAC = none := by
  obtain ⟨pre, hpre, hends⟩ := loadKeyByBlob_shape k env fuel st hContext hU sz blob pAuth out
    hk hout
  -- an execution without a submission
  have hnone : (∀ e ∈ out.trace, e.isSubmit = false) →
      (out.trace.filter KmCall.isSubmit).length ≤ 1 ∧
      ∀ tx r, KmCall.req_mgr_submit_req tx r ∈ out.trace → r ≠ 0 →
        out.result = r ∧
        (∃ l, out.trace = l ++ [KmCall.req_mgr_submit_req tx r] ++
          pAuth.toList.map (fun a => KmCall.auth_mgr_release_auth a.AuthHandle)) ∧
        (∀ e ∈ out.trace, e.isCacheUpdate = false) ∧
        out.phKeyTCSI = none ∧ out.phKeyHMAC = none := by
    intro hall
    constructor
    · have : out.trace.filter KmCall.isSubmit = [] := by
        rw [List.filter_eq_nil_iff]
        intro e he
        simp [hall e he]
      simp [this]
    · intro tx r hin _
      have := hall _ hin
      simp [KmCall.isSubmit] at this
  have hpre0 : ∀ e ∈ pre, e.isSubmit = false := fun e he => (prelude_calls e (hpre e he)).1
  rcases hends with ⟨st1, r, hr, ho⟩ | ⟨r, hr, ho⟩ | ⟨st1, slot, hp, ho⟩ |
    ⟨st1, st2, r, cap, hcap, hr, ho⟩ | ⟨st1, st2, cap, pslot, hcap, ho⟩
  · apply hnone
    intro e he
    rw [ho, LoadOutcome.after_trace] at he
    rcases List.mem_append.1 he with h | h
    · exact hpre0 e h
    · exact (release_calls e ((loadKeyByBlob_failed_facts env st1 pAuth r).2.2.2 e h)).1
  · apply hnone
    intro e he
    rw [ho, LoadOutcome.after_trace] at he
    rcases List.mem_append.1 he with h | h
    · exact hpre0 e h
    · simp [loadKeyByBlob_return] at h
  · apply hnone
    intro e he
    rw [ho, LoadOutcome.after_trace] at he
    rcases List.mem_append.1 he with h | h
    · exact hpre0 e h
    · exact (loadKeyByBlob_update_calls k env st1 hContext hU blob none _ slot e h).1
  · have hcapc := (capacityPhase_trace env hU _ fuel st1 r st2 cap hcap).2.2.2
    apply hnone
    intro e he
    rw [ho, LoadOutcome.after_trace] at he
    rcases List.mem_append.1 he with h | h
    · rcases List.mem_append.1 h with h | h
      · exact hpre0 e h
      · exact (capacity_calls e (hcapc e h)).1
    · simp [loadKeyByBlob_return] at h
  · have hcapc := (capacityPhase_trace env hU _ fuel st1 0 st2 cap hcap).2.2.2
    generalize hs : env.req_mgr_submit_req st2
      (loadKeyRequest k pslot (env.UnloadBlob_KEY blob).2.2 blob pAuth) = s at ho
    have hpost := loadKeyByBlob_afterDo_calls k env s.2.2 hContext hU blob pAuth
      (env.UnloadBlob_KEY blob).2.1 s.1 true 0 s.2.1
    have hfront : ∀ e ∈ pre ++ cap, e.isSubmit = false ∧ e.isCacheUpdate = false := by
      intro e he
      rcases List.mem_append.1 he with h | h
      · exact ⟨(prelude_calls e (hpre e h)).1, (prelude_calls e (hpre e h)).2.2.1⟩
      · exact ⟨(capacity_calls e (hcapc e h)).1, (capacity_calls e (hcapc e h)).2.2.1⟩
    have htr : out.trace = (pre ++ cap) ++
        [KmCall.req_mgr_submit_req
          (loadKeyRequest k pslot (env.UnloadBlob_KEY blob).2.2 blob pAuth) s.1] ++
        (loadKeyByBlob_afterDo k env s.2.2 hContext hU blob pAuth
          (env.UnloadBlob_KEY blob).2.1 s.1 true 0 s.2.1).trace := by
      rw [ho, LoadOutcome.after_trace]
    constructor
    · have h1 : (pre ++ cap).filter KmCall.isSubmit = [] := by
        rw [List.filter_eq_nil_iff]
        intro e he
        simp [(hfront e he).1]
      have h2 : (loadKeyByBlob_afterDo k env s.2.2 hContext hU blob pAuth
          (env.UnloadBlob_KEY blob).2.1 s.1 true 0 s.2.1).trace.filter KmCall.isSubmit = [] := by
        rw [List.filter_eq_nil_iff]
        intro e he
        simp [(hpost e he).1]
      rw [htr, List.filter_append, List.filter_append, h1, h2]
      simp [KmCall.isSubmit]
    · intro tx r hin hr
      have hx : KmCall.req_mgr_submit_req tx r = KmCall.req_mgr_submit_req
          (loadKeyRequest k pslot (env.UnloadBlob_KEY blob).2.2 blob pAuth) s.1 := by
        rw [htr] at hin
        simp only [List.mem_append, List.mem_singleton] at hin
        rcases hin with (h | h) | h
        · have := (hfront _ (List.mem_append.2 h)).1
          simp [KmCall.isSubmit] at this
        · exact h
        · have := (hpost _ h).1
          simp [KmCall.isSubmit] at this
      have hr1 : s.1 = r := by
        injection hx with _ h2
        exact h2.symm
      have hs1 : s.1 ≠ 0 := hr1 ▸ hr
      have hfail : loadKeyByBlob_afterDo k env s.2.2 hContext hU blob pAuth
          (env.UnloadBlob_KEY blob).2.1 s.1 true 0 s.2.1
          = loadKeyByBlob_failed env s.2.2 pAuth s.1 := by
        simp [loadKeyByBlob_afterDo, hs1]
      rw [hfail] at htr ho
      have hfacts := loadKeyByBlob_failed_facts env s.2.2 pAuth s.1
      refine ⟨?_, ⟨pre ++ cap, ?_⟩, ?_, ?_, ?_⟩
      · rw [ho, LoadOutcome.after_result, hfacts.1, hr1]
      · rw [htr, hx]
        cases pAuth <;> rfl
      · intro e he
        rw [htr] at he
        simp only [List.mem_append, List.mem_singleton] at he
        rcases he with (h | h) | h
        · exact (hfront e (List.mem_append.2 h)).2
        · subst h; rfl
        · exact (release_calls e (hfacts.2.2.2 e h)).2.1
      · rw [ho, LoadOutcome.after_phKeyTCSI, hfacts.2.1]
      · rw [ho, LoadOutcome.after_phKeyHMAC, hfacts.2.2.1]

/-- Witness for C23: with the transport to the TPM down, the authorized
load of `[0xDD]` submits once, fails with the error of the submission and
releases the session. -/
theorem loadKeyByBlob_no_retry_witness :
    tssKmConsts.ErrorsNonzero ∧
    ∃ out, TCSP_LoadKeyByBlob_Internal tssKmConsts (downKmEnv tssKmConsts) 5 sampleWorld 1 1 0
        [0xDD] (some sampleAuth) = some out ∧
      KmCall.req_mgr_submit_req ⟨0xC2, 32, 0x1000, [0xDD], some sampleAuth⟩
        tssKmConsts.TCS_E_FAIL ∈ out.trace ∧
      (out.trace.filter KmCall.isSubmit).length ≤ 1 ∧
      out.result = tssKmConsts.TCS_E_FAIL ∧ out.phKeyTCSI = none ∧ out.phKeyHMAC = none :=
  ⟨by decide,
    (Option.isSome_iff_exists.1 (by decide : (TCSP_LoadKeyByBlob_Internal tssKmConsts
      (downKmEnv tssKmConsts) 5 sampleWorld 1 1 0 [0xDD] (some sampleAuth)).isSome = true)).imp
      (fun out h =>
        have hin : KmCall.req_mgr_submit_req ⟨0xC2, 32, 0x1000, [0xDD], some sampleAuth⟩
            tssKmConsts.TCS_E_FAIL ∈ out.trace := by
          have h2 : (TCSP_LoadKeyByBlob_Internal tssKmConsts (downKmEnv tssKmConsts) 5
              sampleWorld 1 1 0 [0xDD] (some sampleAuth)).map
              (fun o => decide (KmCall.req_mgr_submit_req
                ⟨0xC2, 32, 0x1000, [0xDD], some sampleAuth⟩ tssKmConsts.TCS_E_FAIL ∈ o.trace))
              = some true := by decide
          rw [h] at h2
          exact of_decide_eq_true (Option.some.inj h2)
        ⟨h, hin,
          (loadKeyByBlob_no_retry tssKmConsts (downKmEnv tssKmConsts) 5 sampleWorld 1 1 0 [0xDD]
            (some sampleAuth) out (by decide) h).1,
          ((loadKeyByBlob_no_retry tssKmConsts (downKmEnv tssKmConsts) 5 sampleWorld 1 1 0 [0xDD]
            (some sampleAuth) out (by decide) h).2 _ _ hin (by decide)).1,
          ((loadKeyByBlob_no_retry tssKmConsts (downKmEnv tssKmConsts) 5 sampleWorld 1 1 0 [0xDD]
            (some sampleAuth) out (by decide) h).2 _ _ hin (by decide)).2.2.2.1,
          ((loadKeyByBlob_no_retry tssKmConsts (downKmEnv tssKmConsts) 5 sampleWorld 1 1 0 [0xDD]
            (some sampleAuth) out (by decide) h).2 _ _ hin (by decide)).2.2.2.2⟩)⟩

/-! ### Theorems about `tspi_ps.c` -/

/-- C24 does not hold on the code. For the system persistent storage, with a
non-`NULL` `phKey`, a connected context and a key blob that the TCS returns,
a failure of `obj_rsakey_add_by_key` makes both
`Tspi_Context_UnregisterKey` and `Tspi_Context_GetKeyByUUID` return
`TSS_SUCCESS`: the value of the failed call is tested but not stored in
`result`, which still holds the `TSS_SUCCESS` of
`TCS_GetRegisteredKeyBlob`. `*phKey` holds only what the failed call left in
it, and `Tspi_Context_UnregisterKey` has not called `TCSP_UnregisterKey`. -/
theorem psKey_add_failure_success {σ : Type} (k : PsConsts) (env : PsEnv σ) (st : σ)
    (tspContext : TSS_HCONTEXT) (uuid : TSS_UUID)
    (hconn : (env.obj_context_is_connected st tspContext).1 = 0)
    (hblob : (env.TCS_GetRegisteredKeyBlob st (env.obj_context_is_connected st tspContext).2
      uuid).1 = 0)
    (hadd : (env.obj_rsakey_add_by_key st tspContext uuid
      (env.TCS_GetRegisteredKeyBlob st (env.obj_context_is_connected st tspContext).2 uuid).2
      k.TSS_OBJ_FLAG_SYSTEM_PS).1 ≠ 0) :
    (Tspi_Context_UnregisterKey k env st tspContext k.TSS_PS_TYPE_SYSTEM uuid true).result
      = TSS_SUCCESS ∧
    (Tspi_Context_UnregisterKey k env st tspContext k.TSS_PS_TYPE_SYSTEM uuid true).phKey
      = (env.obj_rsakey_add_by_key st tspContext uuid
          (env.TCS_GetRegisteredKeyBlob st (env.obj_context_is_connected st tspContext).2 uuid).2
          k.TSS_OBJ_FLAG_SYSTEM_PS).2.1 ∧
    (∀ c u r, PsCall.TCSP_UnregisterKey c u r ∉
      (Tspi_Context_UnregisterKey k env st tspContext k.TSS_PS_TYPE_SYSTEM uuid true).trace) ∧
    (Tspi_Context_GetKeyByUUID k env st tspContext k.TSS_PS_TYPE_SYSTEM uuid true).result
      = TSS_SUCCESS ∧
    (Tspi_Context_GetKeyByUUID k env st tspContext k.TSS_PS_TYPE_SYSTEM uuid true).phKey
      = (env.obj_rsakey_add_by_key st tspContext uuid
          (env.TCS_GetRegisteredKeyBlob st (env.obj_context_is_connected st tspContext).2 uuid).2
          k.TSS_OBJ_FLAG_SYSTEM_PS).2.1 := by
  refine ⟨?_, ?_, ?_, ?_, ?_⟩ <;>
    simp [Tspi_Context_UnregisterKey, Tspi_Context_GetKeyByUUID, hconn, hblob, hadd, TSS_SUCCESS]

/-- Witness for C24: with no room left for a key object, both entry points
return `TSS_SUCCESS` for the registered key `uuidOf 2` although
`obj_rsakey_add_by_key` failed; `*phKey` was not written and the key is
still registered. -/
theorem psKey_add_failure_success_witness :
    (samplePsEnv.obj_context_is_connected (sampleRegistry, 0) 1).1 = 0 ∧
    (samplePsEnv.TCS_GetRegisteredKeyBlob (sampleRegistry, 0)
      (samplePsEnv.obj_context_is_connected (sampleRegistry, 0) 1).2 (uuidOf 2)).1 = 0 ∧
    (samplePsEnv.obj_rsakey_add_by_key (sampleRegistry, 0) 1 (uuidOf 2)
      (samplePsEnv.TCS_GetRegisteredKeyBlob (sampleRegistry, 0)
        (samplePsEnv.obj_context_is_connected (sampleRegistry, 0) 1).2 (uuidOf 2)).2
      tssPsConsts.TSS_OBJ_FLAG_SYSTEM_PS).1 ≠ 0 ∧
    (Tspi_Context_UnregisterKey tssPsConsts samplePsEnv (sampleRegistry, 0) 1
      tssPsConsts.TSS_PS_TYPE_SYSTEM (uuidOf 2) true).result = TSS_SUCCESS ∧
    (Tspi_Context_UnregisterKey tssPsConsts samplePsEnv (sampleRegistry, 0) 1
      tssPsConsts.TSS_PS_TYPE_SYSTEM (uuidOf 2) true).phKey = none ∧
    (Tspi_Context_UnregisterKey tssPsConsts samplePsEnv (sampleRegistry, 0) 1
      tssPsConsts.TSS_PS_TYPE_SYSTEM (uuidOf 2) true).state = (sampleRegistry, 0) ∧
    (Tspi_Context_UnregisterKey tssPsConsts samplePsEnv (sampleRegistry, 0) 1
      tssPsConsts.TSS_PS_TYPE_SYSTEM (uuidOf 2) true).trace
      = [PsCall.obj_context_is_connected 1 0, PsCall.TCS_GetRegisteredKeyBlob 1 (uuidOf 2) 0,
          PsCall.obj_rsakey_add_by_key 1 (uuidOf 2) [0xCC] 0x10 0x3005] ∧
    (Tspi_Context_GetKeyByUUID tssPsConsts samplePsEnv (sampleRegistry, 0) 1
      tssPsConsts.TSS_PS_TYPE_SYSTEM (uuidOf 2) true).result = TSS_SUCCESS :=
  ⟨by decide, by decide, by decide,
    (psKey_add_failure_success tssPsConsts samplePsEnv (sampleRegistry, 0) 1 (uuidOf 2)
      (by decide) (by decide) (by decide)).1,
    by decide, by decide, by decide,
    (psKey_add_failure_success tssPsConsts samplePsEnv (sampleRegistry, 0) 1 (uuidOf 2)
      (by decide) (by decide) (by decide)).2.2.2.1⟩

/-- The results of the two entry points for the system persistent storage
when `obj_rsakey_add_by_key` succeeds: `Tspi_Context_GetKeyByUUID` returns
`TSS_SUCCESS` with the handle the call stored in `*phKey`, and
`Tspi_Context_UnregisterKey` returns the result of `TCSP_UnregisterKey`,
which it calls after the key object was added. -/
theorem psKey_add_success {σ : Type} (k : PsConsts) (env : PsEnv σ) (st : σ)
    (tspContext : TSS_HCONTEXT) (uuid : TSS_UUID)
    (hconn : (env.obj_context_is_connected st tspContext).1 = 0)
    (hblob : (env.TCS_GetRegisteredKeyBlob st (env.obj_context_is_connected st tspContext).2
      uuid).1 = 0)
    (hadd : (env.obj_rsakey_add_by_key st tspContext uuid
      (env.TCS_GetRegisteredKeyBlob st (env.obj_context_is_connected st tspContext).2 uuid).2
      k.TSS_OBJ_FLAG_SYSTEM_PS).1 = 0) :
    (Tspi_Context_GetKeyByUUID k env st tspContext k.TSS_PS_TYPE_SYSTEM uuid true).result
      = TSS_SUCCESS ∧
    (Tspi_Context_GetKeyByUUID k env st tspContext k.TSS_PS_TYPE_SYSTEM uuid true).phKey
      = (env.obj_rsakey_add_by_key st tspContext uuid
          (env.TCS_GetRegisteredKeyBlob st (env.obj_context_is_connected st tspContext).2 uuid).2
          k.TSS_OBJ_FLAG_SYSTEM_PS).2.1 ∧
    (Tspi_Context_UnregisterKey k env st tspContext k.TSS_PS_TYPE_SYSTEM uuid true).result
      = (env.TCSP_UnregisterKey
          (env.obj_rsakey_add_by_key st tspContext uuid
            (env.TCS_GetRegisteredKeyBlob st (env.obj_context_is_connected st tspContext).2
              uuid).2 k.TSS_OBJ_FLAG_SYSTEM_PS).2.2
          (env.obj_context_is_connected st tspContext).2 uuid).1 := by
  refine ⟨?_, ?_, ?_⟩
  · simp [Tspi_Context_GetKeyByUUID, hconn, hblob, hadd, TSS_SUCCESS]
  · simp [Tspi_Context_GetKeyByUUID, hconn, hblob, hadd, TSS_SUCCESS]
  · simp only [Tspi_Context_UnregisterKey, hconn, hblob, hadd]
    by_cases hu : (env.TCSP_UnregisterKey
          (env.obj_rsakey_add_by_key st tspContext uuid
            (env.TCS_GetRegisteredKeyBlob st (env.obj_context_is_connected st tspContext).2
              uuid).2 k.TSS_OBJ_FLAG_SYSTEM_PS).2.2
          (env.obj_context_is_connected st tspContext).2 uuid).1 = 0 <;>
      simp [hu, TSS_SUCCESS]

/-! ### The locks of `TCS_EnumRegisteredKeys_Internal` -/

theorem fillChain_trace {σ : Type} (env : Env σ) (mem : List key_mem_cache) :
    ∀ (l : List key_disk_cache) (ret : List TSS_KM_KEYINFO) (t : List Call),
      ∃ t1, (fillChain env mem l ret t).2.2 = t ++ t1 ∧
        ∀ c ∈ t1, ∃ d m, c = Call.fill_key_info d m := by
  intro l
  induction l with
  | nil => intro ret t; exact ⟨[], by simp [fillChain], by simp⟩
  | cons d l ih =>
    intro ret t
    simp only [fillChain]
    by_cases h : (env.fill_key_info d (findMemEntry d.uuid mem)).1 = 0
    · obtain ⟨t1, h1, h2⟩ := ih (ret ++ [(env.fill_key_info d (findMemEntry d.uuid mem)).2])
        (t ++ [Call.fill_key_info d (findMemEntry d.uuid mem)])
      refine ⟨Call.fill_key_info d (findMemEntry d.uuid mem) :: t1, by simp [h, h1], ?_⟩
      intro c hc
      rcases List.mem_cons.1 hc with rfl | hc
      · exact ⟨_, _, rfl⟩
      · exact h2 c hc
    · exact ⟨[Call.fill_key_info d (findMemEntry d.uuid mem)], by simp [h], by simp⟩

theorem fillValid_trace {σ : Type} (k : Consts) (env : Env σ) (mem : List key_mem_cache) :
    ∀ (l : List key_disk_cache) (ret : List TSS_KM_KEYINFO) (t : List Call),
      ∃ t1, (fillValid k env mem l ret t).2.2 = t ++ t1 ∧
        ∀ c ∈ t1, ∃ d m, c = Call.fill_key_info d m := by
  intro l
  induction l with
  | nil => intro ret t; exact ⟨[], by simp [fillValid], by simp⟩
  | cons d l ih =>
    intro ret t
    simp only [fillValid]
    by_cases hv : d.valid k = true
    · by_cases h : (env.fill_key_info d (findMemEntry d.uuid mem)).1 = 0
      · obtain ⟨t1, h1, h2⟩ := ih (ret ++ [(env.fill_key_info d (findMemEntry d.uuid mem)).2])
          (t ++ [Call.fill_key_info d (findMemEntry d.uuid mem)])
        refine ⟨Call.fill_key_info d (findMemEntry d.uuid mem) :: t1, by simp [hv, h, h1], ?_⟩
        intro c hc
        rcases List.mem_cons.1 hc with rfl | hc
        · exact ⟨_, _, rfl⟩
        · exact h2 c hc
      · exact ⟨[Call.fill_key_info d (findMemEntry d.uuid mem)], by simp [hv, h], by simp⟩
    · obtain ⟨t1, h1, h2⟩ := ih ret t
      exact ⟨t1, by simp [hv, h1], h2⟩

/-- From the allocation on, both branches make only `getSomeMemory` and
`fill_key_info` calls, write both output parameters, and end with the
release of the disk-cache lock and of the memory-cache lock. -/
theorem enumAllocFill_trace {σ : Type} (k : Consts) (env : Env σ)
    (hContext : TCS_CONTEXT_HANDLE) (count : Nat)
    (fill : List TSS_KM_KEYINFO → List Call → TSS_RESULT × Option (List TSS_KM_KEYINFO) × List Call)
    (hfill : ∀ ret t, ∃ t1, (fill ret t).2.2 = t ++ t1 ∧
      ∀ c ∈ t1, ∃ d m, c = Call.fill_key_info d m)
    (t : List Call) :
    ∃ mid, (enumAllocFill k env hContext count fill t).trace
        = t ++ mid ++ [Call.unlock_disk_cache, Call.unlock_mem_cache] ∧
      (∀ c ∈ mid, (∃ n, c = Call.getSomeMemory n) ∨ ∃ d m, c = Call.fill_key_info d m) ∧
      (enumAllocFill k env hContext count fill t).ppKeyHierarchy.isSome = true ∧
      (enumAllocFill k env hContext count fill t).pcKeyHierarchySize.isSome = true := by
  simp only [enumAllocFill]
  by_cases hc : count = 0
  · exact ⟨[], by simp [hc, enumDone], by simp, by simp [hc, enumDone], by simp [hc, enumDone]⟩
  by_cases ha : env.getSomeMemory (count * k.sizeof_TSS_KM_KEYINFO) hContext = false
  · exact ⟨[Call.getSomeMemory (count * k.sizeof_TSS_KM_KEYINFO)],
      by simp [hc, ha, enumDone], by simp, by simp [hc, ha, enumDone],
      by simp [hc, ha, enumDone]⟩
  obtain ⟨t1, h1, h2⟩ := hfill [] (t ++ [Call.getSomeMemory (count * k.sizeof_TSS_KM_KEYINFO)])
  rcases hf : fill [] (t ++ [Call.getSomeMemory (count * k.sizeof_TSS_KM_KEYINFO)]) with
    ⟨r, ret, t2⟩
  rw [hf] at h1
  simp only at h1
  subst h1
  refine ⟨Call.getSomeMemory (count * k.sizeof_TSS_KM_KEYINFO) :: t1, ?_, ?_, ?_, ?_⟩
  · cases ret <;> simp [hc, ha, hf, enumDone]
  · intro c hc1
    rcases List.mem_cons.1 hc1 with rfl | hc1
    · exact Or.inl ⟨_, rfl⟩
    · exact Or.inr (h2 c hc1)
  · cases ret <;> simp [hc, ha, hf, enumDone]
  · cases ret <;> simp [hc, ha, hf, enumDone]

/-- C25. The two locks of `TCS_EnumRegisteredKeys_Internal`. The call
returns on every input, in one of two ways. Either it returns before the
caches are read: then it has taken no lock, has called nothing but
`ctx_verify_context` and `isUUIDRegistered`, has written no output, and its
outcome is the same for every disk cache and memory cache. Or its calls are:
those made before the caches are read, then `disk_cache_lock` is acquired,
then `mem_cache_lock`, then the calls of the enumeration or of the chain
walk (`getSomeMemory` and `fill_key_info` only), then `disk_cache_lock` is
released and `mem_cache_lock` is released, after which the outputs are
written and the call returns; on this path, which covers success, the empty
result, the allocation failure and the `fill_key_info` failure, each lock is
acquired once and released once, and no call is made outside the locks that
reads a cache. -/
theorem enumRegisteredKeys_locks {σ : Type} (k : Consts) (env : Env σ) (st : σ)
    (head : List key_disk_cache) (mem : List key_mem_cache) (hContext : TCS_CONTEXT_HANDLE)
    (pKeyUUID : Option TSS_UUID) (pc pp : Bool) :
    ∃ out, TCS_EnumRegisteredKeys_Internal k env st head mem hContext pKeyUUID pc pp
        = some out ∧
      (((∀ c ∈ out.trace, c = Call.ctx_verify_context hContext ∨
            ∃ u, c = Call.isUUIDRegistered u) ∧
          out.ppKeyHierarchy = none ∧ out.pcKeyHierarchySize = none ∧
          ∀ head1 mem1, TCS_EnumRegisteredKeys_Internal k env st head1 mem1 hContext pKeyUUID
            pc pp = some out) ∨
        (∃ pre mid, out.trace = pre ++ [Call.lock_disk_cache, Call.lock_mem_cache] ++ mid ++
            [Call.unlock_disk_cache, Call.unlock_mem_cache] ∧
          (∀ c ∈ pre, c = Call.ctx_verify_context hContext ∨
            ∃ u, c = Call.isUUIDRegistered u) ∧
          (∀ c ∈ mid, (∃ n, c = Call.getSomeMemory n) ∨ ∃ d m, c = Call.fill_key_info d m) ∧
          out.ppKeyHierarchy.isSome = true ∧ out.pcKeyHierarchySize.isSome = true ∧
          out.trace.count Call.lock_disk_cache = 1 ∧
          out.trace.count Call.lock_mem_cache = 1 ∧
          out.trace.count Call.unlock_disk_cache = 1 ∧
          out.trace.count Call.unlock_mem_cache = 1)) := by
  -- the number of lock and unlock calls of a bracketed list of calls
  have hcount : ∀ (pre mid : List Call),
      (∀ c ∈ pre, c = Call.ctx_verify_context hContext ∨ ∃ u, c = Call.isUUIDRegistered u) →
      (∀ c ∈ mid, (∃ n, c = Call.getSomeMemory n) ∨ ∃ d m, c = Call.fill_key_info d m) →
      ∀ x, (x = Call.lock_disk_cache ∨ x = Call.lock_mem_cache ∨ x = Call.unlock_disk_cache ∨
          x = Call.unlock_mem_cache) →
        (pre ++ [Call.lock_disk_cache, Call.lock_mem_cache] ++ mid ++
          [Call.unlock_disk_cache, Call.unlock_mem_cache]).count x = 1 := by
    intro pre mid hpre hmid x hx
    have h1 : pre.count x = 0 := by
      rw [List.count_eq_zero]
      intro hin
      rcases hpre x hin with h | ⟨u, h⟩ <;> rcases hx with rfl | rfl | rfl | rfl <;> cases h
    have h2 : mid.count x = 0 := by
      rw [List.count_eq_zero]
      intro hin
      rcases hmid x hin with ⟨n, h⟩ | ⟨d, m, h⟩ <;> rcases hx with rfl | rfl | rfl | rfl <;>
        cases h
    rw [List.count_append, List.count_append, List.count_append, h1, h2]
    rcases hx with rfl | rfl | rfl | rfl <;> decide
  -- the executions that read the caches
  have hlocked : ∀ (pre : List Call) (count : Nat)
      (fill : List TSS_KM_KEYINFO → List Call →
        TSS_RESULT × Option (List TSS_KM_KEYINFO) × List Call),
      (∀ ret t, ∃ t1, (fill ret t).2.2 = t ++ t1 ∧
        ∀ c ∈ t1, ∃ d m, c = Call.fill_key_info d m) →
      (∀ c ∈ pre, c = Call.ctx_verify_context hContext ∨ ∃ u, c = Call.isUUIDRegistered u) →
      ∃ pre1 mid,
        (enumAllocFill k env hContext count fill
          (pre ++ [Call.lock_disk_cache, Call.lock_mem_cache])).trace
          = pre1 ++ [Call.lock_disk_cache, Call.lock_mem_cache] ++ mid ++
            [Call.unlock_disk_cache, Call.unlock_mem_cache] ∧
        (∀ c ∈ pre1, c = Call.ctx_verify_context hContext ∨
          ∃ u, c = Call.isUUIDRegistered u) ∧
        (∀ c ∈ mid, (∃ n, c = Call.getSomeMemory n) ∨ ∃ d m, c = Call.fill_key_info d m) ∧
        (enumAllocFill k env hContext count fill
          (pre ++ [Call.lock_disk_cache, Call.lock_mem_cache])).ppKeyHierarchy.isSome = true ∧
        (enumAllocFill k env hContext count fill
          (pre ++ [Call.lock_disk_cache, Call.lock_mem_cache])).pcKeyHierarchySize.isSome
          = true ∧
        (enumAllocFill k env hContext count fill
          (pre ++ [Call.lock_disk_cache, Call.lock_mem_cache])).trace.count
            Call.lock_disk_cache = 1 ∧
        (enumAllocFill k env hContext count fill
          (pre ++ [Call.lock_disk_cache, Call.lock_mem_cache])).trace.count
            Call.lock_mem_cache = 1 ∧
        (enumAllocFill k env hContext count fill
          (pre ++ [Call.lock_disk_cache, Call.lock_mem_cache])).trace.count
            Call.unlock_disk_cache = 1 ∧
        (enumAllocFill k env hContext count fill
          (pre ++ [Call.lock_disk_cache, Call.lock_mem_cache])).trace.count
            Call.unlock_mem_cache = 1 := by
    intro pre count fill hfill hpre
    obtain ⟨mid, h1, h2, h3, h4⟩ := enumAllocFill_trace k env hContext count fill hfill
      (pre ++ [Call.lock_disk_cache, Call.lock_mem_cache])
    refine ⟨pre, mid, h1, hpre, h2, h3, h4, ?_, ?_, ?_, ?_⟩
    · rw [h1]; exact hcount pre mid hpre h2 _ (Or.inl rfl)
    · rw [h1]; exact hcount pre mid hpre h2 _ (Or.inr (Or.inl rfl))
    · rw [h1]; exact hcount pre mid hpre h2 _ (Or.inr (Or.inr (Or.inl rfl)))
    · rw [h1]; exact hcount pre mid hpre h2 _ (Or.inr (Or.inr (Or.inr rfl)))
  by_cases hp : pc = false ∨ pp = false
  · exact ⟨⟨k.TSS_E_BAD_PARAMETER, none, none, []⟩,
      by simp [TCS_EnumRegisteredKeys_Internal, hp],
      Or.inl ⟨by simp, rfl, rfl, fun _ _ => by simp [TCS_EnumRegisteredKeys_Internal, hp]⟩⟩
  by_cases h0 : env.ctx_verify_context hContext = 0
  swap
  · exact ⟨⟨env.ctx_verify_context hContext, none, none, [Call.ctx_verify_context hContext]⟩,
      by simp [TCS_EnumRegisteredKeys_Internal, hp, h0],
      Or.inl ⟨by simp, rfl, rfl,
        fun _ _ => by simp [TCS_EnumRegisteredKeys_Internal, hp, h0]⟩⟩
  cases pKeyUUID with
  | none =>
    refine ⟨enumAllocFill k env hContext (countValid k head 0) (fillValid k env mem head)
        ([Call.ctx_verify_context hContext] ++ [Call.lock_disk_cache, Call.lock_mem_cache]),
      by simp [TCS_EnumRegisteredKeys_Internal, hp, h0], Or.inr ?_⟩
    exact hlocked [Call.ctx_verify_context hContext] _ _
      (fun ret t => fillValid_trace k env mem head ret t) (by simp)
  | some uuid =>
    by_cases h1 : (env.isUUIDRegistered st uuid).1 = 0
    swap
    · exact ⟨⟨(env.isUUIDRegistered st uuid).1, none, none,
          [Call.ctx_verify_context hContext, Call.isUUIDRegistered uuid]⟩,
        by simp [TCS_EnumRegisteredKeys_Internal, hp, h0, h1],
        Or.inl ⟨by simp, rfl, rfl,
          fun _ _ => by simp [TCS_EnumRegisteredKeys_Internal, hp, h0, h1]⟩⟩
    by_cases h2 : (env.isUUIDRegistered st uuid).2 = false
    · exact ⟨⟨k.TCS_E_KEY_NOT_REGISTERED, none, none,
          [Call.ctx_verify_context hContext, Call.isUUIDRegistered uuid]⟩,
        by simp [TCS_EnumRegisteredKeys_Internal, hp, h0, h1, h2],
        Or.inl ⟨by simp, rfl, rfl,
          fun _ _ => by simp [TCS_EnumRegisteredKeys_Internal, hp, h0, h1, h2]⟩⟩
    obtain ⟨s, hs, _, _⟩ := chainWalk_eq k head uuid
    refine ⟨enumAllocFill k env hContext s.count (fillChain env mem s.tmp_ptrs)
        ([Call.ctx_verify_context hContext] ++ [Call.isUUIDRegistered uuid] ++
          [Call.lock_disk_cache, Call.lock_mem_cache]),
      by simp [TCS_EnumRegisteredKeys_Internal, hp, h0, h1, h2, hs], Or.inr ?_⟩
    exact hlocked ([Call.ctx_verify_context hContext] ++ [Call.isUUIDRegistered uuid]) _ _
      (fun ret t => fillChain_trace env mem s.tmp_ptrs ret t) (by simp)

/-! ### Theorems about `Tspi_TPM_GetCapability` -/

/-- C26, as stated, fails: for the handle `0`, which is not a TPM object, a
call with non-`NULL` output pointers and the unknown capability area `99`
returns the error of `obj_tpm_is_connected`, not
`TSPERR(TSS_E_BAD_PARAMETER)`. -/
theorem getCapability_validation_counterexample :
    (Tspi_TPM_GetCapability tssCapConsts sampleCapEnv 100 0 99 4 (some [1, 0, 0, 0]) true
      true).result = 0x3126 ∧
    (Tspi_TPM_GetCapability tssCapConsts sampleCapEnv 100 0 99 4 (some [1, 0, 0, 0]) true
      true).trace = [CapCall.obj_tpm_is_connected 0 0x3126] ∧
    99 ∉ [tssCapConsts.TSS_TPMCAP_ORD, tssCapConsts.TSS_TPMCAP_FLAG,
      tssCapConsts.TSS_TPMCAP_ALG, tssCapConsts.TSS_TPMCAP_PROPERTY,
      tssCapConsts.TSS_TPMCAP_VERSION] ∧
    (0x3126 : TSS_RESULT) ≠ tssCapConsts.TSPERR tssCapConsts.TSS_E_BAD_PARAMETER := by
  decide

/-- The cases in which `switch (capArea)` returns
`TSPERR(TSS_E_BAD_PARAMETER)`. -/
theorem capSwitch_rejects (k : CapConsts) (hd : k.LabelsDistinct) (capArea : TSS_FLAG)
    (ulSubCapLength : Nat) (rgbSubCap : Option (List BYTE))
    (h : capArea ∉ [k.TSS_TPMCAP_ORD, k.TSS_TPMCAP_FLAG, k.TSS_TPMCAP_ALG,
          k.TSS_TPMCAP_PROPERTY, k.TSS_TPMCAP_VERSION] ∨
      ((capArea = k.TSS_TPMCAP_ORD ∨ capArea = k.TSS_TPMCAP_ALG ∨
          capArea = k.TSS_TPMCAP_PROPERTY) ∧ (ulSubCapLength ≠ 4 ∨ rgbSubCap = none)) ∨
      (capArea = k.TSS_TPMCAP_PROPERTY ∧ ∀ b, rgbSubCap = some b →
        loadU32 k.hostBigEndian b ∉ [k.TSS_TPMCAP_PROP_PCR, k.TSS_TPMCAP_PROP_DIR,
          k.TSS_TPMCAP_PROP_SLOTS, k.TSS_TPMCAP_PROP_MANUFACTURER])) :
    capSwitch k capArea ulSubCapLength rgbSubCap = none := by
  simp only [CapConsts.LabelsDistinct, List.nodup_cons, List.mem_cons, List.mem_singleton,
    not_or, List.not_mem_nil, not_false_eq_true, List.nodup_nil, and_true] at hd
  obtain ⟨⟨h12, h13, h14, h15⟩, ⟨h23, h24, h25⟩, ⟨h34, h35⟩, h45⟩ := hd
  rcases h with h | ⟨h, hbad⟩ | ⟨h, hsub⟩
  · simp only [List.mem_cons, List.mem_singleton, not_or, List.not_mem_nil, or_false] at h
    simp [capSwitch, h.1, h.2.1, h.2.2.1, h.2.2.2.1, h.2.2.2.2]
  · rcases h with rfl | rfl | rfl
    · cases rgbSubCap with
      | none => simp [capSwitch]
      | some b =>
        have : ulSubCapLength ≠ 4 := by
          rcases hbad with h | h
          · exact h
          · cases h
        simp [capSwitch, this]
    · cases rgbSubCap with
      | none => simp [capSwitch, Ne.symm h13, Ne.symm h23]
      | some b =>
        have : ulSubCapLength ≠ 4 := by
          rcases hbad with h | h
          · exact h
          · cases h
        simp [capSwitch, Ne.symm h13, Ne.symm h23, this]
    · cases rgbSubCap with
      | none => simp [capSwitch, Ne.symm h14, Ne.symm h24, Ne.symm h34]
      | some b =>
        have : ulSubCapLength ≠ 4 := by
          rcases hbad with h | h
          · exact h
          · cases h
        simp [capSwitch, Ne.symm h14, Ne.symm h24, Ne.symm h34, this]
  · subst h
    cases rgbSubCap with
    | none => simp [capSwitch, Ne.symm h14, Ne.symm h24, Ne.symm h34]
    | some b =>
      have hb := hsub b rfl
      simp only [List.mem_cons, List.mem_singleton, not_or, List.not_mem_nil, or_false] at hb
      simp [capSwitch, Ne.symm h14, Ne.symm h24, Ne.symm h34, hb.1, hb.2.1, hb.2.2.1, hb.2.2.2]

/-- C26, amended. Parameter validation of `Tspi_TPM_GetCapability`.
(1) When an output pointer is `NULL` the call returns
`TSPERR(TSS_E_BAD_PARAMETER)` without calling anything.
(2) Otherwise `obj_tpm_is_connected` and `obj_tpm_get_tsp_context` are
called first, and the error of the first of them that fails is returned,
whatever the other parameters are.
(3) When both succeed, the call returns `TSPERR(TSS_E_BAD_PARAMETER)`,
having called nothing else, when `capArea` is none of ORD, FLAG, ALG,
PROPERTY, VERSION, when `capArea` is ORD, ALG or PROPERTY and
`ulSubCapLength != 4` or `rgbSubCap` is `NULL`, or when `capArea` is
PROPERTY and the sub-capability is none of PROP_PCR, PROP_DIR, PROP_SLOTS,
PROP_MANUFACTURER.
(4) For ALG with a four-byte sub-capability that is none of the four known
algorithms, the value is handed to `TCSP_GetCapability` unchanged (as
`endian32` of itself), not rejected.
In the cases (1) to (3) neither `TCSP_GetCapability` nor `get_tpm_flags` is
called and no output is written. -/
theorem getCapability_validation {σ : Type} (k : CapConsts) (env : CapEnv σ) (st : σ)
    (hTPM : TSS_HTPM) (capArea : TSS_FLAG) (ulSubCapLength : Nat)
    (rgbSubCap : Option (List BYTE)) (pul prgb : Bool) :
    ((pul = false ∨ prgb = false) →
      (Tspi_TPM_GetCapability k env st hTPM capArea ulSubCapLength rgbSubCap pul prgb).result
        = k.TSPERR k.TSS_E_BAD_PARAMETER ∧
      (Tspi_TPM_GetCapability k env st hTPM capArea ulSubCapLength rgbSubCap pul prgb).trace
        = []) ∧
    (pul = true → prgb = true → (env.obj_tpm_is_connected st hTPM).1 ≠ 0 →
      (Tspi_TPM_GetCapability k env st hTPM capArea ulSubCapLength rgbSubCap pul prgb).result
        = (env.obj_tpm_is_connected st hTPM).1 ∧
      (Tspi_TPM_GetCapability k env st hTPM capArea ulSubCapLength rgbSubCap pul prgb).trace
        = [CapCall.obj_tpm_is_connected hTPM (env.obj_tpm_is_connected st hTPM).1]) ∧
    (pul = true → prgb = true → (env.obj_tpm_is_connected st hTPM).1 = 0 →
      (env.obj_tpm_get_tsp_context st hTPM).1 ≠ 0 →
      (Tspi_TPM_GetCapability k env st hTPM capArea ulSubCapLength rgbSubCap pul prgb).result
        = (env.obj_tpm_get_tsp_context st hTPM).1 ∧
      (Tspi_TPM_GetCapability k env st hTPM capArea ulSubCapLength rgbSubCap pul prgb).trace
        = [CapCall.obj_tpm_is_connected hTPM 0,
            CapCall.obj_tpm_get_tsp_context hTPM (env.obj_tpm_get_tsp_context st hTPM).1]) ∧
    (pul = true → prgb = true → (env.obj_tpm_is_connected st hTPM).1 = 0 →
      (env.obj_tpm_get_tsp_context st hTPM).1 = 0 → k.LabelsDistinct →
      (capArea ∉ [k.TSS_TPMCAP_ORD, k.TSS_TPMCAP_FLAG, k.TSS_TPMCAP_ALG,
          k.TSS_TPMCAP_PROPERTY, k.TSS_TPMCAP_VERSION] ∨
        ((capArea = k.TSS_TPMCAP_ORD ∨ capArea = k.TSS_TPMCAP_ALG ∨
            capArea = k.TSS_TPMCAP_PROPERTY) ∧ (ulSubCapLength ≠ 4 ∨ rgbSubCap = none)) ∨
        (capArea = k.TSS_TPMCAP_PROPERTY ∧ ∀ b, rgbSubCap = some b →
          loadU32 k.hostBigEndian b ∉ [k.TSS_TPMCAP_PROP_PCR, k.TSS_TPMCAP_PROP_DIR,
            k.TSS_TPMCAP_PROP_SLOTS, k.TSS_TPMCAP_PROP_MANUFACTURER])) →
      (Tspi_TPM_GetCapability k env st hTPM capArea ulSubCapLength rgbSubCap pul prgb).result
        = k.TSPERR k.TSS_E_BAD_PARAMETER ∧
      (Tspi_TPM_GetCapability k env st hTPM capArea ulSubCapLength rgbSubCap pul prgb).trace
        = [CapCall.obj_tpm_is_connected hTPM 0, CapCall.obj_tpm_get_tsp_context hTPM 0] ∧
      (Tspi_TPM_GetCapability k env st hTPM capArea ulSubCapLength rgbSubCap pul
        prgb).pulRespDataLength = none ∧
      (Tspi_TPM_GetCapability k env st hTPM capArea ulSubCapLength rgbSubCap pul
        prgb).prgbRespData = none) ∧
    (pul = true → prgb = true → (env.obj_tpm_is_connected st hTPM).1 = 0 →
      (env.obj_tpm_get_tsp_context st hTPM).1 = 0 → k.LabelsDistinct →
      capArea = k.TSS_TPMCAP_ALG → ulSubCapLength = 4 →
      ∀ b, rgbSubCap = some b →
        loadU32 k.hostBigEndian b ∉ [k.TSS_ALG_RSA, k.TSS_ALG_AES, k.TSS_ALG_3DES,
          k.TSS_ALG_DES] →
        ∃ r, CapCall.TCSP_GetCapability (env.obj_tpm_is_connected st hTPM).2 k.TCPA_CAP_ALG 4
            (k.endian32 (loadU32 k.hostBigEndian b)) r ∈
          (Tspi_TPM_GetCapability k env st hTPM capArea ulSubCapLength rgbSubCap pul
            prgb).trace) := by
  refine ⟨?_, ?_, ?_, ?_, ?_⟩
  · intro h
    simp [Tspi_TPM_GetCapability, h]
  · intro h1 h2 hc
    simp [Tspi_TPM_GetCapability, h1, h2, hc]
  · intro h1 h2 hc hx
    simp [Tspi_TPM_GetCapability, h1, h2, hc, hx]
  · intro h1 h2 hc hx hd h
    have hsw := capSwitch_rejects k hd capArea ulSubCapLength rgbSubCap h
    simp [Tspi_TPM_GetCapability, h1, h2, hc, hx, hsw]
  · intro h1 h2 hc hx hd ha hl b hb hw
    subst ha hl hb
    simp only [CapConsts.LabelsDistinct, List.nodup_cons, List.mem_cons, List.mem_singleton,
      not_or, List.not_mem_nil, not_false_eq_true, List.nodup_nil, and_true] at hd
    obtain ⟨⟨h12, h13, h14, h15⟩, ⟨h23, h24, h25⟩, ⟨h34, h35⟩, h45⟩ := hd
    simp only [List.mem_cons, List.mem_singleton, not_or, List.not_mem_nil, or_false] at hw
    have hsw : capSwitch k k.TSS_TPMCAP_ALG 4 (some b)
        = some ⟨k.TCPA_CAP_ALG, loadU32 k.hostBigEndian b, false, false⟩ := by
      simp [capSwitch, Ne.symm h13, Ne.symm h23, algSubCap, hw.1, hw.2.1, hw.2.2.1, hw.2.2.2]
    refine ⟨(env.TCSP_GetCapability st (env.obj_tpm_is_connected st hTPM).2 k.TCPA_CAP_ALG 4
      (k.endian32 (loadU32 k.hostBigEndian b))).1, ?_⟩
    simp only [Tspi_TPM_GetCapability, h1, h2, hc, hx, hsw, getCapability_tcs,
      Bool.true_eq_false, Bool.false_eq_true, or_self, if_false, ne_eq, not_true_eq_false]
    split_ifs <;> simp

/-- Witness for C26 (amended): for the connected TPM object `1` the unknown
capability area `99` is rejected after the two lookups. -/
theorem getCapability_validation_witness :
    (sampleCapEnv.obj_tpm_is_connected 100 1).1 = 0 ∧
    (sampleCapEnv.obj_tpm_get_tsp_context 100 1).1 = 0 ∧
    tssCapConsts.LabelsDistinct ∧
    99 ∉ [tssCapConsts.TSS_TPMCAP_ORD, tssCapConsts.TSS_TPMCAP_FLAG,
      tssCapConsts.TSS_TPMCAP_ALG, tssCapConsts.TSS_TPMCAP_PROPERTY,
      tssCapConsts.TSS_TPMCAP_VERSION] ∧
    (Tspi_TPM_GetCapability tssCapConsts sampleCapEnv 100 1 99 4 (some [1, 0, 0, 0]) true
      true).result = tssCapConsts.TSPERR tssCapConsts.TSS_E_BAD_PARAMETER ∧
    (Tspi_TPM_GetCapability tssCapConsts sampleCapEnv 100 1 99 4 (some [1, 0, 0, 0]) true
      true).trace = [CapCall.obj_tpm_is_connected 1 0, CapCall.obj_tpm_get_tsp_context 1 0] :=
  ⟨by decide, by decide, by decide, by decide,
    ((getCapability_validation tssCapConsts sampleCapEnv 100 1 99 4 (some [1, 0, 0, 0]) true
      true).2.2.2.1 rfl rfl (by decide) (by decide) (by decide) (Or.inl (by decide))).1,
    ((getCapability_validation tssCapConsts sampleCapEnv 100 1 99 4 (some [1, 0, 0, 0]) true
      true).2.2.2.1 rfl rfl (by decide) (by decide) (by decide) (Or.inl (by decide))).2.1⟩

/-- What `switch (capArea)` selects: the owner-authorized branch exactly for
`TSS_TPMCAP_FLAG`, and the correction of the byte order exactly for
`TSS_TPMCAP_PROPERTY` with the sub-capability PROP_PCR, PROP_DIR or
PROP_SLOTS. -/
theorem capSwitch_selection (k : CapConsts) (hd : k.LabelsDistinct) (capArea : TSS_FLAG)
    (ulSubCapLength : Nat) (rgbSubCap : Option (List BYTE)) (sel : CapSelection)
    (hsel : capSwitch k capArea ulSubCapLength rgbSubCap = some sel) :
    (sel.fOwnerAuth = true ↔ capArea = k.TSS_TPMCAP_FLAG) ∧
    (sel.correct_endianess = true ↔
      capArea = k.TSS_TPMCAP_PROPERTY ∧ ∃ b, rgbSubCap = some b ∧
        loadU32 k.hostBigEndian b ∈ [k.TSS_TPMCAP_PROP_PCR, k.TSS_TPMCAP_PROP_DIR,
          k.TSS_TPMCAP_PROP_SLOTS]) := by
  simp only [CapConsts.LabelsDistinct, List.nodup_cons, List.mem_cons, List.mem_singleton,
    not_or, List.not_mem_nil, not_false_eq_true, List.nodup_nil, and_true] at hd
  obtain ⟨⟨h12, h13, h14, h15⟩, ⟨h23, h24, h25⟩, ⟨h34, h35⟩, h45⟩ := hd
  simp only [List.mem_cons, List.mem_singleton, List.not_mem_nil, or_false]
  by_cases a1 : capArea = k.TSS_TPMCAP_ORD
  · subst a1
    cases rgbSubCap with
    | none => simp [capSwitch] at hsel
    | some b =>
      by_cases hl : ulSubCapLength = 4
      · simp only [capSwitch, hl, if_true, ne_eq, not_true_eq_false, if_false,
          Option.some.injEq] at hsel
        subst hsel
        simp [h12, h14]
      · simp [capSwitch, hl] at hsel
  by_cases a2 : capArea = k.TSS_TPMCAP_FLAG
  · subst a2
    simp only [capSwitch, a1, if_false, if_true, Option.some.injEq] at hsel
    subst hsel
    simp [h24]
  by_cases a3 : capArea = k.TSS_TPMCAP_ALG
  · subst a3
    cases rgbSubCap with
    | none => simp [capSwitch, a1, a2] at hsel
    | some b =>
      by_cases hl : ulSubCapLength = 4
      · simp only [capSwitch, a1, a2, hl, if_true, ne_eq, not_true_eq_false, if_false,
          Option.some.injEq] at hsel
        subst hsel
        simp [a2, h34]
      · simp [capSwitch, a1, a2, hl] at hsel
  by_cases a4 : capArea = k.TSS_TPMCAP_PROPERTY
  · subst a4
    cases rgbSubCap with
    | none => simp [capSwitch, a1, a2, a3] at hsel
    | some b =>
      by_cases hl : ulSubCapLength = 4
      swap
      · simp [capSwitch, a1, a2, a3, hl] at hsel
      simp only [capSwitch, a1, a2, a3, hl, if_true, ne_eq, not_true_eq_false, if_false] at hsel
      by_cases w1 : loadU32 k.hostBigEndian b = k.TSS_TPMCAP_PROP_PCR
      · rw [if_pos w1, Option.some.injEq] at hsel
        subst hsel
        simp [a2, w1]
      by_cases w2 : loadU32 k.hostBigEndian b = k.TSS_TPMCAP_PROP_DIR
      · rw [if_neg w1, if_pos w2, Option.some.injEq] at hsel
        subst hsel
        simp [a2, w2]
      by_cases w3 : loadU32 k.hostBigEndian b = k.TSS_TPMCAP_PROP_SLOTS
      · rw [if_neg w1, if_neg w2, if_pos w3, Option.some.injEq] at hsel
        subst hsel
        simp [a2, w3]
      by_cases w4 : loadU32 k.hostBigEndian b = k.TSS_TPMCAP_PROP_MANUFACTURER
      · rw [if_neg w1, if_neg w2, if_neg w3, if_pos w4, Option.some.injEq] at hsel
        subst hsel
        simp [a2, w1, w2, w3]
      · rw [if_neg w1, if_neg w2, if_neg w3, if_neg w4] at hsel
        cases hsel
  by_cases a5 : capArea = k.TSS_TPMCAP_VERSION
  · subst a5
    simp only [capSwitch, a1, a2, a3, a4, if_false, if_true, Option.some.injEq] at hsel
    subst hsel
    simp [a2, a4]
  · simp [capSwitch, a1, a2, a3, a4, a5] at hsel

/-- C27. Byte order in `Tspi_TPM_GetCapability` on the path that asks the
TCS (every capability area but FLAG), when the lookups, the query and the
allocation succeed: `TCSP_GetCapability` is called with the capability area
selected and with `endian32` of the mapped sub-capability; the length
returned is the length of the response of the TCS; the buffer returned has
that length and is the response byte for byte, except that its first 32-bit
word is replaced by `endian32` of itself exactly when the capability area is
PROPERTY, the sub-capability is PROP_PCR, PROP_DIR or PROP_SLOTS, and the
response is exactly four bytes long. -/
theorem getCapability_endianness {σ : Type} (k : CapConsts) (env : CapEnv σ) (st : σ)
    (hTPM : TSS_HTPM) (capArea : TSS_FLAG) (ulSubCapLength : Nat)
    (rgbSubCap : Option (List BYTE)) (sel : CapSelection) (resp : List BYTE)
    (hd : k.LabelsDistinct)
    (hc : (env.obj_tpm_is_connected st hTPM).1 = 0)
    (hx : (env.obj_tpm_get_tsp_context st hTPM).1 = 0)
    (hsel : capSwitch k capArea ulSubCapLength rgbSubCap = some sel)
    (hnf : capArea ≠ k.TSS_TPMCAP_FLAG)
    (hg : (env.TCSP_GetCapability st (env.obj_tpm_is_connected st hTPM).2 sel.tcsCapArea
      ulSubCapLength (k.endian32 sel.tcsSubCap)).1 = 0)
    (hresp : (env.TCSP_GetCapability st (env.obj_tpm_is_connected st hTPM).2 sel.tcsCapArea
      ulSubCapLength (k.endian32 sel.tcsSubCap)).2.1 = resp)
    (halloc : env.calloc_tspi
      (env.TCSP_GetCapability st (env.obj_tpm_is_connected st hTPM).2 sel.tcsCapArea
        ulSubCapLength (k.endian32 sel.tcsSubCap)).2.2
      (env.obj_tpm_get_tsp_context st hTPM).2 resp.length = true) :
    (Tspi_TPM_GetCapability k env st hTPM capArea ulSubCapLength rgbSubCap true true).result
      = TSS_SUCCESS ∧
    (Tspi_TPM_GetCapability k env st hTPM capArea ulSubCapLength rgbSubCap true true).trace
      = [CapCall.obj_tpm_is_connected hTPM 0, CapCall.obj_tpm_get_tsp_context hTPM 0,
          CapCall.TCSP_GetCapability (env.obj_tpm_is_connected st hTPM).2 sel.tcsCapArea
            ulSubCapLength (k.endian32 sel.tcsSubCap) 0,
          CapCall.calloc_tspi (env.obj_tpm_get_tsp_context st hTPM).2 resp.length true] ∧
    (Tspi_TPM_GetCapability k env st hTPM capArea ulSubCapLength rgbSubCap true
      true).pulRespDataLength = some resp.length ∧
    (∃ buf, (Tspi_TPM_GetCapability k env st hTPM capArea ulSubCapLength rgbSubCap true
        true).prgbRespData = some (some buf) ∧ buf.length = resp.length ∧
      ((capArea = k.TSS_TPMCAP_PROPERTY ∧
          (∃ b, rgbSubCap = some b ∧ loadU32 k.hostBigEndian b ∈
            [k.TSS_TPMCAP_PROP_PCR, k.TSS_TPMCAP_PROP_DIR, k.TSS_TPMCAP_PROP_SLOTS]) ∧
          resp.length = 4 →
        buf = storeU32 k.hostBigEndian (k.endian32 (loadU32 k.hostBigEndian resp))) ∧
      (¬ (capArea = k.TSS_TPMCAP_PROPERTY ∧
          (∃ b, rgbSubCap = some b ∧ loadU32 k.hostBigEndian b ∈
            [k.TSS_TPMCAP_PROP_PCR, k.TSS_TPMCAP_PROP_DIR, k.TSS_TPMCAP_PROP_SLOTS]) ∧
          resp.length = 4) →
        buf = resp))) := by
  obtain ⟨hown, hcor⟩ := capSwitch_selection k hd capArea ulSubCapLength rgbSubCap sel hsel
  have hown1 : sel.fOwnerAuth = false := by
    cases h : sel.fOwnerAuth with
    | false => rfl
    | true => exact absurd (hown.1 h) hnf
  rcases hG : env.TCSP_GetCapability st (env.obj_tpm_is_connected st hTPM).2 sel.tcsCapArea
    ulSubCapLength (k.endian32 sel.tcsSubCap) with ⟨r, rs, st1⟩
  rw [hG] at hg hresp halloc
  simp only at hg hresp halloc
  subst hg hresp
  by_cases hswap : rs.length = 4 ∧ sel.correct_endianess = true
  · have hdrop : List.drop 4 rs = [] := List.drop_eq_nil_of_le (by omega)
    have halloc4 := halloc
    rw [hswap.1] at halloc4
    refine ⟨?_, ?_, ?_,
      ⟨storeU32 k.hostBigEndian (k.endian32 (loadU32 k.hostBigEndian rs)), ?_, ?_, ?_, ?_⟩⟩
    · simp [Tspi_TPM_GetCapability, hc, hx, hsel, hown1, getCapability_tcs, hG, halloc4, hswap]
    · simp [Tspi_TPM_GetCapability, hc, hx, hsel, hown1, getCapability_tcs, hG, halloc4, hswap]
    · simp [Tspi_TPM_GetCapability, hc, hx, hsel, hown1, getCapability_tcs, hG, halloc4, hswap]
    · simp [Tspi_TPM_GetCapability, hc, hx, hsel, hown1, getCapability_tcs, hG, halloc4, hswap,
        hdrop]
    · rw [hswap.1]
      unfold storeU32
      split_ifs <;> rfl
    · intro _
      rfl
    · intro hn
      exact absurd ⟨(hcor.1 hswap.2).1, (hcor.1 hswap.2).2, hswap.1⟩ hn
  · refine ⟨?_, ?_, ?_, ⟨rs, ?_, rfl, ?_, ?_⟩⟩
    · simp [Tspi_TPM_GetCapability, hc, hx, hsel, hown1, getCapability_tcs, hG, halloc, hswap]
    · simp [Tspi_TPM_GetCapability, hc, hx, hsel, hown1, getCapability_tcs, hG, halloc, hswap]
    · simp [Tspi_TPM_GetCapability, hc, hx, hsel, hown1, getCapability_tcs, hG, halloc, hswap]
    · simp [Tspi_TPM_GetCapability, hc, hx, hsel, hown1, getCapability_tcs, hG, halloc, hswap]
    · intro h
      exact absurd ⟨h.2.2, hcor.2 ⟨h.1, h.2.1⟩⟩ hswap
    · intro _
      rfl

/-- Witness for C27: on a little-endian host the number of PCRs, which the
TCS returns as the four bytes `0 0 0 16`, comes back as the host word `16`;
the sub-capability `TPM_CAP_PROP_PCR = 0x101` is sent as `0x01010000`. -/
theorem getCapability_endianness_witness :
    tssCapConsts.LabelsDistinct ∧
    capSwitch tssCapConsts 0x13 4 (some [0x10, 0, 0, 0]) = some ⟨5, 0x101, true, false⟩ ∧
    (Tspi_TPM_GetCapability tssCapConsts sampleCapEnv 100 1 0x13 4 (some [0x10, 0, 0, 0]) true
      true).result = TSS_SUCCESS ∧
    (Tspi_TPM_GetCapability tssCapConsts sampleCapEnv 100 1 0x13 4 (some [0x10, 0, 0, 0]) true
      true).trace
      = [CapCall.obj_tpm_is_connected 1 0, CapCall.obj_tpm_get_tsp_context 1 0,
          CapCall.TCSP_GetCapability 7 5 4 (tssCapConsts.endian32 0x101) 0,
          CapCall.calloc_tspi 9 4 true] ∧
    tssCapConsts.endian32 0x101 = 0x01010000 ∧
    (Tspi_TPM_GetCapability tssCapConsts sampleCapEnv 100 1 0x13 4 (some [0x10, 0, 0, 0]) true
      true).prgbRespData = some (some [16, 0, 0, 0]) ∧
    (Tspi_TPM_GetCapability tssCapConsts sampleCapEnv 100 1 0x13 4 (some [0x12, 0, 0, 0]) true
      true).prgbRespData = some (some [0, 0, 0, 16]) :=
  ⟨by decide, by decide,
    (getCapability_endianness tssCapConsts sampleCapEnv 100 1 0x13 4 (some [0x10, 0, 0, 0])
      ⟨5, 0x101, true, false⟩ [0, 0, 0, 16] (by decide) (by decide) (by decide) (by decide)
      (by decide) (by decide) (by decide) (by decide)).1,
    (getCapability_endianness tssCapConsts sampleCapEnv 100 1 0x13 4 (some [0x10, 0, 0, 0])
      ⟨5, 0x101, true, false⟩ [0, 0, 0, 16] (by decide) (by decide) (by decide) (by decide)
      (by decide) (by decide) (by decide) (by decide)).2.1,
    by decide, by decide, by decide⟩

end Trousers
